import Mathlib

/-!
FAT16/32 File IO Library: the stream layer of `fat_filelib.c`.

A shallow embedding of `src/Vendor/fat-io/fat_filelib.c` (FAT File IO Library
V2.6).  The file is compiled with `FATFS_INC_WRITE_SUPPORT` defined.

* C objects reached through pointers are passed in and handed back: the
  library's file-scope variables form one record, `Lib`, and an `FL_FILE *`
  is the index of the record in `_files` (`none` is `NULL`).
* `unsigned long` has `ULONG_BITS` bits, `int` and `UINT32` have 32; every
  conversion and every unsigned addition is written with its reduction.
* The volume layer (`fat_access.c`, `fat_table.c`, `fat_write.c`,
  `fat_misc.c`, `fat_string.c`, `fat_cache.c`) is not part of the sources
  here.  Its functions are the fields of `Env`; they act on an arbitrary
  volume state `D`.  Every call of one of them is recorded in `Lib.trace`.
-/

namespace FatIO

/-! ## Machine integers -/

/-- Conversion of an integer value to `unsigned long` of `w` bits. -/
def to_ulong (w : Nat) (x : Int) : Nat := (x % (2 : Int) ^ w).toNat

/-- Conversion of an integer value to `long` of `w` bits (two's complement). -/
def to_long (w : Nat) (x : Int) : Int :=
  (x + (2 : Int) ^ (w - 1)) % (2 : Int) ^ w - (2 : Int) ^ (w - 1)

/-- Conversion of an integer value to the 32-bit `int` (two's complement). -/
def to_int (x : Int) : Int := (x + 2147483648) % 4294967296 - 2147483648

/-- Conversion of a value to `UINT32`. -/
def to_uint32 (x : Nat) : Nat := x % 4294967296

/-! ## Constants -/

/-- The sector size `FAT_SECTOR_SIZE`: sectors are fixed at 512 bytes. -/
def FAT_SECTOR_SIZE : Nat := 512

/-- Modelled from the spec: the flag bits of `FL_FILE.flags` are declared in
`fat_filelib.h`, which is not among the sources; the spec names the six flags
(READ, WRITE, APPEND, ERASE, CREATE, BINARY) and they are distinct single
bits of an `unsigned char`. -/
def FILE_READ : Nat := 1

/-- Modelled from the spec: see `FILE_READ`. -/
def FILE_WRITE : Nat := 2

/-- Modelled from the spec: see `FILE_READ`. -/
def FILE_APPEND : Nat := 4

/-- Modelled from the spec: see `FILE_READ`. -/
def FILE_BINARY : Nat := 8

/-- Modelled from the spec: see `FILE_READ`. -/
def FILE_ERASE : Nat := 16

/-- Modelled from the spec: see `FILE_READ`. -/
def FILE_CREATE : Nat := 32

/-- The `SEEK_SET` of `<stdio.h>`. -/
def SEEK_SET : Int := 0

/-- The `SEEK_CUR` of `<stdio.h>`. -/
def SEEK_CUR : Int := 1

/-- The `SEEK_END` of `<stdio.h>`. -/
def SEEK_END : Int := 2

/-- The `EOF` of `<stdio.h>`. -/
def EOF : Int := -1

/-! ## Data model -/

/-- A byte buffer addressed by offset (`unsigned char *`). -/
abbrev Bytes := Nat → Nat

/-- The `memcpy (dst + doff, src + soff, n)`. -/
def memcpy (dst : Bytes) (doff : Nat) (src : Bytes) (soff : Nat) (n : Nat) : Bytes :=
  fun i => if doff ≤ i ∧ i < doff + n then src (soff + (i - doff)) else dst i

/-- The `memset (dst, v, n)`. -/
def memset (dst : Bytes) (v : Nat) (n : Nat) : Bytes :=
  fun i => if i < n then v else dst i

/-- The pair `last_fat_lookup` of a file record. -/
structure cluster_lookup where
  ClusterIdx : Nat
  CurrentCluster : Nat

/-- The buffered data sector `file_data` of a file record. -/
structure sector_buffer where
  sector : Bytes
  address : Nat
  dirty : Int

/-- The file record `FL_FILE`, with the fields `fat_filelib.c` uses. -/
structure FL_FILE where
  parentcluster : Nat
  startcluster : Nat
  bytenum : Nat
  filelength : Nat
  filelength_changed : Int
  path : String
  filename : String
  shortfilename : List Nat
  last_fat_lookup : cluster_lookup
  file_data : sector_buffer
  flags : Nat
  next : Option Nat

/-- The fields of `struct fat_dir_entry` that `fat_filelib.c` reads. -/
structure fat_dir_entry where
  Name : List Nat
  Attr : Nat
  FstClusHI : Nat
  FstClusLO : Nat
  FileSize : Nat

/-- Modelled from the spec: the directory cursor `FL_DIR` that `fl_opendir`
fills and `fl_readdir` advances (§4.4, `enumerate`); `fat_filelib.c` reads
none of its fields, the type is declared in a header that is not among the
sources. -/
structure FL_DIR where
  sector : Nat
  cluster : Nat
  offset : Nat

/-- Modelled from the spec: the entry `struct fs_dir_ent` that `fl_readdir`
fills (§4.4, `enumerate`), with the fields `fl_listdirectory` prints. -/
structure fs_dir_ent where
  filename : String
  is_dir : Nat
  cluster : Nat
  size : Nat

/-- One call into the volume layer or the host lock, with its arguments and
result. -/
inductive Event where
  | lock
  | unlock
  | init (res : Int)
  | get_file_entry (cluster : Nat) (name : String) (res : Int)
  | sfn_exists (cluster : Nat) (sfn : List Nat) (res : Int)
  | allocate_free_space (ok : Bool) (start : Nat)
  | add_file_entry (cluster : Nat) (name : String) (sfn : List Nat) (start size dir : Nat)
      (ok : Bool)
  | free_cluster_chain (start : Nat) (ok : Bool)
  | update_file_length (cluster : Nat) (sfn : List Nat) (len : Nat) (ok : Bool)
  | mark_file_deleted (cluster : Nat) (sfn : List Nat) (ok : Bool)
  | fat_purge
  | cache_init (file : Nat)
  | cache_set (file idx next : Nat)
  | find_next_cluster (cluster next : Nat)
  | sector_read (lba : Nat) (ok : Bool)
  | write_sector (cluster sector : Nat) (buf : Bytes) (ok : Bool)
  | add_free_space (last : Nat) (ok : Bool) (new : Nat)
  | list_directory_start (cluster : Nat)
  | list_directory_next (res : Int)

/-- The fields of `struct fatfs` that `fat_filelib.c` reads itself; `vol` is
the rest of the volume (FAT, directories, data sectors, cluster caches). -/
structure fatfs (D : Type) where
  sectors_per_cluster : Nat
  disk_io_write_sector : Bool
  fl_lock : Bool
  fl_unlock : Bool
  vol : D

/-- The file-scope variables of `fat_filelib.c`, and the record of the calls
made so far. -/
structure Lib (D : Type) where
  _files : Nat → FL_FILE
  _filelib_init : Int
  _filelib_valid : Int
  _fs : fatfs D
  _open_file_list : Option Nat
  _free_file_list : Option Nat
  trace : List Event

/-- The build options and the functions of the volume layer.  A function that
may touch the volume takes the volume state and returns the new one. -/
structure Env (D : Type) where
  ULONG_BITS : Nat
  FATFS_MAX_OPEN_FILES : Nat
  FATFS_INC_LFN_SUPPORT : Bool
  FAT32_LAST_CLUSTER : Nat
  FAT_HTONS : Nat → Nat
  FAT_HTONL : Nat → Nat
  compare_names : String → String → Bool
  split_path : String → Int × String × String
  total_path_levels : String → Int
  get_substring : String → Int → Int × String
  lfn_create_sfn : String → Int × List Nat
  lfn_generate_tail : List Nat → Int → List Nat
  entry_is_dir : fat_dir_entry → Bool
  entry_is_file : fat_dir_entry → Bool
  init : D → D × Int × Nat
  get_root_cluster : D → Nat
  lba_of_cluster : D → Nat → Nat
  get_file_entry : D → Nat → String → D × Int × fat_dir_entry
  sfn_exists : D → Nat → List Nat → D × Int
  allocate_free_space : D → Nat → Nat → Nat → D × Bool × Nat
  add_file_entry : D → Nat → String → List Nat → Nat → Nat → Nat → D × Bool
  free_cluster_chain : D → Nat → D × Bool
  update_file_length : D → Nat → List Nat → Nat → D × Bool
  mark_file_deleted : D → Nat → List Nat → D × Bool
  fat_purge : D → D
  cache_init : D → Nat → D
  cache_get_next_cluster : D → Nat → Nat → Option Nat
  cache_set_next_cluster : D → Nat → Nat → Nat → D
  find_next_cluster : D → Nat → D × Nat
  sector_read : D → Nat → Bytes → D × Bool × Bytes
  write_sector : D → Nat → Nat → Bytes → D × Bool
  add_free_space : D → Nat → D × Bool × Nat
  FAT32_INVALID_CLUSTER : Nat
  list_directory_start : D → FL_DIR → Nat → D × FL_DIR
  list_directory_next : D → FL_DIR → fs_dir_ent → D × Int × FL_DIR × fs_dir_ent

variable {D : Type}

/-! ## State helpers -/

/-- Store a file record at `_files[i]`. -/
def Lib.setFile (st : Lib D) (i : Nat) (r : FL_FILE) : Lib D :=
  { st with _files := fun j => if j = i then r else st._files j }

/-- Replace the volume state and append one event. -/
def Lib.step (st : Lib D) (v : D) (e : Event) : Lib D :=
  { st with _fs := { st._fs with vol := v }, trace := st.trace ++ [e] }

/-- The macro `FL_LOCK(&_fs)`. -/
def FL_LOCK (st : Lib D) : Lib D :=
  if st._fs.fl_lock then { st with trace := st.trace ++ [Event.lock] } else st

/-- The macro `FL_UNLOCK(&_fs)`. -/
def FL_UNLOCK (st : Lib D) : Lib D :=
  if st._fs.fl_unlock then { st with trace := st.trace ++ [Event.unlock] } else st

/-! ## Calls into the volume layer -/

/-- The call `fatfs_get_file_entry(&_fs, cluster, name, &sfEntry)`. -/
def fatfs_get_file_entry (env : Env D) (st : Lib D) (cluster : Nat) (name : String) :
    Lib D × Int × fat_dir_entry :=
  let r := env.get_file_entry st._fs.vol cluster name
  (st.step r.1 (Event.get_file_entry cluster name r.2.1), r.2.1, r.2.2)

/-- The call `fatfs_sfn_exists(&_fs, cluster, shortname)`. -/
def fatfs_sfn_exists (env : Env D) (st : Lib D) (cluster : Nat) (sfn : List Nat) :
    Lib D × Int :=
  let r := env.sfn_exists st._fs.vol cluster sfn
  (st.step r.1 (Event.sfn_exists cluster sfn r.2), r.2)

/-- The call `fatfs_allocate_free_space(&_fs, newFile, &startCluster, size)`. -/
def fatfs_allocate_free_space (env : Env D) (st : Lib D) (newFile start size : Nat) :
    Lib D × Bool × Nat :=
  let r := env.allocate_free_space st._fs.vol newFile start size
  (st.step r.1 (Event.allocate_free_space r.2.1 r.2.2), r.2.1, r.2.2)

/-- The call `fatfs_add_file_entry(&_fs, cluster, filename, shortname, start,
size, dir)`. -/
def fatfs_add_file_entry (env : Env D) (st : Lib D) (cluster : Nat) (name : String)
    (sfn : List Nat) (start size dir : Nat) : Lib D × Bool :=
  let r := env.add_file_entry st._fs.vol cluster name sfn start size dir
  (st.step r.1 (Event.add_file_entry cluster name sfn start size dir r.2), r.2)

/-- The call `fatfs_free_cluster_chain(&_fs, start)`. -/
def fatfs_free_cluster_chain (env : Env D) (st : Lib D) (start : Nat) : Lib D × Bool :=
  let r := env.free_cluster_chain st._fs.vol start
  (st.step r.1 (Event.free_cluster_chain start r.2), r.2)

/-- The call `fatfs_fat_purge(&_fs)`. -/
def fatfs_fat_purge (env : Env D) (st : Lib D) : Lib D :=
  st.step (env.fat_purge st._fs.vol) Event.fat_purge

/-- The call `fatfs_cache_init(&_fs, file)`. -/
def fatfs_cache_init (env : Env D) (st : Lib D) (file : Nat) : Lib D :=
  st.step (env.cache_init st._fs.vol file) (Event.cache_init file)

/-- The call `fatfs_cache_set_next_cluster(&_fs, file, idx, next)`. -/
def fatfs_cache_set_next_cluster (env : Env D) (st : Lib D) (file idx next : Nat) : Lib D :=
  st.step (env.cache_set_next_cluster st._fs.vol file idx next) (Event.cache_set file idx next)

/-- The call `fatfs_find_next_cluster(&_fs, cluster)`. -/
def fatfs_find_next_cluster (env : Env D) (st : Lib D) (cluster : Nat) : Lib D × Nat :=
  let r := env.find_next_cluster st._fs.vol cluster
  (st.step r.1 (Event.find_next_cluster cluster r.2), r.2)

/-- The call `fatfs_sector_read(&_fs, lba, buffer)`: the buffer it leaves and
whether it succeeded. -/
def fatfs_sector_read (env : Env D) (st : Lib D) (lba : Nat) (buffer : Bytes) :
    Lib D × Bool × Bytes :=
  let r := env.sector_read st._fs.vol lba buffer
  (st.step r.1 (Event.sector_read lba r.2.1), r.2.1, r.2.2)

/-- The call `fatfs_write_sector(&_fs, cluster, sector, buf)`. -/
def fatfs_write_sector (env : Env D) (st : Lib D) (cluster sector : Nat) (buf : Bytes) :
    Lib D × Bool :=
  let r := env.write_sector st._fs.vol cluster sector buf
  (st.step r.1 (Event.write_sector cluster sector buf r.2), r.2)

/-- The call `fatfs_add_free_space(&_fs, &LastCluster)`: success and the new
value of `LastCluster`. -/
def fatfs_add_free_space (env : Env D) (st : Lib D) (last : Nat) : Lib D × Bool × Nat :=
  let r := env.add_free_space st._fs.vol last
  (st.step r.1 (Event.add_free_space last r.2.1 r.2.2), r.2.1, r.2.2)

/-- The call `fatfs_list_directory_start(&_fs, dir, cluster)`: the cursor it
leaves in `*dir`. -/
def fatfs_list_directory_start (env : Env D) (st : Lib D) (dir : FL_DIR) (cluster : Nat) :
    Lib D × FL_DIR :=
  let r := env.list_directory_start st._fs.vol dir cluster
  (st.step r.1 (Event.list_directory_start cluster), r.2)

/-- The call `fatfs_list_directory_next(&_fs, dirls, entry)`: its result, the
cursor and the entry it leaves. -/
def fatfs_list_directory_next (env : Env D) (st : Lib D) (dirls : FL_DIR) (entry : fs_dir_ent) :
    Lib D × Int × FL_DIR × fs_dir_ent :=
  let r := env.list_directory_next st._fs.vol dirls entry
  (st.step r.1 (Event.list_directory_next r.2.1), r.2.1, r.2.2.1, r.2.2.2)

/-! ## The handle pool -/

/-- The function `fl_init`: every record of `_files` is pushed on the free list. -/
def fl_init (env : Env D) (st : Lib D) : Lib D :=
  let st1 := (List.range env.FATFS_MAX_OPEN_FILES).foldl
    (fun (s : Lib D) i =>
      { s.setFile i { s._files i with next := s._free_file_list } with
        _free_file_list := some i })
    st
  { st1 with _filelib_init := 1 }

/-- The macro `CHECK_FL_INIT()`. -/
def CHECK_FL_INIT (env : Env D) (st : Lib D) : Lib D :=
  if st._filelib_init = 0 then fl_init env st else st

/-- The function `_allocate_file`: pop the free list, push on the open list. -/
def _allocate_file (st : Lib D) : Lib D × Option Nat :=
  match st._free_file_list with
  | none => (st, none)
  | some file =>
    let st1 := { st with _free_file_list := (st._files file).next }
    let st2 := st1.setFile file { st1._files file with next := st1._open_file_list }
    ({ st2 with _open_file_list := some file }, some file)

/-- The loop of `_check_file_open`, from `openFile` on.  The fuel bounds the
number of records visited; an open list without a cycle has at most
`FATFS_MAX_OPEN_FILES` of them. -/
def check_file_open_loop (env : Env D) (st : Lib D) (file : Nat) :
    Nat → Option Nat → Int
  | 0, _ => 0
  | _ + 1, none => 0
  | fuel + 1, some openFile =>
    if openFile ≠ file ∧
        env.compare_names (st._files openFile).path (st._files file).path = true ∧
        env.compare_names (st._files openFile).filename (st._files file).filename = true then
      1
    else
      check_file_open_loop env st file fuel (st._files openFile).next

/-- The function `_check_file_open`. -/
def _check_file_open (env : Env D) (st : Lib D) (file : Nat) : Int :=
  check_file_open_loop env st file env.FATFS_MAX_OPEN_FILES st._open_file_list

/-- The loop of `_free_file` that unlinks `file` from the open list. -/
def free_file_loop (st : Lib D) (file : Nat) : Nat → Option Nat → Option Nat → Lib D
  | 0, _, _ => st
  | _ + 1, none, _ => st
  | fuel + 1, some openFile, lastFile =>
    if openFile = file then
      match lastFile with
      | some l => st.setFile l { st._files l with next := (st._files openFile).next }
      | none => { st with _open_file_list := (st._files openFile).next }
    else
      free_file_loop st file fuel (st._files openFile).next (some openFile)

/-- The function `_free_file`. -/
def _free_file (env : Env D) (st : Lib D) (file : Nat) : Lib D :=
  let st1 := free_file_loop st file env.FATFS_MAX_OPEN_FILES st._open_file_list none
  let st2 := st1.setFile file { st1._files file with next := st1._free_file_list }
  { st2 with _free_file_list := some file }

/-! ## Low level -/

/-- The start cluster of a directory entry, `(FAT_HTONS(FstClusHI) << 16) +
FAT_HTONS(FstClusLO)`, as an `unsigned long`. -/
def entry_startcluster (env : Env D) (e : fat_dir_entry) : Nat :=
  (env.FAT_HTONS e.FstClusHI * 65536 + env.FAT_HTONS e.FstClusLO) % 2 ^ env.ULONG_BITS

/-- The loop of `_open_directory` over the levels of the path, from
`sublevel` on; `none` is the `return 0`. -/
def open_directory_loop (env : Env D) (path : String) :
    Nat → Lib D → Int → Nat → Lib D × Option Nat
  | 0, st, _, startcluster => (st, some startcluster)
  | fuel + 1, st, sublevel, startcluster =>
    let sub := env.get_substring path sublevel
    if sub.1 = -1 then (st, none) else
    let r := fatfs_get_file_entry env st startcluster sub.2
    if r.2.1 ≠ 0 then
      if env.entry_is_dir r.2.2 = true then
        open_directory_loop env path fuel r.1 (sublevel + 1) (entry_startcluster env r.2.2)
      else (r.1, none)
    else (r.1, none)

/-- The function `_open_directory`: the cluster it stores in `*pathCluster`,
or `none` for the result 0. -/
def _open_directory (env : Env D) (st : Lib D) (path : String) : Lib D × Option Nat :=
  open_directory_loop env path (env.total_path_levels path + 1).toNat st 0
    (env.get_root_cluster st._fs.vol)

/-- The first steps shared by `_open_file`, `_create_file` and
`_create_directory`, after the record is allocated: clear and split the
names, refuse a file that is already open, find the parent cluster.  The
result is `false` when the record was freed (the caller returns). -/
def open_prologue (env : Env D) (st : Lib D) (file : Nat) (path : String) : Lib D × Bool :=
  let st := st.setFile file { st._files file with path := "", filename := "" }
  let sp := env.split_path path
  let st := st.setFile file { st._files file with path := sp.2.1, filename := sp.2.2 }
  if sp.1 = -1 then (_free_file env st file, false) else
  if _check_file_open env st file ≠ 0 then (_free_file env st file, false) else
  match (st._files file).path.data with
  | [] =>
    (st.setFile file { st._files file with parentcluster := env.get_root_cluster st._fs.vol },
      true)
  | _ :: _ =>
    match _open_directory env st (st._files file).path with
    | (st, some c) => (st.setFile file { st._files file with parentcluster := c }, true)
    | (st, none) => (_free_file env st file, false)

/-- The function `_open_file`. -/
def _open_file (env : Env D) (st : Lib D) (path : String) (checkfile : Int) :
    Lib D × Option Nat :=
  match _allocate_file st with
  | (st, none) => (st, none)
  | (st, some file) =>
    match open_prologue env st file path with
    | (st, false) => (st, none)
    | (st, true) =>
      let r := fatfs_get_file_entry env st (st._files file).parentcluster
        (st._files file).filename
      let st := r.1
      if r.2.1 ≠ 0 ∧ (checkfile = 0 ∨ env.entry_is_file r.2.2 = true) then
        let st := st.setFile file { st._files file with
          shortfilename := r.2.2.Name
          filelength := env.FAT_HTONL r.2.2.FileSize
          bytenum := 0
          startcluster := entry_startcluster env r.2.2
          file_data := { (st._files file).file_data with address := 0xFFFFFFFF, dirty := 0 }
          filelength_changed := 0
          last_fat_lookup := { ClusterIdx := 0xFFFFFFFF, CurrentCluster := 0xFFFFFFFF } }
        let st := fatfs_cache_init env st file
        let st := fatfs_fat_purge env st
        (st, some file)
      else (_free_file env st file, none)

/-- The `do ... while (tailNum < 9999)` loop of `_create_file` that looks for
a short name not yet in the directory; it returns the final `tailNum`. -/
def sfn_tail_loop (env : Env D) (file : Nat) : Nat → Lib D → Int → Lib D × Int
  | 0, st, tailNum => (st, tailNum)
  | fuel + 1, st, tailNum =>
    let shortFilename := (env.lfn_create_sfn (st._files file).filename).2
    let st := st.setFile file { st._files file with
      shortfilename :=
        if tailNum ≠ 0 then env.lfn_generate_tail shortFilename tailNum else shortFilename }
    let r := fatfs_sfn_exists env st (st._files file).parentcluster
      (st._files file).shortfilename
    if r.2 = 0 then (r.1, tailNum)
    else if tailNum + 1 < 9999 then sfn_tail_loop env file fuel r.1 (tailNum + 1)
    else (r.1, tailNum + 1)

/-- The short-name step of `_create_file` and `_create_directory`, in both
builds (`FATFS_INC_LFN_SUPPORT` or not); `false` when no short name is free,
in which case the caller frees the cluster chain and the record. -/
def create_sfn (env : Env D) (st : Lib D) (file : Nat) : Lib D × Bool :=
  if env.FATFS_INC_LFN_SUPPORT = true then
    let r := sfn_tail_loop env file 9999 st 0
    (r.1, decide (r.2 ≠ 9999))
  else
    let s := env.lfn_create_sfn (st._files file).filename
    if s.1 = 0 then (st, false) else
    let st := st.setFile file { st._files file with shortfilename := s.2 }
    let r := fatfs_sfn_exists env st (st._files file).parentcluster
      (st._files file).shortfilename
    (r.1, decide (r.2 = 0))

/-- The function `_create_file`. -/
def _create_file (env : Env D) (st : Lib D) (filename : String) : Lib D × Option Nat :=
  if st._fs.disk_io_write_sector = false then (st, none) else
  match _allocate_file st with
  | (st, none) => (st, none)
  | (st, some file) =>
    match open_prologue env st file filename with
    | (st, false) => (st, none)
    | (st, true) =>
      let r := fatfs_get_file_entry env st (st._files file).parentcluster
        (st._files file).filename
      if r.2.1 = 1 then (_free_file env r.1 file, none) else
      let st := r.1.setFile file { r.1._files file with startcluster := 0 }
      let a := fatfs_allocate_free_space env st 1 (st._files file).startcluster 1
      let st := a.1.setFile file { a.1._files file with startcluster := a.2.2 }
      if a.2.1 = false then (_free_file env st file, none) else
      match create_sfn env st file with
      | (st, false) =>
        let st := (fatfs_free_cluster_chain env st (st._files file).startcluster).1
        (_free_file env st file, none)
      | (st, true) =>
        let e := fatfs_add_file_entry env st (st._files file).parentcluster
          (st._files file).filename (st._files file).shortfilename
          (st._files file).startcluster 0 0
        if e.2 = false then
          let st := (fatfs_free_cluster_chain env e.1 (e.1._files file).startcluster).1
          (_free_file env st file, none)
        else
          let st := e.1
          let st := st.setFile file { st._files file with
            filelength := 0
            bytenum := 0
            file_data := { (st._files file).file_data with address := 0xFFFFFFFF, dirty := 0 }
            filelength_changed := 0
            last_fat_lookup := { ClusterIdx := 0xFFFFFFFF, CurrentCluster := 0xFFFFFFFF } }
          let st := fatfs_cache_init env st file
          let st := fatfs_fat_purge env st
          (st, some file)

/-- The loop `for ( ; i < ClusterIdx; i++)` of `_read_sector` that follows the
chain; the fuel is the number of links left to follow. -/
def read_walk (env : Env D) (file ClusterIdx : Nat) : Nat → Lib D → Nat → Nat → Lib D × Nat
  | 0, st, _, Cluster => (st, Cluster)
  | fuel + 1, st, i, Cluster =>
    if i < ClusterIdx then
      match env.cache_get_next_cluster st._fs.vol file i with
      | some nextCluster => read_walk env file ClusterIdx fuel st (i + 1) nextCluster
      | none =>
        let r := fatfs_find_next_cluster env st Cluster
        let st := fatfs_cache_set_next_cluster env r.1 file i r.2
        read_walk env file ClusterIdx fuel st (i + 1) r.2
    else (st, Cluster)

/-- The function `_read_sector`: read sector `offset` of the file into
`buffer`; the result carries the buffer as the call leaves it.  (The division
is by `_fs.sectors_per_cluster`, which is not zero on a mounted volume.) -/
def _read_sector (env : Env D) (st : Lib D) (file : Nat) (offset : Nat) (buffer : Bytes) :
    Lib D × Bool × Bytes :=
  let offset := to_uint32 offset
  let ClusterIdx := offset / st._fs.sectors_per_cluster
  let Sector := offset - ClusterIdx * st._fs.sectors_per_cluster
  let look := (st._files file).last_fat_lookup
  let r : Lib D × Nat :=
    if ClusterIdx = look.ClusterIdx then (st, to_uint32 look.CurrentCluster)
    else
      let start : Nat × Nat :=
        if ClusterIdx ≠ 0 ∧ ClusterIdx = (look.ClusterIdx + 1) % 2 ^ env.ULONG_BITS then
          (to_uint32 look.ClusterIdx, to_uint32 look.CurrentCluster)
        else (0, to_uint32 (st._files file).startcluster)
      let r := read_walk env file ClusterIdx (ClusterIdx - start.1) st start.1 start.2
      if r.2 ≠ env.FAT32_LAST_CLUSTER then
        (r.1.setFile file { r.1._files file with
          last_fat_lookup := { CurrentCluster := r.2, ClusterIdx := ClusterIdx } }, r.2)
      else r
  if r.2 = env.FAT32_LAST_CLUSTER then (r.1, false, buffer)
  else
    let lba := to_uint32 (env.lba_of_cluster r.1._fs.vol r.2 + Sector)
    fatfs_sector_read env r.1 lba buffer

/-! ## External API -/

/-- The result `FAT_INIT_OK` of `fatfs_init`. -/
def FAT_INIT_OK : Int := 0

/-- The function `fl_attach_media`; `wr` tells whether a write callback is
given.  The call of `fatfs_init` returns its result and the sectors per
cluster it read from the boot sector. -/
def fl_attach_media (env : Env D) (st : Lib D) (wr : Bool) : Lib D × Int :=
  let st := CHECK_FL_INIT env st
  let st := { st with _fs := { st._fs with disk_io_write_sector := wr } }
  let r := env.init st._fs.vol
  let st := { st with
    _fs := { st._fs with vol := r.1, sectors_per_cluster := r.2.2 }
    trace := st.trace ++ [Event.init r.2.1] }
  if r.2.1 ≠ FAT_INIT_OK then (st, r.2.1)
  else ({ st with _filelib_valid := 1 }, FAT_INIT_OK)

/-- One step of the loop of `fl_ifopen` over the mode string: the `switch
(tolower(mode[i]))`. -/
def mode_flags (flags : Nat) (c : Char) : Nat :=
  if c.toLower = 'r' then flags ||| FILE_READ
  else if c.toLower = 'w' then flags ||| FILE_WRITE ||| FILE_ERASE ||| FILE_CREATE
  else if c.toLower = 'a' then flags ||| FILE_WRITE ||| FILE_APPEND ||| FILE_CREATE
  else if c.toLower = '+' then
    if flags &&& FILE_READ ≠ 0 then flags ||| FILE_WRITE
    else if flags &&& FILE_WRITE ≠ 0 then flags ||| FILE_READ ||| FILE_ERASE ||| FILE_CREATE
    else if flags &&& FILE_APPEND ≠ 0 then
      flags ||| FILE_READ ||| FILE_WRITE ||| FILE_APPEND ||| FILE_CREATE
    else flags
  else if c.toLower = 'b' then flags ||| FILE_BINARY
  else flags

/-- The flags `fl_ifopen` computes from the mode string (up to `strlen`),
before the check for write access. -/
def parse_mode (mode : String) : Nat :=
  (mode.data.takeWhile (fun c => c ≠ Char.ofNat 0)).foldl mode_flags 0

/-- The function `fl_ifopen`. -/
def fl_ifopen (env : Env D) (st : Lib D) (path mode : Option String) (checkfile : Int) :
    Lib D × Option Nat :=
  let st := CHECK_FL_INIT env st
  if st._filelib_valid = 0 then (st, none) else
  match path, mode with
  | some path, some mode =>
    let flags := parse_mode mode
    let flags :=
      if st._fs.disk_io_write_sector = false then
        flags &&& (255 ^^^ (FILE_CREATE ||| FILE_WRITE ||| FILE_APPEND))
      else flags
    let st := FL_LOCK st
    let r : Lib D × Option Nat :=
      if flags &&& FILE_READ ≠ 0 then _open_file env st path checkfile else (st, none)
    let r : Lib D × Option Nat :=
      if r.2 = none ∧ flags &&& FILE_CREATE ≠ 0 then _create_file env r.1 path else r
    let r : Lib D × Option Nat :=
      if flags &&& FILE_READ = 0 ∧ (flags &&& FILE_CREATE ≠ 0 ∧ r.2 = none) ∧
          flags &&& (FILE_WRITE ||| FILE_APPEND) ≠ 0 then
        _open_file env r.1 path checkfile
      else r
    let st :=
      match r.2 with
      | some file => r.1.setFile file { r.1._files file with flags := flags }
      | none => r.1
    (FL_UNLOCK st, r.2)
  | _, _ => (st, none)

/-- The function `fl_fopen`. -/
def fl_fopen (env : Env D) (st : Lib D) (path mode : Option String) : Lib D × Option Nat :=
  fl_ifopen env st path mode 1

/-- The loop of `_write_sector` that follows the chain and stops at a dead
end; it returns `Cluster` and `LastCluster`. -/
def write_walk (env : Env D) (file ClusterIdx : Nat) :
    Nat → Lib D → Nat → Nat → Nat → Lib D × Nat × Nat
  | 0, st, _, Cluster, LastCluster => (st, Cluster, LastCluster)
  | fuel + 1, st, i, Cluster, LastCluster =>
    if i < ClusterIdx then
      let r : Lib D × Nat :=
        match env.cache_get_next_cluster st._fs.vol file i with
        | some nextCluster => (st, nextCluster)
        | none =>
          let r := fatfs_find_next_cluster env st Cluster
          (fatfs_cache_set_next_cluster env r.1 file i r.2, r.2)
      if r.2 = env.FAT32_LAST_CLUSTER then (r.1, r.2, Cluster)
      else write_walk env file ClusterIdx fuel r.1 (i + 1) r.2 Cluster
    else (st, Cluster, LastCluster)

/-- The function `_write_sector`: write `buf` as sector `offset` of the file,
extending the cluster chain when the walk reaches its end. -/
def _write_sector (env : Env D) (st : Lib D) (file : Nat) (offset : Nat) (buf : Bytes) :
    Lib D × Bool :=
  let offset := to_uint32 offset
  let ClusterIdx := offset / st._fs.sectors_per_cluster
  let SectorNumber := offset - ClusterIdx * st._fs.sectors_per_cluster
  let look := (st._files file).last_fat_lookup
  if ClusterIdx = look.ClusterIdx then
    fatfs_write_sector env st (to_uint32 look.CurrentCluster) SectorNumber buf
  else
    let start : Nat × Nat :=
      if ClusterIdx ≠ 0 ∧ ClusterIdx = (look.ClusterIdx + 1) % 2 ^ env.ULONG_BITS then
        (to_uint32 look.ClusterIdx, to_uint32 look.CurrentCluster)
      else (0, to_uint32 (st._files file).startcluster)
    let r := write_walk env file ClusterIdx (ClusterIdx - start.1) st start.1 start.2
      env.FAT32_LAST_CLUSTER
    let a : Lib D × Bool × Nat :=
      if r.2.1 = env.FAT32_LAST_CLUSTER then fatfs_add_free_space env r.1 r.2.2
      else (r.1, true, r.2.1)
    if a.2.1 = false then (a.1, false)
    else
      let st := a.1.setFile file { a.1._files file with
        last_fat_lookup := { CurrentCluster := a.2.2, ClusterIdx := ClusterIdx } }
      fatfs_write_sector env st a.2.2 SectorNumber buf

/-- The function `fl_fflush`. -/
def fl_fflush (env : Env D) (st : Lib D) (f : Option Nat) : Lib D × Int :=
  let st := CHECK_FL_INIT env st
  match f with
  | none => (st, 0)
  | some file =>
    let st := FL_LOCK st
    let st :=
      if (st._files file).file_data.dirty ≠ 0 then
        let r := _write_sector env st file (st._files file).file_data.address
          (st._files file).file_data.sector
        if r.2 = true then
          r.1.setFile file { r.1._files file with
            file_data := { (r.1._files file).file_data with dirty := 0 } }
        else r.1
      else st
    (FL_UNLOCK st, 0)

/-- The statement `if (file->file_data.dirty) fl_fflush(file);` of the loops
of `fl_fread` and `fl_fwrite`. -/
def flush_dirty (env : Env D) (st : Lib D) (file : Nat) : Lib D :=
  if (st._files file).file_data.dirty ≠ 0 then (fl_fflush env st (some file)).1 else st

/-- The first part of the body of the loop of `fl_fread`: when the buffer
does not hold `sector`, flush it if dirty and load the sector.  The result is
`false` at the `break` (the load failed). -/
def fread_fetch (env : Env D) (st : Lib D) (file sector : Nat) : Lib D × Bool :=
  if (st._files file).file_data.address ≠ sector then
    let st := flush_dirty env st file
    let r := _read_sector env st file sector (st._files file).file_data.sector
    let st := r.1.setFile file { r.1._files file with
      file_data := { (r.1._files file).file_data with sector := r.2.2 } }
    if r.2.1 = false then (st, false)
    else
      (st.setFile file { st._files file with
        file_data := { (st._files file).file_data with address := sector, dirty := 0 } }, true)
  else (st, true)

/-- The number of bytes one pass of the loop of `fl_fread` copies
(`copyCount`); `offset` is below the sector size there. -/
def fread_copyCount (count bytesRead : Int) (offset : Nat) : Int :=
  if ((FAT_SECTOR_SIZE - offset : Nat) : Int) > count - bytesRead then count - bytesRead
  else ((FAT_SECTOR_SIZE - offset : Nat) : Int)

/-- The second part of the body of the loop of `fl_fread`: copy from the
sector buffer to the caller, advance `bytenum`. -/
def fread_copy (env : Env D) (st : Lib D) (file : Nat) (buffer : Bytes) (offset : Nat)
    (bytesRead copyCount : Int) : Lib D × Bytes :=
  (st.setFile file { st._files file with
      bytenum := to_ulong env.ULONG_BITS ((st._files file).bytenum + copyCount) },
    memcpy buffer bytesRead.toNat (st._files file).file_data.sector offset copyCount.toNat)

/-- The loop `while (bytesRead < count)` of `fl_fread`.  Every pass copies at
least one byte, so `count` passes are enough. -/
def fl_fread_loop (env : Env D) (file : Nat) (count : Int) :
    Nat → Lib D → Bytes → Nat → Nat → Int → Lib D × Bytes × Int
  | 0, st, buffer, _, _, bytesRead => (st, buffer, bytesRead)
  | fuel + 1, st, buffer, sector, offset, bytesRead =>
    if bytesRead < count then
      match fread_fetch env st file sector with
      | (st, false) => (st, buffer, bytesRead)
      | (st, true) =>
        let copyCount := fread_copyCount count bytesRead offset
        let r := fread_copy env st file buffer offset bytesRead copyCount
        fl_fread_loop env file count fuel r.1 r.2 ((sector + 1) % 2 ^ env.ULONG_BITS) 0
          (bytesRead + copyCount)
    else (st, buffer, bytesRead)

/-- The function `fl_fread`: the library state, the caller's buffer and the
result. -/
def fl_fread (env : Env D) (st : Lib D) (buffer : Option Bytes) (size length : Int)
    (f : Option Nat) : Lib D × Option Bytes × Int :=
  let count := to_int (size * length)
  let st := CHECK_FL_INIT env st
  match buffer, f with
  | some buf, some file =>
    if (st._files file).flags &&& FILE_READ = 0 then (st, buffer, -1)
    else if count = 0 then (st, buffer, 0)
    else if (st._files file).bytenum ≥ (st._files file).filelength then (st, buffer, -1)
    else
      let count :=
        if to_ulong env.ULONG_BITS ((st._files file).bytenum + count) >
            (st._files file).filelength then
          to_int ((st._files file).filelength - (st._files file).bytenum : Nat)
        else count
      let r := fl_fread_loop env file count count.toNat st buf
        ((st._files file).bytenum / FAT_SECTOR_SIZE)
        ((st._files file).bytenum % FAT_SECTOR_SIZE) 0
      (r.1, some r.2.1, r.2.2)
  | _, _ => (st, buffer, -1)

/-- The function `fl_fseek`. -/
def fl_fseek (env : Env D) (st : Lib D) (f : Option Nat) (offset : Int) (origin : Int) :
    Lib D × Int :=
  let st := CHECK_FL_INIT env st
  match f with
  | none => (st, -1)
  | some file =>
    if origin = SEEK_END ∧ offset ≠ 0 then (st, -1) else
    let st := FL_LOCK st
    let st := st.setFile file { st._files file with
      file_data := { (st._files file).file_data with address := 0xFFFFFFFF, dirty := 0 } }
    let fl := st._files file
    let r : Lib D × Int :=
      if origin = SEEK_SET then
        let b := to_ulong env.ULONG_BITS offset
        (st.setFile file { fl with bytenum := if b > fl.filelength then fl.filelength else b }, 0)
      else if origin = SEEK_CUR then
        if offset ≥ 0 then
          let b := to_ulong env.ULONG_BITS (fl.bytenum + offset)
          (st.setFile file { fl with
            bytenum := if b > fl.filelength then fl.filelength else b }, 0)
        else
          let offset := to_long env.ULONG_BITS (-offset)
          if to_ulong env.ULONG_BITS offset > fl.bytenum then
            (st.setFile file { fl with bytenum := 0 }, 0)
          else
            (st.setFile file { fl with
              bytenum := to_ulong env.ULONG_BITS (fl.bytenum - offset) }, 0)
      else if origin = SEEK_END then
        (st.setFile file { fl with bytenum := fl.filelength }, 0)
      else (st, -1)
    (FL_UNLOCK r.1, r.2)

/-- The number of bytes one pass of the loop of `fl_fwrite` copies
(`copyCount`); `offset` is below the sector size there. -/
def fwrite_copyCount (length bytesWritten offset : Nat) : Nat :=
  if FAT_SECTOR_SIZE - offset > length - bytesWritten then length - bytesWritten
  else FAT_SECTOR_SIZE - offset

/-- The read of the loop of `fl_fwrite` before a partial overwrite: `if
(!_read_sector(file, sector, file->file_data.sector)) memset(...)`; a failed
read leaves a zero-filled buffer. -/
def fwrite_read (env : Env D) (st : Lib D) (file sector : Nat) : Lib D :=
  let r := _read_sector env st file sector (st._files file).file_data.sector
  r.1.setFile file { r.1._files file with
    file_data := { (r.1._files file).file_data with
      sector := if r.2.1 = false then memset r.2.2 0 FAT_SECTOR_SIZE else r.2.2 } }

/-- The part of the body of the loop of `fl_fwrite` under `if
(file->file_data.address != sector)`: flush the buffer if dirty, and read the
sector first unless the whole of it is overwritten. -/
def fwrite_fetch (env : Env D) (st : Lib D) (file sector copyCount : Nat) : Lib D :=
  if (st._files file).file_data.address ≠ sector then
    let st := flush_dirty env st file
    let st := if copyCount ≠ FAT_SECTOR_SIZE then fwrite_read env st file sector else st
    st.setFile file { st._files file with
      file_data := { (st._files file).file_data with address := sector, dirty := 0 } }
  else st

/-- The rest of the body of the loop of `fl_fwrite`: copy from the caller
into the sector buffer, mark it dirty, advance `bytenum`. -/
def fwrite_copy (env : Env D) (st : Lib D) (file : Nat) (data : Bytes)
    (offset bytesWritten copyCount : Nat) : Lib D :=
  st.setFile file { st._files file with
    file_data := { (st._files file).file_data with
      sector := memcpy (st._files file).file_data.sector offset data bytesWritten copyCount
      dirty := 1 }
    bytenum := ((st._files file).bytenum + copyCount) % 2 ^ env.ULONG_BITS }

/-- The loop `while (bytesWritten < length)` of `fl_fwrite`.  Every pass
copies at least one byte, so `length` passes are enough. -/
def fl_fwrite_loop (env : Env D) (file : Nat) (data : Bytes) (length : Nat) :
    Nat → Lib D → Nat → Nat → Nat → Lib D
  | 0, st, _, _, _ => st
  | fuel + 1, st, sector, offset, bytesWritten =>
    if bytesWritten < length then
      let copyCount := fwrite_copyCount length bytesWritten offset
      let st := fwrite_fetch env st file sector copyCount
      let st := fwrite_copy env st file data offset bytesWritten copyCount
      fl_fwrite_loop env file data length fuel st ((sector + 1) % 2 ^ env.ULONG_BITS) 0
        (bytesWritten + copyCount)
    else st

/-- The function `fl_fwrite`. -/
def fl_fwrite (env : Env D) (st : Lib D) (data : Bytes) (size count : Int) (f : Option Nat) :
    Lib D × Int :=
  let length := to_ulong env.ULONG_BITS (to_int (size * count))
  let st := CHECK_FL_INIT env st
  match f with
  | none => (st, -1)
  | some file =>
    let st := FL_LOCK st
    if (st._files file).flags &&& FILE_WRITE = 0 then (FL_UNLOCK st, -1)
    else
      let st :=
        if (st._files file).flags &&& FILE_APPEND ≠ 0 then
          st.setFile file { st._files file with bytenum := (st._files file).filelength }
        else st
      let st := fl_fwrite_loop env file data length length st
        ((st._files file).bytenum / FAT_SECTOR_SIZE)
        ((st._files file).bytenum % FAT_SECTOR_SIZE) 0
      let st :=
        if (st._files file).bytenum > (st._files file).filelength then
          st.setFile file { st._files file with
            filelength := (st._files file).bytenum
            filelength_changed := 1 }
        else st
      (FL_UNLOCK st, to_int (size * count))

/-- The call `fatfs_update_file_length(&_fs, cluster, shortname, length)`. -/
def fatfs_update_file_length (env : Env D) (st : Lib D) (cluster : Nat) (sfn : List Nat)
    (len : Nat) : Lib D × Bool :=
  let r := env.update_file_length st._fs.vol cluster sfn len
  (st.step r.1 (Event.update_file_length cluster sfn len r.2), r.2)

/-- The call `fatfs_mark_file_deleted(&_fs, cluster, shortname)`. -/
def fatfs_mark_file_deleted (env : Env D) (st : Lib D) (cluster : Nat) (sfn : List Nat) :
    Lib D × Bool :=
  let r := env.mark_file_deleted st._fs.vol cluster sfn
  (st.step r.1 (Event.mark_file_deleted cluster sfn r.2), r.2)

/-- The function `fl_fclose`. -/
def fl_fclose (env : Env D) (st : Lib D) (f : Option Nat) : Lib D :=
  let st := CHECK_FL_INIT env st
  match f with
  | none => st
  | some file =>
    let st := FL_LOCK st
    let st := (fl_fflush env st f).1
    let st :=
      if (st._files file).filelength_changed ≠ 0 then
        let st := (fatfs_update_file_length env st (st._files file).parentcluster
          (st._files file).shortfilename (st._files file).filelength).1
        st.setFile file { st._files file with filelength_changed := 0 }
      else st
    let st := st.setFile file { st._files file with
      bytenum := 0
      filelength := 0
      startcluster := 0
      file_data := { (st._files file).file_data with address := 0xFFFFFFFF, dirty := 0 }
      filelength_changed := 0 }
    let st := _free_file env st file
    let st := fatfs_fat_purge env st
    FL_UNLOCK st

/-- The function `fl_remove`. -/
def fl_remove (env : Env D) (st : Lib D) (filename : Option String) : Lib D × Int :=
  let st := FL_LOCK st
  let o := fl_ifopen env st filename (some "r") 0
  let r : Lib D × Int :=
    match o.2 with
    | none => (o.1, -1)
    | some file =>
      let c := fatfs_free_cluster_chain env o.1 (o.1._files file).startcluster
      if c.2 = true then
        let m := fatfs_mark_file_deleted env c.1 (c.1._files file).parentcluster
          (c.1._files file).shortfilename
        if m.2 = true then (fl_fclose env m.1 (some file), 0)
        else (m.1, -1)
      else (c.1, -1)
  (FL_UNLOCK r.1, r.2)

/-- The loop `for (i=0;i<_fs.sectors_per_cluster;i++)` of `_create_directory`
that writes the zeroed sector buffer over the new cluster; `false` when a
write fails. -/
def erase_loop (env : Env D) (file : Nat) : Nat → Lib D → Nat → Lib D × Bool
  | 0, st, _ => (st, true)
  | fuel + 1, st, i =>
    if i < st._fs.sectors_per_cluster then
      let r := fatfs_write_sector env st (st._files file).startcluster i
        (st._files file).file_data.sector
      if r.2 = false then (r.1, false) else erase_loop env file fuel r.1 (i + 1)
    else (st, true)

/-- The function `_create_directory`: 1 when the directory was created. -/
def _create_directory (env : Env D) (st : Lib D) (path : String) : Lib D × Int :=
  match _allocate_file st with
  | (st, none) => (st, 0)
  | (st, some file) =>
    match open_prologue env st file path with
    | (st, false) => (st, 0)
    | (st, true) =>
      let r := fatfs_get_file_entry env st (st._files file).parentcluster
        (st._files file).filename
      if r.2.1 = 1 then (_free_file env r.1 file, 0) else
      let st := r.1.setFile file { r.1._files file with startcluster := 0 }
      let a := fatfs_allocate_free_space env st 1 (st._files file).startcluster 1
      let st := a.1.setFile file { a.1._files file with startcluster := a.2.2 }
      if a.2.1 = false then (_free_file env st file, 0) else
      let st := st.setFile file { st._files file with
        file_data := { (st._files file).file_data with
          sector := memset (st._files file).file_data.sector 0 FAT_SECTOR_SIZE } }
      match erase_loop env file st._fs.sectors_per_cluster st 0 with
      | (st, false) => (_free_file env st file, 0)
      | (st, true) =>
        match create_sfn env st file with
        | (st, false) =>
          let st := (fatfs_free_cluster_chain env st (st._files file).startcluster).1
          (_free_file env st file, 0)
        | (st, true) =>
          let e := fatfs_add_file_entry env st (st._files file).parentcluster
            (st._files file).filename (st._files file).shortfilename
            (st._files file).startcluster 0 1
          if e.2 = false then
            let st := (fatfs_free_cluster_chain env e.1 (e.1._files file).startcluster).1
            (_free_file env st file, 0)
          else
            let st := e.1
            let st := st.setFile file { st._files file with
              filelength := 0
              bytenum := 0
              file_data := { (st._files file).file_data with address := 0xFFFFFFFF, dirty := 0 }
              filelength_changed := 0
              last_fat_lookup := { ClusterIdx := 0xFFFFFFFF, CurrentCluster := 0xFFFFFFFF } }
            let st := fatfs_fat_purge env st
            (_free_file env st file, 1)

/-- The function `fl_attach_locks` on the library's own `_fs`; `true` stands
for a callback that is not NULL. -/
def fl_attach_locks (st : Lib D) (lock unlock : Bool) : Lib D :=
  { st with _fs := { st._fs with fl_lock := lock, fl_unlock := unlock } }

/-- The function `fl_fread_sector`: the library state, the caller's buffer
and the result. -/
def fl_fread_sector (env : Env D) (st : Lib D) (buffer : Option Bytes) (size length : Int)
    (f : Option Nat) : Lib D × Option Bytes × Int :=
  let count := to_int (size * length)
  let st := CHECK_FL_INIT env st
  match buffer, f with
  | some buf, some file =>
    if count ≠ FAT_SECTOR_SIZE then (st, buffer, -1)
    else if (st._files file).flags &&& FILE_READ = 0 then (st, buffer, -1)
    else if (st._files file).bytenum ≥ (st._files file).filelength then (st, buffer, -1)
    else
      let count :=
        if to_ulong env.ULONG_BITS ((st._files file).bytenum + count) >
            (st._files file).filelength then
          to_int ((st._files file).filelength - (st._files file).bytenum : Nat)
        else count
      let sector := (st._files file).bytenum / FAT_SECTOR_SIZE
      let offset := (st._files file).bytenum % FAT_SECTOR_SIZE
      if offset ≠ 0 then (st, buffer, -1)
      else
        let r := _read_sector env st file sector buf
        if r.2.1 = true then
          let copyCount : Int := if (FAT_SECTOR_SIZE : Int) > count - 0 then count - 0
            else FAT_SECTOR_SIZE
          (r.1.setFile file { r.1._files file with
              bytenum := to_ulong env.ULONG_BITS ((r.1._files file).bytenum + copyCount) },
            some r.2.2, copyCount)
        else (r.1, some r.2.2, 0)
  | _, _ => (st, buffer, -1)

/-- The function `fl_feof`. -/
def fl_feof (st : Lib D) (f : Option Nat) : Lib D × Int :=
  match f with
  | none => (st, -1)
  | some file =>
    let st := FL_LOCK st
    let res : Int := if (st._files file).bytenum = (st._files file).filelength then EOF else 0
    (FL_UNLOCK st, res)

/-- The function `fl_createdirectory`. -/
def fl_createdirectory (env : Env D) (st : Lib D) (path : String) : Lib D × Int :=
  let st := CHECK_FL_INIT env st
  let st := FL_LOCK st
  let r := _create_directory env st path
  (FL_UNLOCK r.1, r.2)

/-- The function `fl_shutdown`. -/
def fl_shutdown (env : Env D) (st : Lib D) : Lib D :=
  let st := CHECK_FL_INIT env st
  let st := FL_LOCK st
  let st := fatfs_fat_purge env st
  FL_UNLOCK st

/-- The function `fl_fgetc`: the one-byte buffer `data` starts as 0. -/
def fl_fgetc (env : Env D) (st : Lib D) (f : Option Nat) : Lib D × Int :=
  let r := fl_fread env st (some (fun _ => 0)) 1 1 f
  if r.2.2 = 1 then
    (r.1, match r.2.1 with
      | some data => ((data 0 % 256 : Nat) : Int)
      | none => 0)
  else (r.1, r.2.2)

/-- The function `fl_fgetpos`: the result and the value of `*position` after
the call. -/
def fl_fgetpos (st : Lib D) (f : Option Nat) (position : Nat) : Lib D × Int × Nat :=
  match f with
  | none => (st, -1, position)
  | some file =>
    let st := FL_LOCK st
    let position := (st._files file).bytenum
    (FL_UNLOCK st, 0, position)

/-- The function `fl_ftell`. -/
def fl_ftell (env : Env D) (st : Lib D) (f : Option Nat) : Lib D × Int :=
  let r := fl_fgetpos st f 0
  (r.1, to_long env.ULONG_BITS r.2.2)

/-- The function `fl_fputc`; `c` is an `int`. -/
def fl_fputc (env : Env D) (st : Lib D) (c : Int) (f : Option Nat) : Lib D × Int :=
  let data : Nat := (c % 256).toNat
  let r := fl_fwrite env st (fun _ => data) 1 1 f
  if r.2 = 1 then (r.1, c) else r

/-- The `strlen` of `<string.h>` on a buffer given as the list of its bytes. -/
def strlen (str : List Nat) : Nat := (str.takeWhile (fun c => c ≠ 0)).length

/-- The function `fl_fputs`. -/
def fl_fputs (env : Env D) (st : Lib D) (str : List Nat) (f : Option Nat) : Lib D × Int :=
  let len := to_int (strlen str)
  let r := fl_fwrite env st (fun i => str.getD i 0) 1 len f
  if r.2 = len then (r.1, len) else r

/-- The function `fl_fprintf`; `text` is what `vsnprintf` formats, of which
the 16384-byte buffer `buf` keeps the first 16383 bytes. -/
def fl_fprintf (env : Env D) (st : Lib D) (f : Option Nat) (text : List Nat) : Lib D × Int :=
  let buf := text.take 16383
  let len := to_int (strlen buf)
  let r := fl_fwrite env st (fun i => buf.getD i 0) 1 len f
  if r.2 = len then (r.1, len) else r

/-- The function `fl_opendir`: the contents of `*dir` after the call, and
whether the result is `dir` (`true`) or 0.  The local `cluster` is a `UINT32`
whose address goes to `_open_directory` as an `unsigned long *`; the two
types are taken to be the same. -/
def fl_opendir (env : Env D) (st : Lib D) (path : String) (dir : FL_DIR) :
    Lib D × FL_DIR × Bool :=
  let st := CHECK_FL_INIT env st
  let st := FL_LOCK st
  let levels := to_int (env.total_path_levels path + 1)
  let r : Lib D × Int × Nat :=
    if levels = 0 then (st, 1, env.get_root_cluster st._fs.vol)
    else
      match _open_directory env st path with
      | (st, some c) => (st, 1, c)
      | (st, none) => (st, 0, env.FAT32_INVALID_CLUSTER)
  let d : Lib D × FL_DIR :=
    if r.2.1 ≠ 0 then fatfs_list_directory_start env r.1 dir r.2.2 else (r.1, dir)
  (FL_UNLOCK d.1, d.2, decide (r.2.2 ≠ env.FAT32_INVALID_CLUSTER))

/-- The function `fl_readdir`: the result, and the contents of `*dirls` and
`*entry` after the call. -/
def fl_readdir (env : Env D) (st : Lib D) (dirls : FL_DIR) (entry : fs_dir_ent) :
    Lib D × Int × FL_DIR × fs_dir_ent :=
  let st := CHECK_FL_INIT env st
  let st := FL_LOCK st
  let r := fatfs_list_directory_next env st dirls entry
  (FL_UNLOCK r.1, if r.2.1 ≠ 0 then 0 else -1, r.2.2.1, r.2.2.2)

/-- The function `fl_closedir`, which touches neither its argument nor the
library. -/
def fl_closedir (_dir : FL_DIR) : Int := 0

/-- The loop `while (fl_readdir(&dirstat, &dirent) == 0)` of
`fl_listdirectory`; the lines it prints are not part of the state.  The loop
runs until `fatfs_list_directory_next` reports the end of the directory:
`fuel` bounds the number of calls of `fl_readdir`, and the result tells
whether the loop ended within them. -/
def listdirectory_loop (env : Env D) : Nat → Lib D → FL_DIR → fs_dir_ent → Lib D × Bool
  | 0, st, _, _ => (st, false)
  | fuel + 1, st, dirstat, dirent =>
    let r := fl_readdir env st dirstat dirent
    if r.2.1 = 0 then listdirectory_loop env fuel r.1 r.2.2.1 r.2.2.2
    else (r.1, true)

/-- The function `fl_listdirectory`; `dirstat` and `dirent` are the contents
of its two locals at entry.  The result tells whether the call returned
within `fuel` calls of `fl_readdir`; when it did not, the state is the one
reached inside the loop. -/
def fl_listdirectory (env : Env D) (st : Lib D) (path : String) (dirstat : FL_DIR)
    (dirent : fs_dir_ent) (fuel : Nat) : Lib D × Bool :=
  let st := CHECK_FL_INIT env st
  let st := FL_LOCK st
  let o := fl_opendir env st path dirstat
  if o.2.2 = true then
    let r := listdirectory_loop env fuel o.1 o.2.1 dirent
    if r.2 = true then (FL_UNLOCK r.1, true) else (r.1, false)
  else (FL_UNLOCK o.1, true)

/-- The function `fl_is_dir`; `dir` is the contents of its local at entry. -/
def fl_is_dir (env : Env D) (st : Lib D) (path : String) (dir : FL_DIR) : Lib D × Int :=
  let o := fl_opendir env st path dir
  if o.2.2 = true then (o.1, 1) else (o.1, 0)

/-- The function `fl_get_fs` of the test hooks. -/
def fl_get_fs (st : Lib D) : fatfs D := st._fs
/-! ## Auxiliary definitions for the statements -/

/-- The fields of a record that tell where the stream stands: the cursor, the
length, the length-changed flag and the open flags. -/
def FL_FILE.pos (r : FL_FILE) : Nat × Nat × Int × Nat :=
  (r.bytenum, r.filelength, r.filelength_changed, r.flags)

/-- The library state inside `fl_fwrite` (on a handle with WRITE set) after
the lock, the snap of the cursor in APPEND mode, and at most `k` passes of
the loop. -/
def fl_fwrite_pass (env : Env D) (st : Lib D) (data : Bytes) (size count : Int) (file k : Nat) :
    Lib D :=
  let length := to_ulong env.ULONG_BITS (to_int (size * count))
  let st := FL_LOCK (CHECK_FL_INIT env st)
  let st :=
    if (st._files file).flags &&& FILE_APPEND ≠ 0 then
      st.setFile file { st._files file with bytenum := (st._files file).filelength }
    else st
  fl_fwrite_loop env file data length k st
    ((st._files file).bytenum / FAT_SECTOR_SIZE)
    ((st._files file).bytenum % FAT_SECTOR_SIZE) 0

/-- Whether an event is a call of `fatfs_add_free_space` that failed. -/
def Event.add_free_space_failed : Event → Bool
  | Event.add_free_space _ false _ => true
  | _ => false

/-- The library state, the caller's buffer and `bytesRead` inside `fl_fread`
(on a call that passes its initial checks) after at most `k` passes of the
loop. -/
def fl_fread_pass (env : Env D) (st : Lib D) (buf : Bytes) (size length : Int) (file k : Nat) :
    Lib D × Bytes × Int :=
  let count := to_int (size * length)
  let st := CHECK_FL_INIT env st
  let count :=
    if to_ulong env.ULONG_BITS ((st._files file).bytenum + count) >
        (st._files file).filelength then
      to_int ((st._files file).filelength - (st._files file).bytenum : Nat)
    else count
  fl_fread_loop env file count k st buf
    ((st._files file).bytenum / FAT_SECTOR_SIZE)
    ((st._files file).bytenum % FAT_SECTOR_SIZE) 0

/-- Whether an event is a call of `fatfs_write_sector`. -/
def Event.is_write_sector : Event → Bool
  | Event.write_sector _ _ _ _ => true
  | _ => false

/-- Whether an event is a call of `fatfs_free_cluster_chain`. -/
def Event.is_free_cluster_chain : Event → Bool
  | Event.free_cluster_chain _ _ => true
  | _ => false


/-- The records met by following the `next` links from `head` are exactly
those of `l`, in order, and the last link is NULL. -/
def IsList (st : Lib D) : Option Nat → List Nat → Prop
  | none, [] => True
  | some i, j :: l => i = j ∧ IsList st (st._files i).next l
  | none, _ :: _ => False
  | some _, [] => False

instance IsList.decide (st : Lib D) :
    (head : Option Nat) → (l : List Nat) → Decidable (IsList st head l)
  | none, [] => isTrue trivial
  | some i, j :: l =>
    @instDecidableAnd (i = j) (IsList st (st._files i).next l) _
      (IsList.decide st (st._files i).next l)
  | none, _ :: _ => isFalse id
  | some _, [] => isFalse id

/-- The pool invariant: `lf` is the free list, `lo` is the open list, and
together they hold each of the `N` records of `_files` once. -/
def PoolInv (N : Nat) (st : Lib D) (lf lo : List Nat) : Prop :=
  IsList st st._free_file_list lf ∧ IsList st st._open_file_list lo ∧
    List.Perm (lf ++ lo) (List.range N)

instance PoolInv.decide (N : Nat) (st : Lib D) (lf lo : List Nat) :
    Decidable (PoolInv N st lf lo) := by
  unfold PoolInv; infer_instance

/-- The initialised flag and the two list heads. -/
def Lib.heads (st : Lib D) : Int × Option Nat × Option Nat :=
  (st._filelib_init, st._open_file_list, st._free_file_list)

/-- What `_check_file_open` looks at in a record: its `next` link, its path
and its filename. -/
def FL_FILE.link (r : FL_FILE) : Option Nat × String × String :=
  (r.next, r.path, r.filename)

/-- Two library states with the same initialised flag, the same list heads
and, in every record, the same link and names. -/
def SamePool (st' st : Lib D) : Prop :=
  st'.heads = st.heads ∧ ∀ g, (st'._files g).link = (st._files g).link

/-- The state of `_open_file`, `_create_file` and `_create_directory` after
the names of the allocated record are cleared and set from the split path
(the first statements of `open_prologue`). -/
def open_named (env : Env D) (st : Lib D) (file : Nat) (path : String) : Lib D :=
  let st := st.setFile file { st._files file with path := "", filename := "" }
  let sp := env.split_path path
  st.setFile file { st._files file with path := sp.2.1, filename := sp.2.2 }

/-- The test of `_check_file_open` on an open record `o` against the record
`r` being opened: path and filename both compare equal. -/
def names_equal (env : Env D) (o r : FL_FILE) : Prop :=
  env.compare_names o.path r.path = true ∧ env.compare_names o.filename r.filename = true

/-- No record of the open list `lo` compares equal, in path and filename, to a
record opened after it (the list holds the newest record first). -/
def UniqueNames (env : Env D) (st : Lib D) (lo : List Nat) : Prop :=
  lo.Pairwise (fun newer older => ¬ names_equal env (st._files older) (st._files newer))

/-- The states of the pool reached from `fl_init env st0` by calls of
`_allocate_file` and calls of `_free_file` on records that are in the open
list at the time of the call. -/
inductive PoolReach (env : Env D) (st0 : Lib D) : Lib D → Prop
  | init : PoolReach env st0 (fl_init env st0)
  | alloc (st : Lib D) : PoolReach env st0 st → PoolReach env st0 (_allocate_file st).1
  | free (st : Lib D) (file : Nat) (lo : List Nat) : PoolReach env st0 st →
      IsList st st._open_file_list lo → file ∈ lo → PoolReach env st0 (_free_file env st file)

/-- The library states reached from `st0` by calls of `fl_fopen` (any path
and mode) and calls of `fl_fclose` on handles that are open at the time of
the call. -/
inductive OpenReach (env : Env D) (st0 : Lib D) : Lib D → Prop
  | start : OpenReach env st0 st0
  | fopen (st : Lib D) (path mode : Option String) : OpenReach env st0 st →
      OpenReach env st0 (fl_fopen env st path mode).1
  | fclose (st : Lib D) (file : Nat) (lo : List Nat) : OpenReach env st0 st →
      IsList st st._open_file_list lo → file ∈ lo →
      OpenReach env st0 (fl_fclose env st (some file))

/-- Whether an event is a call of `fatfs_mark_file_deleted`. -/
def Event.is_mark_file_deleted : Event → Bool
  | Event.mark_file_deleted _ _ _ => true
  | _ => false

/-- The ways `_open_file` and `_create_file` end, seen from the pool: no
record was allocated and the state is as before; or record `f`, the head of
the free list, was allocated and named, and either it is returned, in a state
with the pool of the named state, where `_check_file_open` found no other
record with its names, or it was handed to `_free_file` in such a state. -/
def OpenOutcome (env : Env D) (st : Lib D) (path : String) (r : Lib D × Option Nat) : Prop :=
  r = (st, none) ∨
  ∃ f, st._free_file_list = some f ∧
    ((r.2 = some f ∧ SamePool r.1 (open_named env (_allocate_file st).1 f path) ∧
        _check_file_open env (open_named env (_allocate_file st).1 f path) f = 0) ∨
      (r.2 = none ∧
        ∃ X, SamePool X (open_named env (_allocate_file st).1 f path) ∧
          r.1 = _free_file env X f))

/-- The pool after an open call that started in state `st` with free list
`lf` and open list `lo`, and ended in state `r.1` with result `r.2`: the
initialised flag and the names of the records that were open are as before,
and either nothing was opened and the lists are as before, or the head of the
free list is now the head of the open list and compares equal to no record
that was open. -/
def OpenInv (env : Env D) (st : Lib D) (lf lo : List Nat) (r : Lib D × Option Nat) : Prop :=
  r.1._filelib_init = st._filelib_init ∧
  (∀ g, g ∈ lo → (r.1._files g).path = (st._files g).path ∧
    (r.1._files g).filename = (st._files g).filename) ∧
  ((r.2 = none ∧ r.1._open_file_list = st._open_file_list ∧
      r.1._free_file_list = st._free_file_list ∧
      (∀ g, (r.1._files g).next = (st._files g).next) ∧
      PoolInv env.FATFS_MAX_OPEN_FILES r.1 lf lo ∧ UniqueNames env r.1 lo) ∨
    (∃ f lf', r.2 = some f ∧ lf = f :: lf' ∧
      PoolInv env.FATFS_MAX_OPEN_FILES r.1 lf' (f :: lo) ∧
      UniqueNames env r.1 (f :: lo)))

/-- The events `FL_LOCK` adds to the trace in state `st`. -/
def lock_events (st : Lib D) : List Event := if st._fs.fl_lock then [Event.lock] else []

/-- The events `FL_UNLOCK` adds to the trace in state `st`. -/
def unlock_events (st : Lib D) : List Event := if st._fs.fl_unlock then [Event.unlock] else []

/-- The number of `lock()` calls not yet matched by `unlock()` after each
event of a trace, and the largest value it takes: the pair (current, largest),
from the pair `p`. -/
def lock_count (p : Nat × Nat) : List Event → Nat × Nat
  | [] => p
  | Event.lock :: evs => lock_count (p.1 + 1, max p.2 (p.1 + 1)) evs
  | Event.unlock :: evs => lock_count (p.1 - 1, p.2) evs
  | _ :: evs => lock_count p evs

/-- The largest number of `lock()` calls not yet matched by `unlock()` along a
trace. -/
def lock_held_max (evs : List Event) : Nat := (lock_count (0, 0) evs).2

/-- One pass of the `do ... while` loop of the short-name step with the tail
number `tailNum`: build the candidate short name (untailed for 0, with the
tail `~tailNum` otherwise), store it in the record, and ask
`fatfs_sfn_exists`; the state after the call and its result. -/
def sfn_try (env : Env D) (st : Lib D) (file : Nat) (tailNum : Int) : Lib D × Int :=
  let shortFilename := (env.lfn_create_sfn (st._files file).filename).2
  let st := st.setFile file { st._files file with
    shortfilename :=
      if tailNum ≠ 0 then env.lfn_generate_tail shortFilename tailNum else shortFilename }
  fatfs_sfn_exists env st (st._files file).parentcluster (st._files file).shortfilename

/-- The state before pass `k` of the loop of the short-name step, the passes
before it having found their names taken. -/
def sfn_before (env : Env D) (st : Lib D) (file : Nat) : Nat → Lib D
  | 0 => st
  | k + 1 => (sfn_try env (sfn_before env st file k) file (k : Int)).1

/-- Modelled from the spec: the naive walk, the cluster reached by `k` hops of
`next` from `start`. -/
def naive_walk (next : Nat → Nat) (start : Nat) : Nat → Nat
  | 0 => start
  | k + 1 => next (naive_walk next start k)

/-- The first part of `_read_sector`: the cluster it resolves for the sector
`offset` of the file (by the last-lookup shortcut or a walk of the chain),
with the lookup pair recorded when the cluster is not `FAT32_LAST_CLUSTER`. -/
def resolve_cluster (env : Env D) (st : Lib D) (file : Nat) (offset : Nat) : Lib D × Nat :=
  let offset := to_uint32 offset
  let ClusterIdx := offset / st._fs.sectors_per_cluster
  let look := (st._files file).last_fat_lookup
  if ClusterIdx = look.ClusterIdx then (st, to_uint32 look.CurrentCluster)
  else
    let start : Nat × Nat :=
      if ClusterIdx ≠ 0 ∧ ClusterIdx = (look.ClusterIdx + 1) % 2 ^ env.ULONG_BITS then
        (to_uint32 look.ClusterIdx, to_uint32 look.CurrentCluster)
      else (0, to_uint32 (st._files file).startcluster)
    let r := read_walk env file ClusterIdx (ClusterIdx - start.1) st start.1 start.2
    if r.2 ≠ env.FAT32_LAST_CLUSTER then
      (r.1.setFile file { r.1._files file with
        last_fat_lookup := { CurrentCluster := r.2, ClusterIdx := ClusterIdx } }, r.2)
    else r

/-- The lists after an open call that started in state `st` with free list
`lf` and open list `lo`: the initialised flag is as before, and when the call
returned NULL both list heads and every link are as before. -/
def LinksKept (env : Env D) (st : Lib D) (lf lo : List Nat) (r : Lib D × Option Nat) : Prop :=
  r.1._filelib_init = st._filelib_init ∧
  (r.2 = none →
    r.1._open_file_list = st._open_file_list ∧ r.1._free_file_list = st._free_file_list ∧
    (∀ g, (r.1._files g).next = (st._files g).next) ∧
    PoolInv env.FATFS_MAX_OPEN_FILES r.1 lf lo)

/-- A number for each kind of event, in the order of the constructors. -/
def Event.tag : Event → Nat
  | .lock => 0
  | .unlock => 1
  | .init _ => 2
  | .get_file_entry _ _ _ => 3
  | .sfn_exists _ _ _ => 4
  | .allocate_free_space _ _ => 5
  | .add_file_entry _ _ _ _ _ _ _ => 6
  | .free_cluster_chain _ _ => 7
  | .update_file_length _ _ _ _ => 8
  | .mark_file_deleted _ _ _ => 9
  | .fat_purge => 10
  | .cache_init _ => 11
  | .cache_set _ _ _ => 12
  | .find_next_cluster _ _ => 13
  | .sector_read _ _ => 14
  | .write_sector _ _ _ _ => 15
  | .add_free_space _ _ _ => 16
  | .list_directory_start _ => 17
  | .list_directory_next _ => 18

/-- The lock and unlock calls of the events `evs` are matched and nested at
most `k` deep: from any count `c` of held locks with largest value `m`, the
count is `c` again after `evs`, and in between it was at most `c + k`. -/
def LockNest (k : Nat) (evs : List Event) : Prop :=
  ∀ c m, c ≤ m → (lock_count (c, m) evs).1 = c ∧ m ≤ (lock_count (c, m) evs).2 ∧
    (lock_count (c, m) evs).2 ≤ max m (c + k)

/-- From the state `st` to the state `st'` the lock callbacks attached are
the same, the events added to the trace are of the kinds `S`, and, when both
callbacks are attached, the lock and unlock calls among them are matched and
nested at most `k` deep. -/
def Nest (S : List Nat) (k : Nat) (st st' : Lib D) : Prop :=
  st'._fs.fl_lock = st._fs.fl_lock ∧ st'._fs.fl_unlock = st._fs.fl_unlock ∧
  ∃ evs, st'.trace = st.trace ++ evs ∧
    (st._fs.fl_lock = true → st._fs.fl_unlock = true → LockNest k evs) ∧
    ∀ e, e ∈ evs → e.tag ∈ S

/-- The events the call that led from `st` to `st'` added to the trace hold
matched lock and unlock calls, with at most `k` locks held at a time. -/
def LockDepth (k : Nat) (st st' : Lib D) : Prop :=
  ∃ evs, st'.trace = st.trace ++ evs ∧ (lock_count (0, 0) evs).1 = 0 ∧ lock_held_max evs ≤ k

/-- The start cluster that a call of `fatfs_allocate_free_space` returned
when it succeeded. -/
def Event.allocated : Event → Option Nat
  | Event.allocate_free_space true start => some start
  | _ => none

/-- The start cluster handed to a call of `fatfs_free_cluster_chain`. -/
def Event.freed : Event → Option Nat
  | Event.free_cluster_chain start _ => some start
  | _ => none

/-- Whether an event is a call of `fatfs_write_sector` that failed. -/
def Event.failed_write : Event → Bool
  | Event.write_sector _ _ _ false => true
  | _ => false

/-- Whether an event is a call of `fatfs_add_file_entry`. -/
def Event.is_add_file_entry : Event → Bool
  | Event.add_file_entry _ _ _ _ _ _ _ => true
  | _ => false

/-- The last of the events `evs` is a call of `fatfs_free_cluster_chain` on
the start cluster `c`. -/
def EndsFreeing (evs : List Event) (c : Nat) : Prop :=
  ∃ pre e, evs = pre ++ [e] ∧ e.freed = some c

/-- The events `evs` of a call end with `fatfs_free_cluster_chain` on every
start cluster that a successful `fatfs_allocate_free_space` among them
returned. -/
def FreedLast (evs : List Event) : Prop :=
  ∀ c, c ∈ evs.filterMap Event.allocated → EndsFreeing evs c

/-- The last of the events `evs` is a call of `fatfs_write_sector` that failed,
writing a sector of zeros to cluster `c`; no call before it was a write that
failed, and no event at all is a call of `fatfs_free_cluster_chain` or of
`fatfs_add_file_entry`. -/
def EraseFailed (evs : List Event) (c : Nat) : Prop :=
  (∃ pre i buf, evs = pre ++ [Event.write_sector c i buf false] ∧
    (∀ j, j < FAT_SECTOR_SIZE → buf j = 0) ∧ ∀ e, e ∈ pre → e.failed_write = false) ∧
  ∀ e, e ∈ evs → e.freed = none ∧ e.is_add_file_entry = false

/-- The trace of `st'` is the trace of `st` followed by events that all
satisfy `Q`. -/
def Adds (Q : Event → Prop) (st st' : Lib D) : Prop :=
  ∃ evs, st'.trace = st.trace ++ evs ∧ ∀ e, e ∈ evs → Q e

/-- The open that `fl_remove (path)` makes: `fl_ifopen (path, "r", 0)`, with
the lock taken. -/
def remove_open (env : Env D) (st : Lib D) (path : String) : Lib D × Option Nat :=
  fl_ifopen env (FL_LOCK st) (some path) (some "r") 0

/-- The result of the call of `fatfs_free_cluster_chain` that
`fl_remove (path)` makes when its open returned the record `file`. -/
def remove_freed (env : Env D) (st : Lib D) (path : String) (file : Nat) : Bool :=
  (fatfs_free_cluster_chain env (remove_open env st path).1
    ((remove_open env st path).1._files file).startcluster).2

/-- The result of the call of `fatfs_mark_file_deleted` that
`fl_remove (path)` makes after the cluster chain of the record `file` was
freed. -/
def remove_marked (env : Env D) (st : Lib D) (path : String) (file : Nat) : Bool :=
  (fatfs_mark_file_deleted env
    (fatfs_free_cluster_chain env (remove_open env st path).1
      ((remove_open env st path).1._files file).startcluster).1
    ((fatfs_free_cluster_chain env (remove_open env st path).1
      ((remove_open env st path).1._files file).startcluster).1._files file).parentcluster
    ((fatfs_free_cluster_chain env (remove_open env st path).1
      ((remove_open env st path).1._files file).startcluster).1._files
        file).shortfilename).2

/-- The pool after an open call for `path` that started in state `st` with
free list `lf` and open list `lo`, and ended in state `r.1` with result
`r.2`: the initialised flag and the names of the records that were open are
as before, and either nothing was opened and the lists are as before, or the
head of the free list is now the head of the open list and carries the names
the path splits into. -/
def OpenKept (env : Env D) (st : Lib D) (lf lo : List Nat) (path : String)
    (r : Lib D × Option Nat) : Prop :=
  r.1._filelib_init = st._filelib_init ∧
  (∀ g, g ∈ lo → (r.1._files g).path = (st._files g).path ∧
    (r.1._files g).filename = (st._files g).filename) ∧
  ((r.2 = none ∧ PoolInv env.FATFS_MAX_OPEN_FILES r.1 lf lo) ∨
    (∃ f lf', r.2 = some f ∧ lf = f :: lf' ∧
      PoolInv env.FATFS_MAX_OPEN_FILES r.1 lf' (f :: lo) ∧
      (r.1._files f).path = (env.split_path path).2.1 ∧
      (r.1._files f).filename = (env.split_path path).2.2))

/-- The record `f` is held for `path`: the library is initialised, its pool
is well formed, `f` is in the open list, and the names of `f` are those the
path splits into. -/
def Held (env : Env D) (path : String) (f : Nat) (st : Lib D) : Prop :=
  st._filelib_init ≠ 0 ∧
  (∃ lf lo, PoolInv env.FATFS_MAX_OPEN_FILES st lf lo ∧ f ∈ lo) ∧
  (st._files f).path = (env.split_path path).2.1 ∧
  (st._files f).filename = (env.split_path path).2.2

/-- The library states reached from `st0` by calls of `fl_fopen` and
`fl_remove` (any path and mode), calls of `fl_fclose` on handles other than
`f` that are open at the time of the call, and calls of `fl_fread`,
`fl_fread_sector`, `fl_fwrite`, `fl_fseek`, `fl_fflush` and `fl_feof` (any
arguments). -/
inductive LaterReach (env : Env D) (f : Nat) (st0 : Lib D) : Lib D → Prop
  | start : LaterReach env f st0 st0
  | fopen (st : Lib D) (path mode : Option String) : LaterReach env f st0 st →
      LaterReach env f st0 (fl_fopen env st path mode).1
  | remove (st : Lib D) (name : Option String) : LaterReach env f st0 st →
      LaterReach env f st0 (fl_remove env st name).1
  | fclose (st : Lib D) (g : Nat) (lo : List Nat) : LaterReach env f st0 st →
      IsList st st._open_file_list lo → g ∈ lo → g ≠ f →
      LaterReach env f st0 (fl_fclose env st (some g))
  | fread (st : Lib D) (buffer : Option Bytes) (size length : Int) (h : Option Nat) :
      LaterReach env f st0 st → LaterReach env f st0 (fl_fread env st buffer size length h).1
  | fread_sector (st : Lib D) (buffer : Option Bytes) (size length : Int) (h : Option Nat) :
      LaterReach env f st0 st →
      LaterReach env f st0 (fl_fread_sector env st buffer size length h).1
  | fwrite (st : Lib D) (data : Bytes) (size count : Int) (h : Option Nat) :
      LaterReach env f st0 st → LaterReach env f st0 (fl_fwrite env st data size count h).1
  | fseek (st : Lib D) (h : Option Nat) (offset origin : Int) :
      LaterReach env f st0 st → LaterReach env f st0 (fl_fseek env st h offset origin).1
  | fflush (st : Lib D) (h : Option Nat) :
      LaterReach env f st0 st → LaterReach env f st0 (fl_fflush env st h).1
  | feof (st : Lib D) (h : Option Nat) :
      LaterReach env f st0 st → LaterReach env f st0 (fl_feof st h).1

/-- Whether the lock and unlock calls of the events `evs` are nested, from
`d` locks held: no `unlock()` comes when no lock is held, no more than `k`
locks are held at any time, and with `closed` no lock is held at the end. -/
def lock_nested (k : Nat) (closed : Bool) : Nat → List Event → Bool
  | d, [] => !closed || d == 0
  | d, Event.lock :: evs => decide (d + 1 ≤ k) && lock_nested k closed (d + 1) evs
  | d, Event.unlock :: evs => decide (0 < d) && lock_nested k closed (d - 1) evs
  | d, _ :: evs => lock_nested k closed d evs

/-- The lock and unlock calls that the call leading from `st` to `st'` added
to the trace are matched and nested, at most `k` deep: every `unlock()`
releases a lock taken in the call, at most `k` locks are held at a time, and
none is held when the call returns. -/
def Matched (k : Nat) (st st' : Lib D) : Prop :=
  ∃ evs, st'.trace = st.trace ++ evs ∧ lock_nested k true 0 evs = true

/-- The same for a call that has not returned: every `unlock()` so far
releases a lock taken in the call and at most `k` locks are held at a time. -/
def Nested (k : Nat) (st st' : Lib D) : Prop :=
  ∃ evs, st'.trace = st.trace ++ evs ∧ lock_nested k false 0 evs = true

/-- The buffer between two passes of the loop of `fl_fwrite`, spelled out for
a pass that leaves the sector it has filled: the dirty buffer of the state
`st` is written back by `fl_fflush`; the sector `sector` is then read, unless
the whole of it is about to be overwritten (`copyCount` is 512); and the
buffer takes the address `sector`. -/
def fwrite_next (env : Env D) (st : Lib D) (file sector copyCount : Nat) : Lib D :=
  let st := (fl_fflush env st (some file)).1
  let st := if copyCount ≠ FAT_SECTOR_SIZE then fwrite_read env st file sector else st
  st.setFile file { st._files file with
    file_data := { (st._files file).file_data with address := sector, dirty := 0 } }
/-! ## A small volume

The theorems below hold for every volume layer.  To run the library on
concrete inputs, here is one volume layer: a handful of clusters of one
sector each, a FAT, and a root directory. -/

/-- Modelled from the spec: the state of a small volume (§3): the FAT (entry
0 is a free cluster), the number of data clusters, the data sectors by LBA,
and the entries of the root directory with their long names. -/
structure Vol where
  fat : Nat → Nat
  clusters : Nat
  data : Nat → Bytes
  dir : List (String × fat_dir_entry)

/-- Modelled from the spec: the end-of-chain value the engine uses (§3),
`FAT32_LAST_CLUSTER`. -/
def Vol.EOC : Nat := 0x0FFFFFFF

/-- Modelled from the spec: `find_free` (§4.3), a linear scan from cluster 2
for an entry that is 0. -/
def Vol.find_free (v : Vol) : Option Nat :=
  ((List.range v.clusters).map (fun c => c + 2)).find? (fun c => v.fat c = 0)

/-- Modelled from the spec: `add_free_space` (§4.3): allocate one more
cluster and splice it onto the chain whose tail is `last`; fails when the
disk is full. -/
def Vol.add_free_space (v : Vol) (last : Nat) : Vol × Bool × Nat :=
  match v.find_free with
  | none => (v, false, last)
  | some c =>
    ({ v with fat := fun k => if k = c then Vol.EOC else if k = last then c else v.fat k },
      true, c)

/-- Modelled from the spec: `allocate_free_space` (§4.3) for one cluster. -/
def Vol.allocate_free_space (v : Vol) (start : Nat) : Vol × Bool × Nat :=
  match v.find_free with
  | none => (v, false, start)
  | some c => ({ v with fat := fun k => if k = c then Vol.EOC else v.fat k }, true, c)

/-- Modelled from the spec: `free_cluster_chain` (§4.3): walk the chain
writing 0 to each entry. -/
def Vol.free_chain (fat : Nat → Nat) : Nat → Nat → Nat → Nat
  | 0, _ => fat
  | n + 1, c =>
    if c < 2 ∨ c = Vol.EOC then fat
    else Vol.free_chain (fun k => if k = c then 0 else fat k) n (fat c)

/-- Modelled from the spec: `split_path` (§4.5): the rightmost `/` separates
the directory path (empty for the root) from the leaf. -/
def Vol.split_path (p : String) : Int × String × String :=
  let leaf := (p.data.reverse.takeWhile (fun c => c ≠ '/')).reverse
  let dir := ((p.data.reverse.dropWhile (fun c => c ≠ '/')).reverse.dropLast).dropWhile
    (fun c => c = '/')
  (if leaf = [] then -1 else 0, String.mk dir, String.mk leaf)

/-- Modelled from the spec: `generate_sfn` (§4.4), simplified: the first
eleven characters in upper case, padded with spaces. -/
def Vol.sfn (name : String) : List Nat :=
  ((name.data.map (fun (c : Char) => c.toUpper.toNat)) ++ List.replicate 11 32).take 11

/-- Modelled from the spec: the cursor at the first entry of the directory
in `cluster` (§4.4, `enumerate`). -/
def Vol.dir_start (cluster : Nat) : FL_DIR where
  sector := 0
  cluster := cluster
  offset := 0

/-- Modelled from the spec: the next entry of the enumeration (§4.4): the
entry of the root directory at the cursor, with the cursor moved past it, or
the result 0 at the end of the directory. -/
def Vol.dir_next (v : Vol) (d : FL_DIR) (e : fs_dir_ent) : Int × FL_DIR × fs_dir_ent :=
  match (if d.cluster = 2 then v.dir.get? d.offset else none) with
  | some x =>
    let d1 : FL_DIR := { d with offset := d.offset + 1 }
    let e1 : fs_dir_ent :=
      { filename := x.1, is_dir := if x.2.Attr &&& 0x10 ≠ 0 then 1 else 0,
        cluster := x.2.FstClusHI * 65536 + x.2.FstClusLO, size := x.2.FileSize }
    (1, d1, e1)
  | none => (0, d, e)

/-- Modelled from the spec: a volume layer over `Vol` (§4.3, §4.4, §4.5):
one sector per cluster, the cluster number is the LBA, the root directory is
cluster 2 and the only directory, no per-file cluster cache (§4.6 allows
that), 32-bit `unsigned long`, a pool of two handles. -/
def Vol.env : Env Vol where
  ULONG_BITS := 32
  FATFS_MAX_OPEN_FILES := 2
  FATFS_INC_LFN_SUPPORT := true
  FAT32_LAST_CLUSTER := Vol.EOC
  FAT_HTONS := fun n => n
  FAT_HTONL := fun n => n
  compare_names := fun a b => decide (a.data = b.data)
  split_path := Vol.split_path
  total_path_levels := fun _ => 0
  get_substring := fun p i => if i = 0 then (0, p) else (-1, "")
  lfn_create_sfn := fun name => (1, Vol.sfn name)
  lfn_generate_tail := fun sfn n => sfn.take 9 ++ [126, 48 + (n.toNat % 10)]
  entry_is_dir := fun e => decide (e.Attr &&& 0x10 ≠ 0)
  entry_is_file := fun e => decide (e.Attr &&& 0x10 = 0)
  init := fun v => (v, 0, 1)
  get_root_cluster := fun _ => 2
  lba_of_cluster := fun _ c => c
  get_file_entry := fun v cluster name =>
    match (if cluster = 2 then v.dir.find? (fun e => decide (e.1.data = name.data)) else none) with
    | some e => (v, 1, e.2)
    | none => (v, 0, { Name := [], Attr := 0, FstClusHI := 0, FstClusLO := 0, FileSize := 0 })
  sfn_exists := fun v _ sfn => (v, if v.dir.any (fun e => decide (e.2.Name = sfn)) then 1 else 0)
  allocate_free_space := fun v _ start _ => v.allocate_free_space start
  add_file_entry := fun v _ name sfn start size dir =>
    let e : fat_dir_entry :=
      { Name := sfn, Attr := (if dir = 0 then 0x20 else 0x10), FstClusHI := start / 65536,
        FstClusLO := start % 65536, FileSize := size }
    ({ v with dir := v.dir ++ [(name, e)] }, true)
  free_cluster_chain := fun v start =>
    ({ v with fat := Vol.free_chain v.fat v.clusters start }, true)
  update_file_length := fun v _ sfn len =>
    ({ v with dir := v.dir.map (fun e =>
        if e.2.Name = sfn then (e.1, { e.2 with FileSize := len }) else e) }, true)
  mark_file_deleted := fun v _ sfn =>
    ({ v with dir := v.dir.filter (fun e => decide (e.2.Name ≠ sfn)) }, true)
  fat_purge := fun v => v
  cache_init := fun v _ => v
  cache_get_next_cluster := fun _ _ _ => none
  cache_set_next_cluster := fun v _ _ _ => v
  find_next_cluster := fun v c =>
    (v, if v.fat c ≥ 0x0FFFFFF8 ∨ v.fat c < 2 then Vol.EOC else v.fat c)
  sector_read := fun v lba buf =>
    if lba < v.clusters + 2 then (v, true, v.data lba) else (v, false, buf)
  write_sector := fun v cluster sector buf =>
    if cluster + sector < v.clusters + 2 then
      ({ v with data := fun l => if l = cluster + sector then buf else v.data l }, true)
    else (v, false)
  add_free_space := fun v last => v.add_free_space last
  FAT32_INVALID_CLUSTER := 0xFFFFFFFF
  list_directory_start := fun v _ cluster => (v, Vol.dir_start cluster)
  list_directory_next := fun v d e => (v, Vol.dir_next v d e)

/-- A record of the pool before it is used. -/
def FL_FILE.blank : FL_FILE where
  parentcluster := 0
  startcluster := 0
  bytenum := 0
  filelength := 0
  filelength_changed := 0
  path := ""
  filename := ""
  shortfilename := []
  last_fat_lookup := { ClusterIdx := 0, CurrentCluster := 0 }
  file_data := { sector := fun _ => 0, address := 0, dirty := 0 }
  flags := 0
  next := none

/-- The library before its first call (all file-scope variables zero), on the
volume `v`; no locks attached. -/
def Vol.boot (v : Vol) : Lib Vol where
  _files := fun _ => FL_FILE.blank
  _filelib_init := 0
  _filelib_valid := 0
  _fs := { sectors_per_cluster := 0, disk_io_write_sector := false, fl_lock := false,
           fl_unlock := false, vol := v }
  _open_file_list := none
  _free_file_list := none
  trace := []

/-- A volume of `n` data clusters holding only the (empty) root directory in
cluster 2; every data byte is `fill`. -/
def Vol.empty (n fill : Nat) : Vol where
  fat := fun c => if c = 2 then Vol.EOC else 0
  clusters := n
  data := fun _ _ => fill
  dir := []

/-- The library after `fl_attach_media` with both callbacks on the volume
`v`. -/
def Vol.mounted (v : Vol) : Lib Vol := (fl_attach_media Vol.env (Vol.boot v) true).1


/-- A volume of `n` data clusters whose root directory holds one regular file
`a` of `len` bytes; its chain starts at cluster 3 and has `chain` clusters;
byte `i` of the sector at LBA `l` is `(7 * l + i) % 256`. -/
def Vol.with_file (n len chain : Nat) : Vol where
  fat := fun c =>
    if c = 2 then Vol.EOC
    else if 3 ≤ c ∧ c < 3 + chain then (if c + 1 < 3 + chain then c + 1 else Vol.EOC)
    else 0
  clusters := n
  data := fun l i => (7 * l + i) % 256
  dir := [("a", { Name := Vol.sfn "a", Attr := 0x20, FstClusHI := 0, FstClusLO := 3,
                  FileSize := len })]

/-- The library after `fl_fopen("/a", mode)` on the mounted volume `v`, and
the handle returned. -/
def Vol.opened (v : Vol) (mode : String) : Lib Vol × Option Nat :=
  fl_fopen Vol.env (Vol.mounted v) (some "/a") (some mode)

/-- Modelled from the spec: the volume layer `Vol.env` on a directory in which
every short name is taken but the one with the tail `~9999` built from the
name `b`; the tail of number `n` is written as the two entries `~`, `n` after
the untailed name. -/
def Vol.tail_env : Env Vol :=
  { Vol.env with
    lfn_generate_tail := fun sfn n => sfn ++ [126, n.toNat]
    sfn_exists := fun v _ sfn => (v, if sfn = Vol.sfn "b" ++ [126, 9999] then 0 else 1) }

/-- Modelled from the spec: a small volume together with the per-file cluster
cache (§4.6) as a faithful map: the entries stored, newest first, each a
triple (file, cluster index, next cluster). -/
structure CVol where
  vol : Vol
  cache : List (Nat × Nat × Nat)

/-- Modelled from the spec: the volume layer `Vol.env` with the cluster cache
kept: a lookup returns what the last store for that file and index put there,
and `fatfs_cache_init` drops the entries of the file. -/
def CVol.env : Env CVol :=
  { ULONG_BITS := Vol.env.ULONG_BITS
    FATFS_MAX_OPEN_FILES := Vol.env.FATFS_MAX_OPEN_FILES
    FATFS_INC_LFN_SUPPORT := Vol.env.FATFS_INC_LFN_SUPPORT
    FAT32_LAST_CLUSTER := Vol.env.FAT32_LAST_CLUSTER
    FAT_HTONS := Vol.env.FAT_HTONS
    FAT_HTONL := Vol.env.FAT_HTONL
    compare_names := Vol.env.compare_names
    split_path := Vol.env.split_path
    total_path_levels := Vol.env.total_path_levels
    get_substring := Vol.env.get_substring
    lfn_create_sfn := Vol.env.lfn_create_sfn
    lfn_generate_tail := Vol.env.lfn_generate_tail
    entry_is_dir := Vol.env.entry_is_dir
    entry_is_file := Vol.env.entry_is_file
    init := fun v => ({ v with vol := (Vol.env.init v.vol).1 }, (Vol.env.init v.vol).2)
    get_root_cluster := fun v => Vol.env.get_root_cluster v.vol
    lba_of_cluster := fun v c => Vol.env.lba_of_cluster v.vol c
    get_file_entry := fun v c n =>
      ({ v with vol := (Vol.env.get_file_entry v.vol c n).1 },
        (Vol.env.get_file_entry v.vol c n).2)
    sfn_exists := fun v c s =>
      ({ v with vol := (Vol.env.sfn_exists v.vol c s).1 }, (Vol.env.sfn_exists v.vol c s).2)
    allocate_free_space := fun v a b c =>
      ({ v with vol := (Vol.env.allocate_free_space v.vol a b c).1 },
        (Vol.env.allocate_free_space v.vol a b c).2)
    add_file_entry := fun v c n s a b d =>
      ({ v with vol := (Vol.env.add_file_entry v.vol c n s a b d).1 },
        (Vol.env.add_file_entry v.vol c n s a b d).2)
    free_cluster_chain := fun v c =>
      ({ v with vol := (Vol.env.free_cluster_chain v.vol c).1 },
        (Vol.env.free_cluster_chain v.vol c).2)
    update_file_length := fun v c s l =>
      ({ v with vol := (Vol.env.update_file_length v.vol c s l).1 },
        (Vol.env.update_file_length v.vol c s l).2)
    mark_file_deleted := fun v c s =>
      ({ v with vol := (Vol.env.mark_file_deleted v.vol c s).1 },
        (Vol.env.mark_file_deleted v.vol c s).2)
    fat_purge := fun v => { v with vol := Vol.env.fat_purge v.vol }
    cache_init := fun v file => { v with cache := v.cache.filter (fun e => decide (e.1 ≠ file)) }
    cache_get_next_cluster := fun v file i =>
      (v.cache.find? (fun e => decide (e.1 = file ∧ e.2.1 = i))).map (fun e => e.2.2)
    cache_set_next_cluster := fun v file i n => { v with cache := (file, i, n) :: v.cache }
    find_next_cluster := fun v c =>
      ({ v with vol := (Vol.env.find_next_cluster v.vol c).1 },
        (Vol.env.find_next_cluster v.vol c).2)
    sector_read := fun v l b =>
      ({ v with vol := (Vol.env.sector_read v.vol l b).1 }, (Vol.env.sector_read v.vol l b).2)
    write_sector := fun v c s b =>
      ({ v with vol := (Vol.env.write_sector v.vol c s b).1 },
        (Vol.env.write_sector v.vol c s b).2)
    add_free_space := fun v l =>
      ({ v with vol := (Vol.env.add_free_space v.vol l).1 }, (Vol.env.add_free_space v.vol l).2)
    FAT32_INVALID_CLUSTER := Vol.env.FAT32_INVALID_CLUSTER
    list_directory_start := fun v d c =>
      ({ v with vol := (Vol.env.list_directory_start v.vol d c).1 },
        (Vol.env.list_directory_start v.vol d c).2)
    list_directory_next := fun v d e =>
      ({ v with vol := (Vol.env.list_directory_next v.vol d e).1 },
        (Vol.env.list_directory_next v.vol d e).2) }

/-- The library before its first call on the volume `v` with an empty cluster
cache; no locks attached. -/
def CVol.boot (v : Vol) : Lib CVol where
  _files := fun _ => FL_FILE.blank
  _filelib_init := 0
  _filelib_valid := 0
  _fs := { sectors_per_cluster := 0, disk_io_write_sector := false, fl_lock := false,
           fl_unlock := false, vol := { vol := v, cache := [] } }
  _open_file_list := none
  _free_file_list := none
  trace := []

/-- The run of the library, on any volume layer, that writes two sectors of
the byte 65 to a new file `a`, flushes, seeks back to the start and reads the
two sectors: `fl_fopen ("/a", "w+")`, `fl_fwrite (data, 1, 1024, f)`,
`fl_fflush (f)`, `fl_fseek (f, 0, SEEK_SET)`, `fl_fread (buf, 1, 1024, f)`,
from the state `st` after `fl_attach_media`; the result of the read. -/
def write_then_read (env : Env D) (st : Lib D) : Lib D × Option Bytes × Int :=
  let o := fl_fopen env st (some "/a") (some "w+")
  let w := fl_fwrite env o.1 (fun _ => 65) 1 1024 o.2
  let f := fl_fflush env w.1 o.2
  let s := fl_fseek env f.1 o.2 0 SEEK_SET
  fl_fread env s.1 (some (fun _ => 0)) 1 1024 o.2

/-- A volume whose file `a` has 0xFFFFFC10 bytes, 16 of them in its last
sector, in a chain of 0x7FFFFF clusters from cluster 3. -/
def Vol.large : Vol := Vol.with_file 0x800000 0xFFFFFC10 0x7FFFFF

/-- The library with the file `a` of `Vol.large` open for reading (handle 1),
the cursor at 0xFFFFFC00, 16 bytes before the end, and the last lookup of the
handle at cluster index 0x7FFFFD, cluster 0x800000: the position that a read
of the 512 bytes before that offset leaves.  The buffered sector is not
valid. -/
def Vol.near_end : Lib Vol :=
  (Vol.opened Vol.large "r").1.setFile 1
    { (Vol.opened Vol.large "r").1._files 1 with
      bytenum := 0xFFFFFC00
      last_fat_lookup := { ClusterIdx := 0x7FFFFD, CurrentCluster := 0x800000 } }

/-- Modelled from the spec: the volume layer `Vol.env` on a medium whose
sector writes fail (§3, the write callback returns 0). -/
def Vol.bad_write_env : Env Vol :=
  { Vol.env with write_sector := fun v _ _ _ => (v, false) }

/-- Modelled from the spec: the volume layer `Vol.env` on a directory that
takes no further entry (§4.4, `add_entry` fails). -/
def Vol.full_dir_env : Env Vol :=
  { Vol.env with add_file_entry := fun v _ _ _ _ _ _ => (v, false) }

/-- Modelled from the spec: the volume layer `Vol.env` on a directory whose
entries cannot be marked deleted (§4.4, `mark_deleted` fails). -/
def Vol.bad_mark_env : Env Vol :=
  { Vol.env with mark_file_deleted := fun v _ _ => (v, false) }

/-- A volume whose file `a` has `len` bytes in a chain of 0x800000 clusters
from cluster 3 (sectors 0 to 0x7FFFFF, the last one in cluster 0x800002). -/
def Vol.huge (len : Nat) : Vol := Vol.with_file 0x800001 len 0x800000

/-- The library with the file `a` of `Vol.huge len` open in mode `mode`
(handle 1), the cursor at `c` in the last sector of the file, and the last
lookup of the handle at cluster index 0x7FFFFE, cluster 0x800001, the one
that an access to the sector before the last one leaves.  The buffered
sector is not valid, as after a seek. -/
def Vol.at_last_sector (len c : Nat) (mode : String) : Lib Vol :=
  (Vol.opened (Vol.huge len) mode).1.setFile 1
    { (Vol.opened (Vol.huge len) mode).1._files 1 with
      bytenum := c
      last_fat_lookup := { ClusterIdx := 0x7FFFFE, CurrentCluster := 0x800001 } }

/-- Modelled from the spec: the volume layer `Vol.env` in which the path `/`
names the root directory itself, with no level below it (§4.5). -/
def Vol.list_env : Env Vol :=
  { Vol.env with total_path_levels := fun p => if p.data = ['/'] then -1 else 0 }

/-- The library on the volume with the cluster cache kept, after the file `a`
(three sectors in the chain 3, 4, 5) is opened for reading, its first two
sectors are read, and after a seek to the start its first byte is read
again: `fl_fopen ("/a", "r")`, `fl_fread (buf, 1, 1024, f)`, `fl_fseek (f, 0,
SEEK_SET)`, `fl_fread (buf, 1, 1, f)`. -/
def CVol.reread : Lib CVol :=
  let o := fl_fopen CVol.env (fl_attach_media CVol.env (CVol.boot (Vol.with_file 6 1500 3))
    true).1 (some "/a") (some "r")
  let r := fl_fread CVol.env o.1 (some (fun _ => 0)) 1 1024 o.2
  let s := fl_fseek CVol.env r.1 o.2 0 SEEK_SET
  (fl_fread CVol.env s.1 (some (fun _ => 0)) 1 1 o.2).1
/-! ## Frame lemmas -/

@[simp] theorem setFile_files (st : Lib D) (i : Nat) (r : FL_FILE) (j : Nat) :
    (st.setFile i r)._files j = if j = i then r else st._files j := rfl

@[simp] theorem setFile_fs (st : Lib D) (i : Nat) (r : FL_FILE) : (st.setFile i r)._fs = st._fs := rfl

@[simp] theorem setFile_trace (st : Lib D) (i : Nat) (r : FL_FILE) :
    (st.setFile i r).trace = st.trace := rfl

@[simp] theorem setFile_init (st : Lib D) (i : Nat) (r : FL_FILE) :
    (st.setFile i r)._filelib_init = st._filelib_init := rfl

@[simp] theorem step_files (st : Lib D) (v : D) (e : Event) : (st.step v e)._files = st._files := rfl

@[simp] theorem step_init (st : Lib D) (v : D) (e : Event) :
    (st.step v e)._filelib_init = st._filelib_init := rfl

@[simp] theorem step_trace (st : Lib D) (v : D) (e : Event) :
    (st.step v e).trace = st.trace ++ [e] := rfl

@[simp] theorem step_spc (st : Lib D) (v : D) (e : Event) :
    (st.step v e)._fs.sectors_per_cluster = st._fs.sectors_per_cluster := rfl

@[simp] theorem step_lock (st : Lib D) (v : D) (e : Event) :
    (st.step v e)._fs.fl_lock = st._fs.fl_lock := rfl

@[simp] theorem step_unlock (st : Lib D) (v : D) (e : Event) :
    (st.step v e)._fs.fl_unlock = st._fs.fl_unlock := rfl

@[simp] theorem FL_LOCK_files (st : Lib D) : (FL_LOCK st)._files = st._files := by
  unfold FL_LOCK; split <;> rfl

@[simp] theorem FL_UNLOCK_files (st : Lib D) : (FL_UNLOCK st)._files = st._files := by
  unfold FL_UNLOCK; split <;> rfl

@[simp] theorem FL_LOCK_init (st : Lib D) : (FL_LOCK st)._filelib_init = st._filelib_init := by
  unfold FL_LOCK; split <;> rfl

@[simp] theorem FL_UNLOCK_init (st : Lib D) : (FL_UNLOCK st)._filelib_init = st._filelib_init := by
  unfold FL_UNLOCK; split <;> rfl

theorem fl_init_foldl (l : List Nat) : ∀ (s : Lib D) (g : Nat),
    ∃ n, (l.foldl (fun (s : Lib D) i =>
      { s.setFile i { s._files i with next := s._free_file_list } with
        _free_file_list := some i }) s)._files g = { s._files g with next := n } := by
  induction l with
  | nil => intro s g; exact ⟨(s._files g).next, rfl⟩
  | cons i l ih =>
    intro s g
    obtain ⟨n, hn⟩ := ih ({ s.setFile i { s._files i with next := s._free_file_list } with
        _free_file_list := some i }) g
    refine ⟨n, ?_⟩
    rw [List.foldl_cons, hn]
    by_cases h : g = i
    · subst h; simp
    · simp [h]

theorem fl_init_files (env : Env D) (st : Lib D) (g : Nat) :
    ∃ n, (fl_init env st)._files g = { st._files g with next := n } := by
  obtain ⟨n, hn⟩ := fl_init_foldl (List.range env.FATFS_MAX_OPEN_FILES) st g
  exact ⟨n, by unfold fl_init; simpa using hn⟩

theorem CHECK_FL_INIT_files (env : Env D) (st : Lib D) (g : Nat) :
    ∃ n, (CHECK_FL_INIT env st)._files g = { st._files g with next := n } := by
  unfold CHECK_FL_INIT
  split
  · exact fl_init_files env st g
  · exact ⟨(st._files g).next, rfl⟩

theorem CHECK_FL_INIT_of_init (env : Env D) (st : Lib D) (h : st._filelib_init ≠ 0) :
    CHECK_FL_INIT env st = st := by
  unfold CHECK_FL_INIT; simp [h]


/-! ## Integer conversions -/

theorem to_ulong_of_nonneg (w : Nat) (x : Int) (h0 : 0 ≤ x) (h1 : x < (2 : Int) ^ w) :
    to_ulong w x = x.toNat := by
  unfold to_ulong; rw [Int.emod_eq_of_lt h0 h1]

theorem to_ulong_of_neg (w : Nat) (x : Int) (h0 : x < 0) (h1 : -(2 : Int) ^ w ≤ x) :
    to_ulong w x = ((2 : Int) ^ w + x).toNat := by
  unfold to_ulong
  have h : x % (2 : Int) ^ w = (2 : Int) ^ w + x := by
    rw [← Int.add_mul_emod_self_left x ((2 : Int) ^ w) 1, mul_one, add_comm]
    exact Int.emod_eq_of_lt (by omega) (by omega)
  rw [h]

theorem to_ulong_natCast (w : Nat) (a : Nat) (h : a < 2 ^ w) : to_ulong w (a : Int) = a := by
  rw [to_ulong_of_nonneg w a (by omega) (by exact_mod_cast h)]; simp

theorem to_long_modEq (w : Nat) (x : Int) : to_long w x % (2 : Int) ^ w = x % (2 : Int) ^ w := by
  unfold to_long
  rw [Int.sub_emod, Int.emod_emod_of_dvd _ (dvd_refl _), ← Int.sub_emod]
  simp

theorem to_ulong_to_long (w : Nat) (x : Int) : to_ulong w (to_long w x) = to_ulong w x := by
  unfold to_ulong; rw [to_long_modEq]

theorem to_ulong_sub_to_long (w : Nat) (a x : Int) :
    to_ulong w (a - to_long w x) = to_ulong w (a - x) := by
  unfold to_ulong
  rw [Int.sub_emod, to_long_modEq, ← Int.sub_emod]

theorem to_int_of_range (x : Int) (h0 : -2147483648 ≤ x) (h1 : x < 2147483648) : to_int x = x := by
  unfold to_int; omega


/-! ## What the sector functions leave alone -/

theorem read_walk_files (env : Env D) (file ClusterIdx : Nat) :
    ∀ (fuel : Nat) (st : Lib D) (i c : Nat),
      (read_walk env file ClusterIdx fuel st i c).1._files = st._files := by
  intro fuel
  induction fuel with
  | zero => intro st i c; rfl
  | succ n ih =>
    intro st i c
    unfold read_walk
    split
    · split
      · exact ih _ _ _
      · rw [ih]; rfl
    · rfl

theorem write_walk_files (env : Env D) (file ClusterIdx : Nat) :
    ∀ (fuel : Nat) (st : Lib D) (i c l : Nat),
      (write_walk env file ClusterIdx fuel st i c l).1._files = st._files := by
  intro fuel
  induction fuel with
  | zero => intro st i c l; rfl
  | succ n ih =>
    intro st i c l
    unfold write_walk
    simp only []
    split_ifs
    · split <;> rfl
    · rw [ih]; split <;> rfl
    · rfl

theorem pos_setFile (st : Lib D) (i : Nat) (r : FL_FILE) (g : Nat)
    (h : r.pos = (st._files i).pos) : ((st.setFile i r)._files g).pos = (st._files g).pos := by
  rw [setFile_files]; split
  · subst_vars; exact h
  · rfl

theorem _read_sector_pos (env : Env D) (st : Lib D) (file offset : Nat) (buffer : Bytes)
    (g : Nat) :
    ((_read_sector env st file offset buffer).1._files g).pos = (st._files g).pos := by
  unfold _read_sector
  simp only [fatfs_sector_read]
  split_ifs <;> simp [FL_FILE.pos, read_walk_files] <;> split_ifs <;> simp_all

theorem _write_sector_pos (env : Env D) (st : Lib D) (file offset : Nat) (buf : Bytes)
    (g : Nat) :
    ((_write_sector env st file offset buf).1._files g).pos = (st._files g).pos := by
  unfold _write_sector
  simp only [fatfs_write_sector, fatfs_add_free_space]
  split_ifs <;> simp [FL_FILE.pos, write_walk_files] <;> split_ifs <;> simp_all

theorem CHECK_FL_INIT_pos (env : Env D) (st : Lib D) (g : Nat) :
    ((CHECK_FL_INIT env st)._files g).pos = (st._files g).pos := by
  obtain ⟨n, hn⟩ := CHECK_FL_INIT_files env st g
  rw [hn]; rfl

theorem fl_fflush_pos (env : Env D) (st : Lib D) (f : Option Nat) (g : Nat) :
    ((fl_fflush env st f).1._files g).pos = (st._files g).pos := by
  unfold fl_fflush
  cases f with
  | none => exact CHECK_FL_INIT_pos env st g
  | some file =>
    simp only [FL_UNLOCK_files]
    split_ifs
    · refine (pos_setFile _ _ _ _ ?_).trans ?_
      · rfl
      · rw [_write_sector_pos, FL_LOCK_files, CHECK_FL_INIT_pos]
    · rw [_write_sector_pos, FL_LOCK_files, CHECK_FL_INIT_pos]
    · rw [FL_LOCK_files, CHECK_FL_INIT_pos]

theorem flush_dirty_pos (env : Env D) (st : Lib D) (file g : Nat) :
    ((flush_dirty env st file)._files g).pos = (st._files g).pos := by
  unfold flush_dirty; split
  · exact fl_fflush_pos env st _ g
  · rfl

theorem fwrite_read_pos (env : Env D) (st : Lib D) (file sector g : Nat) :
    ((fwrite_read env st file sector)._files g).pos = (st._files g).pos := by
  unfold fwrite_read
  simp only []
  refine (pos_setFile _ _ _ _ ?_).trans ?_
  · rfl
  · rw [_read_sector_pos]

theorem fwrite_fetch_pos (env : Env D) (st : Lib D) (file sector cc g : Nat) :
    ((fwrite_fetch env st file sector cc)._files g).pos = (st._files g).pos := by
  unfold fwrite_fetch
  simp only []
  split_ifs
  · refine (pos_setFile _ _ _ _ ?_).trans ?_
    · rfl
    · rw [fwrite_read_pos, flush_dirty_pos]
  · refine (pos_setFile _ _ _ _ ?_).trans ?_
    · rfl
    · rw [flush_dirty_pos]
  · rfl

theorem fread_fetch_pos (env : Env D) (st : Lib D) (file sector g : Nat) :
    (((fread_fetch env st file sector).1)._files g).pos = (st._files g).pos := by
  unfold fread_fetch
  simp only []
  split_ifs
  · refine (pos_setFile _ _ _ _ ?_).trans ?_
    · rfl
    · rw [_read_sector_pos, flush_dirty_pos]
  · refine (pos_setFile _ _ _ _ ?_).trans ((pos_setFile _ _ _ _ ?_).trans ?_)
    · rfl
    · rfl
    · rw [_read_sector_pos, flush_dirty_pos]
  · rfl

/-! ## The loop of `fl_fwrite` -/

theorem pos_fields (a b : FL_FILE) (h : a.pos = b.pos) :
    a.bytenum = b.bytenum ∧ a.filelength = b.filelength ∧
    a.filelength_changed = b.filelength_changed ∧ a.flags = b.flags := by
  simpa [FL_FILE.pos] using h

theorem fwrite_copyCount_pos (length bw offset : Nat) (h1 : bw < length) (h2 : offset < 512) :
    0 < fwrite_copyCount length bw offset ∧ fwrite_copyCount length bw offset ≤ length - bw ∧
    fwrite_copyCount length bw offset ≤ 512 - offset ∧
    (512 - offset ≤ length - bw → fwrite_copyCount length bw offset = 512 - offset) ∧
    (length - bw ≤ 512 - offset → fwrite_copyCount length bw offset = length - bw) := by
  unfold fwrite_copyCount FAT_SECTOR_SIZE
  split_ifs <;> omega

theorem fwrite_fetch_address (env : Env D) (st : Lib D) (file sector cc : Nat) :
    ((fwrite_fetch env st file sector cc)._files file).file_data.address = sector := by
  unfold fwrite_fetch
  simp only []
  split_ifs with h1 h2
  · simp
  · simp
  · simpa using h1

theorem fwrite_copy_pos (env : Env D) (st : Lib D) (file : Nat) (data : Bytes)
    (offset bw cc : Nat) :
    ((fwrite_copy env st file data offset bw cc)._files file).pos =
      (((st._files file).bytenum + cc) % 2 ^ env.ULONG_BITS, (st._files file).filelength,
        (st._files file).filelength_changed, (st._files file).flags) := by
  simp [fwrite_copy, FL_FILE.pos]

theorem fwrite_copy_data (env : Env D) (st : Lib D) (file : Nat) (data : Bytes)
    (offset bw cc : Nat) :
    ((fwrite_copy env st file data offset bw cc)._files file).file_data =
      { sector := memcpy (st._files file).file_data.sector offset data bw cc,
        address := (st._files file).file_data.address, dirty := 1 } := by
  simp [fwrite_copy]

theorem fl_fwrite_loop_succ (env : Env D) (file : Nat) (data : Bytes) (length fuel : Nat)
    (st : Lib D) (sector offset bw : Nat) (h : bw < length) :
    fl_fwrite_loop env file data length (fuel + 1) st sector offset bw =
      fl_fwrite_loop env file data length fuel
        (fwrite_copy env (fwrite_fetch env st file sector (fwrite_copyCount length bw offset))
          file data offset bw (fwrite_copyCount length bw offset))
        ((sector + 1) % 2 ^ env.ULONG_BITS) 0 (bw + fwrite_copyCount length bw offset) := by
  rw [fl_fwrite_loop]; simp [h]

theorem fl_fwrite_loop_done (env : Env D) (file : Nat) (data : Bytes) (length fuel : Nat)
    (st : Lib D) (sector offset bw : Nat) (h : ¬ bw < length) :
    fl_fwrite_loop env file data length fuel st sector offset bw = st := by
  cases fuel with
  | zero => rfl
  | succ n => rw [fl_fwrite_loop]; simp [h]

/-- The cursor after the loop of `fl_fwrite`. -/
theorem fl_fwrite_loop_pos (env : Env D) (file : Nat) (data : Bytes) (length : Nat) :
    ∀ (fuel : Nat) (st : Lib D) (sector offset bw : Nat),
      offset < 512 → bw ≤ length → length - bw ≤ fuel →
      (st._files file).bytenum + (length - bw) < 2 ^ env.ULONG_BITS →
      ((fl_fwrite_loop env file data length fuel st sector offset bw)._files file).pos =
        ((st._files file).bytenum + (length - bw), (st._files file).filelength,
          (st._files file).filelength_changed, (st._files file).flags) := by
  intro fuel
  induction fuel with
  | zero =>
    intro st sector offset bw _ h2 h3 _
    have : length - bw = 0 := by omega
    simp [fl_fwrite_loop, FL_FILE.pos, this]
  | succ n ih =>
    intro st sector offset bw h1 h2 h3 h4
    by_cases hlt : bw < length
    · obtain ⟨c0, c1, c2, -, -⟩ := fwrite_copyCount_pos length bw offset hlt h1
      rw [fl_fwrite_loop_succ _ _ _ _ _ _ _ _ _ hlt]
      have hp := fwrite_copy_pos env
        (fwrite_fetch env st file sector (fwrite_copyCount length bw offset)) file data offset bw
        (fwrite_copyCount length bw offset)
      obtain ⟨e1, e2, e3, e4⟩ := pos_fields _ _
        (fwrite_fetch_pos env st file sector (fwrite_copyCount length bw offset) file)
      rw [e1, e2, e3, e4] at hp
      simp only [FL_FILE.pos, Prod.mk.injEq] at hp
      obtain ⟨hb, hl, hc, hf⟩ := hp
      rw [Nat.mod_eq_of_lt (by omega)] at hb
      rw [ih _ _ _ _ (by omega) (by omega) (by omega) (by rw [hb]; omega), hb, hl, hc, hf]
      simp only [Prod.mk.injEq, and_true]
      omega
    · rw [fl_fwrite_loop_done _ _ _ _ _ _ _ _ _ hlt]
      have : length - bw = 0 := by omega
      simp [FL_FILE.pos, this]

theorem fl_fwrite_eq (env : Env D) (st : Lib D) (data : Bytes) (size count : Int) (file : Nat)
    (hw : (st._files file).flags &&& FILE_WRITE ≠ 0) :
    fl_fwrite env st data size count (some file) =
      (FL_UNLOCK
        (if ((fl_fwrite_pass env st data size count file
              (to_ulong env.ULONG_BITS (to_int (size * count))))._files file).bytenum >
            ((fl_fwrite_pass env st data size count file
              (to_ulong env.ULONG_BITS (to_int (size * count))))._files file).filelength then
          (fl_fwrite_pass env st data size count file
              (to_ulong env.ULONG_BITS (to_int (size * count)))).setFile file
            { (fl_fwrite_pass env st data size count file
                (to_ulong env.ULONG_BITS (to_int (size * count))))._files file with
              filelength := ((fl_fwrite_pass env st data size count file
                (to_ulong env.ULONG_BITS (to_int (size * count))))._files file).bytenum
              filelength_changed := 1 }
        else fl_fwrite_pass env st data size count file
              (to_ulong env.ULONG_BITS (to_int (size * count)))),
       to_int (size * count)) := by
  have hf : ((FL_LOCK (CHECK_FL_INIT env st))._files file).flags &&& FILE_WRITE ≠ 0 := by
    rw [FL_LOCK_files, (pos_fields _ _ (CHECK_FL_INIT_pos env st file)).2.2.2]; exact hw
  unfold fl_fwrite fl_fwrite_pass
  simp only [if_neg hf]

/-- The cursor and the flags when `fl_fwrite` enters its loop. -/
theorem fl_fwrite_pass_zero (env : Env D) (st : Lib D) (data : Bytes) (size count : Int)
    (file : Nat) :
    ((fl_fwrite_pass env st data size count file 0)._files file).pos =
      (if (st._files file).flags &&& FILE_APPEND ≠ 0 then (st._files file).filelength
        else (st._files file).bytenum,
       (st._files file).filelength, (st._files file).filelength_changed,
       (st._files file).flags) := by
  obtain ⟨e1, e2, e3, e4⟩ := pos_fields _ _ (CHECK_FL_INIT_pos env st file)
  unfold fl_fwrite_pass
  simp only [fl_fwrite_loop, FL_LOCK_files, e4]
  split_ifs <;> simp [FL_FILE.pos, e1, e2, e3, e4]

theorem fl_fwrite_pass_eq (env : Env D) (st : Lib D) (data : Bytes) (size count : Int)
    (file k : Nat) :
    fl_fwrite_pass env st data size count file k =
      fl_fwrite_loop env file data (to_ulong env.ULONG_BITS (to_int (size * count))) k
        (fl_fwrite_pass env st data size count file 0)
        (((fl_fwrite_pass env st data size count file 0)._files file).bytenum / 512)
        (((fl_fwrite_pass env st data size count file 0)._files file).bytenum % 512) 0 := by
  unfold fl_fwrite_pass
  simp only [fl_fwrite_loop, FAT_SECTOR_SIZE]

theorem to_ulong_to_int_nat (w n : Nat) (hint : n < 2147483648) (hbits : 32 ≤ w) :
    to_ulong w (to_int (n : Int)) = n := by
  rw [to_int_of_range _ (by omega) (by omega)]
  apply to_ulong_natCast
  calc n < 2 ^ 32 := by omega
    _ ≤ 2 ^ w := Nat.pow_le_pow_right (by norm_num) hbits


theorem fl_fwrite_pass_zero_data (env : Env D) (st : Lib D) (data : Bytes) (size count : Int)
    (file : Nat) :
    ((fl_fwrite_pass env st data size count file 0)._files file).file_data =
      (st._files file).file_data := by
  obtain ⟨n, hn⟩ := CHECK_FL_INIT_files env st file
  unfold fl_fwrite_pass
  simp only [fl_fwrite_loop, FL_LOCK_files]
  split_ifs <;> simp [hn]

/-- The result of `fl_fwrite` on a handle with WRITE set, when the byte count
`n = size * count` is not negative and the cursor does not wrap: with `c` the
cursor the write starts from (the length in APPEND mode), the call returns
`n`, the cursor is `c + n`, the length is the larger of `L` and `c + n`, and
`filelength_changed` is set when the length grew. -/
theorem fl_fwrite_pos (env : Env D) (st : Lib D) (data : Bytes) (size count : Int)
    (file n c : Nat)
    (hw : (st._files file).flags &&& FILE_WRITE ≠ 0)
    (hc : c = if (st._files file).flags &&& FILE_APPEND ≠ 0 then (st._files file).filelength
      else (st._files file).bytenum)
    (hn : size * count = (n : Int)) (hint : n < 2147483648)
    (hbits : 32 ≤ env.ULONG_BITS)
    (hfit : c + n < 2 ^ env.ULONG_BITS) :
    (fl_fwrite env st data size count (some file)).2 = n ∧
    ((fl_fwrite env st data size count (some file)).1._files file).pos =
      (c + n, max (st._files file).filelength (c + n),
        (if c + n > (st._files file).filelength then 1
          else (st._files file).filelength_changed),
        (st._files file).flags) := by
  have hlen : to_ulong env.ULONG_BITS (to_int (size * count)) = n := by
    rw [hn]; exact to_ulong_to_int_nat _ _ hint hbits
  have h0 := fl_fwrite_pass_zero env st data size count file
  rw [← hc] at h0
  simp only [FL_FILE.pos, Prod.mk.injEq] at h0
  obtain ⟨z1, z2, z3, z4⟩ := h0
  have hp := fl_fwrite_loop_pos env file data n n (fl_fwrite_pass env st data size count file 0)
    (((fl_fwrite_pass env st data size count file 0)._files file).bytenum / 512)
    (((fl_fwrite_pass env st data size count file 0)._files file).bytenum % 512) 0
    (Nat.mod_lt _ (by norm_num)) (Nat.zero_le _) (by omega) (by rw [z1]; omega)
  rw [← hlen, ← fl_fwrite_pass_eq, hlen] at hp
  simp only [FL_FILE.pos, Prod.mk.injEq, z1, z2, z3, z4, Nat.sub_zero] at hp
  obtain ⟨q1, q2, q3, q4⟩ := hp
  rw [fl_fwrite_eq env st data size count file hw, hlen]
  refine ⟨by rw [hn, to_int_of_range _ (by omega) (by omega)], ?_⟩
  simp only [FL_UNLOCK_files, q1, q2, FL_FILE.pos]
  split_ifs <;> simp [q1, q2, q3, q4] <;> omega

/-- The buffered sector after `fl_fwrite` is the one the loop left. -/
theorem fl_fwrite_file_data (env : Env D) (st : Lib D) (data : Bytes) (size count : Int)
    (file : Nat) (hw : (st._files file).flags &&& FILE_WRITE ≠ 0) :
    ((fl_fwrite env st data size count (some file)).1._files file).file_data =
      ((fl_fwrite_pass env st data size count file
        (to_ulong env.ULONG_BITS (to_int (size * count))))._files file).file_data := by
  rw [fl_fwrite_eq env st data size count file hw]
  simp only [FL_UNLOCK_files]
  split_ifs <;> simp

/-- Where the loop of `fl_fwrite` puts byte `i` of the caller's data: with `kk`
the number of sector boundaries between the start of the loop and the byte,
after `kk + 1` passes the buffer holds sector `sector + kk`, is dirty, and has
the byte at its offset in that sector. -/
theorem fl_fwrite_loop_bytes (env : Env D) (file : Nat) (data : Bytes) (length : Nat) :
    ∀ (kk : Nat) (st : Lib D) (sector offset bw i : Nat),
      offset < 512 → sector * 512 + offset = (st._files file).bytenum →
      (st._files file).bytenum + (length - bw) < 2 ^ env.ULONG_BITS →
      bw ≤ i → i < length → (offset + (i - bw)) / 512 = kk →
      ((fl_fwrite_loop env file data length (kk + 1) st sector offset bw)._files
        file).file_data.address = sector + kk ∧
      ((fl_fwrite_loop env file data length (kk + 1) st sector offset bw)._files
        file).file_data.dirty = 1 ∧
      ((fl_fwrite_loop env file data length (kk + 1) st sector offset bw)._files
        file).file_data.sector ((offset + (i - bw)) % 512) = data i := by
  intro kk
  induction kk with
  | zero =>
    intro st sector offset bw i h1 _ _ h4 h5 h6
    obtain ⟨c0, c1, c2, c3, c4⟩ := fwrite_copyCount_pos length bw offset (by omega) h1
    rw [fl_fwrite_loop_succ _ _ _ _ _ _ _ _ _ (by omega)]
    simp only [fl_fwrite_loop, fwrite_copy_data, fwrite_fetch_address, Nat.add_zero, true_and]
    have hlt : offset + (i - bw) < 512 := by omega
    rw [Nat.mod_eq_of_lt hlt]
    unfold memcpy
    have hcc : i - bw < fwrite_copyCount length bw offset := by
      by_cases hh : 512 - offset ≤ length - bw
      · rw [c3 hh]; omega
      · rw [c4 (by omega)]; omega
    rw [if_pos ⟨by omega, by omega⟩]
    congr 1; omega
  | succ k ih =>
    intro st sector offset bw i h1 h2 h3 h4 h5 h6
    obtain ⟨c0, c1, c2, c3, c4⟩ := fwrite_copyCount_pos length bw offset (by omega) h1
    have hcc : fwrite_copyCount length bw offset = 512 - offset := c3 (by omega)
    rw [fl_fwrite_loop_succ _ _ _ _ _ _ _ _ _ (by omega)]
    have hp := fwrite_copy_pos env
      (fwrite_fetch env st file sector (fwrite_copyCount length bw offset)) file data offset bw
      (fwrite_copyCount length bw offset)
    obtain ⟨e1, e2, e3, e4⟩ := pos_fields _ _
      (fwrite_fetch_pos env st file sector (fwrite_copyCount length bw offset) file)
    rw [e1, e2, e3, e4] at hp
    simp only [FL_FILE.pos, Prod.mk.injEq] at hp
    obtain ⟨hb, -, -, -⟩ := hp
    rw [Nat.mod_eq_of_lt (by omega)] at hb
    have hs : (sector + 1) % 2 ^ env.ULONG_BITS = sector + 1 := Nat.mod_eq_of_lt (by omega)
    rw [hs]
    have := ih _ (sector + 1) 0 (bw + fwrite_copyCount length bw offset) i (by omega)
      (by rw [hb]; omega) (by rw [hb]; omega) (by omega) h5 (by omega)
    obtain ⟨r1, r2, r3⟩ := this
    refine ⟨by rw [r1]; omega, r2, ?_⟩
    have hidx : (0 + (i - (bw + fwrite_copyCount length bw offset))) % 512 =
        (offset + (i - bw)) % 512 := by omega
    rw [← hidx]; exact r3

/-- The result of `fl_fseek (f, offset, SEEK_SET)` on a non-null handle. -/
theorem fl_fseek_set_pos (env : Env D) (st : Lib D) (file : Nat) (offset : Int) :
    (fl_fseek env st (some file) offset SEEK_SET).2 = 0 ∧
    ((fl_fseek env st (some file) offset SEEK_SET).1._files file).pos =
      (min (to_ulong env.ULONG_BITS offset) (st._files file).filelength,
        (st._files file).filelength, (st._files file).filelength_changed,
        (st._files file).flags) := by
  obtain ⟨n, hn⟩ := CHECK_FL_INIT_files env st file
  refine ⟨by simp [fl_fseek, SEEK_END, SEEK_SET], ?_⟩
  simp only [fl_fseek, SEEK_END, SEEK_SET]
  simp [hn, FL_FILE.pos]
  split <;> omega

/-- The first pass of the loop of `fl_fwrite`, when there is a byte to write. -/
theorem fl_fwrite_pass_one (env : Env D) (st : Lib D) (data : Bytes) (size count : Int)
    (file : Nat) (h : 0 < to_ulong env.ULONG_BITS (to_int (size * count))) :
    fl_fwrite_pass env st data size count file 1 =
      fwrite_copy env
        (fwrite_fetch env (fl_fwrite_pass env st data size count file 0) file
          (((fl_fwrite_pass env st data size count file 0)._files file).bytenum / 512)
          (fwrite_copyCount (to_ulong env.ULONG_BITS (to_int (size * count))) 0
            (((fl_fwrite_pass env st data size count file 0)._files file).bytenum % 512)))
        file data (((fl_fwrite_pass env st data size count file 0)._files file).bytenum % 512) 0
        (fwrite_copyCount (to_ulong env.ULONG_BITS (to_int (size * count))) 0
          (((fl_fwrite_pass env st data size count file 0)._files file).bytenum % 512)) := by
  rw [fl_fwrite_pass_eq, fl_fwrite_loop_succ _ _ _ _ _ _ _ _ _ h]
  rfl

/-- A buffer that already holds the sector is not fetched again. -/
theorem fwrite_fetch_same (env : Env D) (st : Lib D) (file sector cc : Nat)
    (h : (st._files file).file_data.address = sector) :
    fwrite_fetch env st file sector cc = st := by
  unfold fwrite_fetch; simp [h]

/-- Where `fl_fwrite` puts byte `i` of the caller's data, when the write starts
at cursor `c` (the length in APPEND mode) and `c + n` does not wrap: after the
pass of the loop that reaches the byte, the buffer holds file sector
`(c + i) / 512`, is dirty, and has the byte at offset `(c + i) % 512`. -/
theorem fl_fwrite_pass_bytes (env : Env D) (st : Lib D) (data : Bytes) (size count : Int)
    (file n c : Nat)
    (hc : c = if (st._files file).flags &&& FILE_APPEND ≠ 0 then (st._files file).filelength
      else (st._files file).bytenum)
    (hn : size * count = (n : Int)) (hint : n < 2147483648)
    (hbits : 32 ≤ env.ULONG_BITS)
    (hfit : c + n < 2 ^ env.ULONG_BITS) (i : Nat) (hi : i < n) :
    ((fl_fwrite_pass env st data size count file ((c % 512 + i) / 512 + 1))._files
      file).file_data.address = (c + i) / 512 ∧
    ((fl_fwrite_pass env st data size count file ((c % 512 + i) / 512 + 1))._files
      file).file_data.dirty = 1 ∧
    ((fl_fwrite_pass env st data size count file ((c % 512 + i) / 512 + 1))._files
      file).file_data.sector ((c + i) % 512) = data i := by
  have hlen : to_ulong env.ULONG_BITS (to_int (size * count)) = n := by
    rw [hn]; exact to_ulong_to_int_nat _ _ hint hbits
  have h0 := fl_fwrite_pass_zero env st data size count file
  rw [← hc] at h0
  simp only [FL_FILE.pos, Prod.mk.injEq] at h0
  obtain ⟨z1, -, -, -⟩ := h0
  have hb := fl_fwrite_loop_bytes env file data n ((c % 512 + i) / 512)
    (fl_fwrite_pass env st data size count file 0) (c / 512) (c % 512) 0 i
    (Nat.mod_lt _ (by norm_num)) (by rw [z1]; omega) (by rw [z1]; omega) (Nat.zero_le _) hi
    (by simp)
  rw [fl_fwrite_pass_eq, hlen, z1]
  obtain ⟨b1, b2, b3⟩ := hb
  refine ⟨by rw [b1]; omega, b2, ?_⟩
  have : (c % 512 + (i - 0)) % 512 = (c + i) % 512 := by omega
  rw [← this]; exact b3
/-! ## The loop of `fl_fread` -/

theorem fread_copyCount_cast (m b offset : Nat) (h : b ≤ m) :
    fread_copyCount (m : Int) (b : Int) offset = ((fwrite_copyCount m b offset : Nat) : Int) := by
  unfold fread_copyCount fwrite_copyCount
  split_ifs <;> omega

theorem fread_copy_cast (env : Env D) (st : Lib D) (file : Nat) (buffer : Bytes)
    (offset b cc : Nat) :
    fread_copy env st file buffer offset (b : Int) (cc : Int) =
      (st.setFile file { st._files file with
          bytenum := to_ulong env.ULONG_BITS (((st._files file).bytenum + cc : Nat) : Int) },
        memcpy buffer b (st._files file).file_data.sector offset cc) := by
  simp [fread_copy]

theorem fl_fread_loop_succ (env : Env D) (file : Nat) (m fuel : Nat) (st : Lib D)
    (buf : Bytes) (sector offset b : Nat) (h : b < m)
    (hf : (fread_fetch env st file sector).2 = true) :
    fl_fread_loop env file (m : Int) (fuel + 1) st buf sector offset (b : Int) =
      fl_fread_loop env file (m : Int) fuel
        (fread_copy env (fread_fetch env st file sector).1 file buf offset (b : Int)
          (fwrite_copyCount m b offset : Nat)).1
        (fread_copy env (fread_fetch env st file sector).1 file buf offset (b : Int)
          (fwrite_copyCount m b offset : Nat)).2
        ((sector + 1) % 2 ^ env.ULONG_BITS) 0 ((b + fwrite_copyCount m b offset : Nat) : Int) := by
  rw [fl_fread_loop]
  have hlt : (b : Int) < (m : Int) := by exact_mod_cast h
  rw [if_pos hlt]
  cases hfe : fread_fetch env st file sector with
  | mk s1 ok =>
    rw [hfe] at hf
    simp only at hf
    subst hf
    simp only [fread_copyCount_cast m b offset (by omega), Nat.cast_add]

theorem fl_fread_loop_done (env : Env D) (file : Nat) (m fuel : Nat) (st : Lib D)
    (buf : Bytes) (sector offset b : Nat) (h : ¬ b < m) :
    fl_fread_loop env file (m : Int) fuel st buf sector offset (b : Int) = (st, buf, (b : Int)) := by
  have hlt : ¬ (b : Int) < (m : Int) := by exact_mod_cast h
  cases fuel with
  | zero => rfl
  | succ n => rw [fl_fread_loop, if_neg hlt]

theorem fread_copy_pos (env : Env D) (st : Lib D) (file : Nat) (buffer : Bytes)
    (offset b cc : Nat) (h : (st._files file).bytenum + cc < 2 ^ env.ULONG_BITS) :
    (((fread_copy env st file buffer offset (b : Int) (cc : Int)).1)._files file).bytenum =
      (st._files file).bytenum + cc := by
  rw [fread_copy_cast]
  simp only [setFile_files, if_true]
  exact to_ulong_natCast _ _ h

theorem fread_copy_data (env : Env D) (st : Lib D) (file : Nat) (buffer : Bytes)
    (offset b cc : Nat) :
    (((fread_copy env st file buffer offset (b : Int) (cc : Int)).1)._files file).file_data =
      (st._files file).file_data := by
  rw [fread_copy_cast]; simp

/-- The loop of `fl_fread` when every load succeeds and the cursor does not
wrap: it returns `m`, advances the cursor by the bytes still to read, leaves
the caller's bytes below `b` as they were, and byte `i` of the caller's
buffer is the byte at its offset in the sector that the pass reaching it
fetched. -/
theorem fl_fread_loop_ok (env : Env D) (file : Nat) (m : Nat) :
    ∀ (fuel : Nat) (st : Lib D) (buf : Bytes) (sector offset b : Nat),
      offset < 512 → b ≤ m → (b < m → sector * 512 + offset = (st._files file).bytenum) →
      (st._files file).bytenum + (m - b) < 2 ^ env.ULONG_BITS → m - b ≤ fuel →
      (∀ k, k < (offset + (m - b) + 511) / 512 →
        (fread_fetch env (fl_fread_loop env file (m : Int) k st buf sector offset (b : Int)).1
          file (sector + k)).2 = true) →
      (fl_fread_loop env file (m : Int) fuel st buf sector offset (b : Int)).2.2 = (m : Int) ∧
      ((fl_fread_loop env file (m : Int) fuel st buf sector offset (b : Int)).1._files
        file).bytenum = (st._files file).bytenum + (m - b) ∧
      (∀ i, i < b →
        (fl_fread_loop env file (m : Int) fuel st buf sector offset (b : Int)).2.1 i = buf i) ∧
      (∀ i, b ≤ i → i < m →
        (fl_fread_loop env file (m : Int) fuel st buf sector offset (b : Int)).2.1 i =
          ((fread_fetch env
            (fl_fread_loop env file (m : Int) ((offset + (i - b)) / 512) st buf sector offset
              (b : Int)).1
            file (sector + (offset + (i - b)) / 512)).1._files file).file_data.sector
              ((offset + (i - b)) % 512)) := by
  intro fuel
  induction fuel with
  | zero =>
    intro st buf sector offset b _ h2 _ _ h5 _
    have hbm : b = m := by omega
    subst hbm
    simp only [fl_fread_loop, Nat.sub_self, Nat.add_zero, true_and]
    constructor
    · intros; first | rfl | trivial
    · intro i h1 h2; omega
  | succ n ih =>
    intro st buf sector offset b h1 h2 h3 h4 h5 h6
    by_cases hlt : b < m
    · obtain ⟨c0, c1, c2, c3, c4⟩ := fwrite_copyCount_pos m b offset hlt h1
      have hf0 := h6 0 (by omega)
      simp only [fl_fread_loop, Nat.add_zero] at hf0
      have hsucc := fl_fread_loop_succ env file m
      rw [hsucc n st buf sector offset b hlt hf0]
      obtain ⟨e1, -, -, -⟩ := pos_fields _ _ (fread_fetch_pos env st file sector file)
      have hb := fread_copy_pos env (fread_fetch env st file sector).1 file buf offset b
        (fwrite_copyCount m b offset) (by rw [e1]; omega)
      rw [e1] at hb
      have h3' := h3 hlt
      have hs : (sector + 1) % 2 ^ env.ULONG_BITS = sector + 1 := Nat.mod_eq_of_lt (by omega)
      rw [hs]
      have hbuf : ∀ i, (fread_copy env (fread_fetch env st file sector).1 file buf offset
          (b : Int) (fwrite_copyCount m b offset : Nat)).2 i =
          if b ≤ i ∧ i < b + fwrite_copyCount m b offset then
            ((fread_fetch env st file sector).1._files file).file_data.sector
              (offset + (i - b))
          else buf i := by
        intro i; rw [fread_copy_cast]; rfl
      have ih' := ih
        (fread_copy env (fread_fetch env st file sector).1 file buf offset (b : Int)
          (fwrite_copyCount m b offset : Nat)).1
        (fread_copy env (fread_fetch env st file sector).1 file buf offset (b : Int)
          (fwrite_copyCount m b offset : Nat)).2
        (sector + 1) 0 (b + fwrite_copyCount m b offset) (by omega) (by omega)
        (by
          intro hlt2
          rw [hb, c3 (by omega)]
          have := h3 hlt
          omega)
        (by rw [hb]; omega) (by omega)
        (by
          intro k hk
          have := h6 (k + 1) (by
            by_cases hh : 512 - offset ≤ m - b
            · rw [c3 hh] at hk; omega
            · rw [c4 (by omega)] at hk; omega)
          rw [hsucc k st buf sector offset b hlt hf0, hs] at this
          rw [show sector + 1 + k = sector + (k + 1) by omega]
          exact this)
      obtain ⟨r1, r2, r3, r4⟩ := ih'
      refine ⟨r1, by rw [r2, hb]; omega, ?_, ?_⟩
      · intro i hi
        rw [r3 i (by omega), hbuf, if_neg (by omega)]
      · intro i hi1 hi2
        by_cases hin : i < b + fwrite_copyCount m b offset
        · rw [r3 i hin, hbuf, if_pos ⟨hi1, hin⟩]
          have hz : (offset + (i - b)) / 512 = 0 := by
            apply Nat.div_eq_of_lt; omega
          rw [hz, Nat.mod_eq_of_lt (by omega)]
          simp only [fl_fread_loop, Nat.add_zero]
        · have hcc : fwrite_copyCount m b offset = 512 - offset := c3 (by omega)
          rw [r4 i (by omega) hi2]
          have hk : (offset + (i - b)) / 512 =
              (0 + (i - (b + fwrite_copyCount m b offset))) / 512 + 1 := by omega
          have hmod : (offset + (i - b)) % 512 =
              (0 + (i - (b + fwrite_copyCount m b offset))) % 512 := by omega
          rw [hk, hmod, hsucc _ st buf sector offset b hlt hf0, hs]
          rw [show sector + ((0 + (i - (b + fwrite_copyCount m b offset))) / 512 + 1) =
            sector + 1 + (0 + (i - (b + fwrite_copyCount m b offset))) / 512 by omega]
    · have hbm : b = m := by omega
      subst hbm
      rw [fl_fread_loop_done env file b (n + 1) st buf sector offset b hlt]
      simp only [Nat.sub_self, Nat.add_zero, true_and]
      constructor
      · intros; first | rfl | trivial
      · intro i h1 h2; omega

theorem fread_fetch_sector (env : Env D) (st : Lib D) (file sector : Nat) :
    ((fread_fetch env st file sector).1._files file).file_data.sector =
      if (st._files file).file_data.address = sector then (st._files file).file_data.sector
      else (_read_sector env (flush_dirty env st file) file sector
        ((flush_dirty env st file)._files file).file_data.sector).2.2 := by
  unfold fread_fetch
  simp only []
  split_ifs <;> first | rfl | (exfalso; omega) | simp

/-- The clamped count and the loop of `fl_fread_pass`, under the conditions of a
read that does not wrap. -/
theorem fl_fread_pass_eq (env : Env D) (st : Lib D) (buf : Bytes) (size length : Int)
    (file n k : Nat)
    (hc : (st._files file).bytenum < (st._files file).filelength)
    (hn : size * length = (n : Int)) (hint : n < 2147483648)
    (hfit : (st._files file).bytenum + n < 2 ^ env.ULONG_BITS) :
    fl_fread_pass env st buf size length file k =
      fl_fread_loop env file
        ((min n ((st._files file).filelength - (st._files file).bytenum) : Nat) : Int) k
        (CHECK_FL_INIT env st) buf ((st._files file).bytenum / 512)
        ((st._files file).bytenum % 512) ((0 : Nat) : Int) := by
  obtain ⟨e1, e2, -, -⟩ := pos_fields _ _ (CHECK_FL_INIT_pos env st file)
  unfold fl_fread_pass
  simp only [e1, e2, hn, FAT_SECTOR_SIZE, Nat.cast_zero]
  rw [to_int_of_range _ (by omega) (by omega)]
  have hu : to_ulong env.ULONG_BITS (((st._files file).bytenum : Int) + (n : Int)) =
      (st._files file).bytenum + n := by
    rw [← Nat.cast_add]; exact to_ulong_natCast _ _ hfit
  rw [hu]
  split_ifs with h
  · rw [to_int_of_range _ (by omega) (by omega), Nat.min_eq_right (by omega)]
  · rw [Nat.min_eq_left (by omega)]

theorem fl_fread_eq (env : Env D) (st : Lib D) (buf : Bytes) (size length : Int)
    (file n : Nat)
    (hr : (st._files file).flags &&& FILE_READ ≠ 0)
    (hc : (st._files file).bytenum < (st._files file).filelength)
    (hn : size * length = (n : Int)) (h0 : 0 < n) (hint : n < 2147483648)
    (hfit : (st._files file).bytenum + n < 2 ^ env.ULONG_BITS) :
    fl_fread env st (some buf) size length (some file) =
      ((fl_fread_pass env st buf size length file
          (min n ((st._files file).filelength - (st._files file).bytenum))).1,
        some (fl_fread_pass env st buf size length file
          (min n ((st._files file).filelength - (st._files file).bytenum))).2.1,
        (fl_fread_pass env st buf size length file
          (min n ((st._files file).filelength - (st._files file).bytenum))).2.2) := by
  obtain ⟨e1, e2, -, e4⟩ := pos_fields _ _ (CHECK_FL_INIT_pos env st file)
  have hcnt : to_int (size * length) = (n : Int) := by
    rw [hn]; exact to_int_of_range _ (by omega) (by omega)
  have hu : to_ulong env.ULONG_BITS (((st._files file).bytenum : Int) + (n : Int)) =
      (st._files file).bytenum + n := by
    rw [← Nat.cast_add]; exact to_ulong_natCast _ _ hfit
  unfold fl_fread fl_fread_pass
  simp only [e1, e2, e4, hcnt, hu]
  rw [if_neg hr, if_neg (by omega), if_neg (by omega)]
  split_ifs with h
  · rw [to_int_of_range _ (by omega) (by omega), Nat.min_eq_right (by omega)]
    simp
  · rw [Nat.min_eq_left (by omega)]
    simp
/-! ## `fl_fseek` -/

/-- C7: on a non-null handle `fl_fseek (f, offset, SEEK_END)` returns 0 exactly
when `offset = 0`, and then the cursor is the file length; for `offset ≠ 0` it
returns -1 and the record of the handle is as before (cursor, buffered
sector, address, dirty flag and all other fields; only the pool link `next`
can differ, when this is the first call of the library and `fl_init` runs),
and the whole library state is untouched once the library is initialised. -/
theorem fl_fseek_end (env : Env D) (st : Lib D) (file : Nat) (offset : Int) :
    ((fl_fseek env st (some file) offset SEEK_END).2 = 0 ↔ offset = 0) ∧
    (offset = 0 →
      ((fl_fseek env st (some file) offset SEEK_END).1._files file).bytenum =
        (st._files file).filelength) ∧
    (offset ≠ 0 →
      (fl_fseek env st (some file) offset SEEK_END).2 = -1 ∧
      (∃ n, (fl_fseek env st (some file) offset SEEK_END).1._files file =
        { st._files file with next := n }) ∧
      (st._filelib_init ≠ 0 → (fl_fseek env st (some file) offset SEEK_END).1 = st)) := by
  obtain ⟨n, hn⟩ := CHECK_FL_INIT_files env st file
  by_cases h : offset = 0
  · subst h
    simp [fl_fseek, SEEK_END, SEEK_SET, SEEK_CUR, hn]
  · simp [fl_fseek, SEEK_END, h, hn]
    intro hi
    exact CHECK_FL_INIT_of_init env st hi

/-- C7 at a concrete handle: the file `a` of 10 bytes opened for reading;
`SEEK_END` with offset 0 moves the cursor to 10, with offset 3 it fails. -/
theorem fl_fseek_end_witness :
    (fl_fseek Vol.env (Vol.opened (Vol.with_file 4 10 1) "r").1 (some 1) 0 SEEK_END).2 = 0 ∧
    ((fl_fseek Vol.env (Vol.opened (Vol.with_file 4 10 1) "r").1 (some 1) 0 SEEK_END).1._files
      1).bytenum = 10 ∧
    (fl_fseek Vol.env (Vol.opened (Vol.with_file 4 10 1) "r").1 (some 1) 3 SEEK_END).2 = -1 :=
  ⟨(fl_fseek_end Vol.env (Vol.opened (Vol.with_file 4 10 1) "r").1 1 0).1.2 rfl,
   ((fl_fseek_end Vol.env (Vol.opened (Vol.with_file 4 10 1) "r").1 1 0).2.1 rfl).trans
     (by decide),
   ((fl_fseek_end Vol.env (Vol.opened (Vol.with_file 4 10 1) "r").1 1 3).2.2 (by decide)).1⟩

/-- What the `SEEK_SET` case of `fl_fseek` computes: on a non-null handle
`fl_fseek (f, offset, SEEK_SET)` returns 0 and sets the cursor to the smaller
of `(unsigned long) offset` and the length `L`: the offset is converted
before it is compared, so a negative one counts as `2 ^ w + offset`. -/
theorem fl_fseek_set (env : Env D) (st : Lib D) (file : Nat) (offset : Int) :
    (fl_fseek env st (some file) offset SEEK_SET).2 = 0 ∧
    ((fl_fseek env st (some file) offset SEEK_SET).1._files file).bytenum =
      min (to_ulong env.ULONG_BITS offset) (st._files file).filelength ∧
    (0 ≤ offset → offset < (2 : Int) ^ env.ULONG_BITS →
      ((fl_fseek env st (some file) offset SEEK_SET).1._files file).bytenum =
        min offset.toNat (st._files file).filelength) ∧
    (offset < 0 → -(2 : Int) ^ env.ULONG_BITS ≤ offset →
      ((fl_fseek env st (some file) offset SEEK_SET).1._files file).bytenum =
        min ((2 : Int) ^ env.ULONG_BITS + offset).toNat (st._files file).filelength) := by
  obtain ⟨n, hn⟩ := CHECK_FL_INIT_files env st file
  have key : ((fl_fseek env st (some file) offset SEEK_SET).1._files file).bytenum =
      min (to_ulong env.ULONG_BITS offset) (st._files file).filelength := by
    simp only [fl_fseek, SEEK_END, SEEK_SET]
    simp [hn]
    split <;> omega
  refine ⟨by simp [fl_fseek, SEEK_END, SEEK_SET], key, ?_, ?_⟩
  · intro h0 h1; rw [key, to_ulong_of_nonneg _ _ h0 h1]
  · intro h0 h1; rw [key, to_ulong_of_neg _ _ h0 h1]

/-- The `SEEK_SET` case at concrete handles: on the file `a` of 10 bytes,
`SEEK_SET` to 4 gives cursor 4, to 25 gives 10, and to -1 gives 10. -/
theorem fl_fseek_set_witness :
    ((fl_fseek Vol.env (Vol.opened (Vol.with_file 4 10 1) "r").1 (some 1) 4 SEEK_SET).1._files
      1).bytenum = 4 ∧
    ((fl_fseek Vol.env (Vol.opened (Vol.with_file 4 10 1) "r").1 (some 1) 25 SEEK_SET).1._files
      1).bytenum = 10 ∧
    ((fl_fseek Vol.env (Vol.opened (Vol.with_file 4 10 1) "r").1 (some 1) (-1) SEEK_SET).1._files
      1).bytenum = 10 :=
  ⟨((fl_fseek_set Vol.env (Vol.opened (Vol.with_file 4 10 1) "r").1 1 4).2.2.1 (by decide)
      (by decide)).trans (by decide),
   ((fl_fseek_set Vol.env (Vol.opened (Vol.with_file 4 10 1) "r").1 1 25).2.2.1 (by decide)
      (by decide)).trans (by decide),
   ((fl_fseek_set Vol.env (Vol.opened (Vol.with_file 4 10 1) "r").1 1 (-1)).2.2.2 (by decide)
      (by decide)).trans (by decide)⟩

/-- C5 fails on the code: the file `a` of 10 bytes is opened for reading
(handle 1, length 10); `fl_fseek (f, -1, SEEK_SET)` returns 0 and leaves the
cursor at 10, the end of the file, not at 0: the offset is converted to
`unsigned long` before it is compared with the length. -/
theorem fl_fseek_set_negative_offset :
    (Vol.opened (Vol.with_file 4 10 1) "r").2 = some 1 ∧
    (((Vol.opened (Vol.with_file 4 10 1) "r").1)._files 1).filelength = 10 ∧
    (fl_fseek Vol.env (Vol.opened (Vol.with_file 4 10 1) "r").1 (some 1) (-1) SEEK_SET).2 = 0 ∧
    ((fl_fseek Vol.env (Vol.opened (Vol.with_file 4 10 1) "r").1 (some 1) (-1) SEEK_SET).1._files
      1).bytenum = 10 ∧
    ¬ ((fl_fseek Vol.env (Vol.opened (Vol.with_file 4 10 1) "r").1 (some 1) (-1)
      SEEK_SET).1._files 1).bytenum = 0 := by
  decide

/-- The `SEEK_SET` case of `fl_fseek` for an offset that is not negative: on a
non-null handle with length `L`, for `0 ≤ offset` within `unsigned long`,
`fl_fseek (f, offset, SEEK_SET)` returns 0 and sets the cursor to `offset`
clamped to `L`. -/
theorem fl_fseek_set_exact (env : Env D) (st : Lib D) (file : Nat) (offset : Int)
    (h0 : 0 ≤ offset) (h1 : offset < (2 : Int) ^ env.ULONG_BITS) :
    (fl_fseek env st (some file) offset SEEK_SET).2 = 0 ∧
    (((fl_fseek env st (some file) offset SEEK_SET).1._files file).bytenum : Int) =
      min offset (st._files file).filelength := by
  obtain ⟨a1, -, a3, -⟩ := fl_fseek_set env st file offset
  refine ⟨a1, ?_⟩
  rw [a3 h0 h1]
  omega

/-- The exact `SEEK_SET` at a concrete handle: on the file `a` of 10 bytes a
seek to 4 gives cursor 4 and a seek to 25 gives cursor 10. -/
theorem fl_fseek_set_exact_witness :
    (((fl_fseek Vol.env (Vol.opened (Vol.with_file 4 10 1) "r").1 (some 1) 4
      SEEK_SET).1._files 1).bytenum : Int) = 4 ∧
    (((fl_fseek Vol.env (Vol.opened (Vol.with_file 4 10 1) "r").1 (some 1) 25
      SEEK_SET).1._files 1).bytenum : Int) = 10 :=
  ⟨(fl_fseek_set_exact Vol.env (Vol.opened (Vol.with_file 4 10 1) "r").1 1 4
      (by decide) (by decide)).2.trans (by decide),
   (fl_fseek_set_exact Vol.env (Vol.opened (Vol.with_file 4 10 1) "r").1 1 25
      (by decide) (by decide)).2.trans (by decide)⟩

/-- The `SEEK_CUR` case of `fl_fseek` when `bytenum + offset` does not wrap: on
a handle with cursor `c ≤ L`, for an `offset` in the range of `long` with
`c + offset < 2 ^ w`, the call returns 0 and the cursor is `c + offset`
clamped into `[0, L]`. -/
theorem fl_fseek_cur_exact (env : Env D) (st : Lib D) (file : Nat) (offset : Int)
    (hlong : -(2 : Int) ^ (env.ULONG_BITS - 1) ≤ offset ∧
      offset < (2 : Int) ^ (env.ULONG_BITS - 1))
    (hw : 1 ≤ env.ULONG_BITS)
    (hc : (st._files file).bytenum ≤ (st._files file).filelength)
    (hfit : (st._files file).bytenum + offset < (2 : Int) ^ env.ULONG_BITS) :
    (fl_fseek env st (some file) offset SEEK_CUR).2 = 0 ∧
    (((fl_fseek env st (some file) offset SEEK_CUR).1._files file).bytenum : Int) =
      max 0 (min ((st._files file).bytenum + offset) (st._files file).filelength) := by
  obtain ⟨n, hn⟩ := CHECK_FL_INIT_files env st file
  have hM : (2 : Int) ^ env.ULONG_BITS = 2 * (2 : Int) ^ (env.ULONG_BITS - 1) := by
    conv_lhs => rw [show env.ULONG_BITS = (env.ULONG_BITS - 1) + 1 by omega]
    rw [pow_succ]; ring
  refine ⟨by simp [fl_fseek, SEEK_END, SEEK_SET, SEEK_CUR]; split <;> [rfl; (split <;> rfl)], ?_⟩
  simp only [fl_fseek, SEEK_END, SEEK_SET, SEEK_CUR]
  simp [hn]
  by_cases h0 : 0 ≤ offset
  · simp only [h0, if_true]
    simp
    rw [to_ulong_of_nonneg _ _ (by omega) hfit]
    split <;> omega
  · simp only [h0, if_false]
    rw [to_ulong_to_long, to_ulong_sub_to_long]
    rw [to_ulong_of_nonneg _ (-offset) (by omega) (by omega)]
    split
    · simp; omega
    · simp
      rw [to_ulong_of_nonneg _ _ (by omega) (by omega)]
      omega

/-- The exact `SEEK_CUR` at a concrete handle: on the file `a` of 10 bytes with
the cursor at 0, a seek by 4 gives cursor 4. -/
theorem fl_fseek_cur_exact_witness :
    (((fl_fseek Vol.env (Vol.opened (Vol.with_file 4 10 1) "r").1 (some 1) 4
      SEEK_CUR).1._files 1).bytenum : Int) = 4 :=
  (fl_fseek_cur_exact Vol.env (Vol.opened (Vol.with_file 4 10 1) "r").1 1 4
    (by decide) (by decide) (by decide) (by decide)).2.trans (by decide)

/-- C6 fails where `c + offset` passes the width of `unsigned long` (32 bits
here): the file `a` of 0xF0000000 bytes is opened and the cursor moved to its
end by `SEEK_END`; then `fl_fseek (f, 0x10000000, SEEK_CUR)` returns 0 and
leaves the cursor at 0, although `c + offset = 2 ^ 32` is above the length
and the clamp would give 0xF0000000. -/
theorem fl_fseek_cur_wraps :
    ((fl_fseek Vol.env (Vol.opened (Vol.with_file 4 0xF0000000 1) "r").1 (some 1) 0
      SEEK_END).1._files 1).bytenum = 0xF0000000 ∧
    ((fl_fseek Vol.env (Vol.opened (Vol.with_file 4 0xF0000000 1) "r").1 (some 1) 0
      SEEK_END).1._files 1).filelength = 0xF0000000 ∧
    (fl_fseek Vol.env
      (fl_fseek Vol.env (Vol.opened (Vol.with_file 4 0xF0000000 1) "r").1 (some 1) 0 SEEK_END).1
      (some 1) 0x10000000 SEEK_CUR).2 = 0 ∧
    ((fl_fseek Vol.env
      (fl_fseek Vol.env (Vol.opened (Vol.with_file 4 0xF0000000 1) "r").1 (some 1) 0 SEEK_END).1
      (some 1) 0x10000000 SEEK_CUR).1._files 1).bytenum = 0 := by
  decide
/-! ## `fl_fwrite` -/

/-- `fl_fwrite` at the cursor when `c + n` does not wrap: on a handle with
WRITE set and APPEND clear, with cursor `c`, length `L` and `n = size * count
≥ 0`, `n` an `int` and `c + n` within `unsigned long` (of at least 32 bits),
`fl_fwrite` returns `n`, leaves the cursor at `c + n` and the length at `max
L (c + n)`, and sets `filelength_changed` to 1 exactly when `c + n > L`,
leaving it as it was otherwise. -/
theorem fl_fwrite_at_cursor (env : Env D) (st : Lib D) (data : Bytes) (size count : Int)
    (file n : Nat)
    (hw : (st._files file).flags &&& FILE_WRITE ≠ 0)
    (ha : (st._files file).flags &&& FILE_APPEND = 0)
    (hn : size * count = (n : Int)) (hint : n < 2147483648)
    (hbits : 32 ≤ env.ULONG_BITS)
    (hfit : (st._files file).bytenum + n < 2 ^ env.ULONG_BITS) :
    (fl_fwrite env st data size count (some file)).2 = n ∧
    ((fl_fwrite env st data size count (some file)).1._files file).bytenum =
      (st._files file).bytenum + n ∧
    ((fl_fwrite env st data size count (some file)).1._files file).filelength =
      max (st._files file).filelength ((st._files file).bytenum + n) ∧
    ((fl_fwrite env st data size count (some file)).1._files file).filelength_changed =
      (if (st._files file).bytenum + n > (st._files file).filelength then 1
        else (st._files file).filelength_changed) := by
  have h := fl_fwrite_pos env st data size count file n (st._files file).bytenum hw
    (by simp [ha]) hn hint hbits hfit
  simp only [FL_FILE.pos, Prod.mk.injEq] at h
  exact ⟨h.1, h.2.1, h.2.2.1, h.2.2.2.1⟩

/-- The write at the cursor at a concrete handle: the file `a` of 10 bytes opened with `r+` (cursor
0); writing 3 * 200 bytes returns 600 and leaves cursor and length at 600
with `filelength_changed` set. -/
theorem fl_fwrite_at_cursor_witness :
    (fl_fwrite Vol.env (Vol.opened (Vol.with_file 4 10 1) "r+").1 (fun i => (65 + i) % 256) 3 200
      (some 1)).2 = 600 ∧
    ((fl_fwrite Vol.env (Vol.opened (Vol.with_file 4 10 1) "r+").1 (fun i => (65 + i) % 256) 3 200
      (some 1)).1._files 1).bytenum = 600 ∧
    ((fl_fwrite Vol.env (Vol.opened (Vol.with_file 4 10 1) "r+").1 (fun i => (65 + i) % 256) 3 200
      (some 1)).1._files 1).filelength = 600 ∧
    ((fl_fwrite Vol.env (Vol.opened (Vol.with_file 4 10 1) "r+").1 (fun i => (65 + i) % 256) 3 200
      (some 1)).1._files 1).filelength_changed = 1 :=
  have h := fl_fwrite_at_cursor Vol.env (Vol.opened (Vol.with_file 4 10 1) "r+").1
    (fun i => (65 + i) % 256) 3 200 1 600 (by decide) (by decide) (by decide) (by decide) (by decide)
    (by decide)
  ⟨h.1, h.2.1.trans (by decide), h.2.2.1.trans (by decide), h.2.2.2.trans (by decide)⟩

/-- C8, as the code has it: on a handle with WRITE set whose length is 0 (a
newly created empty file opened with `w`), `fl_fseek (f, 100,
SEEK_SET)` returns 0 and leaves the cursor at 0, because the seek is clamped
to the length; the following `fl_fwrite ("Z", 1, 1, f)` returns 1, puts the
byte at offset 0 of sector 0 in the buffer, and leaves cursor and length at
1. -/
theorem fl_fseek_past_end_then_write (env : Env D) (st : Lib D) (data : Bytes) (file : Nat)
    (hw : (st._files file).flags &&& FILE_WRITE ≠ 0)
    (hL : (st._files file).filelength = 0)
    (hbits : 32 ≤ env.ULONG_BITS) :
    (fl_fseek env st (some file) 100 SEEK_SET).2 = 0 ∧
    ((fl_fseek env st (some file) 100 SEEK_SET).1._files file).bytenum = 0 ∧
    (fl_fwrite env (fl_fseek env st (some file) 100 SEEK_SET).1 data 1 1 (some file)).2 = 1 ∧
    ((fl_fwrite env (fl_fseek env st (some file) 100 SEEK_SET).1 data 1 1
      (some file)).1._files file).filelength = 1 ∧
    ((fl_fwrite env (fl_fseek env st (some file) 100 SEEK_SET).1 data 1 1
      (some file)).1._files file).bytenum = 1 ∧
    ((fl_fwrite env (fl_fseek env st (some file) 100 SEEK_SET).1 data 1 1
      (some file)).1._files file).file_data.address = 0 ∧
    ((fl_fwrite env (fl_fseek env st (some file) 100 SEEK_SET).1 data 1 1
      (some file)).1._files file).file_data.sector 0 = data 0 := by
  obtain ⟨s0, sp⟩ := fl_fseek_set_pos env st file 100
  simp only [FL_FILE.pos, Prod.mk.injEq, hL, Nat.min_zero] at sp
  obtain ⟨p1, p2, -, p4⟩ := sp
  have hw1 : ((fl_fseek env st (some file) 100 SEEK_SET).1._files file).flags &&& FILE_WRITE ≠ 0 :=
    by rw [p4]; exact hw
  have hpow : (2 : Nat) ^ 32 ≤ 2 ^ env.ULONG_BITS := Nat.pow_le_pow_right (by norm_num) hbits
  have hc : (0 : Nat) =
      if ((fl_fseek env st (some file) 100 SEEK_SET).1._files file).flags &&& FILE_APPEND ≠ 0
      then ((fl_fseek env st (some file) 100 SEEK_SET).1._files file).filelength
      else ((fl_fseek env st (some file) 100 SEEK_SET).1._files file).bytenum := by
    rw [p4, p1, p2]; simp
  have h := fl_fwrite_pos env (fl_fseek env st (some file) 100 SEEK_SET).1 data 1 1 file 1 0 hw1
    hc (by norm_num) (by norm_num) hbits (by omega)
  simp only [FL_FILE.pos, Prod.mk.injEq, p2] at h
  have hb := fl_fwrite_pass_bytes env (fl_fseek env st (some file) 100 SEEK_SET).1 data 1 1 file
    1 0 hc (by norm_num) (by norm_num) hbits (by omega) 0 (by norm_num)
  have hd := fl_fwrite_file_data env (fl_fseek env st (some file) 100 SEEK_SET).1 data 1 1 file
    hw1
  have hlen : to_ulong env.ULONG_BITS (to_int (1 * 1)) = 1 :=
    to_ulong_to_int_nat _ 1 (by norm_num) hbits
  rw [hlen] at hd
  refine ⟨s0, p1, h.1, by rw [h.2.2.1]; simp, h.2.1, ?_, ?_⟩
  · rw [hd]; exact hb.1
  · rw [hd]; exact hb.2.2

/-- C8 at a concrete handle: the file `a` created by `fl_fopen ("/a", "w")` on
an empty volume. -/
theorem fl_fseek_past_end_then_write_witness :
    ((fl_fwrite Vol.env (fl_fseek Vol.env (Vol.opened (Vol.empty 4 7) "w").1 (some 1) 100
      SEEK_SET).1 (fun _ => 90) 1 1 (some 1)).1._files 1).filelength = 1 ∧
    ((fl_fwrite Vol.env (fl_fseek Vol.env (Vol.opened (Vol.empty 4 7) "w").1 (some 1) 100
      SEEK_SET).1 (fun _ => 90) 1 1 (some 1)).1._files 1).file_data.sector 0 = 90 :=
  have h := fl_fseek_past_end_then_write Vol.env (Vol.opened (Vol.empty 4 7) "w").1
    (fun _ => 90) 1 (by decide) (by decide) (by decide)
  ⟨h.2.2.2.1, h.2.2.2.2.2.2⟩

/-- C8 fails as stated: `fl_fopen ("/a", "w")` on an empty volume creates the
file and returns handle 1 with length 0 and cursor 0; after `fl_fseek (f, 100,
SEEK_SET)` (result 0, cursor still 0) and `fl_fwrite ("Z", 1, 1, f)` (result
1) the length is 1, not 101. -/
theorem fl_fseek_past_end_length_one :
    (Vol.opened (Vol.empty 4 7) "w").2 = some 1 ∧
    ((Vol.opened (Vol.empty 4 7) "w").1._files 1).filelength = 0 ∧
    ((Vol.opened (Vol.empty 4 7) "w").1._files 1).bytenum = 0 ∧
    (fl_fseek Vol.env (Vol.opened (Vol.empty 4 7) "w").1 (some 1) 100 SEEK_SET).2 = 0 ∧
    ((fl_fseek Vol.env (Vol.opened (Vol.empty 4 7) "w").1 (some 1) 100 SEEK_SET).1._files
      1).bytenum = 0 ∧
    (fl_fwrite Vol.env (fl_fseek Vol.env (Vol.opened (Vol.empty 4 7) "w").1 (some 1) 100
      SEEK_SET).1 (fun _ => 90) 1 1 (some 1)).2 = 1 ∧
    ((fl_fwrite Vol.env (fl_fseek Vol.env (Vol.opened (Vol.empty 4 7) "w").1 (some 1) 100
      SEEK_SET).1 (fun _ => 90) 1 1 (some 1)).1._files 1).filelength = 1 ∧
    ¬ ((fl_fwrite Vol.env (fl_fseek Vol.env (Vol.opened (Vol.empty 4 7) "w").1 (some 1) 100
      SEEK_SET).1 (fun _ => 90) 1 1 (some 1)).1._files 1).filelength = 101 := by
  decide

/-- Once the loop of `fl_fwrite` has the passes it needs, more fuel changes
nothing. -/
theorem fl_fwrite_loop_stable (env : Env D) (file : Nat) (data : Bytes) (length : Nat) :
    ∀ (fuel : Nat) (st : Lib D) (sector offset bw : Nat), offset < 512 →
      (offset + (length - bw) + 511) / 512 ≤ fuel →
      fl_fwrite_loop env file data length fuel st sector offset bw =
        fl_fwrite_loop env file data length ((offset + (length - bw) + 511) / 512) st sector
          offset bw := by
  intro fuel
  induction fuel with
  | zero =>
    intro st sector offset bw _ h
    have : (offset + (length - bw) + 511) / 512 = 0 := by omega
    rw [this]
  | succ f ih =>
    intro st sector offset bw h1 h2
    by_cases hlt : bw < length
    · obtain ⟨c0, c1, c2, c3, c4⟩ := fwrite_copyCount_pos length bw offset hlt h1
      obtain ⟨m, hm⟩ : ∃ m, (offset + (length - bw) + 511) / 512 = m + 1 :=
        ⟨(offset + (length - bw) + 511) / 512 - 1, by omega⟩
      rw [hm, fl_fwrite_loop_succ _ _ _ _ _ _ _ _ _ hlt, fl_fwrite_loop_succ _ _ _ _ _ _ _ _ _ hlt]
      have hm' : (0 + (length - (bw + fwrite_copyCount length bw offset)) + 511) / 512 = m := by
        by_cases hh : 512 - offset ≤ length - bw
        · rw [c3 hh]; omega
        · rw [c4 (by omega)]; omega
      rw [ih _ _ 0 _ (by omega) (by omega), hm']
    · rw [fl_fwrite_loop_done _ _ _ _ _ _ _ _ _ hlt, fl_fwrite_loop_done _ _ _ _ _ _ _ _ _ hlt]

/-- A pass of the loop of `fl_fwrite` after the first, in terms of the state
the pass before it left. -/
theorem fl_fwrite_loop_snoc (env : Env D) (file : Nat) (data : Bytes) (length : Nat) :
    ∀ (k : Nat) (st : Lib D) (sector offset bw : Nat),
      offset < 512 → sector * 512 + offset = (st._files file).bytenum →
      (st._files file).bytenum + (length - bw) < 2 ^ env.ULONG_BITS →
      bw + (512 - offset) + 512 * k < length →
      fl_fwrite_loop env file data length (k + 1 + 1) st sector offset bw =
        fwrite_copy env
          (fwrite_fetch env (fl_fwrite_loop env file data length (k + 1) st sector offset bw)
            file (sector + k + 1)
            (fwrite_copyCount length (bw + (512 - offset) + 512 * k) 0))
          file data 0 (bw + (512 - offset) + 512 * k)
          (fwrite_copyCount length (bw + (512 - offset) + 512 * k) 0) := by
  intro k
  induction k with
  | zero =>
    intro st sector offset bw h1 h2 h3 h4
    obtain ⟨c0, c1, c2, c3, c4⟩ := fwrite_copyCount_pos length bw offset (by omega) h1
    have hcc : fwrite_copyCount length bw offset = 512 - offset := c3 (by omega)
    have hs : (sector + 1) % 2 ^ env.ULONG_BITS = sector + 1 := Nat.mod_eq_of_lt (by omega)
    rw [fl_fwrite_loop_succ _ _ _ _ _ _ _ _ _ (by omega : bw < length), hs, hcc,
      fl_fwrite_loop_succ _ _ _ _ _ _ _ _ _ (by omega : bw + (512 - offset) < length),
      fl_fwrite_loop_succ _ _ _ _ _ _ _ _ _ (by omega : bw < length), hcc]
    simp only [fl_fwrite_loop, Nat.mul_zero, Nat.add_zero]
  | succ k ih =>
    intro st sector offset bw h1 h2 h3 h4
    obtain ⟨c0, c1, c2, c3, c4⟩ := fwrite_copyCount_pos length bw offset (by omega) h1
    have hcc : fwrite_copyCount length bw offset = 512 - offset := c3 (by omega)
    have hs : (sector + 1) % 2 ^ env.ULONG_BITS = sector + 1 := Nat.mod_eq_of_lt (by omega)
    have hp := fwrite_copy_pos env
      (fwrite_fetch env st file sector (fwrite_copyCount length bw offset)) file data offset bw
      (fwrite_copyCount length bw offset)
    obtain ⟨e1, e2, e3, e4⟩ := pos_fields _ _
      (fwrite_fetch_pos env st file sector (fwrite_copyCount length bw offset) file)
    rw [e1, e2, e3, e4] at hp
    simp only [FL_FILE.pos, Prod.mk.injEq] at hp
    obtain ⟨hb, -, -, -⟩ := hp
    rw [Nat.mod_eq_of_lt (by omega)] at hb
    rw [fl_fwrite_loop_succ env file data length (k + 1 + 1) st sector offset bw (by omega),
      fl_fwrite_loop_succ env file data length (k + 1) st sector offset bw (by omega), hs]
    have := ih _ (sector + 1) 0 (bw + fwrite_copyCount length bw offset) (by omega)
      (by rw [hb]; omega) (by rw [hb]; omega) (by rw [hcc]; omega)
    rw [this]
    have i1 : sector + 1 + k + 1 = sector + (k + 1) + 1 := by omega
    have i2 : bw + fwrite_copyCount length bw offset + (512 - 0) + 512 * k =
        bw + (512 - offset) + 512 * (k + 1) := by rw [hcc]; omega
    rw [i1, i2]

/-- `fl_fwrite` in APPEND mode when `L + n` does not wrap: on a handle with
WRITE and APPEND set and length `L`, whatever the cursor was, `fl_fwrite` of
`n = size * count` bytes, `n` an `int` and `L + n` within `unsigned long` (of
at least 32 bits), starts its loop with the cursor at `L`, and after the call
the cursor and the length are both `L + n`.  Byte `i` of the data is put in
the buffer of file sector `(L + i) / 512` at offset `(L + i) % 512`, the
buffer being marked dirty, so the bytes take the file offsets `L .. L + n -
1`.  Below `L % 512` the buffer of the first pass holds, when it did not hold
the sector before, what `_read_sector` loaded for sector `L / 512` after the
flush of a dirty buffer, or zeros where that read failed, and the bytes it
held before when it did hold the sector.  A pass that fills its sector is
followed by one that hands the buffer to `fl_fflush` before it takes the next
sector (`fwrite_next`), and the bytes of the last sector written are in the
buffer, dirty, when the call returns. -/
theorem fl_fwrite_append (env : Env D) (st : Lib D) (data : Bytes) (size count : Int)
    (file n : Nat)
    (hw : (st._files file).flags &&& FILE_WRITE ≠ 0)
    (ha : (st._files file).flags &&& FILE_APPEND ≠ 0)
    (hn : size * count = (n : Int)) (hint : n < 2147483648)
    (hbits : 32 ≤ env.ULONG_BITS)
    (hfit : (st._files file).filelength + n < 2 ^ env.ULONG_BITS) :
    ((fl_fwrite_pass env st data size count file 0)._files file).bytenum =
      (st._files file).filelength ∧
    ((fl_fwrite env st data size count (some file)).1._files file).bytenum =
      (st._files file).filelength + n ∧
    ((fl_fwrite env st data size count (some file)).1._files file).filelength =
      (st._files file).filelength + n ∧
    (∀ i, i < n →
      ((fl_fwrite_pass env st data size count file
        (((st._files file).filelength % 512 + i) / 512 + 1))._files file).file_data.address =
          ((st._files file).filelength + i) / 512 ∧
      ((fl_fwrite_pass env st data size count file
        (((st._files file).filelength % 512 + i) / 512 + 1))._files file).file_data.dirty = 1 ∧
      ((fl_fwrite_pass env st data size count file
        (((st._files file).filelength % 512 + i) / 512 + 1))._files file).file_data.sector
          (((st._files file).filelength + i) % 512) = data i) ∧
    ((st._files file).file_data.address ≠ (st._files file).filelength / 512 → 0 < n →
      ∀ j, j < (st._files file).filelength % 512 →
        ((fl_fwrite_pass env st data size count file 1)._files file).file_data.sector j =
          if (_read_sector env (flush_dirty env (fl_fwrite_pass env st data size count file 0)
                file) file ((st._files file).filelength / 512)
              ((flush_dirty env (fl_fwrite_pass env st data size count file 0) file)._files
                file).file_data.sector).2.1 = true then
            (_read_sector env (flush_dirty env (fl_fwrite_pass env st data size count file 0)
                file) file ((st._files file).filelength / 512)
              ((flush_dirty env (fl_fwrite_pass env st data size count file 0) file)._files
                file).file_data.sector).2.2 j
          else 0) ∧
    ((st._files file).file_data.address = (st._files file).filelength / 512 →
      ∀ j, j < (st._files file).filelength % 512 →
        ((fl_fwrite_pass env st data size count file 1)._files file).file_data.sector j =
          (st._files file).file_data.sector j) ∧
    (∀ p, 512 - (st._files file).filelength % 512 + 512 * p < n →
      fl_fwrite_pass env st data size count file (p + 1 + 1) =
        fwrite_copy env
          (fwrite_next env (fl_fwrite_pass env st data size count file (p + 1)) file
            ((st._files file).filelength / 512 + p + 1)
            (fwrite_copyCount n (512 - (st._files file).filelength % 512 + 512 * p) 0))
          file data 0 (512 - (st._files file).filelength % 512 + 512 * p)
          (fwrite_copyCount n (512 - (st._files file).filelength % 512 + 512 * p) 0)) ∧
    (∀ i, i < n →
      ((st._files file).filelength + i) / 512 = ((st._files file).filelength + n - 1) / 512 →
      ((fl_fwrite env st data size count (some file)).1._files file).file_data.address =
        ((st._files file).filelength + i) / 512 ∧
      ((fl_fwrite env st data size count (some file)).1._files file).file_data.dirty = 1 ∧
      ((fl_fwrite env st data size count (some file)).1._files file).file_data.sector
        (((st._files file).filelength + i) % 512) = data i) := by
  have hlen : to_ulong env.ULONG_BITS (to_int (size * count)) = n := by
    rw [hn]; exact to_ulong_to_int_nat _ _ hint hbits
  have h0 := fl_fwrite_pass_zero env st data size count file
  rw [if_pos ha] at h0
  simp only [FL_FILE.pos, Prod.mk.injEq] at h0
  obtain ⟨z1, -, -, -⟩ := h0
  have hd := fl_fwrite_pass_zero_data env st data size count file
  have h := fl_fwrite_pos env st data size count file n (st._files file).filelength hw
    (by rw [if_pos ha]) hn hint hbits hfit
  simp only [FL_FILE.pos, Prod.mk.injEq] at h
  have hbytes := fun i hi => fl_fwrite_pass_bytes env st data size count file n
    (st._files file).filelength (by rw [if_pos ha]) hn hint hbits hfit i hi
  refine ⟨z1, h.2.1, by rw [h.2.2.1]; omega, hbytes, ?_, ?_, ?_, ?_⟩
  · intro hadr hpos j hj
    rw [fl_fwrite_pass_one env st data size count file (by omega), fwrite_copy_data, hlen, z1]
    simp only [memcpy]
    rw [if_neg (by omega)]
    have hcc : fwrite_copyCount n 0 ((st._files file).filelength % 512) ≠ FAT_SECTOR_SIZE := by
      have := (fwrite_copyCount_pos n 0 ((st._files file).filelength % 512) hpos
        (Nat.mod_lt _ (by norm_num))).2.2.1
      unfold FAT_SECTOR_SIZE
      omega
    unfold fwrite_fetch
    rw [if_pos (by rw [hd]; exact hadr)]
    simp only []
    rw [if_pos hcc]
    unfold fwrite_read
    simp only [setFile_files, if_true]
    by_cases hr : (_read_sector env (flush_dirty env (fl_fwrite_pass env st data size count
        file 0) file) file ((st._files file).filelength / 512)
        ((flush_dirty env (fl_fwrite_pass env st data size count file 0) file)._files
          file).file_data.sector).2.1 = true
    · rw [if_pos hr, if_neg (by rw [hr]; decide)]
    · rw [if_neg hr, if_pos (by simpa using hr)]
      unfold memset FAT_SECTOR_SIZE
      rw [if_pos (by omega)]
  · intro hadr j hj
    by_cases hpos : 0 < n
    · rw [fl_fwrite_pass_one env st data size count file (by omega), fwrite_copy_data, hlen, z1,
        fwrite_fetch_same _ _ _ _ _ (by rw [hd]; exact hadr), hd]
      simp only [memcpy]
      rw [if_neg (by omega)]
    · rw [fl_fwrite_pass_eq, fl_fwrite_loop_done _ _ _ _ _ _ _ _ _ (by omega), hd]
  · intro p hp
    have hsn := fl_fwrite_loop_snoc env file data n p
      (fl_fwrite_pass env st data size count file 0) ((st._files file).filelength / 512)
      ((st._files file).filelength % 512) 0 (Nat.mod_lt _ (by norm_num))
      (by rw [z1]; omega) (by rw [z1]; omega) (by omega)
    rw [Nat.zero_add] at hsn
    have e2 := fl_fwrite_pass_eq env st data size count file (p + 1 + 1)
    have e1 := fl_fwrite_pass_eq env st data size count file (p + 1)
    rw [hlen, z1] at e1 e2
    rw [← e1, ← e2] at hsn
    rw [hsn]
    obtain ⟨b1, b2, -⟩ := hbytes (512 - (st._files file).filelength % 512 + 512 * p - 1)
      (by omega)
    have hk : ((st._files file).filelength % 512 +
        (512 - (st._files file).filelength % 512 + 512 * p - 1)) / 512 + 1 = p + 1 := by omega
    rw [hk] at b1 b2
    have hne : ((fl_fwrite_pass env st data size count file (p + 1))._files
        file).file_data.address ≠ (st._files file).filelength / 512 + p + 1 := by
      rw [b1]; omega
    have hdirty : ((fl_fwrite_pass env st data size count file (p + 1))._files
        file).file_data.dirty ≠ 0 := by rw [b2]; decide
    congr 1
    unfold fwrite_fetch fwrite_next flush_dirty
    rw [if_pos hne, if_pos hdirty]
  · intro i hi hlast
    rw [fl_fwrite_file_data env st data size count file hw, hlen]
    have hst := fl_fwrite_loop_stable env file data n n
      (fl_fwrite_pass env st data size count file 0) ((st._files file).filelength / 512)
      ((st._files file).filelength % 512) 0 (Nat.mod_lt _ (by norm_num)) (by omega)
    have e1 := fl_fwrite_pass_eq env st data size count file n
    have e2 := fl_fwrite_pass_eq env st data size count file
      (((st._files file).filelength % 512 + i) / 512 + 1)
    rw [hlen, z1] at e1 e2
    have hk : ((st._files file).filelength % 512 + (n - 0) + 511) / 512 =
        ((st._files file).filelength % 512 + i) / 512 + 1 := by omega
    rw [hk, ← e1, ← e2] at hst
    rw [hst]
    exact hbytes i hi

/-- The append at a concrete handle: the file `a` of 10 bytes opened with `a`;
writing 3 * 200 bytes leaves cursor and length at 610; the first byte of the
data is in the buffer of sector 0 at offset 10, below which the buffer holds
the bytes read from the disk (byte 9 of the sector at LBA 3), and the last
byte is in the buffer of sector 1 at offset 97, where it still is when the
call returns. -/
theorem fl_fwrite_append_witness :
    ((fl_fwrite Vol.env (Vol.opened (Vol.with_file 4 10 1) "a").1 (fun i => (65 + i) % 256) 3
      200 (some 1)).1._files 1).bytenum = 610 ∧
    ((fl_fwrite Vol.env (Vol.opened (Vol.with_file 4 10 1) "a").1 (fun i => (65 + i) % 256) 3
      200 (some 1)).1._files 1).filelength = 610 ∧
    ((fl_fwrite_pass Vol.env (Vol.opened (Vol.with_file 4 10 1) "a").1
      (fun i => (65 + i) % 256) 3 200 1 1)._files 1).file_data.sector 10 = 65 ∧
    ((fl_fwrite_pass Vol.env (Vol.opened (Vol.with_file 4 10 1) "a").1
      (fun i => (65 + i) % 256) 3 200 1 1)._files 1).file_data.sector 9 = (7 * 3 + 9) % 256 ∧
    ((fl_fwrite_pass Vol.env (Vol.opened (Vol.with_file 4 10 1) "a").1
      (fun i => (65 + i) % 256) 3 200 1 2)._files 1).file_data.sector 97 = 152 ∧
    ((fl_fwrite Vol.env (Vol.opened (Vol.with_file 4 10 1) "a").1 (fun i => (65 + i) % 256) 3
      200 (some 1)).1._files 1).file_data.sector 97 = 152 :=
  have h := fl_fwrite_append Vol.env (Vol.opened (Vol.with_file 4 10 1) "a").1
    (fun i => (65 + i) % 256) 3 200 1 600 (by decide) (by decide) (by decide) (by decide)
    (by decide) (by decide)
  ⟨h.2.1.trans (by decide), h.2.2.1.trans (by decide), (h.2.2.2.1 0 (by decide)).2.2,
   (h.2.2.2.2.1 (by decide) (by decide) 9 (by decide)).trans (by decide),
   (h.2.2.2.1 599 (by decide)).2.2, (h.2.2.2.2.2.2.2 599 (by decide) (by decide)).2.2⟩

/-- C10, as the code has it: on a handle with WRITE set `fl_fwrite` returns
`size * count` (as an `int`) whatever happens while it runs; a failure to
extend the cluster chain while a dirty sector is written back is not
reported in the result. -/
theorem fl_fwrite_result (env : Env D) (st : Lib D) (data : Bytes) (size count : Int)
    (file : Nat) (hw : (st._files file).flags &&& FILE_WRITE ≠ 0) :
    (fl_fwrite env st data size count (some file)).2 = to_int (size * count) := by
  rw [fl_fwrite_eq env st data size count file hw]

/-- C10 at a concrete run in which extending the chain fails: the volume has
no free cluster left once the new file `a` has its first one; writing 3 * 512
bytes needs a second cluster when the second sector is written back, the
call of `fatfs_add_free_space` fails, and `fl_fwrite` returns 1536. -/
theorem fl_fwrite_result_witness :
    (fl_fwrite Vol.env (Vol.opened (Vol.empty 2 7) "w").1 (fun i => i % 251) 3 512
      (some 1)).1.trace.any Event.add_free_space_failed = true ∧
    (fl_fwrite Vol.env (Vol.opened (Vol.empty 2 7) "w").1 (fun i => i % 251) 3 512
      (some 1)).2 = 1536 :=
  ⟨by decide,
   (fl_fwrite_result Vol.env (Vol.opened (Vol.empty 2 7) "w").1 (fun i => i % 251) 3 512 1
      (by decide)).trans (by decide)⟩

/-- C10 fails as stated: on a volume with no free cluster left, `fl_fwrite` of
3 * 512 bytes to the new file `a` (handle 1, WRITE set) meets a failed
`fatfs_add_free_space` when it writes the second sector back (no
`fatfs_add_free_space` had failed before the call); only the first sector
reached the disk (the sector at LBA 3 holds the data, the next one does not),
yet the result is 1536 = `size * count`, neither 512 nor -1. -/
theorem fl_fwrite_ignores_failed_extension :
    (Vol.opened (Vol.empty 2 7) "w").2 = some 1 ∧
    ((Vol.opened (Vol.empty 2 7) "w").1._files 1).flags &&& FILE_WRITE ≠ 0 ∧
    (Vol.opened (Vol.empty 2 7) "w").1.trace.any Event.add_free_space_failed = false ∧
    (fl_fwrite Vol.env (Vol.opened (Vol.empty 2 7) "w").1 (fun i => i % 251) 3 512
      (some 1)).1.trace.any Event.add_free_space_failed = true ∧
    (fl_fwrite Vol.env (Vol.opened (Vol.empty 2 7) "w").1 (fun i => i % 251) 3 512
      (some 1)).1._fs.vol.data 3 5 = 5 ∧
    (fl_fwrite Vol.env (Vol.opened (Vol.empty 2 7) "w").1 (fun i => i % 251) 3 512
      (some 1)).1._fs.vol.data 4 5 = 7 ∧
    (fl_fwrite Vol.env (Vol.opened (Vol.empty 2 7) "w").1 (fun i => i % 251) 3 512
      (some 1)).2 = 3 * 512 := by
  decide
/-! ## `fl_fread` -/

/-- `fl_fread` when `c + n` does not wrap: on a handle with READ set, cursor
`c < L` and request `n = size * count > 0`, `n` an `int` and `c + n` within
`unsigned long`, if every sector load of the loop succeeds, `fl_fread`
returns `m = min n (L - c)`, leaves the cursor at `c + m`, and byte `i < m`
of the caller's buffer is byte `(c + i) % 512` of file sector `(c + i) /
512`: the buffered sector when, at the pass that reaches the byte, the
address of the buffer is that sector index, and otherwise what
`_read_sector` loads for that index (after the flush of a dirty buffer). -/
theorem fl_fread_ok (env : Env D) (st : Lib D) (buf : Bytes) (size length : Int)
    (file n : Nat)
    (hr : (st._files file).flags &&& FILE_READ ≠ 0)
    (hc : (st._files file).bytenum < (st._files file).filelength)
    (hn : size * length = (n : Int)) (h0 : 0 < n) (hint : n < 2147483648)
    (hfit : (st._files file).bytenum + n < 2 ^ env.ULONG_BITS)
    (hload : ∀ k,
      k < ((st._files file).bytenum % 512 +
        min n ((st._files file).filelength - (st._files file).bytenum) + 511) / 512 →
      (fread_fetch env (fl_fread_pass env st buf size length file k).1 file
        ((st._files file).bytenum / 512 + k)).2 = true) :
    (fl_fread env st (some buf) size length (some file)).2.2 =
      (min n ((st._files file).filelength - (st._files file).bytenum) : Nat) ∧
    ((fl_fread env st (some buf) size length (some file)).1._files file).bytenum =
      (st._files file).bytenum +
        min n ((st._files file).filelength - (st._files file).bytenum) ∧
    ∃ out, (fl_fread env st (some buf) size length (some file)).2.1 = some out ∧
      ∀ i, i < min n ((st._files file).filelength - (st._files file).bytenum) →
        out i =
          (if (((fl_fread_pass env st buf size length file
                (((st._files file).bytenum % 512 + i) / 512)).1)._files file).file_data.address =
              ((st._files file).bytenum + i) / 512 then
            (((fl_fread_pass env st buf size length file
                (((st._files file).bytenum % 512 + i) / 512)).1)._files file).file_data.sector
          else
            (_read_sector env
              (flush_dirty env (fl_fread_pass env st buf size length file
                (((st._files file).bytenum % 512 + i) / 512)).1 file)
              file (((st._files file).bytenum + i) / 512)
              ((flush_dirty env (fl_fread_pass env st buf size length file
                (((st._files file).bytenum % 512 + i) / 512)).1 file)._files
                  file).file_data.sector).2.2)
            (((st._files file).bytenum + i) % 512) := by
  obtain ⟨e1, -, -, -⟩ := pos_fields _ _ (CHECK_FL_INIT_pos env st file)
  have hpass := fun k => fl_fread_pass_eq env st buf size length file n k hc hn hint hfit
  have hmain := fl_fread_loop_ok env file
    (min n ((st._files file).filelength - (st._files file).bytenum))
    (min n ((st._files file).filelength - (st._files file).bytenum))
    (CHECK_FL_INIT env st) buf ((st._files file).bytenum / 512)
    ((st._files file).bytenum % 512) 0 (Nat.mod_lt _ (by norm_num)) (Nat.zero_le _)
    (by intro _; rw [e1]; omega) (by rw [e1]; omega) (by omega)
    (by
      intro k hk
      rw [← hpass k]
      exact hload k (by simpa using hk))
  rw [← hpass] at hmain
  obtain ⟨m1, m2, -, m4⟩ := hmain
  rw [fl_fread_eq env st buf size length file n hr hc hn h0 hint hfit]
  refine ⟨m1, by rw [m2, e1]; omega, _, rfl, ?_⟩
  intro i hi
  have := m4 i (Nat.zero_le _) hi
  simp only [Nat.sub_zero] at this
  rw [this, ← hpass, fread_fetch_sector]
  have hs : (st._files file).bytenum / 512 + ((st._files file).bytenum % 512 + i) / 512 =
      ((st._files file).bytenum + i) / 512 := by omega
  have hm : ((st._files file).bytenum % 512 + i) % 512 = ((st._files file).bytenum + i) % 512 := by
    omega
  rw [hs, hm]

/-- The read at a concrete handle: the file `a` of 1000 bytes (two sectors) opened
for reading with the cursor moved to 500; a read of 1 * 600 bytes returns
500, leaves the cursor at 1000, and gives byte 500 of the file first (byte
500 of the sector at LBA 3) and the first byte of the second sector (LBA 4)
at index 12. -/
theorem fl_fread_ok_witness :
    (fl_fread Vol.env
      (fl_fseek Vol.env (Vol.opened (Vol.with_file 4 1000 2) "r").1 (some 1) 500 SEEK_SET).1
      (some (fun _ => 0)) 1 600 (some 1)).2.2 = 500 ∧
    ((fl_fread Vol.env
      (fl_fseek Vol.env (Vol.opened (Vol.with_file 4 1000 2) "r").1 (some 1) 500 SEEK_SET).1
      (some (fun _ => 0)) 1 600 (some 1)).1._files 1).bytenum = 1000 ∧
    ∃ out, (fl_fread Vol.env
      (fl_fseek Vol.env (Vol.opened (Vol.with_file 4 1000 2) "r").1 (some 1) 500 SEEK_SET).1
      (some (fun _ => 0)) 1 600 (some 1)).2.1 = some out ∧
      out 0 = (7 * 3 + 500) % 256 ∧ out 12 = (7 * 4 + 0) % 256 := by
  obtain ⟨h1, h2, out, h3, h4⟩ := fl_fread_ok Vol.env
    (fl_fseek Vol.env (Vol.opened (Vol.with_file 4 1000 2) "r").1 (some 1) 500 SEEK_SET).1
    (fun _ => 0) 1 600 1 600 (by decide) (by decide) (by decide) (by decide) (by decide)
    (by decide) (by decide)
  exact ⟨h1.trans (by decide), h2.trans (by decide), out, h3,
    (h4 0 (by decide)).trans (by decide), (h4 12 (by decide)).trans (by decide)⟩

/-- C3 fails on the code: `fl_fopen ("/a", "w+")` on an empty volume whose
data bytes are all 7 gives handle 1 with READ and WRITE set and the cursor at
0; `fl_fwrite ("A", 1, 1, f)` returns 1, `fl_fseek (f, 0, SEEK_SET)` returns
0, and `fl_fread (buf, 1, 1, f)` returns 1 but yields the byte 7 that the
disk held, not the byte 65 that was written: the seek dropped the dirty
buffer, and no sector was written to the volume in the whole sequence. -/
theorem fl_fwrite_fseek_fread_loses_data :
    (Vol.opened (Vol.empty 4 7) "w+").2 = some 1 ∧
    ((Vol.opened (Vol.empty 4 7) "w+").1._files 1).flags =
      FILE_READ ||| FILE_WRITE ||| FILE_ERASE ||| FILE_CREATE ∧
    ((Vol.opened (Vol.empty 4 7) "w+").1._files 1).bytenum = 0 ∧
    (fl_fwrite Vol.env (Vol.opened (Vol.empty 4 7) "w+").1 (fun _ => 65) 1 1 (some 1)).2 = 1 ∧
    (fl_fseek Vol.env
      (fl_fwrite Vol.env (Vol.opened (Vol.empty 4 7) "w+").1 (fun _ => 65) 1 1 (some 1)).1
      (some 1) 0 SEEK_SET).2 = 0 ∧
    (fl_fread Vol.env
      (fl_fseek Vol.env
        (fl_fwrite Vol.env (Vol.opened (Vol.empty 4 7) "w+").1 (fun _ => 65) 1 1 (some 1)).1
        (some 1) 0 SEEK_SET).1
      (some (fun _ => 0)) 1 1 (some 1)).2.2 = 1 ∧
    (fl_fread Vol.env
      (fl_fseek Vol.env
        (fl_fwrite Vol.env (Vol.opened (Vol.empty 4 7) "w+").1 (fun _ => 65) 1 1 (some 1)).1
        (some 1) 0 SEEK_SET).1
      (some (fun _ => 0)) 1 1 (some 1)).2.1.map (fun b => b 0) = some 7 ∧
    (fl_fread Vol.env
      (fl_fseek Vol.env
        (fl_fwrite Vol.env (Vol.opened (Vol.empty 4 7) "w+").1 (fun _ => 65) 1 1 (some 1)).1
        (some 1) 0 SEEK_SET).1
      (some (fun _ => 0)) 1 1 (some 1)).1.trace.any Event.is_write_sector = false := by
  decide
/-! ## `fl_fopen` -/

/-- C4 fails on the code: the root directory holds the regular file `a` of 10
bytes, nothing is open and a write callback is attached.  Both `fl_fopen
("/a", "w")` and `fl_fopen ("/a", "w+")` return handle 1 with ERASE among its
flags and with length 10, not 0; no cluster chain is freed, and the directory
entry still has size 10. -/
theorem fl_fopen_w_keeps_length :
    (Vol.mounted (Vol.with_file 4 10 1))._fs.disk_io_write_sector = true ∧
    (Vol.mounted (Vol.with_file 4 10 1))._open_file_list = none ∧
    (Vol.opened (Vol.with_file 4 10 1) "w").2 = some 1 ∧
    ((Vol.opened (Vol.with_file 4 10 1) "w").1._files 1).flags =
      FILE_WRITE ||| FILE_ERASE ||| FILE_CREATE ∧
    ((Vol.opened (Vol.with_file 4 10 1) "w").1._files 1).filelength = 10 ∧
    (Vol.opened (Vol.with_file 4 10 1) "w").1.trace.any Event.is_free_cluster_chain = false ∧
    (Vol.opened (Vol.with_file 4 10 1) "w").1._fs.vol.dir.map (fun e => e.2.FileSize) = [10] ∧
    (Vol.opened (Vol.with_file 4 10 1) "w+").2 = some 1 ∧
    ((Vol.opened (Vol.with_file 4 10 1) "w+").1._files 1).flags =
      FILE_READ ||| FILE_WRITE ||| FILE_ERASE ||| FILE_CREATE ∧
    ((Vol.opened (Vol.with_file 4 10 1) "w+").1._files 1).filelength = 10 ∧
    (Vol.opened (Vol.with_file 4 10 1) "w+").1._fs.vol.dir.map (fun e => e.2.FileSize) = [10] := by
  decide
/-! ## The mode string -/

theorem land_lor_distrib_right (a b c : Nat) : (a ||| b) &&& c = (a &&& c) ||| (b &&& c) := by
  apply Nat.eq_of_testBit_eq
  intro i
  simp only [Nat.testBit_and, Nat.testBit_or]
  cases a.testBit i <;> cases b.testBit i <;> cases c.testBit i <;> rfl

theorem lor_right_comm (a b c : Nat) : a ||| b ||| c = a ||| c ||| b := by
  rw [Nat.lor_assoc, Nat.lor_comm b, ← Nat.lor_assoc]

theorem mode_flags_binary (f : Nat) (c : Char) :
    mode_flags (f ||| FILE_BINARY) c = mode_flags f c ||| FILE_BINARY := by
  have h1 : (f ||| FILE_BINARY) &&& FILE_READ = f &&& FILE_READ := by
    rw [land_lor_distrib_right, show FILE_BINARY &&& FILE_READ = 0 by decide]; simp
  have h2 : (f ||| FILE_BINARY) &&& FILE_WRITE = f &&& FILE_WRITE := by
    rw [land_lor_distrib_right, show FILE_BINARY &&& FILE_WRITE = 0 by decide]; simp
  have h3 : (f ||| FILE_BINARY) &&& FILE_APPEND = f &&& FILE_APPEND := by
    rw [land_lor_distrib_right, show FILE_BINARY &&& FILE_APPEND = 0 by decide]; simp
  unfold mode_flags
  rw [h1, h2, h3]
  split_ifs <;> simp only [lor_right_comm _ FILE_BINARY]

theorem foldl_mode_flags_binary (cs : List Char) :
    ∀ f, cs.foldl mode_flags (f ||| FILE_BINARY) = cs.foldl mode_flags f ||| FILE_BINARY := by
  induction cs with
  | nil => intro f; rfl
  | cons c cs ih => intro f; simp only [List.foldl_cons, mode_flags_binary, ih]

theorem takeWhile_append_left (p : Char → Bool) (pre suf : List Char)
    (h : ∀ c ∈ pre, p c = true) :
    (pre ++ suf).takeWhile p = pre ++ suf.takeWhile p := by
  induction pre with
  | nil => rfl
  | cons c cs ih =>
    have hc := h c (List.mem_cons_self _ _)
    simp only [List.cons_append, List.takeWhile_cons, hc, if_true]
    rw [ih (fun d hd => h d (List.mem_cons_of_mem _ hd))]

/-- Inserting `b` before the end of the mode string adds `FILE_BINARY` to the
flags and nothing else. -/
theorem parse_mode_insert_b (pre suf : List Char) (h : ∀ c ∈ pre, c ≠ Char.ofNat 0) :
    parse_mode (String.mk (pre ++ 'b' :: suf)) =
      parse_mode (String.mk (pre ++ suf)) ||| FILE_BINARY := by
  have hp : ∀ c ∈ pre, (fun c => decide (c ≠ Char.ofNat 0)) c = true := by
    intro c hc; simpa using h c hc
  unfold parse_mode
  simp only [takeWhile_append_left _ pre _ hp, List.foldl_append]
  have hb : decide ('b' ≠ Char.ofNat 0) = true := by decide
  rw [List.takeWhile_cons, hb]
  simp only [if_true, List.foldl_cons]
  have hm : ∀ x, mode_flags x 'b' = x ||| FILE_BINARY := by
    intro x
    unfold mode_flags
    rw [if_neg (by decide), if_neg (by decide), if_neg (by decide), if_neg (by decide),
      if_pos (by decide)]
  rw [hm, foldl_mode_flags_binary]
/-! ## Frame lemmas for the open path -/

theorem fl_fwrite_of_no_write (env : Env D) (st : Lib D) (data : Bytes) (size count : Int)
    (file : Nat) (h : (st._files file).flags &&& FILE_WRITE = 0) :
    fl_fwrite env st data size count (some file) =
      (FL_UNLOCK (FL_LOCK (CHECK_FL_INIT env st)), -1) := by
  obtain ⟨-, -, -, e4⟩ := pos_fields _ _ (CHECK_FL_INIT_pos env st file)
  unfold fl_fwrite
  simp only [FL_LOCK_files, e4, h, if_true]

theorem fl_init_foldl_fs (l : List Nat) : ∀ (s : Lib D),
    (l.foldl (fun (s : Lib D) i =>
      { s.setFile i { s._files i with next := s._free_file_list } with
        _free_file_list := some i }) s)._fs = s._fs ∧
    (l.foldl (fun (s : Lib D) i =>
      { s.setFile i { s._files i with next := s._free_file_list } with
        _free_file_list := some i }) s)._filelib_valid = s._filelib_valid ∧
    (l.foldl (fun (s : Lib D) i =>
      { s.setFile i { s._files i with next := s._free_file_list } with
        _free_file_list := some i }) s).trace = s.trace ∧
    (l.foldl (fun (s : Lib D) i =>
      { s.setFile i { s._files i with next := s._free_file_list } with
        _free_file_list := some i }) s)._open_file_list = s._open_file_list := by
  induction l with
  | nil => intro s; exact ⟨rfl, rfl, rfl, rfl⟩
  | cons a l ih =>
    intro s
    simp only [List.foldl_cons]
    obtain ⟨h1, h2, h3, h4⟩ := ih ({ s.setFile a { s._files a with next := s._free_file_list } with
        _free_file_list := some a })
    exact ⟨h1, h2, h3, h4⟩

theorem CHECK_FL_INIT_fs (env : Env D) (st : Lib D) : (CHECK_FL_INIT env st)._fs = st._fs := by
  unfold CHECK_FL_INIT
  split
  · exact (fl_init_foldl_fs _ st).1
  · rfl

theorem CHECK_FL_INIT_trace (env : Env D) (st : Lib D) :
    (CHECK_FL_INIT env st).trace = st.trace := by
  unfold CHECK_FL_INIT
  split
  · exact (fl_init_foldl_fs _ st).2.2.1
  · rfl

theorem CHECK_FL_INIT_valid (env : Env D) (st : Lib D) :
    (CHECK_FL_INIT env st)._filelib_valid = st._filelib_valid := by
  unfold CHECK_FL_INIT
  split
  · exact (fl_init_foldl_fs _ st).2.1
  · rfl

theorem CHECK_FL_INIT_open (env : Env D) (st : Lib D) :
    (CHECK_FL_INIT env st)._open_file_list = st._open_file_list := by
  unfold CHECK_FL_INIT
  split
  · exact (fl_init_foldl_fs _ st).2.2.2
  · rfl

@[simp] theorem FL_LOCK_fs (st : Lib D) : (FL_LOCK st)._fs = st._fs := by
  unfold FL_LOCK; split <;> rfl

@[simp] theorem FL_UNLOCK_fs (st : Lib D) : (FL_UNLOCK st)._fs = st._fs := by
  unfold FL_UNLOCK; split <;> rfl

/-- The flags `fl_ifopen` tests and stores: those of the mode string, less
CREATE, WRITE and APPEND when no `write_sector` is attached. -/
theorem fl_ifopen_handle_flags (env : Env D) (st : Lib D) (path mode : String)
    (checkfile : Int) (file : Nat)
    (h : (fl_ifopen env st (some path) (some mode) checkfile).2 = some file) :
    ((fl_ifopen env st (some path) (some mode) checkfile).1._files file).flags =
      if st._fs.disk_io_write_sector = false then
        parse_mode mode &&& (255 ^^^ (FILE_CREATE ||| FILE_WRITE ||| FILE_APPEND))
      else parse_mode mode := by
  have key : ∀ (r : Lib D × Option Nat) (flags : Nat), r.2 = some file →
      ((FL_UNLOCK (match r.2 with
        | some file => r.1.setFile file { r.1._files file with flags := flags }
        | none => r.1))._files file).flags = flags := by
    intro r flags hr
    rw [hr]
    simp
  revert h
  unfold fl_ifopen
  simp only [CHECK_FL_INIT_fs]
  by_cases hv : (CHECK_FL_INIT env st)._filelib_valid = 0
  · rw [if_pos hv]; intro h; cases h
  · rw [if_neg hv]
    intro h
    exact key _ _ h
/-! ## What the sector functions leave alone, for any view of a record -/

theorem setFile_proj {α : Type} (p : FL_FILE → α) (st : Lib D) (i : Nat) (r : FL_FILE) (g : Nat)
    (h : p r = p (st._files i)) : p ((st.setFile i r)._files g) = p (st._files g) := by
  rw [setFile_files]; split
  · subst_vars; exact h
  · rfl

theorem CHECK_FL_INIT_proj {α : Type} (p : FL_FILE → α)
    (hn : ∀ (r : FL_FILE) n, p { r with next := n } = p r) (env : Env D) (st : Lib D) (g : Nat) :
    p ((CHECK_FL_INIT env st)._files g) = p (st._files g) := by
  obtain ⟨n, h⟩ := CHECK_FL_INIT_files env st g
  rw [h, hn]

theorem _read_sector_proj {α : Type} (p : FL_FILE → α)
    (hl : ∀ (r : FL_FILE) look, p { r with last_fat_lookup := look } = p r)
    (env : Env D) (st : Lib D) (file offset : Nat) (buffer : Bytes) (g : Nat) :
    p ((_read_sector env st file offset buffer).1._files g) = p (st._files g) := by
  unfold _read_sector
  simp only [fatfs_sector_read]
  split_ifs <;> simp only [step_files, read_walk_files] <;>
    first
    | rfl
    | (refine (setFile_proj p _ _ _ _ ?_).trans ?_
       · rw [hl, read_walk_files]
       · rw [read_walk_files])

theorem _write_sector_proj {α : Type} (p : FL_FILE → α)
    (hl : ∀ (r : FL_FILE) look, p { r with last_fat_lookup := look } = p r)
    (env : Env D) (st : Lib D) (file offset : Nat) (buf : Bytes) (g : Nat) :
    p ((_write_sector env st file offset buf).1._files g) = p (st._files g) := by
  unfold _write_sector
  simp only [fatfs_write_sector, fatfs_add_free_space]
  split_ifs <;> simp only [step_files, write_walk_files] <;>
    first
    | rfl
    | (refine (setFile_proj p _ _ _ _ ?_).trans ?_
       · simp only [hl, step_files, write_walk_files]
       · first | rfl | simp only [step_files, write_walk_files])

theorem fl_fflush_proj {α : Type} (p : FL_FILE → α)
    (hl : ∀ (r : FL_FILE) look, p { r with last_fat_lookup := look } = p r)
    (hd : ∀ (r : FL_FILE) d, p { r with file_data := { r.file_data with dirty := d } } = p r)
    (env : Env D) (st : Lib D) (f : Option Nat) (g : Nat) :
    p ((fl_fflush env st f).1._files g) = p ((CHECK_FL_INIT env st)._files g) := by
  unfold fl_fflush
  cases f with
  | none => rfl
  | some file =>
    simp only [FL_UNLOCK_files]
    split_ifs
    · refine (setFile_proj p _ _ _ _ ?_).trans ?_
      · rw [hd]
      · rw [_write_sector_proj p hl, FL_LOCK_files]
    · rw [_write_sector_proj p hl, FL_LOCK_files]
    · rw [FL_LOCK_files]

theorem flush_dirty_proj {α : Type} (p : FL_FILE → α)
    (hl : ∀ (r : FL_FILE) look, p { r with last_fat_lookup := look } = p r)
    (hd : ∀ (r : FL_FILE) d, p { r with file_data := { r.file_data with dirty := d } } = p r)
    (hn : ∀ (r : FL_FILE) n, p { r with next := n } = p r)
    (env : Env D) (st : Lib D) (file g : Nat) :
    p ((flush_dirty env st file)._files g) = p (st._files g) := by
  unfold flush_dirty; split
  · rw [fl_fflush_proj p hl hd, CHECK_FL_INIT_proj p hn]
  · rfl

/-- A load that fails in the loop of `fl_fread` leaves the address of the
buffered sector as it was. -/
theorem fread_fetch_fail_address (env : Env D) (st : Lib D) (file sector : Nat)
    (h : (fread_fetch env st file sector).2 = false) :
    ((fread_fetch env st file sector).1._files file).file_data.address =
      (st._files file).file_data.address := by
  revert h
  unfold fread_fetch
  simp only []
  split_ifs
  · intro _
    simp only [setFile_files, if_true]
    rw [_read_sector_proj (fun r => r.file_data.address) (fun _ _ => rfl),
      flush_dirty_proj (fun r => r.file_data.address) (fun _ _ => rfl) (fun _ _ => rfl)
        (fun _ _ => rfl)]
  · intro h; cases h
  · intro h; cases h

/-- A load that succeeds in the loop of `fl_fread` leaves the address of the
buffered sector at the sector asked for. -/
theorem fread_fetch_ok_address (env : Env D) (st : Lib D) (file sector : Nat)
    (h : (fread_fetch env st file sector).2 = true) :
    ((fread_fetch env st file sector).1._files file).file_data.address = sector := by
  revert h
  unfold fread_fetch
  simp only []
  split_ifs with h1 h2
  · intro h; cases h
  · intro _; simp
  · intro _; simpa using h1
/-! ## A load that fails in the loop of `fl_fread` -/

theorem fl_fread_loop_break (env : Env D) (file : Nat) (m fuel : Nat) (st : Lib D)
    (buf : Bytes) (sector offset b : Nat) (h : b < m)
    (hf : (fread_fetch env st file sector).2 = false) :
    fl_fread_loop env file (m : Int) (fuel + 1) st buf sector offset (b : Int) =
      ((fread_fetch env st file sector).1, buf, (b : Int)) := by
  rw [fl_fread_loop]
  have hlt : (b : Int) < (m : Int) := by exact_mod_cast h
  rw [if_pos hlt]
  cases hfe : fread_fetch env st file sector with
  | mk s1 ok =>
    rw [hfe] at hf
    simp only at hf
    subst hf
    rfl

/-- The loop of `fl_fread` when the loads of the first `j` passes succeed and
the load of pass `j` fails: it returns the bytes copied by those `j` passes,
the cursor has advanced by as much, and the address of the buffered sector
is that of pass `j - 1` (the address before the loop when `j = 0`). -/
theorem fl_fread_loop_fail (env : Env D) (file : Nat) (m : Nat) :
    ∀ (j fuel : Nat) (st : Lib D) (buf : Bytes) (sector offset b : Nat),
      offset < 512 →
      b + (if j = 0 then 0 else 512 * j - offset) < m →
      sector * 512 + offset = (st._files file).bytenum →
      (st._files file).bytenum + (m - b) < 2 ^ env.ULONG_BITS → m - b ≤ fuel →
      (∀ k, k < j →
        (fread_fetch env (fl_fread_loop env file (m : Int) k st buf sector offset (b : Int)).1
          file (sector + k)).2 = true) →
      (fread_fetch env (fl_fread_loop env file (m : Int) j st buf sector offset (b : Int)).1
          file (sector + j)).2 = false →
      (fl_fread_loop env file (m : Int) fuel st buf sector offset (b : Int)).2.2 =
        ((b + (if j = 0 then 0 else 512 * j - offset) : Nat) : Int) ∧
      ((fl_fread_loop env file (m : Int) fuel st buf sector offset (b : Int)).1._files
        file).bytenum = (st._files file).bytenum + (if j = 0 then 0 else 512 * j - offset) ∧
      ((fl_fread_loop env file (m : Int) fuel st buf sector offset (b : Int)).1._files
        file).file_data.address =
          (if j = 0 then (st._files file).file_data.address else sector + j - 1) := by
  intro j
  induction j with
  | zero =>
    intro fuel st buf sector offset b _ h2 _ _ h5 _ h7
    simp only [if_true, Nat.add_zero] at h2 ⊢
    simp only [fl_fread_loop] at h7
    obtain ⟨n, rfl⟩ : ∃ n, fuel = n + 1 := ⟨fuel - 1, by omega⟩
    rw [fl_fread_loop_break env file m n st buf sector offset b h2 h7]
    obtain ⟨e1, -, -, -⟩ := pos_fields _ _ (fread_fetch_pos env st file sector file)
    exact ⟨rfl, e1, fread_fetch_fail_address env st file sector h7⟩
  | succ j ih =>
    intro fuel st buf sector offset b h1 h2 h3 h4 h5 h6 h7
    have hjs : (if j + 1 = 0 then 0 else 512 * (j + 1) - offset) = 512 * (j + 1) - offset :=
      if_neg (by omega)
    rw [hjs] at h2 ⊢
    have hlt : b < m := by omega
    obtain ⟨c0, c1, c2, c3, c4⟩ := fwrite_copyCount_pos m b offset hlt h1
    have hcc : fwrite_copyCount m b offset = 512 - offset := c3 (by omega)
    have hf0 := h6 0 (by omega)
    simp only [fl_fread_loop, Nat.add_zero] at hf0
    have hsucc := fl_fread_loop_succ env file m
    obtain ⟨n, rfl⟩ : ∃ n, fuel = n + 1 := ⟨fuel - 1, by omega⟩
    rw [hsucc n st buf sector offset b hlt hf0]
    obtain ⟨e1, -, -, -⟩ := pos_fields _ _ (fread_fetch_pos env st file sector file)
    have hb := fread_copy_pos env (fread_fetch env st file sector).1 file buf offset b
      (fwrite_copyCount m b offset) (by rw [e1]; omega)
    rw [e1] at hb
    have ha : ((fread_copy env (fread_fetch env st file sector).1 file buf offset (b : Int)
        (fwrite_copyCount m b offset : Nat)).1._files file).file_data.address = sector := by
      rw [fread_copy_data]
      exact fread_fetch_ok_address env st file sector hf0
    have hs : (sector + 1) % 2 ^ env.ULONG_BITS = sector + 1 := Nat.mod_eq_of_lt (by omega)
    rw [hs]
    have ih' := ih n
      (fread_copy env (fread_fetch env st file sector).1 file buf offset (b : Int)
        (fwrite_copyCount m b offset : Nat)).1
      (fread_copy env (fread_fetch env st file sector).1 file buf offset (b : Int)
        (fwrite_copyCount m b offset : Nat)).2
      (sector + 1) 0 (b + fwrite_copyCount m b offset) (by omega)
      (by split_ifs <;> omega)
      (by rw [hb]; omega) (by rw [hb]; omega) (by omega)
      (by
        intro k hk
        have := h6 (k + 1) (by omega)
        rw [hsucc k st buf sector offset b hlt hf0, hs] at this
        rw [show sector + 1 + k = sector + (k + 1) by omega]
        exact this)
      (by
        have := h7
        rw [hsucc j st buf sector offset b hlt hf0, hs] at this
        rw [show sector + 1 + j = sector + (j + 1) by omega]
        exact this)
    obtain ⟨r1, r2, r3⟩ := ih'
    have hsum : (if j = 0 then 0 else 512 * j - 0) + fwrite_copyCount m b offset =
        512 * (j + 1) - offset := by
      split_ifs <;> omega
    have hadr : (if j = 0 then sector else sector + 1 + j - 1) = sector + (j + 1) - 1 := by
      split_ifs <;> omega
    refine ⟨?_, ?_, ?_⟩
    · rw [r1, Nat.add_assoc, Nat.add_comm (fwrite_copyCount m b offset), hsum]
    · rw [r2, hb, Nat.add_assoc, Nat.add_comm (fwrite_copyCount m b offset), hsum]
    · rw [r3, ha, hadr, if_neg (by omega)]
/-! ## The handle pool -/

theorem IsList_congr (st st' : Lib D) : ∀ (l : List Nat) (h : Option Nat),
    (∀ i, i ∈ l → (st'._files i).next = (st._files i).next) →
    IsList st h l → IsList st' h l := by
  intro l
  induction l with
  | nil => intro h _ hl; cases h <;> exact hl
  | cons a l ih =>
    intro h hn hl
    cases h with
    | none => exact hl
    | some i =>
      obtain ⟨rfl, h2⟩ := hl
      refine ⟨rfl, ?_⟩
      rw [hn i (List.mem_cons_self _ _)]
      exact ih _ (fun j hj => hn j (List.mem_cons_of_mem _ hj)) h2

theorem IsList_nil (st : Lib D) (h : Option Nat) : IsList st h [] ↔ h = none := by
  cases h <;> simp [IsList]

theorem IsList_cons (st : Lib D) (h : Option Nat) (a : Nat) (l : List Nat) :
    IsList st h (a :: l) ↔ h = some a ∧ IsList st (st._files a).next l := by
  cases h with
  | none => simp [IsList]
  | some i =>
    simp only [IsList, Option.some.injEq]
    constructor
    · rintro ⟨rfl, h⟩; exact ⟨rfl, h⟩
    · rintro ⟨rfl, h⟩; exact ⟨rfl, h⟩

/-- The loop of `fl_init` pushes the records of `l` on the free list. -/
theorem fl_init_foldl_list (l : List Nat) : ∀ (s : Lib D) (lf : List Nat),
    IsList s s._free_file_list lf → (∀ i, i ∈ l → i ∉ lf) → l.Nodup →
    IsList
      (l.foldl (fun (s : Lib D) i =>
        { s.setFile i { s._files i with next := s._free_file_list } with
          _free_file_list := some i }) s)
      (l.foldl (fun (s : Lib D) i =>
        { s.setFile i { s._files i with next := s._free_file_list } with
          _free_file_list := some i }) s)._free_file_list
      (l.reverse ++ lf) := by
  induction l with
  | nil => intro s lf h _ _; simpa using h
  | cons a l ih =>
    intro s lf h hd hn
    simp only [List.foldl_cons, List.reverse_cons, List.append_assoc, List.singleton_append]
    obtain ⟨ha, hn'⟩ := List.nodup_cons.mp hn
    apply ih _ (a :: lf)
    · refine ⟨rfl, ?_⟩
      simp only [setFile_files, if_true]
      refine IsList_congr s _ lf _ ?_ h
      intro i hi
      have : i ≠ a := fun e => hd a (List.mem_cons_self _ _) (e ▸ hi)
      simp [this]
    · intro i hi hmem
      rcases List.mem_cons.mp hmem with e | e
      · exact ha (e ▸ hi)
      · exact hd i (List.mem_cons_of_mem _ hi) e
    · exact hn'

theorem fl_init_pool (env : Env D) (st : Lib D) (ho : st._open_file_list = none)
    (hf : st._free_file_list = none) :
    PoolInv env.FATFS_MAX_OPEN_FILES (fl_init env st)
      (List.range env.FATFS_MAX_OPEN_FILES).reverse [] := by
  have h := fl_init_foldl_list (List.range env.FATFS_MAX_OPEN_FILES) st []
    (by rw [hf]; trivial) (fun _ _ => List.not_mem_nil _) (List.nodup_range _)
  have h4 := (fl_init_foldl_fs (List.range env.FATFS_MAX_OPEN_FILES) st).2.2.2
  rw [List.append_nil] at h
  refine ⟨?_, ?_, ?_⟩
  · refine IsList_congr _ (fl_init env st) _ _ ?_ h
    intro _ _; rfl
  · have h5 : (fl_init env st)._open_file_list = none := h4.trans ho
    rw [h5]
    trivial
  · rw [List.append_nil]; exact List.reverse_perm _

theorem _allocate_file_none (st : Lib D) (h : st._free_file_list = none) :
    _allocate_file st = (st, none) := by
  unfold _allocate_file; rw [h]

theorem _allocate_file_some (st : Lib D) (f : Nat) (h : st._free_file_list = some f) :
    _allocate_file st =
      ({ ({ st with _free_file_list := (st._files f).next }).setFile f
          { st._files f with next := st._open_file_list } with
        _open_file_list := some f }, some f) := by
  unfold _allocate_file; rw [h]

theorem _allocate_file_pool (N : Nat) (st : Lib D) (f : Nat) (lf lo : List Nat)
    (h : PoolInv N st (f :: lf) lo) :
    (_allocate_file st).2 = some f ∧ PoolInv N (_allocate_file st).1 lf (f :: lo) := by
  obtain ⟨h1, h2, h3⟩ := h
  obtain ⟨hh, h1'⟩ := (IsList_cons _ _ _ _).mp h1
  have hnd : (f :: lf ++ lo).Nodup := h3.nodup_iff.mpr (List.nodup_range _)
  have hf : f ∉ lf ++ lo := (List.nodup_cons.mp hnd).1
  rw [_allocate_file_some st f hh]
  refine ⟨rfl, ?_, ?_, ?_⟩
  · refine IsList_congr st _ lf _ ?_ h1'
    intro i hi
    have : i ≠ f := fun e => hf (List.mem_append_left _ (e ▸ hi))
    simp [Lib.setFile, this]
  · refine ⟨rfl, ?_⟩
    simp only [setFile_files, if_true]
    refine IsList_congr st _ lo _ ?_ h2
    intro i hi
    have : i ≠ f := fun e => hf (List.mem_append_right _ (e ▸ hi))
    simp [Lib.setFile, this]
  · exact (List.perm_middle).trans h3
theorem free_file_loop_some (st : Lib D) (file fuel o : Nat) (last : Option Nat) :
    free_file_loop st file (fuel + 1) (some o) last =
      if o = file then
        match last with
        | some l => st.setFile l { st._files l with next := (st._files o).next }
        | none => { st with _open_file_list := (st._files o).next }
      else free_file_loop st file fuel (st._files o).next (some o) := rfl

theorem free_file_loop_shape (st : Lib D) (file : Nat) : ∀ (fuel : Nat) (cur last : Option Nat),
    (∃ p n, free_file_loop st file fuel cur last =
      st.setFile p { st._files p with next := n }) ∨
    (∃ n, free_file_loop st file fuel cur last = { st with _open_file_list := n }) ∨
    free_file_loop st file fuel cur last = st := by
  intro fuel
  induction fuel with
  | zero => intro cur last; exact Or.inr (Or.inr rfl)
  | succ n ih =>
    intro cur last
    cases cur with
    | none => exact Or.inr (Or.inr rfl)
    | some o =>
      rw [free_file_loop_some]
      split_ifs with h
      · cases last with
        | none => exact Or.inr (Or.inl ⟨_, rfl⟩)
        | some l => exact Or.inl ⟨_, _, rfl⟩
      · exact ih _ _

/-- What `_free_file` leaves alone: everything but the list heads and the
`next` links. -/
theorem _free_file_frame (env : Env D) (st : Lib D) (file : Nat) :
    (_free_file env st file)._fs = st._fs ∧
    (_free_file env st file).trace = st.trace ∧
    (_free_file env st file)._filelib_init = st._filelib_init ∧
    (_free_file env st file)._filelib_valid = st._filelib_valid ∧
    ∀ g, ∃ n, (_free_file env st file)._files g = { st._files g with next := n } := by
  unfold _free_file
  rcases free_file_loop_shape st file env.FATFS_MAX_OPEN_FILES st._open_file_list none with
    ⟨p, n, h⟩ | ⟨n, h⟩ | h
  all_goals
    rw [h]
    refine ⟨rfl, rfl, rfl, rfl, ?_⟩
    intro g
    simp only [setFile_files]
    split_ifs <;> subst_vars <;> exact ⟨_, rfl⟩

theorem free_file_loop_walk (st : Lib D) (file : Nat) (l2 : List Nat) :
    ∀ (l1 : List Nat) (a fuel : Nat) (last : Option Nat),
      IsList st (some a) (a :: l1 ++ file :: l2) → file ∉ a :: l1 → (a :: l1).length < fuel →
      ∃ l1' p, a :: l1 = l1' ++ [p] ∧
        free_file_loop st file fuel (some a) last =
          st.setFile p { st._files p with next := (st._files file).next } := by
  intro l1
  induction l1 with
  | nil =>
    intro a fuel last h hn hf
    refine ⟨[], a, rfl, ?_⟩
    obtain ⟨-, h2⟩ := h
    obtain ⟨h3, -⟩ := (IsList_cons _ _ _ _).mp h2
    have ha : a ≠ file := fun e => hn (e ▸ List.mem_cons_self _ _)
    obtain ⟨n, rfl⟩ : ∃ n, fuel = n + 2 := ⟨fuel - 2, by simp at hf; omega⟩
    rw [free_file_loop_some, if_neg ha, h3, free_file_loop_some, if_pos rfl]
  | cons b l ih =>
    intro a fuel last h hn hf
    obtain ⟨-, h2⟩ := h
    have h2' : IsList st (st._files a).next (b :: l ++ file :: l2) := h2
    obtain ⟨h3, -⟩ := (IsList_cons _ _ _ _).mp h2'
    rw [h3] at h2'
    have ha : a ≠ file := fun e => hn (e ▸ List.mem_cons_self _ _)
    obtain ⟨n, rfl⟩ : ∃ n, fuel = n + 1 := ⟨fuel - 1, by simp at hf; omega⟩
    obtain ⟨l1', p, e1, e2⟩ := ih b n (some a) h2'
      (fun hm => hn (List.mem_cons_of_mem _ hm)) (by simp at hf ⊢; omega)
    refine ⟨a :: l1', p, by rw [e1]; rfl, ?_⟩
    rw [free_file_loop_some, if_neg ha, h3, e2]

theorem unlink_IsList (st : Lib D) (file p : Nat) (l2 : List Nat) :
    ∀ (l1 : List Nat) (h : Option Nat),
      IsList st h (l1 ++ p :: file :: l2) → (l1 ++ p :: file :: l2).Nodup →
      IsList (st.setFile p { st._files p with next := (st._files file).next }) h
        (l1 ++ p :: l2) := by
  intro l1
  induction l1 with
  | nil =>
    intro h hl hn
    obtain ⟨rfl, h2⟩ := (IsList_cons _ _ _ _).mp hl
    obtain ⟨-, h3⟩ := (IsList_cons _ _ _ _).mp h2
    refine (IsList_cons _ _ _ _).mpr ⟨rfl, ?_⟩
    simp only [setFile_files, if_true]
    refine IsList_congr st _ l2 _ ?_ h3
    intro i hi
    have hp : p ∉ file :: l2 := (List.nodup_cons.mp hn).1
    have : i ≠ p := fun e => hp (List.mem_cons_of_mem _ (e ▸ hi))
    simp [this]
  | cons a l ih =>
    intro h hl hn
    obtain ⟨rfl, h2⟩ := (IsList_cons _ _ _ _).mp hl
    have hn' := List.nodup_cons.mp hn
    refine (IsList_cons _ _ _ _).mpr ⟨rfl, ?_⟩
    have hap : a ≠ p := fun e => hn'.1 (by simp [e])
    simp only [setFile_files, if_neg hap]
    exact ih _ h2 hn'.2
/-- The loop of `_free_file` on a record of the open list: the free list is
untouched, the record is unlinked from the open list, and the links of the
records outside the open list are as before. -/
theorem free_file_loop_unlink (st : Lib D) (file fuel : Nat) (l1 l2 : List Nat)
    (h2 : IsList st st._open_file_list (l1 ++ file :: l2))
    (hn : (l1 ++ file :: l2).Nodup) (hf : l1.length < fuel) :
    (free_file_loop st file fuel st._open_file_list none)._free_file_list =
      st._free_file_list ∧
    IsList (free_file_loop st file fuel st._open_file_list none)
      (free_file_loop st file fuel st._open_file_list none)._open_file_list (l1 ++ l2) ∧
    ∀ i, i ∉ l1 →
      ((free_file_loop st file fuel st._open_file_list none)._files i).next =
        (st._files i).next := by
  cases l1 with
  | nil =>
    obtain ⟨h3, h4⟩ := (IsList_cons _ _ _ _).mp h2
    obtain ⟨n, rfl⟩ : ∃ n, fuel = n + 1 := ⟨fuel - 1, by simp at hf; omega⟩
    have key : free_file_loop st file (n + 1) st._open_file_list none =
        { st with _open_file_list := (st._files file).next } := by
      rw [h3, free_file_loop_some, if_pos rfl]
    rw [key]
    refine ⟨rfl, ?_, fun _ _ => rfl⟩
    refine IsList_congr st _ _ _ ?_ h4
    intro _ _; rfl
  | cons a l1 =>
    obtain ⟨h3, -⟩ := (IsList_cons _ _ _ _).mp h2
    have hfile : file ∉ a :: l1 := by
      intro hm
      exact (List.nodup_append.mp hn).2.2 hm (List.mem_cons_self _ _)
    rw [h3] at h2
    obtain ⟨l1', p, e1, e2⟩ := free_file_loop_walk st file l2 l1 a fuel none h2 hfile hf
    rw [h3, e2]
    refine ⟨rfl, ?_, ?_⟩
    · have hl : a :: l1 ++ file :: l2 = l1' ++ p :: file :: l2 := by
        rw [e1, List.append_assoc]; rfl
      have hl' : a :: l1 ++ l2 = l1' ++ p :: l2 := by
        rw [e1, List.append_assoc]; rfl
      rw [hl] at h2 hn
      have := unlink_IsList st file p l2 l1' (some a) h2 hn
      rw [hl']
      show IsList _ st._open_file_list _
      rw [h3]
      exact this
    · intro i hi
      have : i ≠ p := by
        intro e
        apply hi
        rw [e1, e]
        simp
      simp [this]

theorem _free_file_pool (env : Env D) (st : Lib D) (file : Nat) (lf lo : List Nat)
    (h : PoolInv env.FATFS_MAX_OPEN_FILES st lf lo) (hm : file ∈ lo) :
    PoolInv env.FATFS_MAX_OPEN_FILES (_free_file env st file) (file :: lf) (lo.erase file) := by
  obtain ⟨h1, h2, h3⟩ := h
  have hnd : (lf ++ lo).Nodup := h3.nodup_iff.mpr (List.nodup_range _)
  have hlen : (lf ++ lo).length = env.FATFS_MAX_OPEN_FILES := by
    rw [h3.length_eq, List.length_range]
  obtain ⟨l1, l2, rfl⟩ := List.append_of_mem hm
  obtain ⟨hnf, hno, hdis⟩ := List.nodup_append.mp hnd
  have hfile : file ∉ l1 := by
    intro hm1
    exact (List.nodup_append.mp hno).2.2 hm1 (List.mem_cons_self _ _)
  have her : (l1 ++ file :: l2).erase file = l1 ++ l2 := by
    rw [List.erase_append_right _ hfile, List.erase_cons_head]
  obtain ⟨a1, a2, a3⟩ := free_file_loop_unlink st file env.FATFS_MAX_OPEN_FILES l1 l2 h2 hno
    (by simp at hlen; omega)
  rw [her]
  unfold _free_file
  refine ⟨?_, ?_, ?_⟩
  · refine (IsList_cons _ _ _ _).mpr ⟨rfl, ?_⟩
    simp only [setFile_files, if_true, a1]
    refine IsList_congr st _ lf _ ?_ h1
    intro i hi
    have hif : i ≠ file := fun e =>
      hdis hi (List.mem_append_right _ (e ▸ List.mem_cons_self _ _))
    have hi1 : i ∉ l1 := fun hm1 => hdis hi (List.mem_append_left _ hm1)
    simp only [setFile_files, if_neg hif]
    exact a3 i hi1
  · refine IsList_congr _ _ (l1 ++ l2) _ ?_ a2
    intro i hi
    have hif : i ≠ file := by
      intro e
      rw [e] at hi
      rcases List.mem_append.mp hi with hm1 | hm2
      · exact hfile hm1
      · exact (List.nodup_cons.mp (List.nodup_append.mp hno).2.1).1 hm2
    simp only [setFile_files, if_neg hif]
  · have p1 : (lf ++ (l1 ++ file :: l2)).Perm (file :: lf ++ (l1 ++ l2)) := by
      rw [← List.append_assoc, ← List.append_assoc]
      exact List.perm_middle
    exact p1.symm.trans h3
theorem IsList_unique (st : Lib D) : ∀ (l l' : List Nat) (h : Option Nat),
    IsList st h l → IsList st h l' → l = l' := by
  intro l
  induction l with
  | nil =>
    intro l' h h1 h2
    rw [(IsList_nil _ _).mp h1] at h2
    cases l' with
    | nil => rfl
    | cons a l' => exact absurd h2 (by simp [IsList])
  | cons a l ih =>
    intro l' h h1 h2
    obtain ⟨rfl, h3⟩ := (IsList_cons _ _ _ _).mp h1
    cases l' with
    | nil => exact absurd h2 (by simp [IsList])
    | cons b l' =>
      obtain ⟨e, h4⟩ := (IsList_cons _ _ _ _).mp h2
      cases e
      rw [ih l' _ h3 h4]

/-- What the pool invariant says of the two lists. -/
theorem PoolInv_facts (N : Nat) (st : Lib D) (lf lo : List Nat) (h : PoolInv N st lf lo) :
    lf.Nodup ∧ lo.Nodup ∧ (∀ i, i < N → (i ∈ lf ∧ i ∉ lo) ∨ (i ∉ lf ∧ i ∈ lo)) ∧
    (∀ i, i ∈ lf ∨ i ∈ lo → i < N) ∧ lf.length + lo.length = N := by
  obtain ⟨-, -, h3⟩ := h
  have hnd : (lf ++ lo).Nodup := h3.nodup_iff.mpr (List.nodup_range _)
  obtain ⟨hnf, hno, hdis⟩ := List.nodup_append.mp hnd
  have hmem : ∀ i, i ∈ lf ++ lo ↔ i < N := fun i => by rw [h3.mem_iff, List.mem_range]
  refine ⟨hnf, hno, ?_, ?_, ?_⟩
  · intro i hi
    rcases List.mem_append.mp ((hmem i).mpr hi) with h | h
    · exact Or.inl ⟨h, fun h' => hdis h h'⟩
    · exact Or.inr ⟨fun h' => hdis h' h, h⟩
  · intro i hi
    exact (hmem i).mp (List.mem_append.mpr hi)
  · rw [← List.length_append, h3.length_eq, List.length_range]

theorem PoolReach_inv (env : Env D) (st0 st : Lib D) (ho : st0._open_file_list = none)
    (hf : st0._free_file_list = none) (hr : PoolReach env st0 st) :
    ∃ lf lo, PoolInv env.FATFS_MAX_OPEN_FILES st lf lo := by
  induction hr with
  | init => exact ⟨_, _, fl_init_pool env st0 ho hf⟩
  | alloc st _ ih =>
    obtain ⟨lf, lo, h⟩ := ih
    cases lf with
    | nil =>
      rw [_allocate_file_none st ((IsList_nil _ _).mp h.1)]
      exact ⟨_, _, h⟩
    | cons f lf => exact ⟨_, _, (_allocate_file_pool _ st f lf lo h).2⟩
  | free st file lo' _ h1 h2 ih =>
    obtain ⟨lf, lo, h⟩ := ih
    have := IsList_unique st lo' lo _ h1 h.2.1
    subst this
    exact ⟨_, _, _free_file_pool env st file lf lo' h h2⟩

/-- The pool after `k ≤ N` calls of `_allocate_file` from the state `fl_init`
builds: `k` records are open. -/
theorem allocate_iterate_pool (env : Env D) (st0 : Lib D) (ho : st0._open_file_list = none)
    (hf : st0._free_file_list = none) : ∀ k, k ≤ env.FATFS_MAX_OPEN_FILES →
    ∃ lf lo, PoolInv env.FATFS_MAX_OPEN_FILES
      (Nat.iterate (fun s => (_allocate_file s).1) k (fl_init env st0)) lf lo ∧
      lo.length = k := by
  intro k
  induction k with
  | zero => intro _; exact ⟨_, _, fl_init_pool env st0 ho hf, rfl⟩
  | succ k ih =>
    intro hk
    obtain ⟨lf, lo, h, hl⟩ := ih (by omega)
    have hlen := (PoolInv_facts _ _ _ _ h).2.2.2.2
    rw [Function.iterate_succ_apply']
    cases lf with
    | nil => simp at hlen; omega
    | cons f lf =>
      exact ⟨lf, f :: lo, (_allocate_file_pool _ _ f lf lo h).2, by simp [hl]⟩

@[simp] theorem FL_LOCK_free (st : Lib D) : (FL_LOCK st)._free_file_list = st._free_file_list := by
  unfold FL_LOCK; split <;> rfl

@[simp] theorem FL_UNLOCK_free (st : Lib D) :
    (FL_UNLOCK st)._free_file_list = st._free_file_list := by
  unfold FL_UNLOCK; split <;> rfl

@[simp] theorem FL_LOCK_open (st : Lib D) : (FL_LOCK st)._open_file_list = st._open_file_list := by
  unfold FL_LOCK; split <;> rfl

@[simp] theorem FL_UNLOCK_open (st : Lib D) :
    (FL_UNLOCK st)._open_file_list = st._open_file_list := by
  unfold FL_UNLOCK; split <;> rfl

theorem _open_file_none (env : Env D) (st : Lib D) (path : String) (checkfile : Int)
    (h : st._free_file_list = none) : _open_file env st path checkfile = (st, none) := by
  unfold _open_file; rw [_allocate_file_none st h]

theorem _create_file_none (env : Env D) (st : Lib D) (path : String)
    (h : st._free_file_list = none) : _create_file env st path = (st, none) := by
  unfold _create_file; rw [_allocate_file_none st h]; simp

/-- With the free list empty, `fl_ifopen` opens nothing. -/
theorem fl_ifopen_pool_full (env : Env D) (st : Lib D) (path mode : Option String)
    (checkfile : Int) (hi : st._filelib_init ≠ 0) (h : st._free_file_list = none) :
    (fl_ifopen env st path mode checkfile).2 = none ∧
    (fl_ifopen env st path mode checkfile).1._files = st._files ∧
    (fl_ifopen env st path mode checkfile).1._open_file_list = st._open_file_list ∧
    (fl_ifopen env st path mode checkfile).1._free_file_list = none := by
  unfold fl_ifopen
  rw [CHECK_FL_INIT_of_init env st hi]
  have hl : (FL_LOCK st)._free_file_list = none := by rw [FL_LOCK_free, h]
  cases path <;> cases mode <;>
    simp [_open_file_none env (FL_LOCK st) _ _ hl, _create_file_none env (FL_LOCK st) _ hl, h,
      apply_ite]
/-! ## What the open and close paths leave alone in the pool -/

@[simp] theorem setFile_heads (st : Lib D) (i : Nat) (r : FL_FILE) :
    (st.setFile i r).heads = st.heads := rfl

@[simp] theorem step_heads (st : Lib D) (v : D) (e : Event) : (st.step v e).heads = st.heads := rfl

@[simp] theorem FL_LOCK_heads (st : Lib D) : (FL_LOCK st).heads = st.heads := by
  unfold FL_LOCK; split <;> rfl

@[simp] theorem FL_UNLOCK_heads (st : Lib D) : (FL_UNLOCK st).heads = st.heads := by
  unfold FL_UNLOCK; split <;> rfl

theorem SamePool.refl (st : Lib D) : SamePool st st := ⟨rfl, fun _ => rfl⟩

theorem SamePool.trans {a b c : Lib D} (h1 : SamePool a b) (h2 : SamePool b c) : SamePool a c :=
  ⟨h1.1.trans h2.1, fun g => (h1.2 g).trans (h2.2 g)⟩

theorem SamePool.symm {a b : Lib D} (h : SamePool a b) : SamePool b a :=
  ⟨h.1.symm, fun g => (h.2 g).symm⟩

theorem SamePool_setFile (st : Lib D) (i : Nat) (r : FL_FILE)
    (h : r.link = (st._files i).link) : SamePool (st.setFile i r) st :=
  ⟨rfl, fun g => setFile_proj FL_FILE.link st i r g h⟩

theorem SamePool_step (st : Lib D) (v : D) (e : Event) : SamePool (st.step v e) st :=
  ⟨rfl, fun _ => rfl⟩

theorem SamePool_LOCK (st : Lib D) : SamePool (FL_LOCK st) st :=
  ⟨FL_LOCK_heads st, fun g => by rw [FL_LOCK_files]⟩

theorem SamePool_UNLOCK (st : Lib D) : SamePool (FL_UNLOCK st) st :=
  ⟨FL_UNLOCK_heads st, fun g => by rw [FL_UNLOCK_files]⟩

theorem write_walk_heads (env : Env D) (file ClusterIdx : Nat) :
    ∀ (fuel : Nat) (st : Lib D) (i c l : Nat),
      (write_walk env file ClusterIdx fuel st i c l).1.heads = st.heads := by
  intro fuel
  induction fuel with
  | zero => intro st i c l; rfl
  | succ n ih =>
    intro st i c l
    unfold write_walk
    simp only []
    split_ifs
    · split <;> rfl
    · rw [ih]; split <;> rfl
    · rfl

theorem _write_sector_heads (env : Env D) (st : Lib D) (file offset : Nat) (buf : Bytes) :
    (_write_sector env st file offset buf).1.heads = st.heads := by
  unfold _write_sector
  simp only [fatfs_write_sector, fatfs_add_free_space]
  split_ifs <;> simp only [step_heads, setFile_heads, write_walk_heads]

theorem fl_fflush_SamePool (env : Env D) (st : Lib D) (f : Option Nat)
    (hi : st._filelib_init ≠ 0) : SamePool (fl_fflush env st f).1 st := by
  refine ⟨?_, ?_⟩
  · unfold fl_fflush
    rw [CHECK_FL_INIT_of_init env st hi]
    cases f with
    | none => rfl
    | some file =>
      simp only [FL_UNLOCK_heads]
      split_ifs <;> simp only [setFile_heads, _write_sector_heads, FL_LOCK_heads]
  · intro g
    rw [fl_fflush_proj FL_FILE.link (fun _ _ => rfl) (fun _ _ => rfl),
      CHECK_FL_INIT_of_init env st hi]

theorem open_directory_loop_SamePool (env : Env D) (path : String) :
    ∀ (fuel : Nat) (st : Lib D) (sublevel : Int) (c : Nat),
      SamePool (open_directory_loop env path fuel st sublevel c).1 st := by
  intro fuel
  induction fuel with
  | zero => intro st _ _; exact SamePool.refl st
  | succ n ih =>
    intro st sublevel c
    unfold open_directory_loop
    simp only []
    split_ifs
    · exact SamePool.refl st
    · exact (ih _ _ _).trans (SamePool_step _ _ _)
    · exact SamePool_step _ _ _
    · exact SamePool_step _ _ _

theorem _open_directory_SamePool (env : Env D) (st : Lib D) (path : String) :
    SamePool (_open_directory env st path).1 st :=
  open_directory_loop_SamePool env path _ st 0 _

theorem sfn_tail_loop_SamePool (env : Env D) (file : Nat) :
    ∀ (fuel : Nat) (st : Lib D) (tailNum : Int),
      SamePool (sfn_tail_loop env file fuel st tailNum).1 st := by
  intro fuel
  induction fuel with
  | zero => intro st _; exact SamePool.refl st
  | succ n ih =>
    intro st tailNum
    unfold sfn_tail_loop
    simp only [fatfs_sfn_exists]
    split_ifs <;> first
      | exact (SamePool_step _ _ _).trans (SamePool_setFile _ _ _ rfl)
      | exact (ih _ _).trans ((SamePool_step _ _ _).trans (SamePool_setFile _ _ _ rfl))

theorem create_sfn_SamePool (env : Env D) (st : Lib D) (file : Nat) :
    SamePool (create_sfn env st file).1 st := by
  unfold create_sfn
  simp only [fatfs_sfn_exists]
  split_ifs
  · exact sfn_tail_loop_SamePool env file _ st 0
  · exact SamePool.refl st
  · exact (SamePool_step _ _ _).trans (SamePool_setFile _ _ _ rfl)
theorem link_fields (a b : FL_FILE) (h : a.link = b.link) :
    a.next = b.next ∧ a.path = b.path ∧ a.filename = b.filename := by
  simpa [FL_FILE.link] using h

theorem heads_fields (a b : Lib D) (h : a.heads = b.heads) :
    a._filelib_init = b._filelib_init ∧ a._open_file_list = b._open_file_list ∧
    a._free_file_list = b._free_file_list := by
  simpa [Lib.heads] using h

theorem check_file_open_loop_some (env : Env D) (st : Lib D) (file fuel o : Nat) :
    check_file_open_loop env st file (fuel + 1) (some o) =
      if o ≠ file ∧
          env.compare_names (st._files o).path (st._files file).path = true ∧
          env.compare_names (st._files o).filename (st._files file).filename = true then
        1
      else check_file_open_loop env st file fuel (st._files o).next := rfl

theorem check_file_open_loop_congr (env : Env D) (X Y : Lib D) (file : Nat)
    (h : ∀ g, (X._files g).link = (Y._files g).link) : ∀ (fuel : Nat) (cur : Option Nat),
    check_file_open_loop env X file fuel cur = check_file_open_loop env Y file fuel cur := by
  intro fuel
  induction fuel with
  | zero => intro cur; rfl
  | succ n ih =>
    intro cur
    cases cur with
    | none => rfl
    | some o =>
      obtain ⟨e1, e2, e3⟩ := link_fields _ _ (h o)
      obtain ⟨-, e5, e6⟩ := link_fields _ _ (h file)
      rw [check_file_open_loop_some, check_file_open_loop_some, e1, e2, e3, e5, e6, ih]

theorem _check_file_open_congr (env : Env D) (X Y : Lib D) (file : Nat) (h : SamePool X Y) :
    _check_file_open env X file = _check_file_open env Y file := by
  unfold _check_file_open
  rw [(heads_fields _ _ h.1).2.1]
  exact check_file_open_loop_congr env X Y file h.2 _ _

/-- The loop of `_check_file_open` finds a record of the list that is not
`file` and whose names compare equal to those of `file`. -/
theorem check_file_open_loop_found (env : Env D) (st : Lib D) (file : Nat) :
    ∀ (l : List Nat) (fuel : Nat) (cur : Option Nat), IsList st cur l → l.length ≤ fuel →
    (∃ g, g ∈ l ∧ g ≠ file ∧ names_equal env (st._files g) (st._files file)) →
    check_file_open_loop env st file fuel cur = 1 := by
  intro l
  induction l with
  | nil => intro _ _ _ _ h; obtain ⟨g, hg, -⟩ := h; exact absurd hg (List.not_mem_nil _)
  | cons a l ih =>
    intro fuel cur hl hf h
    obtain ⟨rfl, h2⟩ := (IsList_cons _ _ _ _).mp hl
    obtain ⟨n, rfl⟩ : ∃ n, fuel = n + 1 := ⟨fuel - 1, by simp at hf; omega⟩
    rw [check_file_open_loop_some]
    split_ifs with hc
    · rfl
    · obtain ⟨g, hg, hne, hnam⟩ := h
      rcases List.mem_cons.mp hg with e | e
      · subst e; exact absurd ⟨hne, hnam.1, hnam.2⟩ hc
      · exact ih n _ h2 (by simp at hf; omega) ⟨g, e, hne, hnam⟩

theorem _free_file_head (env : Env D) (st : Lib D) (file : Nat)
    (h : st._open_file_list = some file) (hN : 0 < env.FATFS_MAX_OPEN_FILES) :
    _free_file env st file =
      { ({ st with _open_file_list := (st._files file).next }).setFile file
          { st._files file with next := st._free_file_list } with
        _free_file_list := some file } := by
  obtain ⟨n, hn⟩ : ∃ n, env.FATFS_MAX_OPEN_FILES = n + 1 :=
    ⟨env.FATFS_MAX_OPEN_FILES - 1, by omega⟩
  unfold _free_file
  rw [hn, h, free_file_loop_some, if_pos rfl]

theorem PoolInv_congr (N : Nat) (st st' : Lib D) (lf lo : List Nat)
    (ho : st'._open_file_list = st._open_file_list)
    (hf : st'._free_file_list = st._free_file_list)
    (hn : ∀ g, (st'._files g).next = (st._files g).next) (h : PoolInv N st lf lo) :
    PoolInv N st' lf lo := by
  obtain ⟨h1, h2, h3⟩ := h
  refine ⟨?_, ?_, h3⟩
  · rw [hf]; exact IsList_congr st st' lf _ (fun g _ => hn g) h1
  · rw [ho]; exact IsList_congr st st' lo _ (fun g _ => hn g) h2

theorem UniqueNames_congr (env : Env D) (st st' : Lib D) (lo : List Nat)
    (hn : ∀ g, g ∈ lo → (st'._files g).path = (st._files g).path ∧
      (st'._files g).filename = (st._files g).filename)
    (h : UniqueNames env st lo) : UniqueNames env st' lo := by
  unfold UniqueNames at h ⊢
  refine List.Pairwise.imp_of_mem ?_ h
  intro a b ha hb hab
  unfold names_equal at hab ⊢
  rw [(hn a ha).1, (hn a ha).2, (hn b hb).1, (hn b hb).2]
  exact hab

theorem open_prologue_eq (env : Env D) (st : Lib D) (file : Nat) (path : String) :
    open_prologue env st file path =
      (if (env.split_path path).1 = -1 then
        (_free_file env (open_named env st file path) file, false)
      else if _check_file_open env (open_named env st file path) file ≠ 0 then
        (_free_file env (open_named env st file path) file, false)
      else
        match ((open_named env st file path)._files file).path.data with
        | [] =>
          ((open_named env st file path).setFile file
            { (open_named env st file path)._files file with
              parentcluster := env.get_root_cluster (open_named env st file path)._fs.vol },
            true)
        | _ :: _ =>
          match _open_directory env (open_named env st file path)
              ((open_named env st file path)._files file).path with
          | (st, some c) => (st.setFile file { st._files file with parentcluster := c }, true)
          | (st, none) => (_free_file env st file, false)) := rfl

theorem open_prologue_busy (env : Env D) (st : Lib D) (file : Nat) (path : String)
    (h : (env.split_path path).1 = -1 ∨
      _check_file_open env (open_named env st file path) file ≠ 0) :
    open_prologue env st file path =
      (_free_file env (open_named env st file path) file, false) := by
  rw [open_prologue_eq]
  by_cases h1 : (env.split_path path).1 = -1
  · rw [if_pos h1]
  · rw [if_neg h1, if_pos (h.resolve_left h1)]

theorem open_prologue_cases (env : Env D) (st : Lib D) (file : Nat) (path : String) :
    ((open_prologue env st file path).2 = true ∧
      SamePool (open_prologue env st file path).1 (open_named env st file path) ∧
      _check_file_open env (open_named env st file path) file = 0) ∨
    ((open_prologue env st file path).2 = false ∧
      ∃ X, SamePool X (open_named env st file path) ∧
        (open_prologue env st file path).1 = _free_file env X file) := by
  by_cases h : (env.split_path path).1 = -1 ∨
      _check_file_open env (open_named env st file path) file ≠ 0
  · rw [open_prologue_busy env st file path h]
    exact Or.inr ⟨rfl, _, SamePool.refl _, rfl⟩
  · have h1 : ¬ (env.split_path path).1 = -1 := fun e => h (Or.inl e)
    have h2 : _check_file_open env (open_named env st file path) file = 0 := by
      by_contra e; exact h (Or.inr e)
    rw [open_prologue_eq, if_neg h1, if_neg (by rw [h2]; simp)]
    generalize open_named env st file path = P at h2 ⊢
    split
    · exact Or.inl ⟨rfl, SamePool_setFile _ _ _ rfl, h2⟩
    · have hd := _open_directory_SamePool env P (P._files file).path
      cases hr : _open_directory env P (P._files file).path with
      | mk s o =>
        rw [hr] at hd
        cases o with
        | none => exact Or.inr ⟨rfl, _, hd, rfl⟩
        | some c =>
          simp only at hd ⊢
          refine Or.inl ⟨trivial, SamePool.trans (SamePool_setFile _ _ _ ?_) hd, h2⟩
          rfl
theorem fatfs_get_file_entry_SamePool (env : Env D) (st : Lib D) (c : Nat) (n : String) :
    SamePool (fatfs_get_file_entry env st c n).1 st := SamePool_step _ _ _

theorem fatfs_allocate_free_space_SamePool (env : Env D) (st : Lib D) (a b c : Nat) :
    SamePool (fatfs_allocate_free_space env st a b c).1 st := SamePool_step _ _ _

theorem fatfs_add_file_entry_SamePool (env : Env D) (st : Lib D) (c : Nat) (n : String)
    (sfn : List Nat) (a b d : Nat) :
    SamePool (fatfs_add_file_entry env st c n sfn a b d).1 st := SamePool_step _ _ _

theorem fatfs_free_cluster_chain_SamePool (env : Env D) (st : Lib D) (c : Nat) :
    SamePool (fatfs_free_cluster_chain env st c).1 st := SamePool_step _ _ _

theorem fatfs_fat_purge_SamePool (env : Env D) (st : Lib D) :
    SamePool (fatfs_fat_purge env st) st := SamePool_step _ _ _

theorem fatfs_cache_init_SamePool (env : Env D) (st : Lib D) (f : Nat) :
    SamePool (fatfs_cache_init env st f) st := SamePool_step _ _ _

theorem fatfs_update_file_length_SamePool (env : Env D) (st : Lib D) (c : Nat)
    (sfn : List Nat) (len : Nat) :
    SamePool (fatfs_update_file_length env st c sfn len).1 st := SamePool_step _ _ _

theorem fatfs_mark_file_deleted_SamePool (env : Env D) (st : Lib D) (c : Nat)
    (sfn : List Nat) : SamePool (fatfs_mark_file_deleted env st c sfn).1 st := SamePool_step _ _ _

theorem _open_file_outcome_aux (env : Env D) (st A : Lib D) (f : Nat) (path : String)
    (checkfile : Int) (h : _allocate_file st = (A, some f)) :
    ((_open_file env st path checkfile).2 = some f ∧
      SamePool (_open_file env st path checkfile).1 (open_named env A f path) ∧
      _check_file_open env (open_named env A f path) f = 0) ∨
    ((_open_file env st path checkfile).2 = none ∧
      ∃ X, SamePool X (open_named env A f path) ∧
        (_open_file env st path checkfile).1 = _free_file env X f) := by
  unfold _open_file
  rw [h]
  simp only []
  rcases open_prologue_cases env A f path with ⟨hb, hs, hc⟩ | ⟨hb, X, hx, he⟩
  · cases hp : open_prologue env A f path with
    | mk s b =>
      rw [hp] at hb hs
      simp only at hb hs
      subst hb
      simp only []
      split_ifs
      · exact Or.inl ⟨rfl, (fatfs_fat_purge_SamePool _ _).trans
          ((fatfs_cache_init_SamePool _ _ _).trans ((SamePool_setFile _ _ _ (by rfl)).trans
            ((fatfs_get_file_entry_SamePool _ _ _ _).trans hs))), hc⟩
      · exact Or.inr ⟨rfl, _, (fatfs_get_file_entry_SamePool _ _ _ _).trans hs, rfl⟩
  · cases hp : open_prologue env A f path with
    | mk s b =>
      rw [hp] at hb he
      simp only at hb he
      subst hb
      exact Or.inr ⟨rfl, X, hx, he⟩

theorem _open_file_outcome (env : Env D) (st : Lib D) (path : String) (checkfile : Int) :
    OpenOutcome env st path (_open_file env st path checkfile) := by
  cases hfree : st._free_file_list with
  | none => exact Or.inl (_open_file_none env st path checkfile hfree)
  | some f =>
    refine Or.inr ⟨f, hfree, ?_⟩
    exact _open_file_outcome_aux env st _ f path checkfile
      (by rw [_allocate_file_some st f hfree])

theorem _create_file_outcome_aux (env : Env D) (st A : Lib D) (f : Nat) (path : String)
    (hw : st._fs.disk_io_write_sector ≠ false) (h : _allocate_file st = (A, some f)) :
    ((_create_file env st path).2 = some f ∧
      SamePool (_create_file env st path).1 (open_named env A f path) ∧
      _check_file_open env (open_named env A f path) f = 0) ∨
    ((_create_file env st path).2 = none ∧
      ∃ X, SamePool X (open_named env A f path) ∧
        (_create_file env st path).1 = _free_file env X f) := by
  unfold _create_file
  rw [if_neg hw, h]
  simp only []
  rcases open_prologue_cases env A f path with ⟨hb, hs, hc⟩ | ⟨hb, X, hx, he⟩
  · cases hp : open_prologue env A f path with
    | mk s b =>
      rw [hp] at hb hs
      simp only at hb hs
      subst hb
      simp only []
      have s1 := (fatfs_get_file_entry_SamePool env s (s._files f).parentcluster
        (s._files f).filename).trans hs
      split_ifs with h1 h2
      · exact Or.inr ⟨rfl, _, s1, rfl⟩
      · exact Or.inr ⟨rfl, _, (SamePool_setFile _ _ _ (by rfl)).trans
          ((fatfs_allocate_free_space_SamePool _ _ _ _ _).trans
            ((SamePool_setFile _ _ _ (by rfl)).trans s1)), rfl⟩
      · split
        · rename_i s2 heq
          have e := congrArg Prod.fst heq
          simp only at e
          subst e
          exact Or.inr ⟨rfl, _, (fatfs_free_cluster_chain_SamePool _ _ _).trans
            ((create_sfn_SamePool _ _ _).trans ((SamePool_setFile _ _ _ (by rfl)).trans
              ((fatfs_allocate_free_space_SamePool _ _ _ _ _).trans
                ((SamePool_setFile _ _ _ (by rfl)).trans s1)))), rfl⟩
        · rename_i s2 heq
          have e := congrArg Prod.fst heq
          simp only at e
          subst e
          split_ifs
          · exact Or.inr ⟨rfl, _, (fatfs_free_cluster_chain_SamePool _ _ _).trans
              ((fatfs_add_file_entry_SamePool _ _ _ _ _ _ _ _).trans
                ((create_sfn_SamePool _ _ _).trans ((SamePool_setFile _ _ _ (by rfl)).trans
                  ((fatfs_allocate_free_space_SamePool _ _ _ _ _).trans
                    ((SamePool_setFile _ _ _ (by rfl)).trans s1))))), rfl⟩
          · exact Or.inl ⟨rfl, (fatfs_fat_purge_SamePool _ _).trans
              ((fatfs_cache_init_SamePool _ _ _).trans ((SamePool_setFile _ _ _ (by rfl)).trans
                ((fatfs_add_file_entry_SamePool _ _ _ _ _ _ _ _).trans
                  ((create_sfn_SamePool _ _ _).trans ((SamePool_setFile _ _ _ (by rfl)).trans
                    ((fatfs_allocate_free_space_SamePool _ _ _ _ _).trans
                      ((SamePool_setFile _ _ _ (by rfl)).trans s1))))))), hc⟩
  · cases hp : open_prologue env A f path with
    | mk s b =>
      rw [hp] at hb he
      simp only at hb he
      subst hb
      exact Or.inr ⟨rfl, X, hx, he⟩

theorem _create_file_outcome (env : Env D) (st : Lib D) (path : String) :
    OpenOutcome env st path (_create_file env st path) := by
  by_cases hw : st._fs.disk_io_write_sector = false
  · refine Or.inl ?_
    unfold _create_file
    rw [if_pos hw]
  · cases hfree : st._free_file_list with
    | none => exact Or.inl (_create_file_none env st path hfree)
    | some f =>
      refine Or.inr ⟨f, hfree, ?_⟩
      exact _create_file_outcome_aux env st _ f path hw
        (by rw [_allocate_file_some st f hfree])
theorem open_named_fields (env : Env D) (A : Lib D) (f : Nat) (path : String) :
    (open_named env A f path).heads = A.heads ∧
    (open_named env A f path).trace = A.trace ∧
    (open_named env A f path)._fs = A._fs ∧
    (∀ g, ((open_named env A f path)._files g).next = (A._files g).next) ∧
    (∀ g, g ≠ f → (open_named env A f path)._files g = A._files g) ∧
    ((open_named env A f path)._files f).path = (env.split_path path).2.1 ∧
    ((open_named env A f path)._files f).filename = (env.split_path path).2.2 := by
  unfold open_named
  refine ⟨rfl, rfl, rfl, ?_, ?_, ?_, ?_⟩
  · intro g
    simp only [setFile_files]
    split_ifs <;> subst_vars <;> rfl
  · intro g hg
    simp only [setFile_files, if_neg hg]
  · simp
  · simp

theorem _allocate_file_fields (st : Lib D) (f : Nat) (h : st._free_file_list = some f) :
    (_allocate_file st).1._filelib_init = st._filelib_init ∧
    (_allocate_file st).1._open_file_list = some f ∧
    (_allocate_file st).1._free_file_list = (st._files f).next ∧
    (_allocate_file st).1.trace = st.trace ∧
    (_allocate_file st).1._fs = st._fs ∧
    ((_allocate_file st).1._files f).next = st._open_file_list ∧
    (∀ g, g ≠ f → (_allocate_file st).1._files g = st._files g) := by
  rw [_allocate_file_some st f h]
  refine ⟨rfl, rfl, rfl, rfl, rfl, ?_, ?_⟩
  · simp [Lib.setFile]
  · intro g hg
    simp [Lib.setFile, hg]

/-- Handing the record just allocated back to `_free_file` restores the list
heads and every link. -/
theorem _free_file_after_alloc (env : Env D) (st X : Lib D) (f : Nat) (path : String)
    (h : st._free_file_list = some f) (hN : 0 < env.FATFS_MAX_OPEN_FILES)
    (hx : SamePool X (open_named env (_allocate_file st).1 f path)) :
    (_free_file env X f)._filelib_init = st._filelib_init ∧
    (_free_file env X f)._open_file_list = st._open_file_list ∧
    (_free_file env X f)._free_file_list = st._free_file_list ∧
    (∀ g, ((_free_file env X f)._files g).next = (st._files g).next) ∧
    (∀ g, g ≠ f → ((_free_file env X f)._files g).path = (st._files g).path ∧
      ((_free_file env X f)._files g).filename = (st._files g).filename) := by
  obtain ⟨p1, -, -, p4, p5, -, -⟩ := open_named_fields env (_allocate_file st).1 f path
  obtain ⟨a1, a2, a3, -, -, a6, a7⟩ := _allocate_file_fields st f h
  obtain ⟨x1, x2, x3⟩ := heads_fields _ _ (hx.1.trans p1)
  have xl : ∀ g, (X._files g).next = ((_allocate_file st).1._files g).next := by
    intro g
    rw [(link_fields _ _ (hx.2 g)).1, p4]
  rw [_free_file_head env X f (x2.trans a2) hN]
  refine ⟨x1.trans a1, ?_, h.symm, ?_, ?_⟩
  · show (X._files f).next = _
    rw [xl, a6]
  · intro g
    simp only [setFile_files]
    split_ifs with hg
    · subst hg
      show X._free_file_list = _
      rw [x3, a3]
    · show (X._files g).next = _
      rw [xl, a7 g hg]
  · intro g hg
    simp only [setFile_files, if_neg hg]
    obtain ⟨-, l2, l3⟩ := link_fields _ _ (hx.2 g)
    show (X._files g).path = _ ∧ (X._files g).filename = _
    rw [l2, l3, p5 g hg, a7 g hg]
    exact ⟨rfl, rfl⟩
/-- What one call of `_open_file` or `_create_file` does to the pool: either
nothing is opened and the lists are as before, or the head of the free list
moves to the head of the open list and no record that was open compares
equal to it. -/
theorem OpenOutcome_inv (env : Env D) (st : Lib D) (path : String) (r : Lib D × Option Nat)
    (lf lo : List Nat) (hp : PoolInv env.FATFS_MAX_OPEN_FILES st lf lo)
    (hu : UniqueNames env st lo) (ho : OpenOutcome env st path r) :
    r.1._filelib_init = st._filelib_init ∧
    (∀ g, g ∈ lo → (r.1._files g).path = (st._files g).path ∧
      (r.1._files g).filename = (st._files g).filename) ∧
    ((r.2 = none ∧ r.1._open_file_list = st._open_file_list ∧
        r.1._free_file_list = st._free_file_list ∧
        (∀ g, (r.1._files g).next = (st._files g).next) ∧
        PoolInv env.FATFS_MAX_OPEN_FILES r.1 lf lo ∧ UniqueNames env r.1 lo) ∨
      (∃ f lf', r.2 = some f ∧ lf = f :: lf' ∧
        PoolInv env.FATFS_MAX_OPEN_FILES r.1 lf' (f :: lo) ∧
        UniqueNames env r.1 (f :: lo))) := by
  rcases ho with rfl | ⟨f, hfree, hcase⟩
  · exact ⟨rfl, fun _ _ => ⟨rfl, rfl⟩, Or.inl ⟨rfl, rfl, rfl, fun _ => rfl, hp, hu⟩⟩
  · obtain ⟨lf', rfl⟩ : ∃ lf', lf = f :: lf' := by
      have h1 := hp.1
      rw [hfree] at h1
      cases lf with
      | nil => exact absurd h1 (by simp [IsList])
      | cons a l =>
        obtain ⟨e, -⟩ := (IsList_cons _ _ _ _).mp h1
        cases e
        exact ⟨l, rfl⟩
    have hlen := (PoolInv_facts _ _ _ _ hp).2.2.2.2
    have hN : 0 < env.FATFS_MAX_OPEN_FILES := by simp at hlen; omega
    have hnd : (f :: lf' ++ lo).Nodup := hp.2.2.nodup_iff.mpr (List.nodup_range _)
    have hflo : ∀ g, g ∈ lo → g ≠ f := by
      intro g hg e
      exact (List.nodup_cons.mp hnd).1 (List.mem_append_right _ (e ▸ hg))
    obtain ⟨p1, -, -, p4, p5, p6, p7⟩ := open_named_fields env (_allocate_file st).1 f path
    obtain ⟨a1, a2, a3, -, -, a6, a7⟩ := _allocate_file_fields st f hfree
    rcases hcase with ⟨h2, hs, hc⟩ | ⟨h2, X, hx, he⟩
    · obtain ⟨x1, x2, x3⟩ := heads_fields _ _ (hs.1.trans p1)
      have hA := (_allocate_file_pool _ st f lf' lo hp).2
      have hnext : ∀ g, (r.1._files g).next = ((_allocate_file st).1._files g).next := by
        intro g
        rw [(link_fields _ _ (hs.2 g)).1, p4]
      have hnames : ∀ g, g ∈ lo → (r.1._files g).path = (st._files g).path ∧
          (r.1._files g).filename = (st._files g).filename := by
        intro g hg
        obtain ⟨-, l2, l3⟩ := link_fields _ _ (hs.2 g)
        rw [l2, l3, p5 g (hflo g hg), a7 g (hflo g hg)]
        exact ⟨rfl, rfl⟩
      have hR := PoolInv_congr _ _ r.1 lf' (f :: lo) x2 x3 hnext hA
      refine ⟨x1.trans a1, hnames, Or.inr ⟨f, lf', h2, rfl, hR, ?_⟩⟩
      refine List.pairwise_cons.mpr ⟨?_, UniqueNames_congr env st r.1 lo hnames hu⟩
      intro g hg hne
      have hP : PoolInv env.FATFS_MAX_OPEN_FILES
          (open_named env (_allocate_file st).1 f path) lf' (f :: lo) :=
        PoolInv_congr _ _ _ lf' (f :: lo) (heads_fields _ _ p1).2.1 (heads_fields _ _ p1).2.2
          p4 hA
      have hl2 := (PoolInv_facts _ _ _ _ hP).2.2.2.2
      have hfound := check_file_open_loop_found env
        (open_named env (_allocate_file st).1 f path) f (f :: lo)
        env.FATFS_MAX_OPEN_FILES _ hP.2.1 (by omega)
        ⟨g, List.mem_cons_of_mem _ hg, hflo g hg, by
          obtain ⟨-, l2, l3⟩ := link_fields _ _ (hs.2 g)
          obtain ⟨-, m2, m3⟩ := link_fields _ _ (hs.2 f)
          unfold names_equal at hne ⊢
          rw [← l2, ← l3, ← m2, ← m3]
          exact hne⟩
      unfold _check_file_open at hc
      rw [hfound] at hc
      exact absurd hc (by decide)
    · obtain ⟨f1, f2, f3, f4, f5⟩ := _free_file_after_alloc env st X f path hfree hN hx
      have hnames : ∀ g, g ∈ lo → (r.1._files g).path = (st._files g).path ∧
          (r.1._files g).filename = (st._files g).filename := by
        intro g hg
        rw [he]
        exact f5 g (hflo g hg)
      rw [he] at hnames ⊢
      exact ⟨f1, hnames, Or.inl ⟨h2, f2, f3, f4,
        PoolInv_congr _ st _ (f :: lf') lo f2 f3 f4 hp,
        UniqueNames_congr env st _ lo hnames hu⟩⟩
theorem OpenInv_start (env : Env D) (st : Lib D) (lf lo : List Nat)
    (hp : PoolInv env.FATFS_MAX_OPEN_FILES st lf lo) (hu : UniqueNames env st lo) :
    OpenInv env st lf lo (st, none) :=
  ⟨rfl, fun _ _ => ⟨rfl, rfl⟩, Or.inl ⟨rfl, rfl, rfl, fun _ => rfl, hp, hu⟩⟩

theorem OpenInv_frame (env : Env D) (st s' : Lib D) (lf lo : List Nat)
    (r : Lib D × Option Nat) (h : OpenInv env st lf lo r) (hs : SamePool s' r.1) :
    OpenInv env st lf lo (s', r.2) := by
  obtain ⟨h1, h2, h3⟩ := h
  obtain ⟨x1, x2, x3⟩ := heads_fields _ _ hs.1
  have hn : ∀ g, (s'._files g).next = (r.1._files g).next := fun g => (link_fields _ _ (hs.2 g)).1
  have hnam : ∀ g, (s'._files g).path = (r.1._files g).path ∧
      (s'._files g).filename = (r.1._files g).filename :=
    fun g => (link_fields _ _ (hs.2 g)).2
  refine ⟨x1.trans h1, fun g hg => ⟨(hnam g).1.trans (h2 g hg).1, (hnam g).2.trans (h2 g hg).2⟩, ?_⟩
  rcases h3 with ⟨a1, a2, a3, a4, a5, a6⟩ | ⟨f, lf', b1, b2, b3, b4⟩
  · exact Or.inl ⟨a1, x2.trans a2, x3.trans a3, fun g => (hn g).trans (a4 g),
      PoolInv_congr _ _ _ lf lo x2 x3 hn a5,
      UniqueNames_congr env _ _ lo (fun g _ => hnam g) a6⟩
  · exact Or.inr ⟨f, lf', b1, b2, PoolInv_congr _ _ _ lf' (f :: lo) x2 x3 hn b3,
      UniqueNames_congr env _ _ (f :: lo) (fun g _ => hnam g) b4⟩

theorem OpenInv_step (env : Env D) (st s : Lib D) (lf lo : List Nat) (path : String)
    (r : Lib D × Option Nat) (h : OpenInv env st lf lo (s, none))
    (ho : OpenOutcome env s path r) : OpenInv env st lf lo r := by
  obtain ⟨h1, h2, h3⟩ := h
  rcases h3 with ⟨-, a2, a3, a4, a5, a6⟩ | ⟨f, lf', b1, -⟩
  · obtain ⟨c1, c2, c3⟩ := OpenOutcome_inv env s path r lf lo a5 a6 ho
    refine ⟨c1.trans h1, fun g hg => ⟨(c2 g hg).1.trans (h2 g hg).1,
      (c2 g hg).2.trans (h2 g hg).2⟩, ?_⟩
    rcases c3 with ⟨d1, d2, d3, d4, d5, d6⟩ | hsome
    · exact Or.inl ⟨d1, d2.trans a2, d3.trans a3, fun g => (d4 g).trans (a4 g), d5, d6⟩
    · exact Or.inr hsome
  · cases b1

/-- The pool after `fl_ifopen` in an initialised library. -/
theorem fl_ifopen_inv (env : Env D) (st : Lib D) (path mode : Option String) (checkfile : Int)
    (lf lo : List Nat) (hi : st._filelib_init ≠ 0)
    (hp : PoolInv env.FATFS_MAX_OPEN_FILES st lf lo) (hu : UniqueNames env st lo) :
    OpenInv env st lf lo (fl_ifopen env st path mode checkfile) := by
  have h0 := OpenInv_start env st lf lo hp hu
  unfold fl_ifopen
  rw [CHECK_FL_INIT_of_init env st hi]
  by_cases hv : st._filelib_valid = 0
  · simp only [hv, if_true]
    exact h0
  · cases path with
    | none => simp only [hv, if_false]; exact h0
    | some path =>
      cases mode with
      | none => simp only [hv, if_false]; exact h0
      | some mode =>
        simp only [hv, if_false]
        generalize (if st._fs.disk_io_write_sector = false then
            parse_mode mode &&& (255 ^^^ (FILE_CREATE ||| FILE_WRITE ||| FILE_APPEND))
          else parse_mode mode) = flags
        have hL : OpenInv env st lf lo (FL_LOCK st, none) :=
          OpenInv_frame env st _ lf lo _ h0 (SamePool_LOCK st)
        have h1 : OpenInv env st lf lo
            (if flags &&& FILE_READ ≠ 0 then _open_file env (FL_LOCK st) path checkfile
              else (FL_LOCK st, none)) := by
          split_ifs
          · exact OpenInv_step env st _ lf lo path _ hL (_open_file_outcome env _ path checkfile)
          · exact hL
        generalize (if flags &&& FILE_READ ≠ 0 then _open_file env (FL_LOCK st) path checkfile
              else (FL_LOCK st, none)) = r1 at h1 ⊢
        have h2 : OpenInv env st lf lo
            (if r1.2 = none ∧ flags &&& FILE_CREATE ≠ 0 then _create_file env r1.1 path
              else r1) := by
          split_ifs with hc
          · have : r1 = (r1.1, none) := Prod.ext rfl hc.1
            rw [this] at h1
            exact OpenInv_step env st _ lf lo path _ h1 (_create_file_outcome env _ path)
          · exact h1
        generalize (if r1.2 = none ∧ flags &&& FILE_CREATE ≠ 0 then _create_file env r1.1 path
              else r1) = r2 at h2 ⊢
        have h3 : OpenInv env st lf lo
            (if flags &&& FILE_READ = 0 ∧ (flags &&& FILE_CREATE ≠ 0 ∧ r2.2 = none) ∧
                flags &&& (FILE_WRITE ||| FILE_APPEND) ≠ 0 then
              _open_file env r2.1 path checkfile
            else r2) := by
          split_ifs with hc
          · have : r2 = (r2.1, none) := Prod.ext rfl hc.2.1.2
            rw [this] at h2
            exact OpenInv_step env st _ lf lo path _ h2 (_open_file_outcome env _ path checkfile)
          · exact h2
        generalize (if flags &&& FILE_READ = 0 ∧ (flags &&& FILE_CREATE ≠ 0 ∧ r2.2 = none) ∧
                flags &&& (FILE_WRITE ||| FILE_APPEND) ≠ 0 then
              _open_file env r2.1 path checkfile
            else r2) = r3 at h3 ⊢
        refine OpenInv_frame env st _ lf lo r3 h3 ((SamePool_UNLOCK _).trans ?_)
        cases r3.2 with
        | none => exact SamePool.refl _
        | some file => exact SamePool_setFile _ _ _ (by rfl)
theorem PoolInv_of_SamePool (N : Nat) (st st' : Lib D) (lf lo : List Nat)
    (hs : SamePool st' st) (h : PoolInv N st lf lo) : PoolInv N st' lf lo :=
  PoolInv_congr N st st' lf lo (heads_fields _ _ hs.1).2.1 (heads_fields _ _ hs.1).2.2
    (fun g => (link_fields _ _ (hs.2 g)).1) h

theorem UniqueNames_of_SamePool (env : Env D) (st st' : Lib D) (lo : List Nat)
    (hs : SamePool st' st) (h : UniqueNames env st lo) : UniqueNames env st' lo :=
  UniqueNames_congr env st st' lo (fun g _ => (link_fields _ _ (hs.2 g)).2) h

/-- In an initialised library `fl_fclose` hands the record to `_free_file` in
a state with the pool of the state before the call, and then only purges and
unlocks. -/
theorem fl_fclose_eq (env : Env D) (st : Lib D) (f : Nat) (hi : st._filelib_init ≠ 0) :
    ∃ X, SamePool X st ∧
      fl_fclose env st (some f) = FL_UNLOCK (fatfs_fat_purge env (_free_file env X f)) := by
  have hL : (FL_LOCK st)._filelib_init ≠ 0 := by rw [FL_LOCK_init]; exact hi
  have s1 : SamePool (fl_fflush env (FL_LOCK st) (some f)).1 st :=
    (fl_fflush_SamePool env (FL_LOCK st) (some f) hL).trans (SamePool_LOCK st)
  unfold fl_fclose
  rw [CHECK_FL_INIT_of_init env st hi]
  simp only []
  split_ifs
  · exact ⟨_, (SamePool_setFile _ _ _ (by rfl)).trans ((SamePool_setFile _ _ _ (by rfl)).trans
      ((fatfs_update_file_length_SamePool _ _ _ _ _).trans s1)), rfl⟩
  · exact ⟨_, (SamePool_setFile _ _ _ (by rfl)).trans s1, rfl⟩

/-- The pool after `fl_fclose` on an open handle in an initialised library:
the record moves from the open list to the head of the free list, and the
names of the other records are as before. -/
theorem fl_fclose_inv (env : Env D) (st : Lib D) (f : Nat) (lf lo : List Nat)
    (hi : st._filelib_init ≠ 0) (hp : PoolInv env.FATFS_MAX_OPEN_FILES st lf lo)
    (hu : UniqueNames env st lo) (hm : f ∈ lo) :
    (fl_fclose env st (some f))._filelib_init = st._filelib_init ∧
    PoolInv env.FATFS_MAX_OPEN_FILES (fl_fclose env st (some f)) (f :: lf) (lo.erase f) ∧
    UniqueNames env (fl_fclose env st (some f)) (lo.erase f) ∧
    ∀ g, ((fl_fclose env st (some f))._files g).path = (st._files g).path ∧
      ((fl_fclose env st (some f))._files g).filename = (st._files g).filename := by
  obtain ⟨X, hx, he⟩ := fl_fclose_eq env st f hi
  have hs : SamePool (fl_fclose env st (some f)) (_free_file env X f) := by
    rw [he]
    exact (SamePool_UNLOCK _).trans (fatfs_fat_purge_SamePool _ _)
  obtain ⟨-, -, f3, -, f5⟩ := _free_file_frame env X f
  have hnam : ∀ g, ((fl_fclose env st (some f))._files g).path = (st._files g).path ∧
      ((fl_fclose env st (some f))._files g).filename = (st._files g).filename := by
    intro g
    obtain ⟨n, hn⟩ := f5 g
    obtain ⟨-, l2, l3⟩ := link_fields _ _ (hs.2 g)
    obtain ⟨-, m2, m3⟩ := link_fields _ _ (hx.2 g)
    rw [l2, l3, hn]
    exact ⟨m2, m3⟩
  refine ⟨?_, ?_, ?_, hnam⟩
  · rw [(heads_fields _ _ hs.1).1, f3, (heads_fields _ _ hx.1).1]
  · exact PoolInv_of_SamePool _ _ _ _ _ hs
      (_free_file_pool env X f lf lo (PoolInv_of_SamePool _ _ _ _ _ hx hp) hm)
  · refine UniqueNames_congr env st _ _ (fun g _ => hnam g) ?_
    exact List.Pairwise.sublist (List.erase_sublist _ _) hu
/-- An open call for a path whose split compares equal to the names of a
record of the open list returns NULL. -/
theorem OpenOutcome_busy (env : Env D) (st : Lib D) (path : String) (r : Lib D × Option Nat)
    (lf lo : List Nat) (g : Nat) (hp : PoolInv env.FATFS_MAX_OPEN_FILES st lf lo)
    (hg : g ∈ lo)
    (h1 : env.compare_names (st._files g).path (env.split_path path).2.1 = true)
    (h2 : env.compare_names (st._files g).filename (env.split_path path).2.2 = true)
    (ho : OpenOutcome env st path r) : r.2 = none := by
  rcases ho with rfl | ⟨f, hfree, hcase⟩
  · rfl
  · rcases hcase with ⟨-, -, hc⟩ | ⟨h, -⟩
    · exfalso
      obtain ⟨lf', rfl⟩ : ∃ lf', lf = f :: lf' := by
        have h1 := hp.1
        rw [hfree] at h1
        cases lf with
        | nil => exact absurd h1 (by simp [IsList])
        | cons a l =>
          obtain ⟨e, -⟩ := (IsList_cons _ _ _ _).mp h1
          cases e
          exact ⟨l, rfl⟩
      have hnd : (f :: lf' ++ lo).Nodup := hp.2.2.nodup_iff.mpr (List.nodup_range _)
      have hgf : g ≠ f := fun e =>
        (List.nodup_cons.mp hnd).1 (List.mem_append_right _ (e ▸ hg))
      obtain ⟨p1, -, -, p4, p5, p6, p7⟩ := open_named_fields env (_allocate_file st).1 f path
      obtain ⟨-, -, -, -, -, -, a7⟩ := _allocate_file_fields st f hfree
      have hP : PoolInv env.FATFS_MAX_OPEN_FILES
          (open_named env (_allocate_file st).1 f path) lf' (f :: lo) :=
        PoolInv_congr _ _ _ lf' (f :: lo) (heads_fields _ _ p1).2.1 (heads_fields _ _ p1).2.2
          p4 (_allocate_file_pool _ st f lf' lo hp).2
      have hl2 := (PoolInv_facts _ _ _ _ hP).2.2.2.2
      have hfound := check_file_open_loop_found env
        (open_named env (_allocate_file st).1 f path) f (f :: lo)
        env.FATFS_MAX_OPEN_FILES _ hP.2.1 (by omega)
        ⟨g, List.mem_cons_of_mem _ hg, hgf, by
          unfold names_equal
          rw [p5 g hgf, a7 g hgf, p6, p7]
          exact ⟨h1, h2⟩⟩
      unfold _check_file_open at hc
      rw [hfound] at hc
      exact absurd hc (by decide)
    · exact h

theorem OpenReach_inv (env : Env D) (st0 st : Lib D) (lf0 : List Nat)
    (hi : st0._filelib_init ≠ 0) (hp : PoolInv env.FATFS_MAX_OPEN_FILES st0 lf0 [])
    (hr : OpenReach env st0 st) :
    st._filelib_init ≠ 0 ∧
    ∃ lf lo, PoolInv env.FATFS_MAX_OPEN_FILES st lf lo ∧ UniqueNames env st lo := by
  induction hr with
  | start => exact ⟨hi, lf0, [], hp, List.Pairwise.nil⟩
  | fopen s path mode _ ih =>
    obtain ⟨h1, lf, lo, h2, h3⟩ := ih
    obtain ⟨c1, -, c3⟩ := fl_ifopen_inv env s path mode 1 lf lo h1 h2 h3
    refine ⟨?_, ?_⟩
    · show (fl_ifopen env s path mode 1).1._filelib_init ≠ 0
      rw [c1]; exact h1
    · rcases c3 with ⟨-, -, -, -, d5, d6⟩ | ⟨f, lf', -, -, d3, d4⟩
      · exact ⟨lf, lo, d5, d6⟩
      · exact ⟨lf', f :: lo, d3, d4⟩
  | fclose s file lo' _ hl hm ih =>
    obtain ⟨h1, lf, lo, h2, h3⟩ := ih
    have := IsList_unique s lo' lo _ hl h2.2.1
    subst this
    obtain ⟨c1, c2, c3, -⟩ := fl_fclose_inv env s file lf lo' h1 h2 h3 hm
    exact ⟨by rw [c1]; exact h1, _, _, c2, c3⟩

/-- Records of the open list that differ have different (path, filename)
pairs, when every name compares equal to itself. -/
theorem UniqueNames_distinct (env : Env D) (st : Lib D) (lo : List Nat)
    (hrefl : ∀ a, env.compare_names a a = true) (hu : UniqueNames env st lo) :
    ∀ g, g ∈ lo → ∀ h, h ∈ lo → g ≠ h →
      ¬ ((st._files g).path = (st._files h).path ∧
        (st._files g).filename = (st._files h).filename) := by
  have hs : lo.Pairwise (fun a b => ¬ ((st._files a).path = (st._files b).path ∧
      (st._files a).filename = (st._files b).filename)) := by
    refine List.Pairwise.imp ?_ hu
    intro a b hab hEq
    apply hab
    unfold names_equal
    rw [hEq.1, hEq.2]
    exact ⟨hrefl _, hrefl _⟩
  have hsymm : Symmetric (fun a b : Nat => ¬ ((st._files a).path = (st._files b).path ∧
      (st._files a).filename = (st._files b).filename)) := by
    intro a b hab hba
    exact hab ⟨hba.1.symm, hba.2.symm⟩
  intro g hg h hh hne
  exact hs.forall hsymm hg hh hne
/-! ## Opening a path that is already open -/

theorem _open_file_busy (env : Env D) (st : Lib D) (path : String) (checkfile : Int)
    (lf lo : List Nat) (g f : Nat) (hp : PoolInv env.FATFS_MAX_OPEN_FILES st lf lo)
    (hg : g ∈ lo) (hfree : st._free_file_list = some f)
    (h1 : env.compare_names (st._files g).path (env.split_path path).2.1 = true)
    (h2 : env.compare_names (st._files g).filename (env.split_path path).2.2 = true) :
    _open_file env st path checkfile =
      (_free_file env (open_named env (_allocate_file st).1 f path) f, none) := by
  obtain ⟨lf', rfl⟩ : ∃ lf', lf = f :: lf' := by
    have h1 := hp.1
    rw [hfree] at h1
    cases lf with
    | nil => exact absurd h1 (by simp [IsList])
    | cons a l =>
      obtain ⟨e, -⟩ := (IsList_cons _ _ _ _).mp h1
      cases e
      exact ⟨l, rfl⟩
  have hnd : (f :: lf' ++ lo).Nodup := hp.2.2.nodup_iff.mpr (List.nodup_range _)
  have hgf : g ≠ f := fun e =>
    (List.nodup_cons.mp hnd).1 (List.mem_append_right _ (e ▸ hg))
  obtain ⟨p1, -, -, p4, p5, p6, p7⟩ := open_named_fields env (_allocate_file st).1 f path
  obtain ⟨-, -, -, -, -, -, a7⟩ := _allocate_file_fields st f hfree
  have hP : PoolInv env.FATFS_MAX_OPEN_FILES
      (open_named env (_allocate_file st).1 f path) lf' (f :: lo) :=
    PoolInv_congr _ _ _ lf' (f :: lo) (heads_fields _ _ p1).2.1 (heads_fields _ _ p1).2.2
      p4 (_allocate_file_pool _ st f lf' lo hp).2
  have hl2 := (PoolInv_facts _ _ _ _ hP).2.2.2.2
  have hfound := check_file_open_loop_found env
    (open_named env (_allocate_file st).1 f path) f (f :: lo)
    env.FATFS_MAX_OPEN_FILES _ hP.2.1 (by omega)
    ⟨g, List.mem_cons_of_mem _ hg, hgf, by
      unfold names_equal
      rw [p5 g hgf, a7 g hgf, p6, p7]
      exact ⟨h1, h2⟩⟩
  have hbusy := open_prologue_busy env (_allocate_file st).1 f path
    (Or.inr (by unfold _check_file_open; rw [hfound]; decide))
  have hA : _allocate_file st = ((_allocate_file st).1, some f) := by
    rw [_allocate_file_some st f hfree]
  unfold _open_file
  rw [hA]
  simp only []
  rw [hbusy]

/-- The trace `t'` extends the trace `t` by calls of the lock and unlock
callbacks only. -/
theorem locks_refl (t : List Event) :
    ∃ evs, t = t ++ evs ∧ ∀ e, e ∈ evs → e = Event.lock ∨ e = Event.unlock :=
  ⟨[], by simp, fun _ h => absurd h (List.not_mem_nil _)⟩

theorem locks_LOCK (st : Lib D) (t : List Event)
    (h : ∃ evs, st.trace = t ++ evs ∧ ∀ e, e ∈ evs → e = Event.lock ∨ e = Event.unlock) :
    ∃ evs, (FL_LOCK st).trace = t ++ evs ∧ ∀ e, e ∈ evs → e = Event.lock ∨ e = Event.unlock := by
  obtain ⟨evs, h1, h2⟩ := h
  unfold FL_LOCK
  split
  · refine ⟨evs ++ [Event.lock], by simp [h1], ?_⟩
    intro e he
    rcases List.mem_append.mp he with h | h
    · exact h2 e h
    · exact Or.inl (List.mem_singleton.mp h)
  · exact ⟨evs, h1, h2⟩

theorem locks_UNLOCK (st : Lib D) (t : List Event)
    (h : ∃ evs, st.trace = t ++ evs ∧ ∀ e, e ∈ evs → e = Event.lock ∨ e = Event.unlock) :
    ∃ evs, (FL_UNLOCK st).trace = t ++ evs ∧
      ∀ e, e ∈ evs → e = Event.lock ∨ e = Event.unlock := by
  obtain ⟨evs, h1, h2⟩ := h
  unfold FL_UNLOCK
  split
  · refine ⟨evs ++ [Event.unlock], by simp [h1], ?_⟩
    intro e he
    rcases List.mem_append.mp he with h | h
    · exact h2 e h
    · exact Or.inr (List.mem_singleton.mp h)
  · exact ⟨evs, h1, h2⟩

/-- With mode "r" `fl_ifopen` calls `_open_file` once, and `_create_file`
not at all; when `_open_file` returns NULL, so does `fl_ifopen`. -/
theorem fl_ifopen_r_none (env : Env D) (st : Lib D) (path : String) (checkfile : Int)
    (hi : st._filelib_init ≠ 0) (hv : st._filelib_valid ≠ 0)
    (h : (_open_file env (FL_LOCK st) path checkfile).2 = none) :
    fl_ifopen env st (some path) (some "r") checkfile =
      (FL_UNLOCK (_open_file env (FL_LOCK st) path checkfile).1, none) := by
  have hf : (if st._fs.disk_io_write_sector = false then
      parse_mode "r" &&& (255 ^^^ (FILE_CREATE ||| FILE_WRITE ||| FILE_APPEND))
      else parse_mode "r") = FILE_READ := by
    split <;> decide
  unfold fl_ifopen
  rw [CHECK_FL_INIT_of_init env st hi]
  simp only [hv, if_false, hf]
  have h1 : FILE_READ &&& FILE_READ ≠ 0 := by decide
  have h2 : (FILE_READ &&& FILE_CREATE ≠ 0) = False := by
    simp only [eq_iff_iff, iff_false, not_not]; decide
  have h3 : (FILE_READ &&& FILE_READ = 0) = False := by
    simp only [eq_iff_iff, iff_false]; decide
  simp only [if_pos h1, h2, h3, and_false, false_and, if_false, h]
theorem PoolInv_pos (N : Nat) (st : Lib D) (lf lo : List Nat) (f : Nat)
    (hp : PoolInv N st lf lo) (hfree : st._free_file_list = some f) : 0 < N := by
  have hlen := (PoolInv_facts _ _ _ _ hp).2.2.2.2
  have h1 := hp.1
  rw [hfree] at h1
  cases lf with
  | nil => exact absurd h1 (by simp [IsList])
  | cons a l => simp at hlen; omega

/-- In an initialised library, `fl_ifopen` with mode "r" on a path whose split
compares equal to the names of a record of the open list returns NULL, runs
no call of the volume layer but the lock callbacks, and leaves the volume,
the list heads and every link as they were. -/
theorem fl_ifopen_r_busy (env : Env D) (st : Lib D) (path : String) (checkfile : Int)
    (lf lo : List Nat) (g : Nat) (hi : st._filelib_init ≠ 0)
    (hp : PoolInv env.FATFS_MAX_OPEN_FILES st lf lo) (hg : g ∈ lo)
    (h1 : env.compare_names (st._files g).path (env.split_path path).2.1 = true)
    (h2 : env.compare_names (st._files g).filename (env.split_path path).2.2 = true) :
    (fl_ifopen env st (some path) (some "r") checkfile).2 = none ∧
    (∃ evs, (fl_ifopen env st (some path) (some "r") checkfile).1.trace = st.trace ++ evs ∧
      ∀ e, e ∈ evs → e = Event.lock ∨ e = Event.unlock) ∧
    (fl_ifopen env st (some path) (some "r") checkfile).1._fs = st._fs ∧
    (fl_ifopen env st (some path) (some "r") checkfile).1._filelib_init = st._filelib_init ∧
    (fl_ifopen env st (some path) (some "r") checkfile).1._open_file_list =
      st._open_file_list ∧
    (fl_ifopen env st (some path) (some "r") checkfile).1._free_file_list =
      st._free_file_list ∧
    ∀ i, ((fl_ifopen env st (some path) (some "r") checkfile).1._files i).next =
      (st._files i).next := by
  by_cases hv : st._filelib_valid = 0
  · have he : fl_ifopen env st (some path) (some "r") checkfile = (st, none) := by
      unfold fl_ifopen
      rw [CHECK_FL_INIT_of_init env st hi]
      simp only [hv, if_true]
    rw [he]
    exact ⟨rfl, locks_refl _, rfl, rfl, rfl, rfl, fun _ => rfl⟩
  · have hpL : PoolInv env.FATFS_MAX_OPEN_FILES (FL_LOCK st) lf lo :=
      PoolInv_of_SamePool _ _ _ _ _ (SamePool_LOCK st) hp
    have hlk := locks_LOCK st st.trace (locks_refl _)
    cases hfree : (FL_LOCK st)._free_file_list with
    | none =>
      have ho := _open_file_none env (FL_LOCK st) path checkfile hfree
      rw [fl_ifopen_r_none env st path checkfile hi hv (by rw [ho]), ho]
      refine ⟨rfl, locks_UNLOCK _ _ hlk, ?_, ?_, ?_, ?_, ?_⟩
      · rw [FL_UNLOCK_fs, FL_LOCK_fs]
      · rw [FL_UNLOCK_init, FL_LOCK_init]
      · rw [FL_UNLOCK_open, FL_LOCK_open]
      · rw [FL_UNLOCK_free, FL_LOCK_free]
      · intro i; rw [FL_UNLOCK_files, FL_LOCK_files]
    | some f =>
      have ho := _open_file_busy env (FL_LOCK st) path checkfile lf lo g f hpL hg hfree
        (by rw [FL_LOCK_files]; exact h1) (by rw [FL_LOCK_files]; exact h2)
      rw [fl_ifopen_r_none env st path checkfile hi hv (by rw [ho]), ho]
      obtain ⟨-, p2, p3, -, -, -, -⟩ :=
        open_named_fields env (_allocate_file (FL_LOCK st)).1 f path
      obtain ⟨-, -, -, a4, a5, -, -⟩ := _allocate_file_fields (FL_LOCK st) f hfree
      obtain ⟨f1, f2, -, -, -⟩ :=
        _free_file_frame env (open_named env (_allocate_file (FL_LOCK st)).1 f path) f
      obtain ⟨r1, r2, r3, r4, -⟩ := _free_file_after_alloc env (FL_LOCK st)
        (open_named env (_allocate_file (FL_LOCK st)).1 f path) f path hfree
        (PoolInv_pos _ _ _ _ f hpL hfree) (SamePool.refl _)
      refine ⟨rfl, locks_UNLOCK _ _ ?_, ?_, ?_, ?_, ?_, ?_⟩
      · rw [f2, p2, a4]; exact hlk
      · rw [FL_UNLOCK_fs, f1, p3, a5, FL_LOCK_fs]
      · rw [FL_UNLOCK_init, r1, FL_LOCK_init]
      · rw [FL_UNLOCK_open, r2, FL_LOCK_open]
      · rw [FL_UNLOCK_free, r3, FL_LOCK_free]
      · intro i; rw [FL_UNLOCK_files, r4, FL_LOCK_files]
theorem locks_trans (t0 t1 t2 : List Event)
    (h1 : ∃ evs, t1 = t0 ++ evs ∧ ∀ e, e ∈ evs → e = Event.lock ∨ e = Event.unlock)
    (h2 : ∃ evs, t2 = t1 ++ evs ∧ ∀ e, e ∈ evs → e = Event.lock ∨ e = Event.unlock) :
    ∃ evs, t2 = t0 ++ evs ∧ ∀ e, e ∈ evs → e = Event.lock ∨ e = Event.unlock := by
  obtain ⟨e1, a1, a2⟩ := h1
  obtain ⟨e2, b1, b2⟩ := h2
  refine ⟨e1 ++ e2, by rw [b1, a1, List.append_assoc], ?_⟩
  intro e he
  rcases List.mem_append.mp he with h | h
  · exact a2 e h
  · exact b2 e h
/-! ## The permission checks of `fl_fread` and `fl_fwrite` -/

/-- C13: on a handle whose flags lack WRITE, `fl_fwrite` returns -1 for every
data, size and count, and the record of the handle is as before (cursor,
length, buffered sector, dirty, `filelength_changed` and every other field
but the list link that the first-call initialisation sets); when the library
is already initialised only the lock and unlock callbacks are run. -/
theorem fl_fwrite_without_write (env : Env D) (st : Lib D) (data : Bytes) (size count : Int)
    (file : Nat) (h : (st._files file).flags &&& FILE_WRITE = 0) :
    (fl_fwrite env st data size count (some file)).2 = -1 ∧
    (∃ n, (fl_fwrite env st data size count (some file)).1._files file =
      { st._files file with next := n }) ∧
    (st._filelib_init ≠ 0 →
      (fl_fwrite env st data size count (some file)).1 = FL_UNLOCK (FL_LOCK st)) := by
  rw [fl_fwrite_of_no_write env st data size count file h]
  refine ⟨rfl, ?_, ?_⟩
  · simpa using CHECK_FL_INIT_files env st file
  · intro hi
    rw [CHECK_FL_INIT_of_init env st hi]

/-- C13 at a concrete handle: the file `a` opened with mode "r" (handle 1,
flags READ only); a write of 1 * 5 bytes returns -1 and leaves the library
state as it was. -/
theorem fl_fwrite_without_write_witness :
    ((Vol.opened (Vol.with_file 4 10 1) "r").1._files 1).flags &&& FILE_WRITE = 0 ∧
    (fl_fwrite Vol.env (Vol.opened (Vol.with_file 4 10 1) "r").1 (fun _ => 65) 1 5
      (some 1)).2 = -1 ∧
    (fl_fwrite Vol.env (Vol.opened (Vol.with_file 4 10 1) "r").1 (fun _ => 65) 1 5
      (some 1)).1._files 1 = (Vol.opened (Vol.with_file 4 10 1) "r").1._files 1 := by
  obtain ⟨h1, -, h3⟩ := fl_fwrite_without_write Vol.env
    (Vol.opened (Vol.with_file 4 10 1) "r").1 (fun _ => 65) 1 5 1 (by decide)
  refine ⟨by decide, h1, ?_⟩
  rw [h3 (by decide)]
  rfl

/-- C11, as the code has it: with a buffer and a handle, `fl_fread` returns -1 and
leaves the caller's buffer and the record of the handle as they were (every
field but the list link that the first-call initialisation sets; the whole
library state when it is already initialised) whenever the handle lacks
READ, or the request `size * count` (as an `int`) is not zero and the cursor
is at or past the file length. -/
theorem fl_fread_rejects (env : Env D) (st : Lib D) (buf : Bytes) (size length : Int)
    (file : Nat)
    (h : (st._files file).flags &&& FILE_READ = 0 ∨
      (to_int (size * length) ≠ 0 ∧ (st._files file).filelength ≤ (st._files file).bytenum)) :
    (fl_fread env st (some buf) size length (some file)).2.2 = -1 ∧
    (fl_fread env st (some buf) size length (some file)).2.1 = some buf ∧
    (∃ n, (fl_fread env st (some buf) size length (some file)).1._files file =
      { st._files file with next := n }) ∧
    (st._filelib_init ≠ 0 → (fl_fread env st (some buf) size length (some file)).1 = st) := by
  obtain ⟨e1, e2, -, e4⟩ := pos_fields _ _ (CHECK_FL_INIT_pos env st file)
  have key : fl_fread env st (some buf) size length (some file) =
      (CHECK_FL_INIT env st, some buf, -1) := by
    unfold fl_fread
    simp only [e1, e2, e4]
    rcases h with h | ⟨h1, h2⟩
    · rw [if_pos h]
    · split_ifs <;> rfl
  rw [key]
  refine ⟨rfl, rfl, CHECK_FL_INIT_files env st file, ?_⟩
  intro hi
  exact CHECK_FL_INIT_of_init env st hi

/-- C11 at a concrete handle: the file `a` of 10 bytes opened with
mode "r" and the cursor moved to the end; a read of 1 * 5 bytes returns -1
and leaves the library state as it was. -/
theorem fl_fread_rejects_witness :
    (fl_fread Vol.env
      (fl_fseek Vol.env (Vol.opened (Vol.with_file 4 10 1) "r").1 (some 1) 0 SEEK_END).1
      (some (fun _ => 0)) 1 5 (some 1)).2.2 = -1 ∧
    (fl_fread Vol.env
      (fl_fseek Vol.env (Vol.opened (Vol.with_file 4 10 1) "r").1 (some 1) 0 SEEK_END).1
      (some (fun _ => 0)) 1 5 (some 1)).1 =
      (fl_fseek Vol.env (Vol.opened (Vol.with_file 4 10 1) "r").1 (some 1) 0 SEEK_END).1 := by
  obtain ⟨h1, -, -, h4⟩ := fl_fread_rejects Vol.env
    (fl_fseek Vol.env (Vol.opened (Vol.with_file 4 10 1) "r").1 (some 1) 0 SEEK_END).1
    (fun _ => 0) 1 5 1 (Or.inr (by decide))
  exact ⟨h1, h4 (by decide)⟩

/-- C11 fails as stated when the request is empty: the file `a` of 10 bytes opened with
mode "r" (handle 1, READ set) and the cursor moved to the end, so that the
cursor equals the length; `fl_fread (buf, 1, 0, f)` returns 0, not -1. -/
theorem fl_fread_empty_request_at_end :
    ((fl_fseek Vol.env (Vol.opened (Vol.with_file 4 10 1) "r").1 (some 1) 0
      SEEK_END).1._files 1).flags &&& FILE_READ ≠ 0 ∧
    ((fl_fseek Vol.env (Vol.opened (Vol.with_file 4 10 1) "r").1 (some 1) 0
      SEEK_END).1._files 1).bytenum = 10 ∧
    ((fl_fseek Vol.env (Vol.opened (Vol.with_file 4 10 1) "r").1 (some 1) 0
      SEEK_END).1._files 1).filelength = 10 ∧
    (fl_fread Vol.env
      (fl_fseek Vol.env (Vol.opened (Vol.with_file 4 10 1) "r").1 (some 1) 0 SEEK_END).1
      (some (fun _ => 0)) 1 0 (some 1)).2.2 = 0 := by
  decide

/-! ## The flags of `fl_ifopen` -/

/-- C14: when no `write_sector` callback is attached, the flags `fl_ifopen`
tests have CREATE clear for every mode string, so the guard of its call of
`_create_file` is false and `fl_ifopen` is the function below, in which only
the READ-guarded `_open_file` remains; every handle it returns has WRITE,
APPEND and CREATE clear, and `fl_fwrite` on such a handle returns -1 for
every data, size and count. -/
theorem fl_ifopen_no_write_sector (env : Env D) (st : Lib D) (path mode : String)
    (checkfile : Int) (hw : st._fs.disk_io_write_sector = false) :
    (parse_mode mode &&& (255 ^^^ (FILE_CREATE ||| FILE_WRITE ||| FILE_APPEND))) &&&
      FILE_CREATE = 0 ∧
    fl_ifopen env st (some path) (some mode) checkfile =
      (if (CHECK_FL_INIT env st)._filelib_valid = 0 then (CHECK_FL_INIT env st, none) else
        let flags := parse_mode mode &&& (255 ^^^ (FILE_CREATE ||| FILE_WRITE ||| FILE_APPEND))
        let r : Lib D × Option Nat :=
          if flags &&& FILE_READ ≠ 0 then
            _open_file env (FL_LOCK (CHECK_FL_INIT env st)) path checkfile
          else (FL_LOCK (CHECK_FL_INIT env st), none)
        (FL_UNLOCK
          (match r.2 with
          | some file => r.1.setFile file { r.1._files file with flags := flags }
          | none => r.1), r.2)) ∧
    ∀ file, (fl_ifopen env st (some path) (some mode) checkfile).2 = some file →
      ((fl_ifopen env st (some path) (some mode) checkfile).1._files file).flags &&&
        FILE_WRITE = 0 ∧
      ((fl_ifopen env st (some path) (some mode) checkfile).1._files file).flags &&&
        FILE_APPEND = 0 ∧
      ((fl_ifopen env st (some path) (some mode) checkfile).1._files file).flags &&&
        FILE_CREATE = 0 ∧
      ∀ data size count,
        (fl_fwrite env (fl_ifopen env st (some path) (some mode) checkfile).1 data size count
          (some file)).2 = -1 := by
  have hm : ∀ k, (255 ^^^ (FILE_CREATE ||| FILE_WRITE ||| FILE_APPEND)) &&& k = 0 →
      (parse_mode mode &&& (255 ^^^ (FILE_CREATE ||| FILE_WRITE ||| FILE_APPEND))) &&& k = 0 := by
    intro k hk
    rw [Nat.land_assoc, hk]; simp
  have hc := hm FILE_CREATE (by decide)
  refine ⟨hc, ?_, ?_⟩
  · unfold fl_ifopen
    have hn : (parse_mode mode &&& (255 ^^^ (FILE_CREATE ||| FILE_WRITE ||| FILE_APPEND)) &&&
        FILE_CREATE ≠ 0) = False := by
      rw [hc]; simp
    simp only [CHECK_FL_INIT_fs, hw, if_true, hn, and_false, false_and, if_false]
  · intro file hf
    have hfl := fl_ifopen_handle_flags env st path mode checkfile file hf
    rw [if_pos hw] at hfl
    have h2 := hm FILE_WRITE (by decide)
    rw [hfl]
    refine ⟨h2, hm FILE_APPEND (by decide), hc, ?_⟩
    intro data size count
    rw [fl_fwrite_of_no_write env _ data size count file (by rw [hfl]; exact h2)]

/-- C14 at a concrete state: the volume mounted without `write_sector`;
`fl_ifopen ("/a", "r+", 1)` returns handle 1 with flags READ only, and a write
of 1 * 5 bytes through it returns -1. -/
theorem fl_ifopen_no_write_sector_witness :
    (fl_ifopen Vol.env (fl_attach_media Vol.env (Vol.boot (Vol.with_file 4 10 1)) false).1
      (some "/a") (some "r+") 1).2 = some 1 ∧
    ((fl_ifopen Vol.env (fl_attach_media Vol.env (Vol.boot (Vol.with_file 4 10 1)) false).1
      (some "/a") (some "r+") 1).1._files 1).flags &&& FILE_WRITE = 0 ∧
    (fl_fwrite Vol.env
      (fl_ifopen Vol.env (fl_attach_media Vol.env (Vol.boot (Vol.with_file 4 10 1)) false).1
        (some "/a") (some "r+") 1).1 (fun _ => 65) 1 5 (some 1)).2 = -1 := by
  obtain ⟨-, -, h⟩ := fl_ifopen_no_write_sector Vol.env
    (fl_attach_media Vol.env (Vol.boot (Vol.with_file 4 10 1)) false).1 "/a" "r+" 1
    (by decide)
  obtain ⟨h1, -, -, h4⟩ := h 1 (by decide)
  exact ⟨by decide, h1, h4 _ 1 5⟩

/-- C15: with `write_sector` attached, the flags of a handle `fl_ifopen`
returns are those computed from the mode string; "r" gives READ, "w" gives
WRITE|ERASE|CREATE, "a" gives WRITE|APPEND|CREATE, and a `b` put anywhere in
the string (before its terminator) adds BINARY to the result and nothing
else. -/
theorem fl_ifopen_mode_flags (env : Env D) (st : Lib D) (path mode : String)
    (checkfile : Int) (file : Nat) (hw : st._fs.disk_io_write_sector = true)
    (h : (fl_ifopen env st (some path) (some mode) checkfile).2 = some file) :
    ((fl_ifopen env st (some path) (some mode) checkfile).1._files file).flags =
      parse_mode mode ∧
    parse_mode "r" = FILE_READ ∧
    parse_mode "w" = FILE_WRITE ||| FILE_ERASE ||| FILE_CREATE ∧
    parse_mode "a" = FILE_WRITE ||| FILE_APPEND ||| FILE_CREATE ∧
    ∀ pre suf : List Char, (∀ c ∈ pre, c ≠ Char.ofNat 0) →
      parse_mode (String.mk (pre ++ 'b' :: suf)) =
        parse_mode (String.mk (pre ++ suf)) ||| FILE_BINARY := by
  refine ⟨?_, by decide, by decide, by decide, parse_mode_insert_b⟩
  rw [fl_ifopen_handle_flags env st path mode checkfile file h, if_neg (by simp [hw])]

/-- C15 at a concrete handle: on the volume mounted with `write_sector`,
`fl_ifopen ("/a", "rb", 1)` returns handle 1 with flags READ|BINARY. -/
theorem fl_ifopen_mode_flags_witness :
    ((fl_ifopen Vol.env (Vol.mounted (Vol.with_file 4 10 1)) (some "/a") (some "rb")
      1).1._files 1).flags = FILE_READ ||| FILE_BINARY := by
  exact (fl_ifopen_mode_flags Vol.env (Vol.mounted (Vol.with_file 4 10 1)) "/a" "rb" 1 1
    (by decide) (by decide)).1.trans (by decide)

/-- C16 fails on the code for "a+": "r+" gives READ|WRITE and "w+" gives
READ|WRITE|ERASE|CREATE, but "a+" gives READ|WRITE|APPEND|ERASE|CREATE: `a`
has set WRITE, so at `+` the branch for WRITE is taken and sets ERASE, and
the branch for APPEND is never reached.  A handle opened with "a+" on the
mounted volume carries the ERASE flag. -/
theorem fl_ifopen_a_plus_sets_erase :
    parse_mode "r+" = FILE_READ ||| FILE_WRITE ∧
    parse_mode "w+" = FILE_READ ||| FILE_WRITE ||| FILE_ERASE ||| FILE_CREATE ∧
    parse_mode "a+" = FILE_READ ||| FILE_WRITE ||| FILE_APPEND ||| FILE_ERASE ||| FILE_CREATE ∧
    parse_mode "a+" ≠ FILE_READ ||| FILE_WRITE ||| FILE_APPEND ||| FILE_CREATE ∧
    (Vol.opened (Vol.with_file 4 10 1) "a+").2 = some 1 ∧
    ((Vol.opened (Vol.with_file 4 10 1) "a+").1._files 1).flags &&& FILE_ERASE ≠ 0 := by
  decide
/-! ## `fl_fread`: a load that fails -/

/-- A load that fails in `fl_fread` when `c + n` does not wrap: on a call of
`fl_fread` that passes the initial checks (READ set, request `n = size *
count > 0`, cursor `c < L`), with `n` an `int` and `c + n` within `unsigned
long`, if the loads of the first
`j` passes of the loop succeed, the load of pass `j` fails, and that pass is
needed (the first `j` passes copy fewer than `min n (L - c)` bytes), then
`fl_fread` returns the number of bytes the first `j` passes copied (0 when
`j = 0`, else `512 * j - c % 512`), the cursor has advanced by that amount,
and the address of the buffered sector is that of the last sector loaded:
sector `c / 512 + j - 1`, or the address before the call when `j = 0`. -/
theorem fl_fread_load_fails (env : Env D) (st : Lib D) (buf : Bytes) (size length : Int)
    (file n j : Nat)
    (hr : (st._files file).flags &&& FILE_READ ≠ 0)
    (hc : (st._files file).bytenum < (st._files file).filelength)
    (hn : size * length = (n : Int)) (h0 : 0 < n) (hint : n < 2147483648)
    (hfit : (st._files file).bytenum + n < 2 ^ env.ULONG_BITS)
    (hj : (if j = 0 then 0 else 512 * j - (st._files file).bytenum % 512) <
      min n ((st._files file).filelength - (st._files file).bytenum))
    (hok : ∀ k, k < j →
      (fread_fetch env (fl_fread_pass env st buf size length file k).1 file
        ((st._files file).bytenum / 512 + k)).2 = true)
    (hfail : (fread_fetch env (fl_fread_pass env st buf size length file j).1 file
        ((st._files file).bytenum / 512 + j)).2 = false) :
    (fl_fread env st (some buf) size length (some file)).2.2 =
      ((if j = 0 then 0 else 512 * j - (st._files file).bytenum % 512 : Nat) : Int) ∧
    ((fl_fread env st (some buf) size length (some file)).1._files file).bytenum =
      (st._files file).bytenum +
        (if j = 0 then 0 else 512 * j - (st._files file).bytenum % 512) ∧
    ((fl_fread env st (some buf) size length (some file)).1._files file).file_data.address =
      (if j = 0 then (st._files file).file_data.address
        else (st._files file).bytenum / 512 + j - 1) := by
  obtain ⟨e1, -, -, -⟩ := pos_fields _ _ (CHECK_FL_INIT_pos env st file)
  have ea := CHECK_FL_INIT_proj (fun r => r.file_data.address) (fun _ _ => rfl) env st file
  simp only at ea
  have hpass := fun k => fl_fread_pass_eq env st buf size length file n k hc hn hint hfit
  have hmain := fl_fread_loop_fail env file
    (min n ((st._files file).filelength - (st._files file).bytenum)) j
    (min n ((st._files file).filelength - (st._files file).bytenum))
    (CHECK_FL_INIT env st) buf ((st._files file).bytenum / 512)
    ((st._files file).bytenum % 512) 0 (Nat.mod_lt _ (by norm_num))
    (by rw [Nat.zero_add]; exact hj)
    (by rw [e1]; omega) (by rw [e1]; omega) (by omega)
    (by
      intro k hk
      rw [← hpass k]
      exact hok k hk)
    (by rw [← hpass j]; exact hfail)
  rw [← hpass, Nat.zero_add, e1, ea] at hmain
  rw [fl_fread_eq env st buf size length file n hr hc hn h0 hint hfit]
  exact hmain

/-- The failing load at a concrete handle: the file `a` of 1000 bytes whose cluster chain
holds one sector only, opened for reading; in a read of 1 * 1000 bytes the
load of the second sector fails, and `fl_fread` returns 512 with the cursor
at 512 and the buffered sector 0. -/
theorem fl_fread_load_fails_witness :
    (fl_fread Vol.env (Vol.opened (Vol.with_file 4 1000 1) "r").1 (some (fun _ => 0)) 1 1000
      (some 1)).2.2 = 512 ∧
    ((fl_fread Vol.env (Vol.opened (Vol.with_file 4 1000 1) "r").1 (some (fun _ => 0)) 1 1000
      (some 1)).1._files 1).bytenum = 512 ∧
    ((fl_fread Vol.env (Vol.opened (Vol.with_file 4 1000 1) "r").1 (some (fun _ => 0)) 1 1000
      (some 1)).1._files 1).file_data.address = 0 := by
  obtain ⟨h1, h2, h3⟩ := fl_fread_load_fails Vol.env
    (Vol.opened (Vol.with_file 4 1000 1) "r").1 (fun _ => 0) 1 1000 1 1000 1
    (by decide) (by decide) (by decide) (by decide) (by decide) (by decide) (by decide)
    (by
      intro k hk
      obtain rfl : k = 0 := by omega
      decide)
    (by decide)
  exact ⟨h1.trans (by decide), h2.trans (by decide), h3.trans (by decide)⟩

/-! ## The handle pool: invariant and exhaustion -/

/-- C17: from the state `fl_init` builds (both list heads NULL before it),
after any sequence of `_allocate_file` calls and `_free_file` calls on records
that are in the open list at the time, the free list and the open list are
two NULL-terminated chains `lf` and `lo` without repetition (acyclic), every
record below `N = FATFS_MAX_OPEN_FILES` is in exactly one of them, they hold
no other record, and `|lf| + |lo| = N`. -/
theorem pool_invariant (env : Env D) (st0 st : Lib D) (ho : st0._open_file_list = none)
    (hf : st0._free_file_list = none) (hr : PoolReach env st0 st) :
    ∃ lf lo, IsList st st._free_file_list lf ∧ IsList st st._open_file_list lo ∧
      lf.Nodup ∧ lo.Nodup ∧
      (∀ i, i < env.FATFS_MAX_OPEN_FILES → (i ∈ lf ∧ i ∉ lo) ∨ (i ∉ lf ∧ i ∈ lo)) ∧
      (∀ i, i ∈ lf ∨ i ∈ lo → i < env.FATFS_MAX_OPEN_FILES) ∧
      lf.length + lo.length = env.FATFS_MAX_OPEN_FILES := by
  obtain ⟨lf, lo, h⟩ := PoolReach_inv env st0 st ho hf hr
  exact ⟨lf, lo, h.1, h.2.1, PoolInv_facts _ st lf lo h⟩

/-- C17 at a concrete pool of two records: after `fl_init`, two allocations
(records 1 and 0) and `_free_file` on record 1, which is then the last of the
open list, the lists are as the invariant says. -/
theorem pool_invariant_witness :
    ∃ lf lo,
      IsList
        (_free_file Vol.env
          (_allocate_file (_allocate_file (fl_init Vol.env (Vol.boot (Vol.empty 4 0)))).1).1 1)
        (_free_file Vol.env
          (_allocate_file (_allocate_file (fl_init Vol.env (Vol.boot (Vol.empty 4 0)))).1).1
          1)._free_file_list lf ∧
      IsList
        (_free_file Vol.env
          (_allocate_file (_allocate_file (fl_init Vol.env (Vol.boot (Vol.empty 4 0)))).1).1 1)
        (_free_file Vol.env
          (_allocate_file (_allocate_file (fl_init Vol.env (Vol.boot (Vol.empty 4 0)))).1).1
          1)._open_file_list lo ∧
      lf.Nodup ∧ lo.Nodup ∧ lf.length + lo.length = 2 := by
  obtain ⟨lf, lo, h1, h2, h3, h4, -, -, h7⟩ := pool_invariant Vol.env
    (Vol.boot (Vol.empty 4 0)) _ rfl rfl
    (PoolReach.free _ 1 [0, 1] (PoolReach.alloc _ (PoolReach.alloc _ PoolReach.init))
      (by decide) (by decide))
  exact ⟨lf, lo, h1, h2, h3, h4, h7⟩

/-- C18: from the pool `fl_init` builds (both list heads NULL before it),
each of the first `N = FATFS_MAX_OPEN_FILES` calls of `_allocate_file` returns
a record; the next call returns NULL and leaves the whole state, so both
lists, as it was; `fl_fopen` in that state returns NULL whatever its path and
mode, and so it does in every initialised state whose free list is empty,
leaving the records and both list heads as they were. -/
theorem pool_exhausted (env : Env D) (st0 : Lib D) (ho : st0._open_file_list = none)
    (hf : st0._free_file_list = none) :
    (∀ k, k < env.FATFS_MAX_OPEN_FILES →
      (_allocate_file
        (Nat.iterate (fun s => (_allocate_file s).1) k (fl_init env st0))).2 ≠ none) ∧
    _allocate_file
        (Nat.iterate (fun s => (_allocate_file s).1) env.FATFS_MAX_OPEN_FILES
          (fl_init env st0)) =
      (Nat.iterate (fun s => (_allocate_file s).1) env.FATFS_MAX_OPEN_FILES (fl_init env st0),
        none) ∧
    (∀ path mode,
      (fl_fopen env
        (Nat.iterate (fun s => (_allocate_file s).1) env.FATFS_MAX_OPEN_FILES
          (fl_init env st0)) path mode).2 = none) ∧
    ∀ (st : Lib D) path mode, st._filelib_init ≠ 0 → st._free_file_list = none →
      (fl_fopen env st path mode).2 = none ∧
      (fl_fopen env st path mode).1._files = st._files ∧
      (fl_fopen env st path mode).1._open_file_list = st._open_file_list ∧
      (fl_fopen env st path mode).1._free_file_list = none := by
  have hfull : (Nat.iterate (fun s => (_allocate_file s).1) env.FATFS_MAX_OPEN_FILES
      (fl_init env st0))._free_file_list = none := by
    obtain ⟨lf, lo, h, hl⟩ := allocate_iterate_pool env st0 ho hf _ (Nat.le_refl _)
    have hlen := (PoolInv_facts _ _ _ _ h).2.2.2.2
    have : lf = [] := List.eq_nil_of_length_eq_zero (by omega)
    subst this
    exact (IsList_nil _ _).mp h.1
  have hinit : ∀ k, (Nat.iterate (fun s => (_allocate_file s).1) k
      (fl_init env st0))._filelib_init ≠ 0 := by
    intro k
    induction k with
    | zero => simp [fl_init]
    | succ k ih =>
      rw [Function.iterate_succ_apply']
      unfold _allocate_file
      split
      · exact ih
      · exact ih
  refine ⟨?_, _allocate_file_none _ hfull, ?_, ?_⟩
  · intro k hk
    obtain ⟨lf, lo, h, hl⟩ := allocate_iterate_pool env st0 ho hf k (by omega)
    have hlen := (PoolInv_facts _ _ _ _ h).2.2.2.2
    cases lf with
    | nil => simp at hlen; omega
    | cons f lf =>
      rw [(_allocate_file_pool _ _ f lf lo h).1]
      simp
  · intro path mode
    exact (fl_ifopen_pool_full env _ path mode 1 (hinit _) hfull).1
  · intro st path mode hi hn
    exact fl_ifopen_pool_full env st path mode 1 hi hn

/-- C18 at a concrete pool of two records on a mounted volume holding the
file `a`: the third `_allocate_file` returns NULL, and with both records
allocated `fl_fopen ("/a", "r")` returns NULL. -/
theorem pool_exhausted_witness :
    (_allocate_file
      (_allocate_file (_allocate_file (fl_init Vol.env (Vol.boot (Vol.empty 4 0)))).1).1).2 =
      none ∧
    (fl_fopen Vol.env
      (_allocate_file (_allocate_file (Vol.mounted (Vol.with_file 4 10 1))).1).1
      (some "/a") (some "r")).2 = none := by
  obtain ⟨-, h2, -, h4⟩ := pool_exhausted Vol.env (Vol.boot (Vol.empty 4 0)) rfl rfl
  exact ⟨congrArg Prod.snd h2,
    (h4 (_allocate_file (_allocate_file (Vol.mounted (Vol.with_file 4 10 1))).1).1
      (some "/a") (some "r") (by decide) (by decide)).1⟩

/-! ## One handle per pathname -/

/-- C19: (1) in every state whose pool is well formed, `_open_file` and
`_create_file` return NULL for a path whose split compares equal
(`fatfs_compare_names`), in path and in filename, to the names of a record `g`
of the open list.  (2) From an initialised library with nothing open, after
any sequence of `fl_fopen` calls and `fl_fclose` calls on open handles, the
pool is well formed and no record of the open list compares equal, in path
and filename, to a record opened after it; so, when every name compares
equal to itself, no two records of the open list have the same (path,
filename) pair. -/
theorem open_list_unique_names (env : Env D) (st0 st : Lib D) (lf0 : List Nat)
    (hi : st0._filelib_init ≠ 0) (hp : PoolInv env.FATFS_MAX_OPEN_FILES st0 lf0 [])
    (hr : OpenReach env st0 st) :
    (∀ (s : Lib D) (lf lo : List Nat) (path : String) (checkfile : Int) (g : Nat),
      PoolInv env.FATFS_MAX_OPEN_FILES s lf lo → g ∈ lo →
      env.compare_names (s._files g).path (env.split_path path).2.1 = true →
      env.compare_names (s._files g).filename (env.split_path path).2.2 = true →
      (_open_file env s path checkfile).2 = none ∧ (_create_file env s path).2 = none) ∧
    ∃ lf lo, PoolInv env.FATFS_MAX_OPEN_FILES st lf lo ∧ UniqueNames env st lo ∧
      ((∀ a, env.compare_names a a = true) →
        ∀ g, g ∈ lo → ∀ h, h ∈ lo → g ≠ h →
          ¬ ((st._files g).path = (st._files h).path ∧
            (st._files g).filename = (st._files h).filename)) := by
  refine ⟨?_, ?_⟩
  · intro s lf lo path checkfile g h1 h2 h3 h4
    exact ⟨OpenOutcome_busy env s path _ lf lo g h1 h2 h3 h4
        (_open_file_outcome env s path checkfile),
      OpenOutcome_busy env s path _ lf lo g h1 h2 h3 h4 (_create_file_outcome env s path)⟩
  · obtain ⟨-, lf, lo, h1, h2⟩ := OpenReach_inv env st0 st lf0 hi hp hr
    exact ⟨lf, lo, h1, h2, fun hrefl => UniqueNames_distinct env st lo hrefl h2⟩

/-- C19 at a concrete run on the mounted volume holding the file `a`: after
`fl_fopen ("/a", "r")` (handle 1), `fl_fopen ("/b", "w")` (handle 0, the file
is created) and a second `fl_fopen ("/a", "r")`, the pool is well formed with
the open list of two records whose names differ; and in the state after the
first open, `_open_file` and `_create_file` on "/a" return NULL. -/
theorem open_list_unique_names_witness :
    ((_open_file Vol.env (Vol.opened (Vol.with_file 4 10 1) "r").1 "/a" 1).2 = none ∧
      (_create_file Vol.env (Vol.opened (Vol.with_file 4 10 1) "r").1 "/a").2 = none) ∧
    ∃ lf lo,
      PoolInv 2
        (fl_fopen Vol.env
          (fl_fopen Vol.env (Vol.opened (Vol.with_file 4 10 1) "r").1 (some "/b")
            (some "w")).1 (some "/a") (some "r")).1 lf lo ∧
      UniqueNames Vol.env
        (fl_fopen Vol.env
          (fl_fopen Vol.env (Vol.opened (Vol.with_file 4 10 1) "r").1 (some "/b")
            (some "w")).1 (some "/a") (some "r")).1 lo := by
  obtain ⟨h1, lf, lo, h2, h3, -⟩ := open_list_unique_names Vol.env
    (Vol.mounted (Vol.with_file 4 10 1))
    (fl_fopen Vol.env
      (fl_fopen Vol.env (Vol.opened (Vol.with_file 4 10 1) "r").1 (some "/b")
        (some "w")).1 (some "/a") (some "r")).1
    [1, 0] (by decide) (by decide)
    (OpenReach.fopen _ (some "/a") (some "r")
      (OpenReach.fopen _ (some "/b") (some "w")
        (OpenReach.fopen _ (some "/a") (some "r") OpenReach.start)))
  exact ⟨h1 (Vol.opened (Vol.with_file 4 10 1) "r").1 [0] [1] "/a" 1 1 (by decide) (by decide)
    (by decide) (by decide), lf, lo, h2, h3⟩

/-! ## `fl_remove` on an open file -/

/-- C20: in an initialised library whose pool is well formed, for a path
whose split compares equal, in path and in filename, to the names of a
record `g` of the open list, `fl_remove` returns -1; the only calls it adds
to the trace are those of the lock and unlock callbacks, so neither
`fatfs_free_cluster_chain` nor `fatfs_mark_file_deleted` is called and the
volume is as before; and both list heads and the link of every record are as
before, so the open list and the free list are unchanged. -/
theorem fl_remove_open_file (env : Env D) (st : Lib D) (path : String) (lf lo : List Nat)
    (g : Nat) (hi : st._filelib_init ≠ 0)
    (hp : PoolInv env.FATFS_MAX_OPEN_FILES st lf lo) (hg : g ∈ lo)
    (h1 : env.compare_names (st._files g).path (env.split_path path).2.1 = true)
    (h2 : env.compare_names (st._files g).filename (env.split_path path).2.2 = true) :
    (fl_remove env st (some path)).2 = -1 ∧
    (∃ evs, (fl_remove env st (some path)).1.trace = st.trace ++ evs ∧
      ∀ e, e ∈ evs → (e = Event.lock ∨ e = Event.unlock) ∧
        e.is_free_cluster_chain = false ∧ e.is_mark_file_deleted = false) ∧
    (fl_remove env st (some path)).1._fs = st._fs ∧
    (fl_remove env st (some path)).1._open_file_list = st._open_file_list ∧
    (fl_remove env st (some path)).1._free_file_list = st._free_file_list ∧
    (∀ i, ((fl_remove env st (some path)).1._files i).next = (st._files i).next) ∧
    PoolInv env.FATFS_MAX_OPEN_FILES (fl_remove env st (some path)).1 lf lo := by
  have hpL : PoolInv env.FATFS_MAX_OPEN_FILES (FL_LOCK st) lf lo :=
    PoolInv_of_SamePool _ _ _ _ _ (SamePool_LOCK st) hp
  obtain ⟨b1, b2, b3, -, b5, b6, b7⟩ := fl_ifopen_r_busy env (FL_LOCK st) path 0 lf lo g
    (by rw [FL_LOCK_init]; exact hi) hpL hg (by rw [FL_LOCK_files]; exact h1)
    (by rw [FL_LOCK_files]; exact h2)
  have he : fl_remove env st (some path) =
      (FL_UNLOCK (fl_ifopen env (FL_LOCK st) (some path) (some "r") 0).1, -1) := by
    unfold fl_remove
    simp only [b1]
  rw [he]
  have ho : (FL_UNLOCK (fl_ifopen env (FL_LOCK st) (some path) (some "r") 0).1)._open_file_list =
      st._open_file_list := by rw [FL_UNLOCK_open, b5, FL_LOCK_open]
  have hf : (FL_UNLOCK (fl_ifopen env (FL_LOCK st) (some path) (some "r") 0).1)._free_file_list =
      st._free_file_list := by rw [FL_UNLOCK_free, b6, FL_LOCK_free]
  have hn : ∀ i, ((FL_UNLOCK (fl_ifopen env (FL_LOCK st) (some path) (some "r")
      0).1)._files i).next = (st._files i).next := by
    intro i; rw [FL_UNLOCK_files, b7, FL_LOCK_files]
  refine ⟨rfl, ?_, ?_, ho, hf, hn, PoolInv_congr _ st _ lf lo ho hf hn hp⟩
  · obtain ⟨evs, t1, t2⟩ := locks_UNLOCK _ st.trace
      (locks_trans _ _ _ (locks_LOCK st st.trace (locks_refl _)) b2)
    refine ⟨evs, t1, ?_⟩
    intro e hmem
    rcases t2 e hmem with h | h
    · subst h; exact ⟨Or.inl rfl, rfl, rfl⟩
    · subst h; exact ⟨Or.inr rfl, rfl, rfl⟩
  · rw [FL_UNLOCK_fs, b3, FL_LOCK_fs]

/-- C20 at a concrete state: the file `a` is open (handle 1) on the mounted
volume; `fl_remove ("/a")` returns -1, the directory entry of `a` is still
there, and the open list still holds record 1 and the free list record 0. -/
theorem fl_remove_open_file_witness :
    (fl_remove Vol.env (Vol.opened (Vol.with_file 4 10 1) "r").1 (some "/a")).2 = -1 ∧
    (fl_remove Vol.env (Vol.opened (Vol.with_file 4 10 1) "r").1 (some "/a")).1._fs.vol.dir.length
      = 1 ∧
    PoolInv 2 (fl_remove Vol.env (Vol.opened (Vol.with_file 4 10 1) "r").1 (some "/a")).1
      [0] [1] := by
  obtain ⟨c1, -, c3, -, -, -, c7⟩ := fl_remove_open_file Vol.env
    (Vol.opened (Vol.with_file 4 10 1) "r").1 "/a" [0] [1] 1 (by decide) (by decide)
    (by decide) (by decide) (by decide)
  refine ⟨c1, ?_, c7⟩
  rw [c3]
  decide
/-! ## The lock events of the trace -/

theorem FL_LOCK_trace (st : Lib D) : (FL_LOCK st).trace = st.trace ++ lock_events st := by
  unfold FL_LOCK lock_events; split <;> simp

theorem FL_UNLOCK_trace (st : Lib D) : (FL_UNLOCK st).trace = st.trace ++ unlock_events st := by
  unfold FL_UNLOCK unlock_events; split <;> simp

/-! ## The cursor after `fl_fread` -/

theorem to_ulong_le (w : Nat) (a : Nat) : to_ulong w (a : Int) ≤ a := by
  unfold to_ulong
  have h : ((a : Int) % (2 : Int) ^ w) = ((a % 2 ^ w : Nat) : Int) := by
    push_cast; rfl
  rw [h, Int.toNat_ofNat]
  exact Nat.mod_le _ _

theorem to_int_le (x : Int) (h : 0 ≤ x) : to_int x ≤ x := by
  unfold to_int; omega

theorem fl_fread_loop_idle (env : Env D) (file : Nat) (count : Int) (fuel : Nat) (st : Lib D)
    (buf : Bytes) (sector offset : Nat) (b : Int) (h : ¬ b < count) :
    fl_fread_loop env file count fuel st buf sector offset b = (st, buf, b) := by
  cases fuel with
  | zero => rfl
  | succ n => rw [fl_fread_loop, if_neg h]

/-- The loop of `fl_fread`, however its loads turn out: it returns `b + d`
for some `d` with `b + d ≤ m`, the cursor has advanced by at most `d` (by `d`
when it does not wrap), and nothing else of the position of any record has
changed. -/
theorem fl_fread_loop_adv (env : Env D) (file : Nat) (m : Nat) :
    ∀ (fuel : Nat) (st : Lib D) (buf : Bytes) (sector offset b : Nat),
      offset < 512 → b ≤ m →
      ∃ d, b + d ≤ m ∧
        (fl_fread_loop env file (m : Int) fuel st buf sector offset (b : Int)).2.2 =
          ((b + d : Nat) : Int) ∧
        ((fl_fread_loop env file (m : Int) fuel st buf sector offset (b : Int)).1._files
          file).bytenum ≤ (st._files file).bytenum + d ∧
        ((st._files file).bytenum + (m - b) < 2 ^ env.ULONG_BITS →
          ((fl_fread_loop env file (m : Int) fuel st buf sector offset (b : Int)).1._files
            file).bytenum = (st._files file).bytenum + d) ∧
        ((fl_fread_loop env file (m : Int) fuel st buf sector offset (b : Int)).1._files
          file).filelength = (st._files file).filelength ∧
        ((fl_fread_loop env file (m : Int) fuel st buf sector offset (b : Int)).1._files
          file).flags = (st._files file).flags ∧
        ∀ g, g ≠ file →
          ((fl_fread_loop env file (m : Int) fuel st buf sector offset (b : Int)).1._files
            g).pos = (st._files g).pos := by
  intro fuel
  induction fuel with
  | zero =>
    intro st buf sector offset b _ _
    exact ⟨0, by omega, rfl, by simp [fl_fread_loop], fun _ => rfl, rfl, rfl, fun _ _ => rfl⟩
  | succ n ih =>
    intro st buf sector offset b h1 h2
    by_cases hlt : b < m
    · by_cases hf : (fread_fetch env st file sector).2 = true
      · obtain ⟨c0, c1, c2, c3, c4⟩ := fwrite_copyCount_pos m b offset hlt h1
        rw [fl_fread_loop_succ env file m n st buf sector offset b hlt hf]
        obtain ⟨e1, e2, -, e4⟩ := pos_fields _ _ (fread_fetch_pos env st file sector file)
        have hcp := fread_copy_cast env (fread_fetch env st file sector).1 file buf offset b
          (fwrite_copyCount m b offset)
        have hb1 : ((fread_copy env (fread_fetch env st file sector).1 file buf offset (b : Int)
            (fwrite_copyCount m b offset : Nat)).1._files file).bytenum =
            to_ulong env.ULONG_BITS
              (((st._files file).bytenum + fwrite_copyCount m b offset : Nat) : Int) := by
          rw [hcp]; simp [e1]
        have hb2 : ((fread_copy env (fread_fetch env st file sector).1 file buf offset (b : Int)
            (fwrite_copyCount m b offset : Nat)).1._files file).filelength =
            (st._files file).filelength := by
          rw [hcp]; simp [e2]
        have hb3 : ((fread_copy env (fread_fetch env st file sector).1 file buf offset (b : Int)
            (fwrite_copyCount m b offset : Nat)).1._files file).flags =
            (st._files file).flags := by
          rw [hcp]; simp [e4]
        have hb4 : ∀ g, g ≠ file →
            ((fread_copy env (fread_fetch env st file sector).1 file buf offset (b : Int)
              (fwrite_copyCount m b offset : Nat)).1._files g).pos = (st._files g).pos := by
          intro g hg
          rw [hcp]
          simp only [setFile_files, if_neg hg]
          exact fread_fetch_pos env st file sector g
        obtain ⟨d, i1, i2, i3, i4, i5, i6, i7⟩ := ih
          (fread_copy env (fread_fetch env st file sector).1 file buf offset (b : Int)
            (fwrite_copyCount m b offset : Nat)).1
          (fread_copy env (fread_fetch env st file sector).1 file buf offset (b : Int)
            (fwrite_copyCount m b offset : Nat)).2
          ((sector + 1) % 2 ^ env.ULONG_BITS) 0 (b + fwrite_copyCount m b offset)
          (by omega) (by omega)
        have hle := to_ulong_le env.ULONG_BITS
          ((st._files file).bytenum + fwrite_copyCount m b offset)
        refine ⟨fwrite_copyCount m b offset + d, by omega, ?_, ?_, ?_, ?_, ?_, ?_⟩
        · rw [i2, Nat.add_assoc]
        · rw [hb1] at i3; omega
        · intro hw
          rw [hb1, to_ulong_natCast _ _ (by omega)] at i4
          rw [i4 (by omega)]; omega
        · rw [i5, hb2]
        · rw [i6, hb3]
        · intro g hg; rw [i7 g hg, hb4 g hg]
      · have hf' : (fread_fetch env st file sector).2 = false := by
          cases h : (fread_fetch env st file sector).2
          · rfl
          · exact absurd h hf
        rw [fl_fread_loop_break env file m n st buf sector offset b hlt hf']
        obtain ⟨e1, e2, -, e4⟩ := pos_fields _ _ (fread_fetch_pos env st file sector file)
        exact ⟨0, by omega, rfl, by simp [e1], fun _ => by simp [e1], e2, e4,
          fun g _ => fread_fetch_pos env st file sector g⟩
    · rw [fl_fread_loop_done env file m (n + 1) st buf sector offset b hlt]
      exact ⟨0, by omega, rfl, by simp, fun _ => rfl, rfl, rfl, fun _ _ => rfl⟩
/-! ## The cursor and the length of a record -/

/-- The handle `_open_file` returns has its cursor at 0. -/
theorem _open_file_cursor (env : Env D) (st : Lib D) (path : String) (checkfile : Int)
    (f : Nat) (h : (_open_file env st path checkfile).2 = some f) :
    ((_open_file env st path checkfile).1._files f).bytenum = 0 := by
  revert h
  unfold _open_file
  split
  · intro h; simp at h
  · split
    · intro h; simp at h
    · try simp only []
      split_ifs
      · intro h
        simp only [Option.some.injEq] at h
        subst h
        simp [fatfs_fat_purge, fatfs_cache_init]
      · intro h; simp at h

/-- The handle `_create_file` returns has its cursor and its length at 0. -/
theorem _create_file_cursor (env : Env D) (st : Lib D) (path : String)
    (f : Nat) (h : (_create_file env st path).2 = some f) :
    ((_create_file env st path).1._files f).bytenum = 0 ∧
    ((_create_file env st path).1._files f).filelength = 0 := by
  revert h
  unfold _create_file
  split_ifs
  · intro h; simp at h
  · split
    · intro h; simp at h
    · split
      · intro h; simp at h
      · try simp only []
        split_ifs
        · intro h; simp at h
        · intro h; simp at h
        · split
          · intro h; simp at h
          · try simp only []
            split_ifs
            · intro h; simp at h
            · intro h
              simp only [Option.some.injEq] at h
              subst h
              simp [fatfs_fat_purge, fatfs_cache_init]
theorem to_ulong_sub_le (w : Nat) (a : Nat) (x : Int) (h : to_ulong w x ≤ a) :
    to_ulong w ((a : Int) - x) ≤ a := by
  have hpos : (0 : Int) < (2 : Int) ^ w := by positivity
  have hx : x % (2 : Int) ^ w = ((to_ulong w x : Nat) : Int) := by
    unfold to_ulong
    rw [Int.toNat_of_nonneg (Int.emod_nonneg _ (ne_of_gt hpos))]
  have h1 : to_ulong w ((a : Int) - x) = to_ulong w (((a - to_ulong w x : Nat) : Int)) := by
    have hd := Int.emod_add_ediv x ((2 : Int) ^ w)
    have he : (a : Int) - x =
        ((a - to_ulong w x : Nat) : Int) + (2 : Int) ^ w * (-(x / (2 : Int) ^ w)) := by
      rw [Nat.cast_sub h, ← hx]; linarith
    show (((a : Int) - x) % (2 : Int) ^ w).toNat = _
    rw [he, Int.add_mul_emod_self_left]
    rfl
  rw [h1]
  exact (to_ulong_le w _).trans (Nat.sub_le _ _)

/-- The call `fl_fseek` keeps `bytenum ≤ filelength` in every record, for
every origin and offset. -/
theorem fl_fseek_cursor (env : Env D) (st : Lib D) (f : Option Nat) (offset origin : Int)
    (g : Nat) (hg : (st._files g).bytenum ≤ (st._files g).filelength) :
    ((fl_fseek env st f offset origin).1._files g).bytenum ≤
      ((fl_fseek env st f offset origin).1._files g).filelength := by
  obtain ⟨e1, e2, -, -⟩ := pos_fields _ _ (CHECK_FL_INIT_pos env st g)
  rw [← e1, ← e2] at hg
  revert hg
  unfold fl_fseek
  generalize CHECK_FL_INIT env st = s0
  intro hg
  cases f with
  | none => exact hg
  | some file =>
    simp only []
    have hLf := FL_LOCK_files s0
    revert hLf
    generalize FL_LOCK s0 = s1
    intro hLf
    by_cases hgf : g = file
    · subst hgf
      split_ifs <;>
        simp only [FL_UNLOCK_files, setFile_files, if_true, hLf, gt_iff_lt, not_lt] at * <;>
        first
        | exact hg
        | exact Nat.le_refl _
        | exact Nat.zero_le _
        | assumption
        | exact (to_ulong_sub_le _ _ _ (by assumption)).trans hg
    · split_ifs <;>
        simp only [FL_UNLOCK_files, setFile_files, if_neg hgf, hLf] <;> exact hg
theorem fl_fwrite_loop_other (env : Env D) (file : Nat) (data : Bytes) (length : Nat) (g : Nat)
    (hg : g ≠ file) :
    ∀ (fuel : Nat) (st : Lib D) (sector offset bw : Nat),
      ((fl_fwrite_loop env file data length fuel st sector offset bw)._files g).pos =
        (st._files g).pos := by
  intro fuel
  induction fuel with
  | zero => intro st sector offset bw; rfl
  | succ n ih =>
    intro st sector offset bw
    by_cases hlt : bw < length
    · rw [fl_fwrite_loop_succ _ _ _ _ _ _ _ _ _ hlt, ih]
      unfold fwrite_copy
      simp only [setFile_files, if_neg hg]
      exact fwrite_fetch_pos env st file sector _ g
    · rw [fl_fwrite_loop_done _ _ _ _ _ _ _ _ _ hlt]

theorem grow_length_cursor (s : Lib D) (file g : Nat)
    (h : g = file ∨ (s._files g).bytenum ≤ (s._files g).filelength) :
    ((if (s._files file).bytenum > (s._files file).filelength then
        s.setFile file { s._files file with
          filelength := (s._files file).bytenum
          filelength_changed := 1 }
      else s)._files g).bytenum ≤
    ((if (s._files file).bytenum > (s._files file).filelength then
        s.setFile file { s._files file with
          filelength := (s._files file).bytenum
          filelength_changed := 1 }
      else s)._files g).filelength := by
  by_cases hgf : g = file
  · subst hgf
    split_ifs <;> (try simp only [setFile_files, if_true]) <;> omega
  · have h2 := h.resolve_left hgf
    split_ifs <;> (try simp only [setFile_files, if_neg hgf]) <;> exact h2

/-- The call `fl_fwrite` keeps `bytenum ≤ filelength` in every record. -/
theorem fl_fwrite_cursor (env : Env D) (st : Lib D) (data : Bytes) (size count : Int)
    (f : Option Nat) (g : Nat) (hg : (st._files g).bytenum ≤ (st._files g).filelength) :
    ((fl_fwrite env st data size count f).1._files g).bytenum ≤
      ((fl_fwrite env st data size count f).1._files g).filelength := by
  obtain ⟨e1, e2, -, -⟩ := pos_fields _ _ (CHECK_FL_INIT_pos env st g)
  rw [← e1, ← e2] at hg
  revert hg
  unfold fl_fwrite
  generalize CHECK_FL_INIT env st = s0
  intro hg
  cases f with
  | none => exact hg
  | some file =>
    simp only []
    have hLf := FL_LOCK_files s0
    revert hLf
    generalize FL_LOCK s0 = s1
    intro hLf
    rw [← hLf] at hg
    by_cases hw : (s1._files file).flags &&& FILE_WRITE = 0
    · rw [if_pos hw]
      simp only [FL_UNLOCK_files]
      exact hg
    · rw [if_neg hw]
      simp only [FL_UNLOCK_files]
      apply grow_length_cursor
      by_cases hgf : g = file
      · exact Or.inl hgf
      · refine Or.inr ?_
        obtain ⟨o1, o2, -, -⟩ := pos_fields _ _ (fl_fwrite_loop_other env file data
          (to_ulong env.ULONG_BITS (to_int (size * count))) g hgf
          (to_ulong env.ULONG_BITS (to_int (size * count)))
          (if (s1._files file).flags &&& FILE_APPEND ≠ 0 then
            s1.setFile file { s1._files file with bytenum := (s1._files file).filelength }
          else s1)
          (((if (s1._files file).flags &&& FILE_APPEND ≠ 0 then
            s1.setFile file { s1._files file with bytenum := (s1._files file).filelength }
          else s1)._files file).bytenum / FAT_SECTOR_SIZE)
          (((if (s1._files file).flags &&& FILE_APPEND ≠ 0 then
            s1.setFile file { s1._files file with bytenum := (s1._files file).filelength }
          else s1)._files file).bytenum % FAT_SECTOR_SIZE) 0)
        have hst : ((if (s1._files file).flags &&& FILE_APPEND ≠ 0 then
            s1.setFile file { s1._files file with bytenum := (s1._files file).filelength }
          else s1)._files g) = s1._files g := by
          split_ifs <;> simp [hgf]
        rw [hst] at o1 o2
        rw [o1, o2]
        exact hg
theorem to_ulong_cast_mod (w a : Nat) : to_ulong w (a : Int) = a % 2 ^ w := by
  unfold to_ulong
  have h : ((a : Int) % (2 : Int) ^ w) = ((a % 2 ^ w : Nat) : Int) := by
    push_cast; rfl
  rw [h, Int.toNat_ofNat]

/-- The count `fl_fread_sector` copies never takes the cursor past the
length. -/
theorem fread_sector_count (w c L : Nat) (hw : 32 ≤ w) (hc : c < L) (count : Int)
    (h : count = if to_ulong w ((c : Int) + 512) > L then to_int ((L - c : Nat) : Int)
      else 512) :
    to_ulong w ((c : Int) + (if (512 : Int) > count - 0 then count - 0 else 512)) ≤ L := by
  have hM : 1024 ≤ 2 ^ w := by
    calc 1024 ≤ 2 ^ 32 := by norm_num
      _ ≤ 2 ^ w := Nat.pow_le_pow_right (by norm_num) hw
  have h512 : to_ulong w ((c : Int) + 512) = (c + 512) % 2 ^ w := by
    rw [← to_ulong_cast_mod]; push_cast; rfl
  rw [h512] at h
  by_cases hgt : (c + 512) % 2 ^ w > L
  · rw [if_pos hgt] at h
    have hlt : c + 512 < 2 ^ w := by
      by_contra hge
      have h1 : (c + 512) % 2 ^ w = (c + 512 - 2 ^ w) % 2 ^ w :=
        Nat.mod_eq_sub_mod (by omega)
      have h2 := Nat.mod_le (c + 512 - 2 ^ w) (2 ^ w)
      have h3 := Nat.mod_lt (c + 512) (show 2 ^ w > 0 by omega)
      omega
    rw [Nat.mod_eq_of_lt hlt] at hgt
    have hi : to_int ((L - c : Nat) : Int) = ((L - c : Nat) : Int) :=
      to_int_of_range _ (by omega) (by omega)
    rw [hi] at h
    subst h
    rw [if_pos (by omega)]
    have : ((c : Int) + (((L - c : Nat) : Int) - 0)) = ((L : Nat) : Int) := by omega
    rw [this]
    exact to_ulong_le w L
  · rw [if_neg hgt] at h
    subst h
    rw [if_neg (by omega), h512]
    omega

/-- The call `fl_fread_sector` keeps `bytenum ≤ filelength` in every record
(`unsigned long` has at least 32 bits). -/
theorem fl_fread_sector_cursor (env : Env D) (st : Lib D) (buffer : Option Bytes)
    (size length : Int) (f : Option Nat) (g : Nat) (hbits : 32 ≤ env.ULONG_BITS)
    (hg : (st._files g).bytenum ≤ (st._files g).filelength) :
    ((fl_fread_sector env st buffer size length f).1._files g).bytenum ≤
      ((fl_fread_sector env st buffer size length f).1._files g).filelength := by
  obtain ⟨e1, e2, -, -⟩ := pos_fields _ _ (CHECK_FL_INIT_pos env st g)
  rw [← e1, ← e2] at hg
  revert hg
  unfold fl_fread_sector
  generalize CHECK_FL_INIT env st = s0
  intro hg
  cases buffer with
  | none => exact hg
  | some buf =>
    cases f with
    | none => exact hg
    | some file =>
      simp only []
      by_cases h1 : to_int (size * length) ≠ (FAT_SECTOR_SIZE : Int)
      · rw [if_pos h1]; exact hg
      rw [if_neg h1]
      by_cases h2 : (s0._files file).flags &&& FILE_READ = 0
      · rw [if_pos h2]; exact hg
      rw [if_neg h2]
      by_cases h3 : (s0._files file).bytenum ≥ (s0._files file).filelength
      · rw [if_pos h3]; exact hg
      rw [if_neg h3]
      by_cases h4 : (s0._files file).bytenum % FAT_SECTOR_SIZE ≠ 0
      · rw [if_pos h4]; exact hg
      rw [if_neg h4]
      obtain ⟨p1, p2, -, -⟩ := pos_fields _ _ (_read_sector_pos env s0 file
        ((s0._files file).bytenum / FAT_SECTOR_SIZE) buf g)
      by_cases h5 : (_read_sector env s0 file ((s0._files file).bytenum / FAT_SECTOR_SIZE)
          buf).2.1 = true
      · rw [if_pos h5]
        by_cases hgf : g = file
        · subst hgf
          simp only [setFile_files, if_true]
          rw [p1, p2]
          have hcnt : to_int (size * length) = 512 := by
            simpa [FAT_SECTOR_SIZE] using h1
          rw [hcnt]
          simp only [FAT_SECTOR_SIZE, Nat.cast_ofNat]
          exact fread_sector_count _ _ _ hbits (by omega) _ rfl
        · simp only [setFile_files, if_neg hgf]
          rw [p1, p2]; exact hg
      · rw [if_neg h5]
        simp only []
        rw [p1, p2]; exact hg
/-- The call `fl_fclose` keeps `bytenum ≤ filelength` in every record. -/
theorem fl_fclose_cursor (env : Env D) (st : Lib D) (f : Option Nat) (g : Nat)
    (hg : (st._files g).bytenum ≤ (st._files g).filelength) :
    ((fl_fclose env st f)._files g).bytenum ≤ ((fl_fclose env st f)._files g).filelength := by
  obtain ⟨e1, e2, -, -⟩ := pos_fields _ _ (CHECK_FL_INIT_pos env st g)
  rw [← e1, ← e2] at hg
  revert hg
  unfold fl_fclose
  generalize CHECK_FL_INIT env st = s0
  intro hg
  cases f with
  | none => exact hg
  | some file =>
    simp only []
    obtain ⟨q1, q2, -, -⟩ := pos_fields _ _ (fl_fflush_pos env (FL_LOCK s0) (some file) g)
    rw [FL_LOCK_files] at q1 q2
    revert q1 q2
    generalize (fl_fflush env (FL_LOCK s0) (some file)).1 = s2
    intro q1 q2
    simp only [FL_UNLOCK_files, fatfs_fat_purge, step_files]
    generalize hX : (if (s2._files file).filelength_changed ≠ 0 then
        (fatfs_update_file_length env s2 (s2._files file).parentcluster
          (s2._files file).shortfilename (s2._files file).filelength).1.setFile file
          { (fatfs_update_file_length env s2 (s2._files file).parentcluster
              (s2._files file).shortfilename (s2._files file).filelength).1._files file with
            filelength_changed := 0 }
      else s2) = s3
    have h3 : (s3._files g).bytenum = (s2._files g).bytenum ∧
        (s3._files g).filelength = (s2._files g).filelength := by
      rw [← hX]
      split_ifs
      · simp only [setFile_files, fatfs_update_file_length, step_files]
        split_ifs with hgf
        · subst hgf; exact ⟨rfl, rfl⟩
        · exact ⟨rfl, rfl⟩
      · exact ⟨rfl, rfl⟩
    obtain ⟨n, hn⟩ := (_free_file_frame env (s3.setFile file { s3._files file with
      bytenum := 0
      filelength := 0
      startcluster := 0
      file_data := { (s3._files file).file_data with address := 0xFFFFFFFF, dirty := 0 }
      filelength_changed := 0 }) file).2.2.2.2 g
    rw [hn]
    simp only [setFile_files]
    split_ifs with hgf
    · exact Nat.le_refl _
    · show (s3._files g).bytenum ≤ (s3._files g).filelength
      rw [h3.1, h3.2, q1, q2]; exact hg
/-- The call `fl_fread` keeps `bytenum ≤ filelength` in every record, when
the cursor plus a positive request fits `unsigned long`. -/
theorem fl_fread_cursor (env : Env D) (st : Lib D) (buffer : Option Bytes)
    (size length : Int) (f : Option Nat) (g : Nat)
    (hfit : ∀ file, f = some file → 0 < to_int (size * length) →
      ((st._files file).bytenum : Int) + to_int (size * length) < (2 : Int) ^ env.ULONG_BITS)
    (hg : (st._files g).bytenum ≤ (st._files g).filelength) :
    ((fl_fread env st buffer size length f).1._files g).bytenum ≤
      ((fl_fread env st buffer size length f).1._files g).filelength := by
  obtain ⟨e1, e2, -, -⟩ := pos_fields _ _ (CHECK_FL_INIT_pos env st g)
  rw [← e1, ← e2] at hg
  have hfit' : ∀ file, f = some file → 0 < to_int (size * length) →
      (((CHECK_FL_INIT env st)._files file).bytenum : Int) + to_int (size * length) <
        (2 : Int) ^ env.ULONG_BITS := by
    intro file hf hp
    rw [(pos_fields _ _ (CHECK_FL_INIT_pos env st file)).1]
    exact hfit file hf hp
  revert hg hfit'
  unfold fl_fread
  generalize CHECK_FL_INIT env st = s0
  generalize to_int (size * length) = cnt
  intro hg hfit'
  cases buffer with
  | none => exact hg
  | some buf =>
    cases f with
    | none => exact hg
    | some file =>
      simp only []
      by_cases h1 : (s0._files file).flags &&& FILE_READ = 0
      · rw [if_pos h1]; exact hg
      rw [if_neg h1]
      by_cases h2 : cnt = 0
      · rw [if_pos h2]; exact hg
      rw [if_neg h2]
      by_cases h3 : (s0._files file).bytenum ≥ (s0._files file).filelength
      · rw [if_pos h3]; exact hg
      rw [if_neg h3]
      generalize hc : (if to_ulong env.ULONG_BITS (((s0._files file).bytenum : Int) + cnt) >
          (s0._files file).filelength then
          to_int (((s0._files file).filelength - (s0._files file).bytenum : Nat) : Int)
        else cnt) = c
      by_cases hpos : 0 < c
      · have hm : c = ((c.toNat : Nat) : Int) := (Int.toNat_of_nonneg (le_of_lt hpos)).symm
        have hle : (s0._files file).bytenum + c.toNat ≤ (s0._files file).filelength := by
          by_cases hcl : to_ulong env.ULONG_BITS (((s0._files file).bytenum : Int) + cnt) >
              (s0._files file).filelength
          · rw [if_pos hcl] at hc
            have := to_int_le (((s0._files file).filelength - (s0._files file).bytenum : Nat) : Int)
              (Int.natCast_nonneg _)
            omega
          · rw [if_neg hcl] at hc
            subst hc
            have hf := hfit' file rfl hpos
            rw [to_ulong_of_nonneg _ _ (by omega) hf] at hcl
            omega
        revert hm hle
        generalize c.toNat = m
        intro hm hle
        subst hm
        obtain ⟨d, d1, -, d3, -, d5, -, d7⟩ := fl_fread_loop_adv env file m m s0 buf
          ((s0._files file).bytenum / FAT_SECTOR_SIZE)
          ((s0._files file).bytenum % FAT_SECTOR_SIZE) 0
          (Nat.mod_lt _ (by decide)) (Nat.zero_le _)
        simp only [Nat.cast_zero] at d3 d5 d7
        by_cases hgf : g = file
        · subst hgf
          simp only []
          rw [d5]; omega
        · obtain ⟨o1, o2, -, -⟩ := pos_fields _ _ (d7 g hgf)
          simp only []
          rw [o1, o2]; exact hg
      · rw [fl_fread_loop_idle env file c _ s0 buf _ _ 0 hpos]
        exact hg
/-! ## Claims about `fl_feof`, `fl_fseek` and the cursor -/

/-- The loop of `fl_fread`, however its loads turn out: it returns `b + d`
for some `d` with `b + d ≤ m`, and the cursor has advanced by `d` in the
arithmetic of `unsigned long`; the length stays. -/
theorem fl_fread_loop_wrap (env : Env D) (file : Nat) (m : Nat) :
    ∀ (fuel : Nat) (st : Lib D) (buf : Bytes) (sector offset b : Nat),
      offset < 512 → b ≤ m →
      ∃ d, b + d ≤ m ∧
        (fl_fread_loop env file (m : Int) fuel st buf sector offset (b : Int)).2.2 =
          ((b + d : Nat) : Int) ∧
        (d = 0 →
          ((fl_fread_loop env file (m : Int) fuel st buf sector offset (b : Int)).1._files
            file).bytenum = (st._files file).bytenum) ∧
        (0 < d →
          ((fl_fread_loop env file (m : Int) fuel st buf sector offset (b : Int)).1._files
            file).bytenum = ((st._files file).bytenum + d) % 2 ^ env.ULONG_BITS) ∧
        ((fl_fread_loop env file (m : Int) fuel st buf sector offset (b : Int)).1._files
          file).filelength = (st._files file).filelength := by
  intro fuel
  induction fuel with
  | zero =>
    intro st buf sector offset b _ _
    exact ⟨0, by omega, rfl, fun _ => rfl, fun h => absurd h (by decide), rfl⟩
  | succ n ih =>
    intro st buf sector offset b h1 h2
    by_cases hlt : b < m
    · by_cases hf : (fread_fetch env st file sector).2 = true
      · obtain ⟨c0, c1, c2, c3, c4⟩ := fwrite_copyCount_pos m b offset hlt h1
        rw [fl_fread_loop_succ env file m n st buf sector offset b hlt hf]
        obtain ⟨e1, e2, -, e4⟩ := pos_fields _ _ (fread_fetch_pos env st file sector file)
        have hcp := fread_copy_cast env (fread_fetch env st file sector).1 file buf offset b
          (fwrite_copyCount m b offset)
        have hb1 : ((fread_copy env (fread_fetch env st file sector).1 file buf offset (b : Int)
            (fwrite_copyCount m b offset : Nat)).1._files file).bytenum =
            to_ulong env.ULONG_BITS
              (((st._files file).bytenum + fwrite_copyCount m b offset : Nat) : Int) := by
          rw [hcp]; simp [e1]
        have hb2 : ((fread_copy env (fread_fetch env st file sector).1 file buf offset (b : Int)
            (fwrite_copyCount m b offset : Nat)).1._files file).filelength =
            (st._files file).filelength := by
          rw [hcp]; simp [e2]
        obtain ⟨d, i1, i2, i3, i4, i5⟩ := ih
          (fread_copy env (fread_fetch env st file sector).1 file buf offset (b : Int)
            (fwrite_copyCount m b offset : Nat)).1
          (fread_copy env (fread_fetch env st file sector).1 file buf offset (b : Int)
            (fwrite_copyCount m b offset : Nat)).2
          ((sector + 1) % 2 ^ env.ULONG_BITS) 0 (b + fwrite_copyCount m b offset)
          (by omega) (by omega)
        rw [hb1, to_ulong_cast_mod] at i3 i4
        refine ⟨fwrite_copyCount m b offset + d, by omega, ?_, ?_, ?_, ?_⟩
        · rw [i2, Nat.add_assoc]
        · intro hz; omega
        · intro _
          rcases Nat.eq_zero_or_pos d with hd | hd
          · rw [i3 hd, hd, Nat.add_zero]
          · rw [i4 hd, Nat.mod_add_mod, Nat.add_assoc]
        · rw [i5, hb2]
      · have hf' : (fread_fetch env st file sector).2 = false := by
          cases h : (fread_fetch env st file sector).2
          · rfl
          · exact absurd h hf
        rw [fl_fread_loop_break env file m n st buf sector offset b hlt hf']
        obtain ⟨e1, e2, -, e4⟩ := pos_fields _ _ (fread_fetch_pos env st file sector file)
        exact ⟨0, by omega, rfl, fun _ => e1, fun h => absurd h (by decide), e2⟩
    · rw [fl_fread_loop_done env file m (n + 1) st buf sector offset b hlt]
      exact ⟨0, by omega, rfl, fun _ => rfl, fun h => absurd h (by decide), rfl⟩

/-- After an `fl_fread` that returns `L - c` bytes the cursor is at the
length. -/
theorem fl_fread_to_end (env : Env D) (st : Lib D) (buf : Bytes) (size length : Int)
    (file : Nat)
    (hc : (st._files file).bytenum ≤ (st._files file).filelength)
    (hL : (st._files file).filelength < 2 ^ env.ULONG_BITS)
    (hres : (fl_fread env st (some buf) size length (some file)).2.2 =
      (((st._files file).filelength - (st._files file).bytenum : Nat) : Int)) :
    ((fl_fread env st (some buf) size length (some file)).1._files file).bytenum =
      ((fl_fread env st (some buf) size length (some file)).1._files file).filelength := by
  obtain ⟨e1, e2, -, -⟩ := pos_fields _ _ (CHECK_FL_INIT_pos env st file)
  rw [← e1] at hc hres
  rw [← e2] at hc hL hres
  revert hc hL hres
  unfold fl_fread
  generalize CHECK_FL_INIT env st = s0
  generalize to_int (size * length) = cnt
  intro hc hL hres
  simp only [] at hres ⊢
  by_cases h1 : (s0._files file).flags &&& FILE_READ = 0
  · rw [if_pos h1] at hres
    simp only [] at hres
    omega
  rw [if_neg h1] at hres ⊢
  by_cases h2 : cnt = 0
  · rw [if_pos h2] at hres ⊢
    simp only [] at hres ⊢
    omega
  rw [if_neg h2] at hres ⊢
  by_cases h3 : (s0._files file).bytenum ≥ (s0._files file).filelength
  · rw [if_pos h3]
    exact Nat.le_antisymm hc h3
  rw [if_neg h3] at hres ⊢
  revert hres
  generalize (if to_ulong env.ULONG_BITS (((s0._files file).bytenum : Int) + cnt) >
      (s0._files file).filelength then
      to_int (((s0._files file).filelength - (s0._files file).bytenum : Nat) : Int)
    else cnt) = c
  intro hres
  by_cases hpos : 0 < c
  · have hm : c = ((c.toNat : Nat) : Int) := (Int.toNat_of_nonneg (le_of_lt hpos)).symm
    revert hm hres
    generalize c.toNat = m
    intro hres hm
    subst hm
    obtain ⟨d, -, d2, -, d4, d5⟩ := fl_fread_loop_wrap env file m m s0 buf
      ((s0._files file).bytenum / FAT_SECTOR_SIZE)
      ((s0._files file).bytenum % FAT_SECTOR_SIZE) 0
      (Nat.mod_lt _ (by decide)) (Nat.zero_le _)
    simp only [Nat.cast_zero] at d2 d4 d5
    simp only [] at hres ⊢
    rw [d2] at hres
    have hd : d = (s0._files file).filelength - (s0._files file).bytenum := by omega
    rw [d4 (by omega), d5, hd, Nat.add_sub_cancel' hc, Nat.mod_eq_of_lt hL]
  · rw [fl_fread_loop_idle env file c _ s0 buf _ _ 0 hpos] at hres
    simp only [] at hres
    omega

/-- C24: on a handle `fl_feof` returns EOF when the cursor equals the length
and 0 otherwise, in every state, and leaves the records as they were; and
after an `fl_fread` that returns `L - c` bytes, `fl_feof` returns EOF and an
`fl_fread` of one byte returns -1.  The cursor `c` is within the length `L`
before the read, and `L` is a value of `unsigned long`. -/
theorem fl_feof_at_end (env : Env D) (st : Lib D) (buf : Bytes) (size length : Int)
    (file : Nat)
    (hc : (st._files file).bytenum ≤ (st._files file).filelength)
    (hL : (st._files file).filelength < 2 ^ env.ULONG_BITS)
    (hres : (fl_fread env st (some buf) size length (some file)).2.2 =
      (((st._files file).filelength - (st._files file).bytenum : Nat) : Int)) :
    (∀ (s : Lib D) (g : Nat),
      (fl_feof s (some g)).2 =
        (if (s._files g).bytenum = (s._files g).filelength then EOF else 0) ∧
      (fl_feof s (some g)).1._files = s._files) ∧
    (fl_feof (fl_fread env st (some buf) size length (some file)).1 (some file)).2 = EOF ∧
    ∀ buf2, (fl_fread env (fl_fread env st (some buf) size length (some file)).1 (some buf2)
      1 1 (some file)).2.2 = -1 := by
  have hfe : ∀ (s : Lib D) (g : Nat),
      (fl_feof s (some g)).2 =
        (if (s._files g).bytenum = (s._files g).filelength then EOF else 0) ∧
      (fl_feof s (some g)).1._files = s._files := by
    intro s g
    unfold fl_feof FL_LOCK FL_UNLOCK
    constructor <;> (simp only []; split_ifs <;> rfl)
  have hb := fl_fread_to_end env st buf size length file hc hL hres
  refine ⟨hfe, ?_, ?_⟩
  · rw [(hfe _ _).1, if_pos hb]
  · intro buf2
    have hone : ¬ to_int (1 * 1) = 0 := by decide
    revert hb
    generalize (fl_fread env st (some buf) size length (some file)).1 = s1
    intro hb
    obtain ⟨c1, c2, -, c4⟩ := pos_fields _ _ (CHECK_FL_INIT_pos env s1 file)
    unfold fl_fread
    simp only [c1, c2, c4]
    by_cases hfl : (s1._files file).flags &&& FILE_READ = 0
    · rw [if_pos hfl]
    · rw [if_neg hfl, if_neg hone, if_pos (by omega)]

/-- C24 at a concrete volume: reading all 10 bytes of a file, then asking. -/
theorem fl_feof_at_end_witness :
    (fl_feof (fl_fread Vol.env (Vol.opened (Vol.with_file 4 10 1) "r").1 (some (fun _ => 0))
      1 10 (some 1)).1 (some 1)).2 = EOF ∧
    (fl_fread Vol.env (fl_fread Vol.env (Vol.opened (Vol.with_file 4 10 1) "r").1
      (some (fun _ => 0)) 1 10 (some 1)).1 (some (fun _ => 0)) 1 1 (some 1)).2.2 = -1 :=
  ⟨(fl_feof_at_end Vol.env (Vol.opened (Vol.with_file 4 10 1) "r").1 (fun _ => 0) 1 10 1
      (by decide) (by decide) (by decide)).2.1,
    (fl_feof_at_end Vol.env (Vol.opened (Vol.with_file 4 10 1) "r").1 (fun _ => 0) 1 10 1
      (by decide) (by decide) (by decide)).2.2 (fun _ => 0)⟩

/-- C25: an `fl_fseek` on a handle returns 0 exactly for `SEEK_SET`,
`SEEK_CUR`, and `SEEK_END` with offset 0, and then the buffered sector is
invalidated: its address is 0xFFFFFFFF and its dirty flag 0, whatever they
were; the call adds the host lock calls to the trace and nothing else, and
leaves the volume as it was. -/
theorem fl_fseek_invalidates (env : Env D) (st : Lib D) (file : Nat) (offset origin : Int)
    (h : (fl_fseek env st (some file) offset origin).2 = 0) :
    (origin = SEEK_SET ∨ origin = SEEK_CUR ∨ (origin = SEEK_END ∧ offset = 0)) ∧
    ((fl_fseek env st (some file) offset origin).1._files file).file_data.address =
      0xFFFFFFFF ∧
    ((fl_fseek env st (some file) offset origin).1._files file).file_data.dirty = 0 ∧
    (fl_fseek env st (some file) offset origin).1.trace =
      st.trace ++ lock_events st ++ unlock_events st ∧
    (fl_fseek env st (some file) offset origin).1._fs = st._fs := by
  have hfs := CHECK_FL_INIT_fs env st
  have htr := CHECK_FL_INIT_trace env st
  have hle : lock_events (CHECK_FL_INIT env st) = lock_events st := by
    unfold lock_events; rw [hfs]
  have hue : ∀ s : Lib D, s._fs = st._fs → unlock_events s = unlock_events st := by
    intro s hs; unfold unlock_events; rw [hs]
  revert h hfs htr hle
  unfold fl_fseek
  generalize CHECK_FL_INIT env st = s0
  intro h hfs htr hle
  simp only [] at h ⊢
  have hL := FL_LOCK_trace s0
  have hLf := FL_LOCK_fs s0
  revert h hL hLf
  generalize FL_LOCK s0 = s1
  intro h hL hLf
  have ho : origin = SEEK_SET ∨ origin = SEEK_CUR ∨ (origin = SEEK_END ∧ offset = 0) := by
    by_cases a1 : origin = SEEK_SET
    · exact Or.inl a1
    by_cases a2 : origin = SEEK_CUR
    · exact Or.inr (Or.inl a2)
    by_cases a3 : origin = SEEK_END ∧ offset ≠ 0
    · rw [if_pos a3] at h; simp at h
    by_cases a4 : origin = SEEK_END
    · exact Or.inr (Or.inr ⟨a4, by_contra fun hne => a3 ⟨a4, hne⟩⟩)
    · rw [if_neg a3, if_neg a1, if_neg a2, if_neg a4] at h; simp at h
  split_ifs at h ⊢ <;>
    first
    | (simp at h; done)
    | (refine ⟨ho, ?_, ?_, ?_, ?_⟩
       · simp [FL_UNLOCK_files, Lib.setFile]
       · simp [FL_UNLOCK_files, Lib.setFile]
       · rw [FL_UNLOCK_trace, hue _ (by simp [Lib.setFile, hLf, hfs])]
         simp [Lib.setFile, hL, htr, hle]
       · rw [FL_UNLOCK_fs]; simp [Lib.setFile, hLf, hfs])

/-- C25 at a concrete volume: a seek after a write of 10 bytes, which left the
buffer dirty at sector 0; nothing is added to the trace. -/
theorem fl_fseek_invalidates_witness :
    (((fl_fwrite Vol.env (Vol.opened (Vol.empty 6 7) "w+").1 (fun _ => 65) 1 10
      (some 1)).1._files 1).file_data.address = 0 ∧
     ((fl_fwrite Vol.env (Vol.opened (Vol.empty 6 7) "w+").1 (fun _ => 65) 1 10
      (some 1)).1._files 1).file_data.dirty = 1) ∧
    ((fl_fseek Vol.env (fl_fwrite Vol.env (Vol.opened (Vol.empty 6 7) "w+").1 (fun _ => 65) 1 10
      (some 1)).1 (some 1) 4 SEEK_SET).1._files 1).file_data.address = 0xFFFFFFFF ∧
    ((fl_fseek Vol.env (fl_fwrite Vol.env (Vol.opened (Vol.empty 6 7) "w+").1 (fun _ => 65) 1 10
      (some 1)).1 (some 1) 4 SEEK_SET).1._files 1).file_data.dirty = 0 ∧
    (fl_fseek Vol.env (fl_fwrite Vol.env (Vol.opened (Vol.empty 6 7) "w+").1 (fun _ => 65) 1 10
      (some 1)).1 (some 1) 4 SEEK_SET).1.trace =
      (fl_fwrite Vol.env (Vol.opened (Vol.empty 6 7) "w+").1 (fun _ => 65) 1 10
        (some 1)).1.trace ++ [] ++ [] :=
  ⟨by decide,
    (fl_fseek_invalidates Vol.env (fl_fwrite Vol.env (Vol.opened (Vol.empty 6 7) "w+").1
      (fun _ => 65) 1 10 (some 1)).1 1 4 SEEK_SET (by decide)).2.1,
    (fl_fseek_invalidates Vol.env (fl_fwrite Vol.env (Vol.opened (Vol.empty 6 7) "w+").1
      (fun _ => 65) 1 10 (some 1)).1 1 4 SEEK_SET (by decide)).2.2.1,
    (fl_fseek_invalidates Vol.env (fl_fwrite Vol.env (Vol.opened (Vol.empty 6 7) "w+").1
      (fun _ => 65) 1 10 (some 1)).1 1 4 SEEK_SET (by decide)).2.2.2.1⟩

/-- The cursor invariant where `fl_fread` does not wrap: the handle
`_open_file` or `_create_file` returns has its cursor at 0, so
`bytenum ≤ filelength` holds in it; and when `bytenum ≤ filelength` holds in
a record, it holds in that record after `fl_fseek` (every handle, origin and
offset, whatever the call returns), `fl_fwrite`, `fl_fread_sector` and
`fl_fclose`, and after `fl_fread` when the cursor plus a positive request
`size * count` fits `unsigned long`.  The type `unsigned long` has at least
32 bits. -/
theorem cursor_invariant (env : Env D) (st : Lib D) (g : Nat) (hbits : 32 ≤ env.ULONG_BITS)
    (hg : (st._files g).bytenum ≤ (st._files g).filelength) :
    (∀ (s : Lib D) (path : String) (checkfile : Int) (f : Nat),
      (_open_file env s path checkfile).2 = some f →
      ((_open_file env s path checkfile).1._files f).bytenum = 0 ∧
      ((_open_file env s path checkfile).1._files f).bytenum ≤
        ((_open_file env s path checkfile).1._files f).filelength) ∧
    (∀ (s : Lib D) (path : String) (f : Nat),
      (_create_file env s path).2 = some f →
      ((_create_file env s path).1._files f).bytenum = 0 ∧
      ((_create_file env s path).1._files f).bytenum ≤
        ((_create_file env s path).1._files f).filelength) ∧
    (∀ (f : Option Nat) (offset origin : Int),
      ((fl_fseek env st f offset origin).1._files g).bytenum ≤
        ((fl_fseek env st f offset origin).1._files g).filelength) ∧
    (∀ (data : Bytes) (size count : Int) (f : Option Nat),
      ((fl_fwrite env st data size count f).1._files g).bytenum ≤
        ((fl_fwrite env st data size count f).1._files g).filelength) ∧
    (∀ (buffer : Option Bytes) (size count : Int) (f : Option Nat),
      ((fl_fread_sector env st buffer size count f).1._files g).bytenum ≤
        ((fl_fread_sector env st buffer size count f).1._files g).filelength) ∧
    (∀ (f : Option Nat),
      ((fl_fclose env st f)._files g).bytenum ≤ ((fl_fclose env st f)._files g).filelength) ∧
    (∀ (buffer : Option Bytes) (size count : Int) (f : Option Nat),
      (∀ file, f = some file → 0 < to_int (size * count) →
        ((st._files file).bytenum : Int) + to_int (size * count) <
          (2 : Int) ^ env.ULONG_BITS) →
      ((fl_fread env st buffer size count f).1._files g).bytenum ≤
        ((fl_fread env st buffer size count f).1._files g).filelength) := by
  refine ⟨?_, ?_, ?_, ?_, ?_, ?_, ?_⟩
  · intro s path checkfile f h
    have h0 := _open_file_cursor env s path checkfile f h
    exact ⟨h0, by rw [h0]; exact Nat.zero_le _⟩
  · intro s path f h
    have h0 := (_create_file_cursor env s path f h).1
    exact ⟨h0, by rw [h0]; exact Nat.zero_le _⟩
  · intro f offset origin
    exact fl_fseek_cursor env st f offset origin g hg
  · intro data size count f
    exact fl_fwrite_cursor env st data size count f g hg
  · intro buffer size count f
    exact fl_fread_sector_cursor env st buffer size count f g hbits hg
  · intro f
    exact fl_fclose_cursor env st f g hg
  · intro buffer size count f hfit
    exact fl_fread_cursor env st buffer size count f g hfit hg

/-- The cursor invariant at a concrete volume: the file `a` of 10 bytes is open
(handle 1);
after a seek to offset 100, which is clamped, after a write of 20 bytes on a
handle opened for update, and after a read of 20 bytes, the cursor is not
past the length. -/
theorem cursor_invariant_witness :
    ((fl_fseek Vol.env (Vol.opened (Vol.with_file 4 10 1) "r+").1 (some 1) 100
        SEEK_SET).1._files 1).bytenum ≤
      ((fl_fseek Vol.env (Vol.opened (Vol.with_file 4 10 1) "r+").1 (some 1) 100
        SEEK_SET).1._files 1).filelength ∧
    ((fl_fwrite Vol.env (Vol.opened (Vol.with_file 4 10 1) "r+").1 (fun _ => 65) 1 20
        (some 1)).1._files 1).bytenum ≤
      ((fl_fwrite Vol.env (Vol.opened (Vol.with_file 4 10 1) "r+").1 (fun _ => 65) 1 20
        (some 1)).1._files 1).filelength ∧
    ((fl_fread Vol.env (Vol.opened (Vol.with_file 4 10 1) "r+").1 (some (fun _ => 0)) 1 20
        (some 1)).1._files 1).bytenum ≤
      ((fl_fread Vol.env (Vol.opened (Vol.with_file 4 10 1) "r+").1 (some (fun _ => 0)) 1 20
        (some 1)).1._files 1).filelength :=
  ⟨(cursor_invariant Vol.env (Vol.opened (Vol.with_file 4 10 1) "r+").1 1 (by decide)
      (by decide)).2.2.1 (some 1) 100 SEEK_SET,
    (cursor_invariant Vol.env (Vol.opened (Vol.with_file 4 10 1) "r+").1 1 (by decide)
      (by decide)).2.2.2.1 (fun _ => 65) 1 20 (some 1),
    (cursor_invariant Vol.env (Vol.opened (Vol.with_file 4 10 1) "r+").1 1 (by decide)
      (by decide)).2.2.2.2.2.2 (some (fun _ => 0)) 1 20 (some 1)
      (fun file hf _ => by
        have h1 : file = 1 := (Option.some.inj hf).symm
        subst h1
        decide)⟩

/-- C23 fails in `fl_fread` where `bytenum + count` passes the width of
`unsigned long` (32 bits here): the file `a` of 0xFFFFFC10 bytes is open with
the cursor at 0xFFFFFC00, 16 bytes before its end.  A read of 1023 bytes is
limited to the 16 bytes left and ends with the cursor at the length.  For a
read of 2048 bytes the sum wraps to 0x400, which is not above the length, so
the count is not limited: the call copies the whole sector, returns 512 and
leaves the cursor at 0xFFFFFE00, past the length, which has not changed. -/
theorem fl_fread_passes_length :
    (Vol.near_end._files 1).bytenum = 0xFFFFFC00 ∧
    (Vol.near_end._files 1).filelength = 0xFFFFFC10 ∧
    (fl_fread Vol.env Vol.near_end (some (fun _ => 0)) 1 1023 (some 1)).2.2 = 16 ∧
    ((fl_fread Vol.env Vol.near_end (some (fun _ => 0)) 1 1023 (some 1)).1._files 1).bytenum =
      0xFFFFFC10 ∧
    (fl_fread Vol.env Vol.near_end (some (fun _ => 0)) 1 2048 (some 1)).2.2 = 512 ∧
    ((fl_fread Vol.env Vol.near_end (some (fun _ => 0)) 1 2048 (some 1)).1._files 1).bytenum =
      0xFFFFFE00 ∧
    ((fl_fread Vol.env Vol.near_end (some (fun _ => 0)) 1 2048 (some 1)).1._files 1).filelength =
      0xFFFFFC10 ∧
    ¬ ((fl_fread Vol.env Vol.near_end (some (fun _ => 0)) 1 2048 (some 1)).1._files 1).bytenum ≤
      ((fl_fread Vol.env Vol.near_end (some (fun _ => 0)) 1 2048
        (some 1)).1._files 1).filelength := by
  decide
/-! ## Lock nesting along the trace -/

theorem lock_count_append (a b : List Event) :
    ∀ p : Nat × Nat, lock_count p (a ++ b) = lock_count (lock_count p a) b := by
  induction a with
  | nil => intro p; rfl
  | cons e l ih =>
    intro p
    cases e <;> simp only [List.cons_append, lock_count] <;> exact ih _

theorem lock_count_single (e : Event) (h : 2 ≤ e.tag) (p : Nat × Nat) :
    lock_count p [e] = p := by
  cases e <;> first | rfl | (simp [Event.tag] at h)

theorem LockNest.empty (k : Nat) : LockNest k [] := by
  intro c m h
  simp only [lock_count]
  exact ⟨trivial, Nat.le_refl _, Nat.le_max_left _ _⟩

theorem LockNest.mono {k k' : Nat} {evs : List Event} (h : LockNest k evs) (hk : k ≤ k') :
    LockNest k' evs := by
  intro c m hc
  obtain ⟨h1, h2, h3⟩ := h c m hc
  refine ⟨h1, h2, h3.trans ?_⟩
  exact max_le_max (Nat.le_refl _) (Nat.add_le_add_left hk _)

theorem LockNest.append {k : Nat} {a b : List Event} (ha : LockNest k a) (hb : LockNest k b) :
    LockNest k (a ++ b) := by
  intro c m hc
  obtain ⟨a1, a2, a3⟩ := ha c m hc
  rw [lock_count_append]
  have hp : lock_count (c, m) a = (c, (lock_count (c, m) a).2) :=
    Prod.ext a1 rfl
  rw [hp]
  obtain ⟨b1, b2, b3⟩ := hb c (lock_count (c, m) a).2 (hc.trans a2)
  refine ⟨b1, a2.trans b2, b3.trans ?_⟩
  exact max_le (a3) (Nat.le_max_right _ _)

theorem LockNest.single (e : Event) (h : 2 ≤ e.tag) (k : Nat) : LockNest k [e] := by
  intro c m _
  rw [lock_count_single e h]
  exact ⟨rfl, Nat.le_refl _, Nat.le_max_left _ _⟩

theorem LockNest.wrap {k : Nat} {evs : List Event} (h : LockNest k evs) :
    LockNest (k + 1) ([Event.lock] ++ evs ++ [Event.unlock]) := by
  intro c m hc
  rw [lock_count_append, lock_count_append]
  simp only [lock_count]
  obtain ⟨h1, h2, h3⟩ := h (c + 1) (max m (c + 1)) (Nat.le_max_right _ _)
  have hp : lock_count (c + 1, max m (c + 1)) evs =
      (c + 1, (lock_count (c + 1, max m (c + 1)) evs).2) :=
    Prod.ext h1 rfl
  rw [hp]
  simp only [lock_count, Nat.add_sub_cancel]
  refine ⟨trivial, (Nat.le_max_left _ _).trans h2, h3.trans ?_⟩
  simp only [max_le_iff]
  omega

theorem LockNest.held_max {k : Nat} {evs : List Event} (h : LockNest k evs) :
    lock_held_max evs ≤ k := by
  have := (h 0 0 (Nat.le_refl _)).2.2
  simpa [lock_held_max] using this

theorem Nest.same (S : List Nat) (k : Nat) (st : Lib D) : Nest S k st st :=
  ⟨rfl, rfl, [], by simp, fun _ _ => LockNest.empty k, fun _ h => absurd h (List.not_mem_nil _)⟩

theorem Nest.andThen {S : List Nat} {k : Nat} {a b c : Lib D} (h1 : Nest S k a b)
    (h2 : Nest S k b c) : Nest S k a c := by
  obtain ⟨a1, a2, e1, a3, a4, a5⟩ := h1
  obtain ⟨b1, b2, e2, b3, b4, b5⟩ := h2
  refine ⟨b1.trans a1, b2.trans a2, e1 ++ e2, by rw [b3, a3, List.append_assoc],
    fun hl hu => (a4 hl hu).append (b4 (a1.trans hl) (a2.trans hu)), ?_⟩
  intro e he
  rcases List.mem_append.mp he with h | h
  · exact a5 e h
  · exact b5 e h

theorem Nest.after {S : List Nat} {k : Nat} {a b c : Lib D} (h2 : Nest S k b c)
    (h1 : Nest S k a b) : Nest S k a c := h1.andThen h2

theorem Nest.weaken {S S' : List Nat} {k k' : Nat} {a b : Lib D} (h : Nest S k a b)
    (hS : ∀ x, x ∈ S → x ∈ S') (hk : k ≤ k') : Nest S' k' a b := by
  obtain ⟨a1, a2, e1, a3, a4, a5⟩ := h
  exact ⟨a1, a2, e1, a3, fun hl hu => (a4 hl hu).mono hk, fun e he => hS _ (a5 e he)⟩

theorem Nest_of_eq (S : List Nat) (k : Nat) {a b : Lib D} (hfs : b._fs = a._fs)
    (ht : b.trace = a.trace) : Nest S k a b :=
  ⟨by rw [hfs], by rw [hfs], [], by simp [ht], fun _ _ => LockNest.empty k,
    fun _ h => absurd h (List.not_mem_nil _)⟩

theorem Nest_setFile (S : List Nat) (k : Nat) (st : Lib D) (i : Nat) (r : FL_FILE) :
    Nest S k st (st.setFile i r) := Nest_of_eq S k rfl rfl

theorem Nest_step (S : List Nat) (k : Nat) (st : Lib D) (v : D) (e : Event) (t : Nat)
    (ht : e.tag = t) (h1 : t ∈ S) (h2 : 2 ≤ t) : Nest S k st (st.step v e) :=
  ⟨rfl, rfl, [e], rfl, fun _ _ => LockNest.single e (by rw [ht]; exact h2) k,
    fun x hx => by rw [List.mem_singleton.mp hx, ht]; exact h1⟩

theorem Nest_CHECK (S : List Nat) (k : Nat) (env : Env D) (st : Lib D) :
    Nest S k st (CHECK_FL_INIT env st) :=
  Nest_of_eq S k (CHECK_FL_INIT_fs env st) (CHECK_FL_INIT_trace env st)

/-- A section between `FL_LOCK` and `FL_UNLOCK` nests one deeper than what
it runs. -/
theorem Nest_wrap {S : List Nat} {k : Nat} {st s' : Lib D} (h0 : 0 ∈ S) (h1 : 1 ∈ S)
    (h : Nest S k (FL_LOCK st) s') : Nest S (k + 1) st (FL_UNLOCK s') := by
  obtain ⟨a1, a2, evs, a3, a4, a5⟩ := h
  rw [FL_LOCK_fs] at a1 a2 a4
  refine ⟨by rw [FL_UNLOCK_fs, a1], by rw [FL_UNLOCK_fs, a2],
    lock_events st ++ evs ++ unlock_events s', ?_, ?_, ?_⟩
  · rw [FL_UNLOCK_trace, a3, FL_LOCK_trace]; simp
  · intro hl hu
    have e1 : lock_events st = [Event.lock] := by unfold lock_events; rw [if_pos hl]
    have e2 : unlock_events s' = [Event.unlock] := by
      unfold unlock_events; rw [if_pos (by rw [a2]; exact hu)]
    rw [e1, e2]
    exact (a4 hl hu).wrap
  · intro e he
    simp only [List.mem_append] at he
    rcases he with (h | h) | h
    · unfold lock_events at h
      split at h
      · rw [List.mem_singleton.mp h]; exact h0
      · exact absurd h (List.not_mem_nil _)
    · exact a5 e h
    · unfold unlock_events at h
      split at h
      · rw [List.mem_singleton.mp h]; exact h1
      · exact absurd h (List.not_mem_nil _)

/-- What `Nest` says of the lock calls when both callbacks are attached. -/
theorem Nest.depth {S : List Nat} {k : Nat} {a b : Lib D} (h : Nest S k a b)
    (hl : a._fs.fl_lock = true) (hu : a._fs.fl_unlock = true) : LockDepth k a b := by
  obtain ⟨-, -, evs, a3, a4, -⟩ := h
  have h0 := a4 hl hu 0 0 (Nat.le_refl _)
  exact ⟨evs, a3, h0.1, (a4 hl hu).held_max⟩
theorem read_walk_Nest (S : List Nat) (k : Nat) (hS : ∀ x, x ∈ [12, 13, 14, 15, 16] → x ∈ S)
    (env : Env D) (file ClusterIdx : Nat) :
    ∀ (fuel : Nat) (st : Lib D) (i c : Nat),
      Nest S k st (read_walk env file ClusterIdx fuel st i c).1 := by
  intro fuel
  induction fuel with
  | zero => intro st i c; exact Nest.same S k st
  | succ n ih =>
    intro st i c
    unfold read_walk
    split_ifs
    · split
      · exact ih _ _ _
      · exact ((Nest_step S k _ _ _ 13 (by rfl) (hS 13 (by decide)) (by decide)).andThen
          (Nest_step S k _ _ _ 12 (by rfl) (hS 12 (by decide)) (by decide))).andThen (ih _ _ _)
    · exact Nest.same S k st

theorem _read_sector_Nest (S : List Nat) (k : Nat)
    (hS : ∀ x, x ∈ [12, 13, 14, 15, 16] → x ∈ S) (env : Env D) (st : Lib D)
    (file offset : Nat) (buffer : Bytes) :
    Nest S k st (_read_sector env st file offset buffer).1 := by
  unfold _read_sector
  simp only [fatfs_sector_read]
  split_ifs <;>
    first
    | exact Nest.same S k st
    | exact Nest_step S k _ _ _ 14 (by rfl) (hS 14 (by decide)) (by decide)
    | exact read_walk_Nest S k hS env file _ _ st _ _
    | exact (read_walk_Nest S k hS env file _ _ st _ _).andThen
        (Nest_step S k _ _ _ 14 (by rfl) (hS 14 (by decide)) (by decide))

theorem write_walk_Nest (S : List Nat) (k : Nat) (hS : ∀ x, x ∈ [12, 13, 14, 15, 16] → x ∈ S)
    (env : Env D) (file ClusterIdx : Nat) :
    ∀ (fuel : Nat) (st : Lib D) (i c l : Nat),
      Nest S k st (write_walk env file ClusterIdx fuel st i c l).1 := by
  intro fuel
  induction fuel with
  | zero => intro st i c l; exact Nest.same S k st
  | succ n ih =>
    intro st i c l
    have hr : Nest S k st (match env.cache_get_next_cluster st._fs.vol file i with
        | some nextCluster => (st, nextCluster)
        | none =>
          (fatfs_cache_set_next_cluster env (fatfs_find_next_cluster env st c).1 file i
            (fatfs_find_next_cluster env st c).2, (fatfs_find_next_cluster env st c).2)).1 := by
      split
      · exact Nest.same S k st
      · exact (Nest_step S k _ _ _ 13 (by rfl) (hS 13 (by decide)) (by decide)).andThen
          (Nest_step S k _ _ _ 12 (by rfl) (hS 12 (by decide)) (by decide))
    unfold write_walk
    simp only []
    split_ifs
    · exact hr
    · exact hr.andThen (ih _ _ _ _)
    · exact Nest.same S k st

theorem _write_sector_Nest (S : List Nat) (k : Nat)
    (hS : ∀ x, x ∈ [12, 13, 14, 15, 16] → x ∈ S) (env : Env D) (st : Lib D)
    (file offset : Nat) (buf : Bytes) :
    Nest S k st (_write_sector env st file offset buf).1 := by
  have hw := fun i c => write_walk_Nest S k hS env file
    (to_uint32 offset / st._fs.sectors_per_cluster)
    (to_uint32 offset / st._fs.sectors_per_cluster - i) st i c env.FAT32_LAST_CLUSTER
  unfold _write_sector
  simp only [fatfs_write_sector, fatfs_add_free_space]
  split_ifs <;>
    first
    | exact Nest_step S k _ _ _ 15 (by rfl) (hS 15 (by decide)) (by decide)
    | exact hw _ _
    | exact (hw _ _).andThen (Nest_step S k _ _ _ 16 (by rfl) (hS 16 (by decide)) (by decide))
    | exact ((hw _ _).andThen (Nest_setFile S k _ _ _)).andThen
        (Nest_step S k _ _ _ 15 (by rfl) (hS 15 (by decide)) (by decide))
    | exact (((hw _ _).andThen (Nest_step S k _ _ _ 16 (by rfl) (hS 16 (by decide)) (by decide))).andThen
        (Nest_setFile S k _ _ _)).andThen (Nest_step S k _ _ _ 15 (by rfl) (hS 15 (by decide)) (by decide))

/-- The call `fl_fflush` with both callbacks attached: the lock is taken once
around the write-back. -/
theorem fl_fflush_Nest (S : List Nat) (k : Nat)
    (hS : ∀ x, x ∈ [0, 1, 12, 13, 14, 15, 16] → x ∈ S) (env : Env D) (st : Lib D)
    (f : Option Nat) :
    Nest S (k + 1) st (fl_fflush env st f).1 := by
  have hS' : ∀ x, x ∈ [12, 13, 14, 15, 16] → x ∈ S := fun x hx =>
    hS x (List.mem_cons_of_mem _ (List.mem_cons_of_mem _ hx))
  have hc := Nest_CHECK S (k + 1) env st
  unfold fl_fflush
  cases f with
  | none => exact hc
  | some file =>
    simp only []
    refine hc.andThen (Nest_wrap (hS 0 (by decide)) (hS 1 (by decide)) ?_)
    split_ifs
    · exact (_write_sector_Nest S k hS' env _ file _ _).andThen (Nest_setFile S k _ _ _)
    · exact _write_sector_Nest S k hS' env _ file _ _
    · exact Nest.same S k _

theorem flush_dirty_Nest (S : List Nat) (k : Nat)
    (hS : ∀ x, x ∈ [0, 1, 12, 13, 14, 15, 16] → x ∈ S) (env : Env D) (st : Lib D)
    (file : Nat) :
    Nest S (k + 1) st (flush_dirty env st file) := by
  unfold flush_dirty
  split
  · exact fl_fflush_Nest S k hS env st _
  · exact Nest.same S _ st

theorem sector_tags (S : List Nat) (hS : ∀ x, x ∈ [0, 1, 12, 13, 14, 15, 16] → x ∈ S) :
    ∀ x, x ∈ [12, 13, 14, 15, 16] → x ∈ S := fun x hx =>
  hS x (List.mem_cons_of_mem _ (List.mem_cons_of_mem _ hx))

theorem fwrite_fetch_Nest (S : List Nat) (k : Nat)
    (hS : ∀ x, x ∈ [0, 1, 12, 13, 14, 15, 16] → x ∈ S) (env : Env D) (st : Lib D)
    (file sector cc : Nat) :
    Nest S (k + 1) st (fwrite_fetch env st file sector cc) := by
  have hf := flush_dirty_Nest S k hS env st file
  have hr : ∀ s : Lib D, Nest S (k + 1) s (fwrite_read env s file sector) := by
    intro s
    unfold fwrite_read
    exact (_read_sector_Nest S (k + 1) (sector_tags S hS) env s file sector _).andThen
      (Nest_setFile S _ _ _ _)
  unfold fwrite_fetch
  simp only []
  split_ifs
  · exact (hf.andThen (hr _)).andThen (Nest_setFile S _ _ _ _)
  · exact hf.andThen (Nest_setFile S _ _ _ _)
  · exact Nest.same S _ st

theorem fl_fwrite_loop_Nest (S : List Nat) (k : Nat)
    (hS : ∀ x, x ∈ [0, 1, 12, 13, 14, 15, 16] → x ∈ S) (env : Env D) (file : Nat)
    (data : Bytes) (length : Nat) :
    ∀ (fuel : Nat) (st : Lib D) (sector offset bw : Nat),
      Nest S (k + 1) st (fl_fwrite_loop env file data length fuel st sector offset bw) := by
  intro fuel
  induction fuel with
  | zero => intro st _ _ _; exact Nest.same S _ st
  | succ n ih =>
    intro st sector offset bw
    by_cases hlt : bw < length
    · rw [fl_fwrite_loop_succ _ _ _ _ _ _ _ _ _ hlt]
      have h1 : Nest S (k + 1) st (fwrite_copy env (fwrite_fetch env st file sector
          (fwrite_copyCount length bw offset)) file data offset bw
          (fwrite_copyCount length bw offset)) :=
        (fwrite_fetch_Nest S k hS env st file sector _).andThen (Nest_setFile S _ _ _ _)
      exact h1.andThen (ih _ _ _ _)
    · rw [fl_fwrite_loop_done _ _ _ _ _ _ _ _ _ hlt]
      exact Nest.same S _ st

/-- The call `fl_fwrite` with both callbacks attached: its flushes take the
lock while the call holds it. -/
theorem fl_fwrite_Nest (S : List Nat) (k : Nat)
    (hS : ∀ x, x ∈ [0, 1, 12, 13, 14, 15, 16] → x ∈ S) (env : Env D) (st : Lib D)
    (data : Bytes) (size count : Int) (f : Option Nat) :
    Nest S (k + 2) st (fl_fwrite env st data size count f).1 := by
  have hc := Nest_CHECK S (k + 2) env st
  unfold fl_fwrite
  cases f with
  | none => exact hc
  | some file =>
    simp only []
    split_ifs with h1 h2 h3 h3 <;>
      refine hc.andThen (Nest_wrap (hS 0 (by decide)) (hS 1 (by decide)) ?_) <;>
      first
      | exact Nest.same S _ _
      | exact ((Nest_setFile S (k + 1) _ _ _).andThen
          (fl_fwrite_loop_Nest S k hS env file data _ _ _ _ _ _)).andThen
            (Nest_setFile S _ _ _ _)
      | exact (Nest_setFile S (k + 1) _ _ _).andThen
          (fl_fwrite_loop_Nest S k hS env file data _ _ _ _ _ _)
      | exact (fl_fwrite_loop_Nest S k hS env file data _ _ _ _ _ _).andThen
            (Nest_setFile S _ _ _ _)
      | exact fl_fwrite_loop_Nest S k hS env file data _ _ _ _ _ _
theorem fread_fetch_Nest (S : List Nat) (k : Nat)
    (hS : ∀ x, x ∈ [0, 1, 12, 13, 14, 15, 16] → x ∈ S) (env : Env D) (st : Lib D)
    (file sector : Nat) :
    Nest S (k + 1) st (fread_fetch env st file sector).1 := by
  have hf := flush_dirty_Nest S k hS env st file
  have hr := fun b => _read_sector_Nest S (k + 1) (sector_tags S hS) env
    (flush_dirty env st file) file sector b
  unfold fread_fetch
  simp only []
  split_ifs
  · exact (hf.andThen (hr _)).andThen (Nest_setFile S _ _ _ _)
  · exact ((hf.andThen (hr _)).andThen (Nest_setFile S _ _ _ _)).andThen (Nest_setFile S _ _ _ _)
  · exact Nest.same S _ st

theorem fl_fread_loop_Nest (S : List Nat) (k : Nat)
    (hS : ∀ x, x ∈ [0, 1, 12, 13, 14, 15, 16] → x ∈ S) (env : Env D) (file : Nat)
    (count : Int) :
    ∀ (fuel : Nat) (st : Lib D) (buf : Bytes) (sector offset : Nat) (b : Int),
      Nest S (k + 1) st (fl_fread_loop env file count fuel st buf sector offset b).1 := by
  intro fuel
  induction fuel with
  | zero => intro st _ _ _ _; exact Nest.same S _ st
  | succ n ih =>
    intro st buf sector offset b
    have hf := fread_fetch_Nest S k hS env st file sector
    unfold fl_fread_loop
    split_ifs
    · cases hr : fread_fetch env st file sector with
      | mk s ok =>
        rw [hr] at hf
        cases ok with
        | false => exact hf
        | true =>
          simp only []
          have h1 : Nest S (k + 1) st (fread_copy env s file buf offset b
              (fread_copyCount count b offset)).1 := hf.andThen (Nest_setFile S _ _ _ _)
          exact h1.andThen (ih _ _ _ _ _)
    · exact Nest.same S _ st

/-- The call `fl_fread` takes no lock itself; its flushes take it once. -/
theorem fl_fread_Nest (S : List Nat) (k : Nat)
    (hS : ∀ x, x ∈ [0, 1, 12, 13, 14, 15, 16] → x ∈ S) (env : Env D) (st : Lib D)
    (buffer : Option Bytes) (size length : Int) (f : Option Nat) :
    Nest S (k + 1) st (fl_fread env st buffer size length f).1 := by
  have hc := Nest_CHECK S (k + 1) env st
  unfold fl_fread
  cases buffer with
  | none => exact hc
  | some buf =>
    cases f with
    | none => exact hc
    | some file =>
      simp only []
      by_cases h1 : ((CHECK_FL_INIT env st)._files file).flags &&& FILE_READ = 0
      · rw [if_pos h1]; exact hc
      rw [if_neg h1]
      by_cases h2 : to_int (size * length) = 0
      · rw [if_pos h2]; exact hc
      rw [if_neg h2]
      by_cases h3 : ((CHECK_FL_INIT env st)._files file).bytenum ≥
          ((CHECK_FL_INIT env st)._files file).filelength
      · rw [if_pos h3]; exact hc
      rw [if_neg h3]
      exact hc.andThen (fl_fread_loop_Nest S k hS env file _ _ _ _ _ _ _)

/-- The call `fl_fread_sector` takes no lock and flushes nothing. -/
theorem fl_fread_sector_Nest (S : List Nat) (k : Nat)
    (hS : ∀ x, x ∈ [0, 1, 12, 13, 14, 15, 16] → x ∈ S) (env : Env D) (st : Lib D)
    (buffer : Option Bytes) (size length : Int) (f : Option Nat) :
    Nest S k st (fl_fread_sector env st buffer size length f).1 := by
  have hc := Nest_CHECK S k env st
  unfold fl_fread_sector
  cases buffer with
  | none => exact hc
  | some buf =>
    cases f with
    | none => exact hc
    | some file =>
      simp only []
      split_ifs <;>
        first
        | exact hc
        | exact hc.andThen (_read_sector_Nest S k (sector_tags S hS) env _ file _ _)

/-- The call `fl_fseek` takes the lock once and calls nothing else. -/
theorem fl_fseek_Nest (S : List Nat) (k : Nat) (hS : ∀ x, x ∈ [0, 1] → x ∈ S) (env : Env D)
    (st : Lib D) (f : Option Nat) (offset origin : Int) :
    Nest S (k + 1) st (fl_fseek env st f offset origin).1 := by
  have hc := Nest_CHECK S (k + 1) env st
  unfold fl_fseek
  cases f with
  | none => exact hc
  | some file =>
    simp only []
    split_ifs <;>
      first
      | exact hc
      | (refine hc.andThen (Nest_wrap (hS 0 (by decide)) (hS 1 (by decide)) ?_)
         exact Nest_setFile S k _ _ _)

/-- The call `fl_feof` takes the lock once and calls nothing else. -/
theorem fl_feof_Nest (S : List Nat) (k : Nat) (hS : ∀ x, x ∈ [0, 1] → x ∈ S)
    (st : Lib D) (f : Option Nat) :
    Nest S (k + 1) st (fl_feof st f).1 := by
  unfold fl_feof
  cases f with
  | none => exact Nest.same S _ st
  | some file =>
    exact Nest_wrap (hS 0 (by decide)) (hS 1 (by decide)) (Nest.same S k _)

theorem _free_file_Nest (S : List Nat) (k : Nat) (env : Env D) (st : Lib D) (file : Nat) :
    Nest S k st (_free_file env st file) :=
  Nest_of_eq S k (_free_file_frame env st file).1 (_free_file_frame env st file).2.1

/-- The call `fl_fclose` with both callbacks attached: `fl_fflush` takes the
lock while `fl_fclose` holds it. -/
theorem fl_fclose_Nest (S : List Nat) (k : Nat)
    (hS : ∀ x, x ∈ [0, 1, 8, 10, 12, 13, 14, 15, 16] → x ∈ S) (env : Env D) (st : Lib D)
    (f : Option Nat) :
    Nest S (k + 2) st (fl_fclose env st f) := by
  have hS' : ∀ x, x ∈ [0, 1, 12, 13, 14, 15, 16] → x ∈ S := by
    intro x hx
    apply hS
    simp only [List.mem_cons, List.mem_singleton, List.not_mem_nil, or_false] at hx ⊢
    omega
  have hc := Nest_CHECK S (k + 2) env st
  unfold fl_fclose
  cases f with
  | none => exact hc
  | some file =>
    simp only []
    have hfl := fl_fflush_Nest S k hS' env (FL_LOCK (CHECK_FL_INIT env st)) (some file)
    refine hc.andThen (Nest_wrap (hS 0 (by decide)) (hS 1 (by decide)) ?_)
    refine Nest.andThen ?_ (Nest_step S (k + 1) _ _ _ 10 (by rfl) (hS 10 (by decide)) (by decide))
    refine Nest.andThen ?_ (_free_file_Nest S (k + 1) env _ file)
    refine Nest.andThen ?_ (Nest_setFile S (k + 1) _ _ _)
    split_ifs
    · exact (hfl.andThen (Nest_step S (k + 1) _ _ _ 8 (by rfl) (hS 8 (by decide))
        (by decide))).andThen (Nest_setFile S (k + 1) _ _ _)
    · exact hfl
theorem _allocate_file_Nest (S : List Nat) (k : Nat) (st : Lib D) :
    Nest S k st (_allocate_file st).1 := by
  unfold _allocate_file
  split
  · exact Nest.same S k st
  · exact Nest_of_eq S k rfl rfl

theorem open_directory_loop_Nest (S : List Nat) (k : Nat) (hS : ∀ x, x ∈ [3, 10, 11] → x ∈ S)
    (env : Env D) (path : String) :
    ∀ (fuel : Nat) (st : Lib D) (sublevel : Int) (c : Nat),
      Nest S k st (open_directory_loop env path fuel st sublevel c).1 := by
  intro fuel
  induction fuel with
  | zero => intro st _ _; exact Nest.same S k st
  | succ n ih =>
    intro st sublevel c
    have hg := fun (s : Lib D) (c : Nat) (n : String) =>
      (Nest_step S k s (env.get_file_entry s._fs.vol c n).1
        (Event.get_file_entry c n (env.get_file_entry s._fs.vol c n).2.1) 3 (by rfl)
        (hS 3 (by decide)) (by decide))
    unfold open_directory_loop
    simp only []
    split_ifs
    · exact Nest.same S k st
    · exact (hg _ _ _).andThen (ih _ _ _)
    · exact hg _ _ _
    · exact hg _ _ _

theorem open_prologue_Nest (S : List Nat) (k : Nat) (hS : ∀ x, x ∈ [3, 10, 11] → x ∈ S)
    (env : Env D) (st : Lib D) (file : Nat) (path : String) :
    Nest S k st (open_prologue env st file path).1 := by
  have hn : Nest S k st (open_named env st file path) :=
    (Nest_setFile S k _ _ _).andThen (Nest_setFile S k _ _ _)
  rw [open_prologue_eq]
  split_ifs
  · exact hn.andThen (_free_file_Nest S k env _ file)
  · exact hn.andThen (_free_file_Nest S k env _ file)
  · split
    · exact hn.andThen (Nest_setFile S k _ _ _)
    · have hd := open_directory_loop_Nest S k hS env
        ((open_named env st file path)._files file).path
        (env.total_path_levels ((open_named env st file path)._files file).path + 1).toNat
        (open_named env st file path) 0
        (env.get_root_cluster (open_named env st file path)._fs.vol)
      split
      · rename_i h
        have : (_open_directory env (open_named env st file path)
            ((open_named env st file path)._files file).path).1 = _ := congrArg Prod.fst h
        unfold _open_directory at this
        rw [this] at hd
        exact (hn.andThen hd).andThen (Nest_setFile S k _ _ _)
      · rename_i h
        have : (_open_directory env (open_named env st file path)
            ((open_named env st file path)._files file).path).1 = _ := congrArg Prod.fst h
        unfold _open_directory at this
        rw [this] at hd
        exact (hn.andThen hd).andThen (_free_file_Nest S k env _ file)
theorem _open_file_Nest (S : List Nat) (k : Nat) (hS : ∀ x, x ∈ [3, 10, 11] → x ∈ S)
    (env : Env D) (st : Lib D) (path : String) (checkfile : Int) :
    Nest S k st (_open_file env st path checkfile).1 := by
  have ha := _allocate_file_Nest S k st
  unfold _open_file
  split
  · rename_i h; rw [h] at ha; exact ha
  · rename_i s0 file h
    rw [h] at ha
    have hp := open_prologue_Nest S k hS env s0 file path
    split
    · rename_i h2; rw [h2] at hp; exact ha.andThen hp
    · rename_i s1 h2
      rw [h2] at hp
      have hg : Nest S k s1 (fatfs_get_file_entry env s1 (s1._files file).parentcluster
          (s1._files file).filename).1 :=
        Nest_step S k _ _ _ 3 (by rfl) (hS 3 (by decide)) (by decide)
      simp only []
      split_ifs
      · exact (((ha.andThen hp).andThen hg).andThen (Nest_setFile S k _ _ _)).andThen
          ((Nest_step S k _ _ _ 11 (by rfl) (hS 11 (by decide)) (by decide)).andThen
            (Nest_step S k _ _ _ 10 (by rfl) (hS 10 (by decide)) (by decide)))
      · exact ((ha.andThen hp).andThen hg).andThen (_free_file_Nest S k env _ file)

theorem sfn_tail_loop_Nest (S : List Nat) (k : Nat) (hS : ∀ x, x ∈ [4] → x ∈ S)
    (env : Env D) (file : Nat) :
    ∀ (fuel : Nat) (st : Lib D) (tailNum : Int),
      Nest S k st (sfn_tail_loop env file fuel st tailNum).1 := by
  intro fuel
  induction fuel with
  | zero => intro st _; exact Nest.same S k st
  | succ n ih =>
    intro st tailNum
    have h1 : ∀ (r : FL_FILE) (c : Nat) (sfn : List Nat),
        Nest S k st (fatfs_sfn_exists env (st.setFile file r) c sfn).1 := fun r c sfn =>
      (Nest_setFile S k st file r).andThen
        (Nest_step S k _ _ _ 4 (by rfl) (hS 4 (by decide)) (by decide))
    unfold sfn_tail_loop
    simp only []
    split_ifs <;> first | exact h1 _ _ _ | exact (h1 _ _ _).andThen (ih _ _)

theorem create_sfn_Nest (S : List Nat) (k : Nat) (hS : ∀ x, x ∈ [4] → x ∈ S)
    (env : Env D) (st : Lib D) (file : Nat) :
    Nest S k st (create_sfn env st file).1 := by
  unfold create_sfn
  simp only []
  split_ifs
  · exact sfn_tail_loop_Nest S k hS env file _ st 0
  · exact Nest.same S k st
  · exact (Nest_setFile S k st file _).andThen
      (Nest_step S k _ _ _ 4 (by rfl) (hS 4 (by decide)) (by decide))

theorem fatfs_get_file_entry_Nest (S : List Nat) (k : Nat) (h : 3 ∈ S) (env : Env D)
    (st : Lib D) (c : Nat) (n : String) : Nest S k st (fatfs_get_file_entry env st c n).1 :=
  Nest_step S k _ _ _ 3 (by rfl) h (by decide)

theorem fatfs_allocate_free_space_Nest (S : List Nat) (k : Nat) (h : 5 ∈ S) (env : Env D)
    (st : Lib D) (a b c : Nat) : Nest S k st (fatfs_allocate_free_space env st a b c).1 :=
  Nest_step S k _ _ _ 5 (by rfl) h (by decide)

theorem fatfs_add_file_entry_Nest (S : List Nat) (k : Nat) (h : 6 ∈ S) (env : Env D)
    (st : Lib D) (c : Nat) (n : String) (sfn : List Nat) (a b d : Nat) :
    Nest S k st (fatfs_add_file_entry env st c n sfn a b d).1 :=
  Nest_step S k _ _ _ 6 (by rfl) h (by decide)

theorem fatfs_free_cluster_chain_Nest (S : List Nat) (k : Nat) (h : 7 ∈ S) (env : Env D)
    (st : Lib D) (c : Nat) : Nest S k st (fatfs_free_cluster_chain env st c).1 :=
  Nest_step S k _ _ _ 7 (by rfl) h (by decide)

theorem fatfs_mark_file_deleted_Nest (S : List Nat) (k : Nat) (h : 9 ∈ S) (env : Env D)
    (st : Lib D) (c : Nat) (sfn : List Nat) :
    Nest S k st (fatfs_mark_file_deleted env st c sfn).1 :=
  Nest_step S k _ _ _ 9 (by rfl) h (by decide)

theorem fatfs_fat_purge_Nest (S : List Nat) (k : Nat) (h : 10 ∈ S) (env : Env D)
    (st : Lib D) : Nest S k st (fatfs_fat_purge env st) :=
  Nest_step S k _ _ _ 10 (by rfl) h (by decide)

theorem fatfs_cache_init_Nest (S : List Nat) (k : Nat) (h : 11 ∈ S) (env : Env D)
    (st : Lib D) (f : Nat) : Nest S k st (fatfs_cache_init env st f) :=
  Nest_step S k _ _ _ 11 (by rfl) h (by decide)

theorem _create_file_Nest (S : List Nat) (k : Nat)
    (hS : ∀ x, x ∈ [3, 4, 5, 6, 7, 10, 11] → x ∈ S)
    (env : Env D) (st : Lib D) (path : String) :
    Nest S k st (_create_file env st path).1 := by
  have hS3 : ∀ x, x ∈ [3, 10, 11] → x ∈ S := by
    intro x hx
    apply hS
    simp only [List.mem_cons, List.mem_singleton, List.not_mem_nil, or_false] at hx ⊢
    omega
  have hS4 : ∀ x, x ∈ [4] → x ∈ S := by
    intro x hx
    apply hS
    simp only [List.mem_cons, List.mem_singleton, List.not_mem_nil, or_false] at hx ⊢
    omega
  have ha := _allocate_file_Nest S k st
  unfold _create_file
  split_ifs
  · exact Nest.same S k st
  · cases hA : _allocate_file st with
    | mk A o =>
      rw [hA] at ha
      cases o with
      | none => exact ha
      | some file =>
        simp only []
        have hp := open_prologue_Nest S k hS3 env A file path
        cases hP : open_prologue env A file path with
        | mk s b =>
          rw [hP] at hp
          cases b with
          | false => exact ha.andThen hp
          | true =>
            simp only []
            have h0 := (fatfs_get_file_entry_Nest S k (hS 3 (by decide)) env s
              (s._files file).parentcluster (s._files file).filename).after (ha.andThen hp)
            split_ifs
            · exact (_free_file_Nest S k env _ file).after h0
            · exact (_free_file_Nest S k env _ file).after ((Nest_setFile S k _ _ _).after
                ((fatfs_allocate_free_space_Nest S k (hS 5 (by decide)) env _ _ _ _).after
                  ((Nest_setFile S k _ _ _).after h0)))
            · split
              · rename_i s2 heq
                have e := congrArg Prod.fst heq
                simp only at e
                subst e
                exact (_free_file_Nest S k env _ file).after
                  ((fatfs_free_cluster_chain_Nest S k (hS 7 (by decide)) env _ _).after
                    ((create_sfn_Nest S k hS4 env _ file).after
                      ((Nest_setFile S k _ _ _).after
                        ((fatfs_allocate_free_space_Nest S k (hS 5 (by decide)) env _ _ _ _).after
                          ((Nest_setFile S k _ _ _).after h0)))))
              · rename_i s2 heq
                have e := congrArg Prod.fst heq
                simp only at e
                subst e
                split_ifs
                · exact (_free_file_Nest S k env _ file).after
                    ((fatfs_free_cluster_chain_Nest S k (hS 7 (by decide)) env _ _).after
                      ((fatfs_add_file_entry_Nest S k (hS 6 (by decide)) env _ _ _ _ _ _ _).after
                        ((create_sfn_Nest S k hS4 env _ file).after
                          ((Nest_setFile S k _ _ _).after
                            ((fatfs_allocate_free_space_Nest S k (hS 5 (by decide)) env _ _ _
                              _).after ((Nest_setFile S k _ _ _).after h0))))))
                · exact (fatfs_fat_purge_Nest S k (hS 10 (by decide)) env _).after
                    ((fatfs_cache_init_Nest S k (hS 11 (by decide)) env _ _).after
                      ((Nest_setFile S k _ _ _).after
                        ((fatfs_add_file_entry_Nest S k (hS 6 (by decide)) env _ _ _ _ _ _
                          _).after
                          ((create_sfn_Nest S k hS4 env _ file).after
                            ((Nest_setFile S k _ _ _).after
                              ((fatfs_allocate_free_space_Nest S k (hS 5 (by decide)) env _ _ _
                                _).after ((Nest_setFile S k _ _ _).after h0)))))))
/-- The open calls inside `fl_ifopen`, from the locked state `L`. -/
theorem ifopen_body_Nest (S : List Nat) (k : Nat)
    (hS : ∀ x, x ∈ [3, 4, 5, 6, 7, 10, 11] → x ∈ S) (env : Env D) (L : Lib D)
    (path : String) (checkfile : Int) (flags : Nat) :
    Nest S k L
      (if flags &&& FILE_READ = 0 ∧ (flags &&& FILE_CREATE ≠ 0 ∧
            (if (if flags &&& FILE_READ ≠ 0 then _open_file env L path checkfile
                else (L, none)).2 = none ∧ flags &&& FILE_CREATE ≠ 0 then
              _create_file env (if flags &&& FILE_READ ≠ 0 then _open_file env L path checkfile
                else (L, none)).1 path
            else (if flags &&& FILE_READ ≠ 0 then _open_file env L path checkfile
                else (L, none))).2 = none) ∧
          flags &&& (FILE_WRITE ||| FILE_APPEND) ≠ 0 then
        _open_file env
          (if (if flags &&& FILE_READ ≠ 0 then _open_file env L path checkfile
                else (L, none)).2 = none ∧ flags &&& FILE_CREATE ≠ 0 then
              _create_file env (if flags &&& FILE_READ ≠ 0 then _open_file env L path checkfile
                else (L, none)).1 path
            else (if flags &&& FILE_READ ≠ 0 then _open_file env L path checkfile
                else (L, none))).1 path checkfile
      else
        (if (if flags &&& FILE_READ ≠ 0 then _open_file env L path checkfile
                else (L, none)).2 = none ∧ flags &&& FILE_CREATE ≠ 0 then
              _create_file env (if flags &&& FILE_READ ≠ 0 then _open_file env L path checkfile
                else (L, none)).1 path
            else (if flags &&& FILE_READ ≠ 0 then _open_file env L path checkfile
                else (L, none)))).1 := by
  have hS3 : ∀ x, x ∈ [3, 10, 11] → x ∈ S := by
    intro x hx
    apply hS
    simp only [List.mem_cons, List.mem_singleton, List.not_mem_nil, or_false] at hx ⊢
    omega
  have h1 : Nest S k L (if flags &&& FILE_READ ≠ 0 then _open_file env L path checkfile
      else (L, none)).1 := by
    split_ifs
    · exact _open_file_Nest S k hS3 env L path checkfile
    · exact Nest.same S k L
  revert h1
  generalize (if flags &&& FILE_READ ≠ 0 then _open_file env L path checkfile
      else (L, none)) = r1
  intro h1
  have h2 : Nest S k L (if r1.2 = none ∧ flags &&& FILE_CREATE ≠ 0 then
      _create_file env r1.1 path else r1).1 := by
    split_ifs
    · exact (_create_file_Nest S k hS env r1.1 path).after h1
    · exact h1
  revert h2
  generalize (if r1.2 = none ∧ flags &&& FILE_CREATE ≠ 0 then
      _create_file env r1.1 path else r1) = r2
  intro h2
  split_ifs
  · exact (_open_file_Nest S k hS3 env r2.1 path checkfile).after h2
  · exact h2

/-- The call `fl_ifopen` with both callbacks attached takes the lock once. -/
theorem fl_ifopen_Nest (S : List Nat) (k : Nat)
    (hS : ∀ x, x ∈ [0, 1, 3, 4, 5, 6, 7, 10, 11] → x ∈ S) (env : Env D) (st : Lib D)
    (path mode : Option String) (checkfile : Int) :
    Nest S (k + 1) st (fl_ifopen env st path mode checkfile).1 := by
  have hS' : ∀ x, x ∈ [3, 4, 5, 6, 7, 10, 11] → x ∈ S := by
    intro x hx
    apply hS
    simp only [List.mem_cons, List.mem_singleton, List.not_mem_nil, or_false] at hx ⊢
    omega
  have hc := Nest_CHECK S (k + 1) env st
  unfold fl_ifopen
  simp only []
  by_cases hv : (CHECK_FL_INIT env st)._filelib_valid = 0
  · rw [if_pos hv]; exact hc
  · rw [if_neg hv]
    cases path with
    | none => exact hc
    | some p =>
      cases mode with
      | none => exact hc
      | some m =>
        simp only []
        refine hc.andThen (Nest_wrap (hS 0 (by decide)) (hS 1 (by decide)) ?_)
        generalize (if (CHECK_FL_INIT env st)._fs.disk_io_write_sector = false then
            parse_mode m &&& (255 ^^^ (FILE_CREATE ||| FILE_WRITE ||| FILE_APPEND))
          else parse_mode m) = flags
        have hb := ifopen_body_Nest S k hS' env (FL_LOCK (CHECK_FL_INIT env st)) p checkfile
          flags
        split
        · exact (Nest_setFile S k _ _ _).after hb
        · exact hb
/-- The open calls inside `fl_ifopen` when the flags lack CREATE: only
`_open_file` runs. -/
theorem ifopen_body_Nest_r (S : List Nat) (k : Nat)
    (hS : ∀ x, x ∈ [3, 10, 11] → x ∈ S) (env : Env D) (L : Lib D)
    (path : String) (checkfile : Int) (flags : Nat) (hcr : flags &&& FILE_CREATE = 0) :
    Nest S k L
      (if flags &&& FILE_READ = 0 ∧ (flags &&& FILE_CREATE ≠ 0 ∧
            (if (if flags &&& FILE_READ ≠ 0 then _open_file env L path checkfile
                else (L, none)).2 = none ∧ flags &&& FILE_CREATE ≠ 0 then
              _create_file env (if flags &&& FILE_READ ≠ 0 then _open_file env L path checkfile
                else (L, none)).1 path
            else (if flags &&& FILE_READ ≠ 0 then _open_file env L path checkfile
                else (L, none))).2 = none) ∧
          flags &&& (FILE_WRITE ||| FILE_APPEND) ≠ 0 then
        _open_file env
          (if (if flags &&& FILE_READ ≠ 0 then _open_file env L path checkfile
                else (L, none)).2 = none ∧ flags &&& FILE_CREATE ≠ 0 then
              _create_file env (if flags &&& FILE_READ ≠ 0 then _open_file env L path checkfile
                else (L, none)).1 path
            else (if flags &&& FILE_READ ≠ 0 then _open_file env L path checkfile
                else (L, none))).1 path checkfile
      else
        (if (if flags &&& FILE_READ ≠ 0 then _open_file env L path checkfile
                else (L, none)).2 = none ∧ flags &&& FILE_CREATE ≠ 0 then
              _create_file env (if flags &&& FILE_READ ≠ 0 then _open_file env L path checkfile
                else (L, none)).1 path
            else (if flags &&& FILE_READ ≠ 0 then _open_file env L path checkfile
                else (L, none)))).1 := by
  have h1 : Nest S k L (if flags &&& FILE_READ ≠ 0 then _open_file env L path checkfile
      else (L, none)).1 := by
    split_ifs
    · exact _open_file_Nest S k hS env L path checkfile
    · exact Nest.same S k L
  revert h1
  generalize (if flags &&& FILE_READ ≠ 0 then _open_file env L path checkfile
      else (L, none)) = r1
  intro h1
  have hn : ¬ (flags &&& FILE_CREATE ≠ 0) := fun h => h hcr
  rw [if_neg (fun h => hn h.2.1.1), if_neg (fun h => hn h.2)]
  exact h1

/-- The call `fl_ifopen` with mode "r": the lock is taken once around
`_open_file`, and `_create_file` is not called. -/
theorem fl_ifopen_r_Nest (S : List Nat) (k : Nat)
    (hS : ∀ x, x ∈ [0, 1, 3, 10, 11] → x ∈ S) (env : Env D) (st : Lib D)
    (path : Option String) (checkfile : Int) :
    Nest S (k + 1) st (fl_ifopen env st path (some "r") checkfile).1 := by
  have hS' : ∀ x, x ∈ [3, 10, 11] → x ∈ S := by
    intro x hx
    apply hS
    simp only [List.mem_cons, List.mem_singleton, List.not_mem_nil, or_false] at hx ⊢
    omega
  have hc := Nest_CHECK S (k + 1) env st
  have hf : (if (CHECK_FL_INIT env st)._fs.disk_io_write_sector = false then
      parse_mode "r" &&& (255 ^^^ (FILE_CREATE ||| FILE_WRITE ||| FILE_APPEND))
      else parse_mode "r") = FILE_READ := by
    split <;> decide
  unfold fl_ifopen
  simp only []
  by_cases hv : (CHECK_FL_INIT env st)._filelib_valid = 0
  · rw [if_pos hv]; exact hc
  · rw [if_neg hv]
    cases path with
    | none => exact hc
    | some p =>
      simp only []
      refine hc.andThen (Nest_wrap (hS 0 (by decide)) (hS 1 (by decide)) ?_)
      rw [hf]
      have hb := ifopen_body_Nest_r S k hS' env (FL_LOCK (CHECK_FL_INIT env st)) p checkfile
        FILE_READ (by decide)
      split
      · exact (Nest_setFile S k _ _ _).after hb
      · exact hb

/-- The call `fl_remove` with both callbacks attached: it holds the lock
while `fl_fopen` takes it and releases it, and while `fl_fclose` takes it and
`fl_fflush` inside takes it again. -/
theorem fl_remove_Nest (S : List Nat) (k : Nat)
    (hS : ∀ x, x ∈ [0, 1, 3, 7, 8, 9, 10, 11, 12, 13, 14, 15, 16] → x ∈ S) (env : Env D)
    (st : Lib D) (path : Option String) :
    Nest S (k + 3) st (fl_remove env st path).1 := by
  have hS1 : ∀ x, x ∈ [0, 1, 3, 10, 11] → x ∈ S := by
    intro x hx
    apply hS
    simp only [List.mem_cons, List.mem_singleton, List.not_mem_nil, or_false] at hx ⊢
    omega
  have hS2 : ∀ x, x ∈ [0, 1, 8, 10, 12, 13, 14, 15, 16] → x ∈ S := by
    intro x hx
    apply hS
    simp only [List.mem_cons, List.mem_singleton, List.not_mem_nil, or_false] at hx ⊢
    omega
  have ho : Nest S (k + 2) (FL_LOCK st) (fl_ifopen env (FL_LOCK st) path (some "r") 0).1 :=
    (fl_ifopen_r_Nest S k hS1 env (FL_LOCK st) path 0).weaken (fun _ h => h)
      (Nat.le_succ _)
  unfold fl_remove
  simp only []
  refine Nest_wrap (hS 0 (by decide)) (hS 1 (by decide)) ?_
  revert ho
  generalize fl_ifopen env (FL_LOCK st) path (some "r") 0 = o
  intro ho
  cases o with
  | mk s r =>
    cases r with
    | none => exact ho
    | some file =>
      simp only []
      have hc := (fatfs_free_cluster_chain_Nest S (k + 2) (hS 7 (by decide)) env s
        (s._files file).startcluster).after ho
      split_ifs
      · have hm := (fatfs_mark_file_deleted_Nest S (k + 2) (hS 9 (by decide)) env _
          ((fatfs_free_cluster_chain env s (s._files file).startcluster).1._files
            file).parentcluster
          ((fatfs_free_cluster_chain env s (s._files file).startcluster).1._files
            file).shortfilename).after hc
        exact (fl_fclose_Nest S k hS2 env _ (some file)).after hm
      · exact (fatfs_mark_file_deleted_Nest S (k + 2) (hS 9 (by decide)) env _ _ _).after hc
      · exact hc
/-! ## The host lock -/

/-- C22 fails as stated: with both callbacks attached, `fl_fclose` on the
open handle 1 calls `lock()` a second time before the first `unlock()`: the
events it adds are lock, lock, unlock, the FAT purge, unlock (tags 0, 0, 1,
10, 1), so two locks are held at a time; and `fl_remove` of the file `a`
holds three. -/
theorem fl_fclose_locks_twice :
    ((fl_fclose Vol.env
        (fl_attach_locks (Vol.opened (Vol.with_file 4 10 1) "r").1 true true)
        (some 1)).trace.drop
      (fl_attach_locks (Vol.opened (Vol.with_file 4 10 1) "r").1 true true).trace.length).map
        Event.tag = [0, 0, 1, 10, 1] ∧
    lock_held_max ((fl_fclose Vol.env
        (fl_attach_locks (Vol.opened (Vol.with_file 4 10 1) "r").1 true true)
        (some 1)).trace.drop
      (fl_attach_locks (Vol.opened (Vol.with_file 4 10 1) "r").1 true true).trace.length) = 2 ∧
    lock_held_max ((fl_remove Vol.env
        (fl_attach_locks (Vol.mounted (Vol.with_file 4 10 1)) true true)
        (some "/a")).1.trace.drop
      (fl_attach_locks (Vol.mounted (Vol.with_file 4 10 1)) true true).trace.length) = 3 := by
  decide
theorem tag_not_free_mark (S : List Nat) (h7 : 7 ∉ S) (h9 : 9 ∉ S) (e : Event)
    (h : e.tag ∈ S) : e.is_free_cluster_chain = false ∧ e.is_mark_file_deleted = false := by
  cases e <;> first
    | exact ⟨rfl, rfl⟩
    | exact absurd h h7
    | exact absurd h h9

/-- What a `Nest` says of the trace alone. -/
theorem Nest.events {S : List Nat} {k : Nat} {a b : Lib D} (h : Nest S k a b) :
    ∃ evs, b.trace = a.trace ++ evs ∧ ∀ e, e ∈ evs → e.tag ∈ S := by
  obtain ⟨-, -, evs, a3, -, a5⟩ := h
  exact ⟨evs, a3, a5⟩

theorem lock_events_quiet (s : Lib D) (e : Event) (h : e ∈ lock_events s) :
    e.is_free_cluster_chain = false ∧ e.is_mark_file_deleted = false := by
  unfold lock_events at h
  split at h
  · rw [List.mem_singleton.mp h]; exact ⟨rfl, rfl⟩
  · exact absurd h (List.not_mem_nil _)

theorem unlock_events_quiet (s : Lib D) (e : Event) (h : e ∈ unlock_events s) :
    e.is_free_cluster_chain = false ∧ e.is_mark_file_deleted = false := by
  unfold unlock_events at h
  split at h
  · rw [List.mem_singleton.mp h]; exact ⟨rfl, rfl⟩
  · exact absurd h (List.not_mem_nil _)

/-! ## `fl_remove` -/

/-- C27: `fl_remove` opens the file with `fl_ifopen` in mode "r" with the
file check disabled.  When that open returns NULL, `fl_remove` returns -1 and
calls neither `fatfs_free_cluster_chain` nor `fatfs_mark_file_deleted`.  When
it returns a handle, the calls `fl_remove` adds to the trace are: calls other
than these two; `fatfs_free_cluster_chain` on the start cluster of the file;
`fatfs_mark_file_deleted` on its parent cluster and short name, only when
freeing the chain succeeded; and again calls other than these two; and the
result is 0 exactly when both calls succeeded. -/
theorem fl_remove_order (env : Env D) (st : Lib D) (path : String) :
    ((fl_ifopen env (FL_LOCK st) (some path) (some "r") 0).2 = none →
      (fl_remove env st (some path)).2 = -1 ∧
      ∃ evs, (fl_remove env st (some path)).1.trace = st.trace ++ evs ∧
        ∀ e, e ∈ evs → e.is_free_cluster_chain = false ∧ e.is_mark_file_deleted = false) ∧
    (∀ file, (fl_ifopen env (FL_LOCK st) (some path) (some "r") 0).2 = some file →
      ∃ pre post,
        (∀ e, e ∈ pre ++ post →
          e.is_free_cluster_chain = false ∧ e.is_mark_file_deleted = false) ∧
        (fl_remove env st (some path)).1.trace =
          st.trace ++ pre ++
            (Event.free_cluster_chain
                ((fl_ifopen env (FL_LOCK st) (some path) (some "r") 0).1._files file).startcluster
                (fatfs_free_cluster_chain env
                  (fl_ifopen env (FL_LOCK st) (some path) (some "r") 0).1
                  ((fl_ifopen env (FL_LOCK st) (some path) (some "r") 0).1._files
                    file).startcluster).2 ::
              (if (fatfs_free_cluster_chain env
                  (fl_ifopen env (FL_LOCK st) (some path) (some "r") 0).1
                  ((fl_ifopen env (FL_LOCK st) (some path) (some "r") 0).1._files
                    file).startcluster).2 = true then
                [Event.mark_file_deleted
                  ((fl_ifopen env (FL_LOCK st) (some path) (some "r") 0).1._files
                    file).parentcluster
                  ((fl_ifopen env (FL_LOCK st) (some path) (some "r") 0).1._files
                    file).shortfilename
                  (fatfs_mark_file_deleted env
                    (fatfs_free_cluster_chain env
                      (fl_ifopen env (FL_LOCK st) (some path) (some "r") 0).1
                      ((fl_ifopen env (FL_LOCK st) (some path) (some "r") 0).1._files
                        file).startcluster).1
                    ((fl_ifopen env (FL_LOCK st) (some path) (some "r") 0).1._files
                      file).parentcluster
                    ((fl_ifopen env (FL_LOCK st) (some path) (some "r") 0).1._files
                      file).shortfilename).2]
              else [])) ++ post ∧
        ((fl_remove env st (some path)).2 = 0 ↔
          (fatfs_free_cluster_chain env
            (fl_ifopen env (FL_LOCK st) (some path) (some "r") 0).1
            ((fl_ifopen env (FL_LOCK st) (some path) (some "r") 0).1._files
              file).startcluster).2 = true ∧
          (fatfs_mark_file_deleted env
            (fatfs_free_cluster_chain env
              (fl_ifopen env (FL_LOCK st) (some path) (some "r") 0).1
              ((fl_ifopen env (FL_LOCK st) (some path) (some "r") 0).1._files
                file).startcluster).1
            ((fl_ifopen env (FL_LOCK st) (some path) (some "r") 0).1._files
              file).parentcluster
            ((fl_ifopen env (FL_LOCK st) (some path) (some "r") 0).1._files
              file).shortfilename).2 = true)) := by
  have hq := tag_not_free_mark [0, 1, 3, 8, 10, 11, 12, 13, 14, 15, 16] (by decide) (by decide)
  have ho := (Nest_wrap (by decide) (by decide)
    (fl_ifopen_r_Nest [0, 1, 3, 8, 10, 11, 12, 13, 14, 15, 16] 0 (by decide) env (FL_LOCK st)
      (some path) 0)).events
  have hop := (fl_ifopen_r_Nest [0, 1, 3, 8, 10, 11, 12, 13, 14, 15, 16] 0 (by decide) env
    (FL_LOCK st) (some path) 0).events
  have hcl := fun (s : Lib D) (file : Nat) =>
    (fl_fclose_Nest [0, 1, 3, 8, 10, 11, 12, 13, 14, 15, 16] 0 (by decide) env s
      (some file)).events
  unfold fl_remove
  simp only []
  revert ho hop
  generalize fl_ifopen env (FL_LOCK st) (some path) (some "r") 0 = o
  intro ho hop
  cases o with
  | mk s r =>
    refine ⟨?_, ?_⟩
    · intro hn
      simp only at hn
      subst hn
      simp only []
      obtain ⟨evs, e1, e2⟩ := ho
      exact ⟨trivial, evs, e1, fun e he => hq e (e2 e he)⟩
    · intro file hs
      simp only at hs
      subst hs
      simp only []
      obtain ⟨e1, a0, a2⟩ := hop
      rw [FL_LOCK_trace] at a0
      have a1 : s.trace = st.trace ++ lock_events st ++ e1 := a0
      by_cases hc : (fatfs_free_cluster_chain env s (s._files file).startcluster).2 = true
      · rw [if_pos hc, if_pos hc]
        by_cases hm : (fatfs_mark_file_deleted env
            (fatfs_free_cluster_chain env s (s._files file).startcluster).1
            ((fatfs_free_cluster_chain env s (s._files file).startcluster).1._files
              file).parentcluster
            ((fatfs_free_cluster_chain env s (s._files file).startcluster).1._files
              file).shortfilename).2 = true
        · rw [if_pos hm]
          obtain ⟨e3, c1, c2⟩ := hcl (fatfs_mark_file_deleted env
            (fatfs_free_cluster_chain env s (s._files file).startcluster).1
            ((fatfs_free_cluster_chain env s (s._files file).startcluster).1._files
              file).parentcluster
            ((fatfs_free_cluster_chain env s (s._files file).startcluster).1._files
              file).shortfilename).1 file
          refine ⟨lock_events st ++ e1, e3 ++ unlock_events (fl_fclose env
            (fatfs_mark_file_deleted env
              (fatfs_free_cluster_chain env s (s._files file).startcluster).1
              ((fatfs_free_cluster_chain env s (s._files file).startcluster).1._files
                file).parentcluster
              ((fatfs_free_cluster_chain env s (s._files file).startcluster).1._files
                file).shortfilename).1 (some file)), ?_, ?_, ?_⟩
          · intro e he
            simp only [List.mem_append] at he
            rcases he with (h | h) | (h | h)
            · exact lock_events_quiet st e h
            · exact hq e (a2 e h)
            · exact hq e (c2 e h)
            · exact unlock_events_quiet _ e h
          · simp only []
            rw [FL_UNLOCK_trace, c1]
            simp only [fatfs_mark_file_deleted, fatfs_free_cluster_chain, Lib.step, a1,
              List.append_assoc, List.singleton_append, List.cons_append, List.nil_append,
              if_true]
          · exact ⟨fun _ => ⟨hc, hm⟩, fun _ => rfl⟩
        · rw [if_neg hm]
          refine ⟨lock_events st ++ e1, unlock_events
            (fatfs_mark_file_deleted env
              (fatfs_free_cluster_chain env s (s._files file).startcluster).1
              ((fatfs_free_cluster_chain env s (s._files file).startcluster).1._files
                file).parentcluster
              ((fatfs_free_cluster_chain env s (s._files file).startcluster).1._files
                file).shortfilename).1, ?_, ?_, ?_⟩
          · intro e he
            simp only [List.mem_append] at he
            rcases he with (h | h) | h
            · exact lock_events_quiet st e h
            · exact hq e (a2 e h)
            · exact unlock_events_quiet _ e h
          · simp only []
            rw [FL_UNLOCK_trace]
            simp only [fatfs_mark_file_deleted, fatfs_free_cluster_chain, Lib.step, a1,
              List.append_assoc, List.singleton_append, List.cons_append, List.nil_append,
              if_true]
          · constructor
            · intro h; exact absurd (show (-1 : Int) = 0 from h) (by decide)
            · intro h; exact absurd h.2 hm
      · rw [if_neg hc, if_neg hc]
        refine ⟨lock_events st ++ e1, unlock_events
          (fatfs_free_cluster_chain env s (s._files file).startcluster).1, ?_, ?_, ?_⟩
        · intro e he
          simp only [List.mem_append] at he
          rcases he with (h | h) | h
          · exact lock_events_quiet st e h
          · exact hq e (a2 e h)
          · exact unlock_events_quiet _ e h
        · simp only []
          rw [FL_UNLOCK_trace]
          simp only [fatfs_free_cluster_chain, Lib.step, a1,
            List.append_assoc, List.singleton_append, List.cons_append, List.nil_append]
        · constructor
          · intro h; exact absurd (show (-1 : Int) = 0 from h) (by decide)
          · intro h; exact absurd h.1 hc

/-- C27 at a concrete volume: removing the closed file `a`; the open
succeeds with handle 1, both calls succeed and the result is 0; the calls
made are, in order, `fatfs_init` (from the mount), the lookup of the entry,
the cache reset and the purge of the open, `fatfs_free_cluster_chain`,
`fatfs_mark_file_deleted`, and the purge of the close (tags 2, 3, 11, 10, 7,
9, 10). -/
theorem fl_remove_order_witness :
    (fl_remove Vol.env (Vol.mounted (Vol.with_file 4 10 1)) (some "/a")).2 = 0 ∧
    (fl_remove Vol.env (Vol.mounted (Vol.with_file 4 10 1)) (some "/a")).1.trace.map Event.tag =
      [2, 3, 11, 10, 7, 9, 10] := by
  obtain ⟨-, -, -, -, h⟩ :=
    (fl_remove_order Vol.env (Vol.mounted (Vol.with_file 4 10 1)) "/a").2 1 (by decide)
  exact ⟨h.mpr ⟨by decide, by decide⟩, by decide⟩
/-- The trace of `fl_fflush` on a handle in an initialised library: the lock,
the write-back by `_write_sector` of the buffered sector at its address when
the buffer is dirty and nothing otherwise, the unlock. -/
theorem fl_fflush_trace (env : Env D) (st : Lib D) (f : Nat) (hi : st._filelib_init ≠ 0) :
    ((st._files f).file_data.dirty = 0 →
      (fl_fflush env st (some f)).1.trace = st.trace ++ lock_events st ++ unlock_events st ∧
      (fl_fflush env st (some f)).1._fs = st._fs) ∧
    ((st._files f).file_data.dirty ≠ 0 →
      (fl_fflush env st (some f)).1.trace =
        (_write_sector env (FL_LOCK st) f (st._files f).file_data.address
          (st._files f).file_data.sector).1.trace ++ unlock_events st) := by
  have hu : ∀ s : Lib D, s._fs.fl_unlock = st._fs.fl_unlock → unlock_events s = unlock_events st := by
    intro s hs; unfold unlock_events; rw [hs]
  have hw := _write_sector_Nest [12, 13, 14, 15, 16] 0 (fun _ h => h) env (FL_LOCK st) f
    (st._files f).file_data.address (st._files f).file_data.sector
  unfold fl_fflush
  rw [CHECK_FL_INIT_of_init env st hi]
  simp only [FL_LOCK_files]
  refine ⟨?_, ?_⟩
  · intro hd
    have hd' : ¬ (st._files f).file_data.dirty ≠ 0 := fun h => h hd
    rw [if_neg hd']
    refine ⟨?_, ?_⟩
    · rw [FL_UNLOCK_trace, FL_LOCK_trace, hu _ (by rw [FL_LOCK_fs])]
    · rw [FL_UNLOCK_fs, FL_LOCK_fs]
  · intro hd
    rw [if_pos hd]
    rw [FL_UNLOCK_trace]
    split_ifs
    · rw [hu _ (by
        show (_write_sector env (FL_LOCK st) f _ _).1._fs.fl_unlock = _
        rw [hw.2.1, FL_LOCK_fs])]
      rfl
    · rw [hu _ (by rw [hw.2.1, FL_LOCK_fs])]

/-! ## `fl_fclose` -/

/-- C26: `fl_fclose` on a record `f` of the open list, in an initialised
library whose pool is well formed, runs in this order: `fl_fflush`, which
calls `_write_sector` on the buffered sector at its address when the buffer
is dirty and makes no call of the volume layer otherwise;
`fatfs_update_file_length` with the parent cluster, the short name and the
length of the record as they were before the call, when `filelength_changed`
is set and not otherwise; the reset of cursor, length and start cluster to 0
with the buffer invalidated, which gives a state `X` whose lists are those
before the call; `_free_file`, which moves the record from the open list to
the head of the free list; the FAT purge; the unlock. -/
theorem fl_fclose_order (env : Env D) (st : Lib D) (f : Nat) (lf lo : List Nat)
    (hi : st._filelib_init ≠ 0) (hp : PoolInv env.FATFS_MAX_OPEN_FILES st lf lo)
    (hm : f ∈ lo) :
    ((st._files f).file_data.dirty = 0 →
      (fl_fflush env (FL_LOCK st) (some f)).1.trace =
        st.trace ++ lock_events st ++ lock_events st ++ unlock_events st ∧
      (fl_fflush env (FL_LOCK st) (some f)).1._fs = st._fs) ∧
    ((st._files f).file_data.dirty ≠ 0 →
      (fl_fflush env (FL_LOCK st) (some f)).1.trace =
        (_write_sector env (FL_LOCK (FL_LOCK st)) f (st._files f).file_data.address
          (st._files f).file_data.sector).1.trace ++ unlock_events st) ∧
    ∃ X,
      X.trace = (fl_fflush env (FL_LOCK st) (some f)).1.trace ++
        (if (st._files f).filelength_changed ≠ 0 then
          [Event.update_file_length (st._files f).parentcluster (st._files f).shortfilename
            (st._files f).filelength
            (env.update_file_length (fl_fflush env (FL_LOCK st) (some f)).1._fs.vol
              (st._files f).parentcluster (st._files f).shortfilename
              (st._files f).filelength).2]
        else []) ∧
      SamePool X st ∧
      ((X._files f).bytenum = 0 ∧ (X._files f).filelength = 0 ∧ (X._files f).startcluster = 0 ∧
        (X._files f).file_data.address = 0xFFFFFFFF ∧ (X._files f).file_data.dirty = 0 ∧
        (X._files f).filelength_changed = 0) ∧
      fl_fclose env st (some f) = FL_UNLOCK (fatfs_fat_purge env (_free_file env X f)) ∧
      (fl_fclose env st (some f)).trace = X.trace ++ [Event.fat_purge] ++ unlock_events st ∧
      PoolInv env.FATFS_MAX_OPEN_FILES (fl_fclose env st (some f)) (f :: lf) (lo.erase f) := by
  have hL : (FL_LOCK st)._filelib_init ≠ 0 := by rw [FL_LOCK_init]; exact hi
  have hft := fl_fflush_trace env (FL_LOCK st) f hL
  have hle : lock_events (FL_LOCK st) = lock_events st := by
    unfold lock_events; rw [FL_LOCK_fs]
  have hue : ∀ s : Lib D, s._fs.fl_unlock = st._fs.fl_unlock →
      unlock_events s = unlock_events st := by
    intro s hs; unfold unlock_events; rw [hs]
  have hN := fl_fflush_Nest [0, 1, 12, 13, 14, 15, 16] 0 (fun _ h => h) env (FL_LOCK st)
    (some f)
  have hFu : (fl_fflush env (FL_LOCK st) (some f)).1._fs.fl_unlock = st._fs.fl_unlock := by
    rw [hN.2.1, FL_LOCK_fs]
  have s1 : SamePool (fl_fflush env (FL_LOCK st) (some f)).1 st :=
    (fl_fflush_SamePool env (FL_LOCK st) (some f) hL).trans (SamePool_LOCK st)
  have hproj : ((fl_fflush env (FL_LOCK st) (some f)).1._files f).parentcluster =
        (st._files f).parentcluster ∧
      ((fl_fflush env (FL_LOCK st) (some f)).1._files f).shortfilename =
        (st._files f).shortfilename ∧
      ((fl_fflush env (FL_LOCK st) (some f)).1._files f).filelength =
        (st._files f).filelength ∧
      ((fl_fflush env (FL_LOCK st) (some f)).1._files f).filelength_changed =
        (st._files f).filelength_changed := by
    have h := fl_fflush_proj
      (fun r => (r.parentcluster, r.shortfilename, r.filelength, r.filelength_changed))
      (fun _ _ => rfl) (fun _ _ => rfl) env (FL_LOCK st) (some f) f
    rw [CHECK_FL_INIT_of_init env _ hL, FL_LOCK_files] at h
    simp only [Prod.mk.injEq] at h
    exact h
  obtain ⟨q1, q2, q3, q4⟩ := hproj
  refine ⟨?_, ?_, ?_⟩
  · intro hd
    obtain ⟨t1, t2⟩ := hft.1 (by rw [FL_LOCK_files]; exact hd)
    refine ⟨?_, ?_⟩
    · rw [t1, FL_LOCK_trace, hle, hue _ (FL_LOCK_fs st ▸ rfl)]
    · rw [t2, FL_LOCK_fs]
  · intro hd
    have t1 := hft.2 (by rw [FL_LOCK_files]; exact hd)
    rw [FL_LOCK_files, hue _ (FL_LOCK_fs st ▸ rfl)] at t1
    exact t1
  · have hfin : ∀ X : Lib D, SamePool X st → X._fs.fl_unlock = st._fs.fl_unlock →
        (FL_UNLOCK (fatfs_fat_purge env (_free_file env X f))).trace =
          X.trace ++ [Event.fat_purge] ++ unlock_events st ∧
        PoolInv env.FATFS_MAX_OPEN_FILES (FL_UNLOCK (fatfs_fat_purge env (_free_file env X f)))
          (f :: lf) (lo.erase f) := by
      intro X hx hxu
      obtain ⟨f1, f2, -, -, -⟩ := _free_file_frame env X f
      refine ⟨?_, ?_⟩
      · rw [FL_UNLOCK_trace, hue _ (by
          show (fatfs_fat_purge env (_free_file env X f))._fs.fl_unlock = _
          unfold fatfs_fat_purge
          show (_free_file env X f)._fs.fl_unlock = _
          rw [f1, hxu])]
        unfold fatfs_fat_purge
        show (_free_file env X f).trace ++ [Event.fat_purge] ++ _ = _
        rw [f2]
      · exact PoolInv_of_SamePool _ _ _ _ _
          ((SamePool_UNLOCK _).trans (fatfs_fat_purge_SamePool _ _))
          (_free_file_pool env X f lf lo (PoolInv_of_SamePool _ _ _ _ _ hx hp) hm)
    unfold fl_fclose
    rw [CHECK_FL_INIT_of_init env st hi]
    simp only []
    by_cases hc : (st._files f).filelength_changed ≠ 0
    · have hc' : ((fl_fflush env (FL_LOCK st) (some f)).1._files f).filelength_changed ≠ 0 := by
        rw [q4]; exact hc
      rw [if_pos hc', if_pos hc]
      refine ⟨_, ?_, ?_, ?_, rfl, ?_⟩
      · simp only [fatfs_update_file_length, Lib.setFile, Lib.step, q1, q2, q3]
      · exact (SamePool_setFile _ _ _ (by rfl)).trans ((SamePool_setFile _ _ _ (by rfl)).trans
          ((fatfs_update_file_length_SamePool _ _ _ _ _).trans s1))
      · simp
      · exact hfin _
          ((SamePool_setFile _ _ _ (by rfl)).trans ((SamePool_setFile _ _ _ (by rfl)).trans
            ((fatfs_update_file_length_SamePool _ _ _ _ _).trans s1)))
          (by simp only [fatfs_update_file_length, Lib.setFile, Lib.step]; exact hFu)
    · have hc' : ¬ ((fl_fflush env (FL_LOCK st) (some f)).1._files f).filelength_changed ≠ 0 := by
        rw [q4]; exact hc
      rw [if_neg hc', if_neg hc]
      refine ⟨_, ?_, ?_, ?_, rfl, ?_⟩
      · simp [Lib.setFile]
      · exact (SamePool_setFile _ _ _ (by rfl)).trans s1
      · simp
      · exact hfin _ ((SamePool_setFile _ _ _ (by rfl)).trans s1)
          (by simp only [Lib.setFile]; exact hFu)

/-- C26 at a concrete state: handle 1 is a new file with 10 bytes written
and not yet flushed; `fl_fclose` writes the sector back, updates the length
in the directory, purges, and leaves record 1 at the head of the free list:
the calls it adds are `fatfs_write_sector`, `fatfs_update_file_length` and
`fatfs_fat_purge` (tags 15, 8, 10). -/
theorem fl_fclose_order_witness :
    PoolInv 2
      (fl_fclose Vol.env (fl_fwrite Vol.env (Vol.opened (Vol.empty 6 7) "w+").1 (fun _ => 65) 1
        10 (some 1)).1 (some 1)) (1 :: [0]) ([1].erase 1) ∧
    ((fl_fclose Vol.env (fl_fwrite Vol.env (Vol.opened (Vol.empty 6 7) "w+").1 (fun _ => 65) 1
        10 (some 1)).1 (some 1)).trace.drop
      (fl_fwrite Vol.env (Vol.opened (Vol.empty 6 7) "w+").1 (fun _ => 65) 1
        10 (some 1)).1.trace.length).map Event.tag = [15, 8, 10] := by
  obtain ⟨-, -, X, -, -, -, -, -, h⟩ := fl_fclose_order Vol.env
    (fl_fwrite Vol.env (Vol.opened (Vol.empty 6 7) "w+").1 (fun _ => 65) 1 10 (some 1)).1 1
    [0] [1] (by decide) (by decide) (by decide)
  exact ⟨h, by decide⟩
/-! ## The cluster cache -/

/-- C29 fails on the code: with the cluster cache kept as a faithful map, a
new file is written with two sectors (one cluster each), flushed, and read
back from the start.  `_write_sector` stored the end-of-chain mark for
cluster index 0 in the cache before it extended the chain, and the entry is
still there after the chain has grown from cluster 3 to cluster 4; the walk
of `_read_sector` for index 1 takes it from the cache and fails, so the read
returns 512 bytes.  With the cache omitted the same run returns 1024. -/
theorem cache_changes_read :
    (write_then_read CVol.env (fl_attach_media CVol.env (CVol.boot (Vol.empty 6 7)) true).1).2.2
      = 512 ∧
    (write_then_read CVol.env
      (fl_attach_media CVol.env (CVol.boot (Vol.empty 6 7)) true).1).1._fs.vol.cache =
      [(1, 0, 0x0FFFFFFF)] ∧
    (write_then_read CVol.env
      (fl_attach_media CVol.env (CVol.boot (Vol.empty 6 7)) true).1).1._fs.vol.vol.fat 3 = 4 ∧
    (write_then_read Vol.env (Vol.mounted (Vol.empty 6 7))).2.2 = 1024 ∧
    (write_then_read Vol.env (Vol.mounted (Vol.empty 6 7))).1._fs.vol.fat 3 = 4 := by
  decide
/-! ## The short-name loop -/

theorem sfn_tail_loop_succ (env : Env D) (file : Nat) (n : Nat) (st : Lib D) (t : Int) :
    sfn_tail_loop env file (n + 1) st t =
      if (sfn_try env st file t).2 = 0 then ((sfn_try env st file t).1, t)
      else if t + 1 < 9999 then sfn_tail_loop env file n (sfn_try env st file t).1 (t + 1)
      else ((sfn_try env st file t).1, t + 1) := rfl

/-- The loop of the short-name step from pass `t` on, with `9999 - t` passes
left: it stops at the first pass whose name is not in the directory, and
runs out after pass 9998. -/
theorem sfn_tail_loop_spec (env : Env D) (st : Lib D) (file : Nat) :
    ∀ (n t : Nat), t + n = 9999 → 0 < n →
      ((∀ j, t ≤ j → j < 9999 →
          (sfn_try env (sfn_before env st file j) file (j : Int)).2 ≠ 0) →
        sfn_tail_loop env file n (sfn_before env st file t) (t : Int) =
          (sfn_before env st file 9999, 9999)) ∧
      (∀ j, t ≤ j → j < 9999 →
        (sfn_try env (sfn_before env st file j) file (j : Int)).2 = 0 →
        (∀ i, t ≤ i → i < j →
          (sfn_try env (sfn_before env st file i) file (i : Int)).2 ≠ 0) →
        sfn_tail_loop env file n (sfn_before env st file t) (t : Int) =
          ((sfn_try env (sfn_before env st file j) file (j : Int)).1, (j : Int))) := by
  intro n
  induction n with
  | zero => intro t _ h; exact absurd h (Nat.lt_irrefl 0)
  | succ n ih =>
    intro t ht _
    rw [sfn_tail_loop_succ]
    refine ⟨?_, ?_⟩
    · intro hall
      rw [if_neg (hall t (Nat.le_refl _) (by omega))]
      by_cases hlast : (t : Int) + 1 < 9999
      · rw [if_pos hlast]
        have h1 := (ih (t + 1) (by omega) (by omega)).1
          (fun j hj1 hj2 => hall j (by omega) hj2)
        rw [← h1]
        rfl
      · rw [if_neg hlast]
        have ht' : t = 9998 := by omega
        subst ht'
        rfl
    · intro j hj1 hj2 hz hbefore
      by_cases hjt : j = t
      · subst hjt
        rw [if_pos hz]
      · rw [if_neg (hbefore t (Nat.le_refl _) (by omega))]
        rw [if_pos (by omega)]
        have h1 := (ih (t + 1) (by omega) (by omega)).2 j (by omega) hj2 hz
          (fun i hi1 hi2 => hbefore i (by omega) hi2)
        rw [← h1]
        rfl

/-- With long file names built in, the short-name step fails exactly when
the untailed name and the tails 1 to 9998 are all in the directory. -/
theorem create_sfn_exhausted (env : Env D) (st : Lib D) (file : Nat)
    (hlfn : env.FATFS_INC_LFN_SUPPORT = true) :
    (create_sfn env st file).2 = false ↔
      ∀ k, k < 9999 → (sfn_try env (sfn_before env st file k) file (k : Int)).2 ≠ 0 := by
  have hs := sfn_tail_loop_spec env st file 9999 0 (by omega) (by omega)
  have he : create_sfn env st file =
      ((sfn_tail_loop env file 9999 st 0).1,
        decide ((sfn_tail_loop env file 9999 st 0).2 ≠ 9999)) := by
    unfold create_sfn
    rw [if_pos hlfn]
  rw [he]
  constructor
  · intro h
    by_contra hne
    push_neg at hne
    have hex : ∃ k, k < 9999 ∧
        (sfn_try env (sfn_before env st file k) file (k : Int)).2 = 0 := hne
    classical
    have hj := Nat.find_spec hex
    have hmin := fun i (hi : i < Nat.find hex) => Nat.find_min hex hi
    have h2 := hs.2 (Nat.find hex) (Nat.zero_le _) hj.1 hj.2
      (fun i _ hi hz => hmin i hi ⟨by omega, hz⟩)
    have h3 : sfn_tail_loop env file 9999 st 0 = _ := h2
    rw [h3] at h
    simp only [decide_eq_false_iff_not, not_not] at h
    omega
  · intro hall
    have h2 := hs.1 (fun j _ hj => hall j hj)
    have h3 : sfn_tail_loop env file 9999 st 0 = _ := h2
    rw [h3]
    simp

/-- The short-name step takes the first name, of the untailed one and the
tails 1 to 9998 in this order, that is not in the directory. -/
theorem create_sfn_first (env : Env D) (st : Lib D) (file : Nat)
    (hlfn : env.FATFS_INC_LFN_SUPPORT = true) (j : Nat) (hj : j < 9999)
    (hz : (sfn_try env (sfn_before env st file j) file (j : Int)).2 = 0)
    (hbefore : ∀ i, i < j → (sfn_try env (sfn_before env st file i) file (i : Int)).2 ≠ 0) :
    create_sfn env st file = ((sfn_try env (sfn_before env st file j) file (j : Int)).1, true) := by
  have hs := (sfn_tail_loop_spec env st file 9999 0 (by omega) (by omega)).2 j (Nat.zero_le _)
    hj hz (fun i _ hi => hbefore i hi)
  have h3 : sfn_tail_loop env file 9999 st 0 = _ := hs
  unfold create_sfn
  rw [if_pos hlfn]
  simp only []
  rw [h3]
  simp only [Prod.mk.injEq, true_and, decide_eq_true_eq]
  omega

theorem sfn_try_fields (env : Env D) (s : Lib D) (file : Nat) (t : Int) :
    ((sfn_try env s file t).1._files file).filename = (s._files file).filename ∧
    ((sfn_try env s file t).1._files file).parentcluster = (s._files file).parentcluster ∧
    ((sfn_try env s file t).1._files file).shortfilename =
      (if t ≠ 0 then env.lfn_generate_tail (env.lfn_create_sfn (s._files file).filename).2 t
        else (env.lfn_create_sfn (s._files file).filename).2) ∧
    (sfn_try env s file t).2 =
      (env.sfn_exists s._fs.vol (s._files file).parentcluster
        (if t ≠ 0 then env.lfn_generate_tail (env.lfn_create_sfn (s._files file).filename).2 t
          else (env.lfn_create_sfn (s._files file).filename).2)).2 := by
  unfold sfn_try fatfs_sfn_exists
  simp

theorem sfn_before_fields (env : Env D) (st : Lib D) (file : Nat) :
    ∀ k, ((sfn_before env st file k)._files file).filename = (st._files file).filename ∧
      ((sfn_before env st file k)._files file).parentcluster =
        (st._files file).parentcluster := by
  intro k
  induction k with
  | zero => exact ⟨rfl, rfl⟩
  | succ n ih =>
    obtain ⟨a1, a2, -, -⟩ := sfn_try_fields env (sfn_before env st file n) file (n : Int)
    show ((sfn_try env (sfn_before env st file n) file (n : Int)).1._files file).filename = _ ∧
      ((sfn_try env (sfn_before env st file n) file (n : Int)).1._files file).parentcluster = _
    rw [a1, a2]
    exact ih

/-- The call `_create_file` returns a handle only after a short-name step
that found a name. -/
theorem _create_file_needs_sfn (env : Env D) (st : Lib D) (path : String) (f : Nat)
    (h : (_create_file env st path).2 = some f) :
    ∃ s, (create_sfn env s f).2 = true := by
  revert h
  unfold _create_file
  split_ifs
  · intro h; simp at h
  · split
    · intro h; simp at h
    · split
      · intro h; simp at h
      · try simp only []
        split_ifs
        · intro h; simp at h
        · intro h; simp at h
        · split
          · intro h; simp at h
          · rename_i s2 heq
            try simp only []
            split_ifs
            · intro h; simp at h
            · intro h
              simp only [Option.some.injEq] at h
              subst h
              exact ⟨_, congrArg Prod.snd heq⟩

/-- The call `_create_directory` returns 1 only after a short-name step that
found a name. -/
theorem _create_directory_needs_sfn (env : Env D) (st : Lib D) (path : String)
    (h : (_create_directory env st path).2 = 1) :
    ∃ s f, (create_sfn env s f).2 = true := by
  revert h
  unfold _create_directory
  split
  · intro h; simp at h
  · split
    · intro h; simp at h
    · try simp only []
      split_ifs
      · intro h; simp at h
      · intro h; simp at h
      · split
        · intro h; simp at h
        · split
          · intro h; simp at h
          · rename_i s2 heq
            intro _
            exact ⟨_, _, congrArg Prod.snd heq⟩

/-- In the directory of `Vol.tail_env`, where only the name with the tail
9999 is free, the short-name step fails in every state. -/
theorem create_sfn_tail_env (s : Lib Vol) (f : Nat) :
    (create_sfn Vol.tail_env s f).2 = false := by
  rw [create_sfn_exhausted Vol.tail_env s f rfl]
  intro k hk
  rw [(sfn_try_fields Vol.tail_env _ f (k : Int)).2.2.2]
  have hlen : ∀ name : String, (Vol.sfn name).length = 11 := by
    intro name
    unfold Vol.sfn
    simp
  by_cases h0 : (k : Int) ≠ 0
  · rw [if_pos h0]
    show (if (Vol.sfn _ ++ [126, (k : Int).toNat]) = Vol.sfn "b" ++ [126, 9999] then (0 : Int)
      else 1) ≠ 0
    rw [if_neg]
    · decide
    · intro he
      have h1 := congrArg List.getLast? he
      simp at h1
      omega
  · rw [if_neg h0]
    show (if Vol.sfn _ = Vol.sfn "b" ++ [126, 9999] then (0 : Int) else 1) ≠ 0
    rw [if_neg]
    · decide
    · intro he
      have h1 := congrArg List.length he
      rw [hlen] at h1
      simp [hlen] at h1

theorem _create_directory_result (env : Env D) (st : Lib D) (path : String) :
    (_create_directory env st path).2 = 0 ∨ (_create_directory env st path).2 = 1 := by
  unfold _create_directory
  split
  · exact Or.inl rfl
  · split
    · exact Or.inl rfl
    · try simp only []
      split_ifs
      · exact Or.inl rfl
      · exact Or.inl rfl
      · split
        · exact Or.inl rfl
        · split
          · exact Or.inl rfl
          · try simp only []
            split_ifs
            · exact Or.inl rfl
            · exact Or.inr rfl

/-- C21, as the code has it: with long file names built in, the short-name
step of `_create_file` and `_create_directory` asks `fatfs_sfn_exists` for
the untailed name (pass 0) and then for the tail of number `k` (pass `k`),
`k` from 1 to 9998, in the parent cluster of the record; it fails exactly
when all of these 9999 names are in the directory, and otherwise leaves in
the record the first of them that is not; the tail 9999 is never tried.
`_create_file` returns a handle, and `_create_directory` 1, only after a
short-name step that found a name. -/
theorem create_sfn_tails (env : Env D) (st : Lib D) (file : Nat)
    (hlfn : env.FATFS_INC_LFN_SUPPORT = true) :
    (∀ k, (sfn_try env (sfn_before env st file k) file (k : Int)).2 =
      (env.sfn_exists (sfn_before env st file k)._fs.vol (st._files file).parentcluster
        (if (k : Int) ≠ 0 then
          env.lfn_generate_tail (env.lfn_create_sfn (st._files file).filename).2 (k : Int)
        else (env.lfn_create_sfn (st._files file).filename).2)).2) ∧
    ((create_sfn env st file).2 = false ↔
      ∀ k, k < 9999 → (sfn_try env (sfn_before env st file k) file (k : Int)).2 ≠ 0) ∧
    (∀ j, j < 9999 →
      (sfn_try env (sfn_before env st file j) file (j : Int)).2 = 0 →
      (∀ i, i < j → (sfn_try env (sfn_before env st file i) file (i : Int)).2 ≠ 0) →
      (create_sfn env st file).2 = true ∧
      ((create_sfn env st file).1._files file).shortfilename =
        (if (j : Int) ≠ 0 then
          env.lfn_generate_tail (env.lfn_create_sfn (st._files file).filename).2 (j : Int)
        else (env.lfn_create_sfn (st._files file).filename).2)) ∧
    (∀ (s : Lib D) (path : String) (f : Nat), (_create_file env s path).2 = some f →
      ∃ s', (create_sfn env s' f).2 = true) ∧
    (∀ (s : Lib D) (path : String), (_create_directory env s path).2 = 1 →
      ∃ s' f, (create_sfn env s' f).2 = true) := by
  refine ⟨?_, create_sfn_exhausted env st file hlfn, ?_, ?_, ?_⟩
  · intro k
    obtain ⟨b1, b2⟩ := sfn_before_fields env st file k
    rw [(sfn_try_fields env _ file (k : Int)).2.2.2, b1, b2]
  · intro j hj hz hbefore
    obtain ⟨b1, -⟩ := sfn_before_fields env st file j
    rw [create_sfn_first env st file hlfn j hj hz hbefore]
    exact ⟨rfl, by rw [(sfn_try_fields env _ file (j : Int)).2.2.1, b1]⟩
  · intro s path f h
    exact _create_file_needs_sfn env s path f h
  · intro s path h
    exact _create_directory_needs_sfn env s path h

/-- C21 at a concrete state: record 1 is named `a` and the directory holds
the short name of `a`; the untailed name is taken and the tail 1 is free, so
the step succeeds with the name of tail 1. -/
theorem create_sfn_tails_witness :
    (create_sfn Vol.env (Vol.opened (Vol.with_file 4 10 1) "r").1 1).2 = true ∧
    ((create_sfn Vol.env (Vol.opened (Vol.with_file 4 10 1) "r").1 1).1._files 1).shortfilename =
      [65, 32, 32, 32, 32, 32, 32, 32, 32, 126, 49] :=
  (create_sfn_tails Vol.env (Vol.opened (Vol.with_file 4 10 1) "r").1 1 rfl).2.2.1 1
    (by decide) (by decide)
    (fun i hi => by
      have h0 : i = 0 := by omega
      subst h0
      decide)

/-- C21 fails as stated: in a directory where every short name is taken but
the one with the tail 9999, `_create_file` returns NULL and
`_create_directory` returns 0 for the new name `b`, though a tail not above
9999 is free; on the same volume with an empty directory both succeed. -/
theorem create_fails_with_tail_9999_free :
    (Vol.tail_env.sfn_exists (Vol.mounted (Vol.empty 6 7))._fs.vol 2
      (Vol.tail_env.lfn_generate_tail (Vol.tail_env.lfn_create_sfn "b").2 9999)).2 = 0 ∧
    (_create_file Vol.tail_env (Vol.mounted (Vol.empty 6 7)) "/b").2 = none ∧
    (_create_directory Vol.tail_env (Vol.mounted (Vol.empty 6 7)) "/b").2 = 0 ∧
    (_create_file Vol.env (Vol.mounted (Vol.empty 6 7)) "/b").2 = some 1 ∧
    (_create_directory Vol.env (Vol.mounted (Vol.empty 6 7)) "/b").2 = 1 := by
  refine ⟨by decide, ?_, ?_, by decide, by decide⟩
  · cases h : (_create_file Vol.tail_env (Vol.mounted (Vol.empty 6 7)) "/b").2 with
    | none => rfl
    | some f =>
      obtain ⟨s, hs⟩ := _create_file_needs_sfn Vol.tail_env _ "/b" f h
      rw [create_sfn_tail_env s f] at hs
      exact absurd hs (by decide)
  · rcases _create_directory_result Vol.tail_env (Vol.mounted (Vol.empty 6 7)) "/b" with h | h
    · exact h
    · obtain ⟨s, f, hs⟩ := _create_directory_needs_sfn Vol.tail_env _ "/b" h
      rw [create_sfn_tail_env s f] at hs
      exact absurd hs (by decide)
/-! ## A failed open and the pool -/

theorem LinksKept_start (env : Env D) (st : Lib D) (lf lo : List Nat)
    (hp : PoolInv env.FATFS_MAX_OPEN_FILES st lf lo) : LinksKept env st lf lo (st, none) :=
  ⟨rfl, fun _ => ⟨rfl, rfl, fun _ => rfl, hp⟩⟩

theorem LinksKept_frame (env : Env D) (st s' : Lib D) (lf lo : List Nat)
    (r : Lib D × Option Nat) (h : LinksKept env st lf lo r) (hs : SamePool s' r.1) :
    LinksKept env st lf lo (s', r.2) := by
  obtain ⟨h1, h2⟩ := h
  obtain ⟨x1, x2, x3⟩ := heads_fields _ _ hs.1
  have hn : ∀ g, (s'._files g).next = (r.1._files g).next := fun g => (link_fields _ _ (hs.2 g)).1
  refine ⟨x1.trans h1, ?_⟩
  intro hnone
  obtain ⟨a2, a3, a4, a5⟩ := h2 hnone
  exact ⟨x2.trans a2, x3.trans a3, fun g => (hn g).trans (a4 g),
    PoolInv_congr _ _ _ lf lo x2 x3 hn a5⟩

/-- One call of `_open_file` or `_create_file` that returns NULL leaves the
lists as they were: the record it allocated is back at the head of the free
list. -/
theorem LinksKept_outcome (env : Env D) (st : Lib D) (path : String) (r : Lib D × Option Nat)
    (lf lo : List Nat) (hp : PoolInv env.FATFS_MAX_OPEN_FILES st lf lo)
    (ho : OpenOutcome env st path r) : LinksKept env st lf lo r := by
  rcases ho with rfl | ⟨f, hfree, hcase⟩
  · exact LinksKept_start env st lf lo hp
  · have hN := PoolInv_pos _ st lf lo f hp hfree
    obtain ⟨p1, -, -, -, -, -, -⟩ := open_named_fields env (_allocate_file st).1 f path
    obtain ⟨a1, -, -, -, -, -, -⟩ := _allocate_file_fields st f hfree
    rcases hcase with ⟨h2, hs, -⟩ | ⟨h2, X, hx, he⟩
    · obtain ⟨x1, -, -⟩ := heads_fields _ _ (hs.1.trans p1)
      refine ⟨x1.trans a1, ?_⟩
      intro hnone
      rw [h2] at hnone
      cases hnone
    · obtain ⟨f1, f2, f3, f4, -⟩ := _free_file_after_alloc env st X f path hfree hN hx
      unfold LinksKept
      rw [he]
      exact ⟨f1, fun _ => ⟨f2, f3, f4, PoolInv_congr _ st _ lf lo f2 f3 f4 hp⟩⟩

theorem LinksKept_step (env : Env D) (st s : Lib D) (lf lo : List Nat) (path : String)
    (r : Lib D × Option Nat) (h : LinksKept env st lf lo (s, none))
    (ho : OpenOutcome env s path r) : LinksKept env st lf lo r := by
  obtain ⟨h1, h2⟩ := h
  obtain ⟨a2, a3, a4, a5⟩ := h2 rfl
  obtain ⟨c1, c2⟩ := LinksKept_outcome env s path r lf lo a5 ho
  refine ⟨c1.trans h1, ?_⟩
  intro hnone
  obtain ⟨d2, d3, d4, d5⟩ := c2 hnone
  exact ⟨d2.trans a2, d3.trans a3, fun g => (d4 g).trans (a4 g), d5⟩

/-- The lists after `fl_ifopen` in an initialised library. -/
theorem fl_ifopen_links (env : Env D) (st : Lib D) (path mode : Option String)
    (checkfile : Int) (lf lo : List Nat) (hi : st._filelib_init ≠ 0)
    (hp : PoolInv env.FATFS_MAX_OPEN_FILES st lf lo) :
    LinksKept env st lf lo (fl_ifopen env st path mode checkfile) := by
  have h0 := LinksKept_start env st lf lo hp
  unfold fl_ifopen
  rw [CHECK_FL_INIT_of_init env st hi]
  by_cases hv : st._filelib_valid = 0
  · simp only [hv, if_true]
    exact h0
  · cases path with
    | none => simp only [hv, if_false]; exact h0
    | some path =>
      cases mode with
      | none => simp only [hv, if_false]; exact h0
      | some mode =>
        simp only [hv, if_false]
        generalize (if st._fs.disk_io_write_sector = false then
            parse_mode mode &&& (255 ^^^ (FILE_CREATE ||| FILE_WRITE ||| FILE_APPEND))
          else parse_mode mode) = flags
        have hL : LinksKept env st lf lo (FL_LOCK st, none) :=
          LinksKept_frame env st _ lf lo _ h0 (SamePool_LOCK st)
        have h1 : LinksKept env st lf lo
            (if flags &&& FILE_READ ≠ 0 then _open_file env (FL_LOCK st) path checkfile
              else (FL_LOCK st, none)) := by
          split_ifs
          · exact LinksKept_step env st _ lf lo path _ hL (_open_file_outcome env _ path checkfile)
          · exact hL
        generalize (if flags &&& FILE_READ ≠ 0 then _open_file env (FL_LOCK st) path checkfile
              else (FL_LOCK st, none)) = r1 at h1 ⊢
        have h2 : LinksKept env st lf lo
            (if r1.2 = none ∧ flags &&& FILE_CREATE ≠ 0 then _create_file env r1.1 path
              else r1) := by
          split_ifs with hc
          · have : r1 = (r1.1, none) := Prod.ext rfl hc.1
            rw [this] at h1
            exact LinksKept_step env st _ lf lo path _ h1 (_create_file_outcome env _ path)
          · exact h1
        generalize (if r1.2 = none ∧ flags &&& FILE_CREATE ≠ 0 then _create_file env r1.1 path
              else r1) = r2 at h2 ⊢
        have h3 : LinksKept env st lf lo
            (if flags &&& FILE_READ = 0 ∧ (flags &&& FILE_CREATE ≠ 0 ∧ r2.2 = none) ∧
                flags &&& (FILE_WRITE ||| FILE_APPEND) ≠ 0 then
              _open_file env r2.1 path checkfile
            else r2) := by
          split_ifs with hc
          · have : r2 = (r2.1, none) := Prod.ext rfl hc.2.1.2
            rw [this] at h2
            exact LinksKept_step env st _ lf lo path _ h2 (_open_file_outcome env _ path checkfile)
          · exact h2
        generalize (if flags &&& FILE_READ = 0 ∧ (flags &&& FILE_CREATE ≠ 0 ∧ r2.2 = none) ∧
                flags &&& (FILE_WRITE ||| FILE_APPEND) ≠ 0 then
              _open_file env r2.1 path checkfile
            else r2) = r3 at h3 ⊢
        refine LinksKept_frame env st _ lf lo r3 h3 ((SamePool_UNLOCK _).trans ?_)
        cases r3.2 with
        | none => exact SamePool.refl _
        | some file => exact SamePool_setFile _ _ _ (by rfl)

/-- C30: in an initialised library whose pool is well formed, with free list
`lf` and open list `lo`, a call of `_open_file`, of `_create_file` or of
`fl_ifopen` that returns NULL leaves both list heads and the link of every
record as they were, so the free list is still `lf` and the open list still
`lo`: the record the call allocated is back at the head of the free list. -/
theorem failed_open_keeps_lists (env : Env D) (st : Lib D) (lf lo : List Nat)
    (hi : st._filelib_init ≠ 0) (hp : PoolInv env.FATFS_MAX_OPEN_FILES st lf lo) :
    (∀ (path : String) (checkfile : Int), (_open_file env st path checkfile).2 = none →
      (_open_file env st path checkfile).1._open_file_list = st._open_file_list ∧
      (_open_file env st path checkfile).1._free_file_list = st._free_file_list ∧
      (∀ g, ((_open_file env st path checkfile).1._files g).next = (st._files g).next) ∧
      PoolInv env.FATFS_MAX_OPEN_FILES (_open_file env st path checkfile).1 lf lo) ∧
    (∀ (path : String), (_create_file env st path).2 = none →
      (_create_file env st path).1._open_file_list = st._open_file_list ∧
      (_create_file env st path).1._free_file_list = st._free_file_list ∧
      (∀ g, ((_create_file env st path).1._files g).next = (st._files g).next) ∧
      PoolInv env.FATFS_MAX_OPEN_FILES (_create_file env st path).1 lf lo) ∧
    (∀ (path mode : Option String) (checkfile : Int),
      (fl_ifopen env st path mode checkfile).2 = none →
      (fl_ifopen env st path mode checkfile).1._open_file_list = st._open_file_list ∧
      (fl_ifopen env st path mode checkfile).1._free_file_list = st._free_file_list ∧
      (∀ g, ((fl_ifopen env st path mode checkfile).1._files g).next = (st._files g).next) ∧
      PoolInv env.FATFS_MAX_OPEN_FILES (fl_ifopen env st path mode checkfile).1 lf lo) := by
  refine ⟨?_, ?_, ?_⟩
  · intro path checkfile h
    exact (LinksKept_outcome env st path _ lf lo hp (_open_file_outcome env st path checkfile)).2 h
  · intro path h
    exact (LinksKept_outcome env st path _ lf lo hp (_create_file_outcome env st path)).2 h
  · intro path mode checkfile h
    exact (fl_ifopen_links env st path mode checkfile lf lo hi hp).2 h

/-- C30 at a concrete state: the file `a` is open (handle 1), record 0 is
free; opening the missing file `b` for reading fails, and so does opening
`a` a second time for writing, where `_open_file` and `_create_file` both
allocate record 0 and give it back; the lists are as before. -/
theorem failed_open_keeps_lists_witness :
    PoolInv 2 (fl_ifopen Vol.env (Vol.opened (Vol.with_file 4 10 1) "r").1 (some "/b")
      (some "r") 1).1 [0] [1] ∧
    PoolInv 2 (fl_ifopen Vol.env (Vol.opened (Vol.with_file 4 10 1) "r").1 (some "/a")
      (some "w") 1).1 [0] [1] :=
  ⟨((failed_open_keeps_lists Vol.env (Vol.opened (Vol.with_file 4 10 1) "r").1 [0] [1]
      (by decide) (by decide)).2.2 (some "/b") (some "r") 1 (by decide)).2.2.2,
    ((failed_open_keeps_lists Vol.env (Vol.opened (Vol.with_file 4 10 1) "r").1 [0] [1]
      (by decide) (by decide)).2.2 (some "/a") (some "w") 1 (by decide)).2.2.2⟩
/-! ## The last-lookup shortcut -/

theorem naive_walk_lt (nxt : Nat → Nat) (start : Nat) (hs : start < 4294967296)
    (hn : ∀ c, nxt c < 4294967296) : ∀ k, naive_walk nxt start k < 4294967296 := by
  intro k
  cases k with
  | zero => exact hs
  | succ n => exact hn _

/-- The walk of `_read_sector` from index `i` at the cluster `i` hops from
the start reaches the cluster `K` hops from the start, when the volume keeps
answering with the chain `nxt` and the cache holds entries of that chain
only. -/
theorem read_walk_naive (env : Env D) (file K : Nat) (nxt : Nat → Nat) (start : Nat)
    (V : D → Prop)
    (hfind : ∀ v c, V v → V (env.find_next_cluster v c).1 ∧ (env.find_next_cluster v c).2 = nxt c)
    (hset : ∀ v i, V v →
      V (env.cache_set_next_cluster v file i (naive_walk nxt start (i + 1))))
    (hget : ∀ v i n, V v → env.cache_get_next_cluster v file i = some n →
      n = naive_walk nxt start (i + 1)) :
    ∀ (fuel : Nat) (st : Lib D) (i : Nat), i + fuel = K → V st._fs.vol →
      (read_walk env file K fuel st i (naive_walk nxt start i)).2 = naive_walk nxt start K ∧
      V (read_walk env file K fuel st i (naive_walk nxt start i)).1._fs.vol ∧
      (read_walk env file K fuel st i (naive_walk nxt start i)).1._fs.sectors_per_cluster =
        st._fs.sectors_per_cluster := by
  intro fuel
  induction fuel with
  | zero =>
    intro st i hi hV
    have : i = K := by omega
    subst this
    exact ⟨rfl, hV, rfl⟩
  | succ n ih =>
    intro st i hi hV
    unfold read_walk
    rw [if_pos (by omega)]
    cases hc : env.cache_get_next_cluster st._fs.vol file i with
    | some c =>
      simp only []
      rw [hget _ _ _ hV hc]
      exact ih st (i + 1) (by omega) hV
    | none =>
      simp only []
      obtain ⟨f1, f2⟩ := hfind st._fs.vol (naive_walk nxt start i) hV
      have hstep : (fatfs_find_next_cluster env st (naive_walk nxt start i)).2 =
          naive_walk nxt start (i + 1) := f2
      rw [hstep]
      have hV' : V (fatfs_cache_set_next_cluster env
          (fatfs_find_next_cluster env st (naive_walk nxt start i)).1 file i
          (naive_walk nxt start (i + 1)))._fs.vol := hset _ _ f1
      obtain ⟨r1, r2, r3⟩ := ih _ (i + 1) (by omega) hV'
      exact ⟨r1, r2, r3⟩

/-- The first part of `_read_sector` is `resolve_cluster`; the rest reads the
sector of the cluster it resolved, or fails at the end of the chain. -/
theorem _read_sector_resolve (env : Env D) (st : Lib D) (file offset : Nat) (buffer : Bytes) :
    _read_sector env st file offset buffer =
      if (resolve_cluster env st file offset).2 = env.FAT32_LAST_CLUSTER then
        ((resolve_cluster env st file offset).1, false, buffer)
      else
        fatfs_sector_read env (resolve_cluster env st file offset).1
          (to_uint32 (env.lba_of_cluster (resolve_cluster env st file offset).1._fs.vol
            (resolve_cluster env st file offset).2 +
            (to_uint32 offset -
              to_uint32 offset / st._fs.sectors_per_cluster * st._fs.sectors_per_cluster)))
          buffer := by
  unfold _read_sector resolve_cluster
  simp only []

/-- What `resolve_cluster` returns and records, when the volume keeps
answering with the chain `nxt`. -/
theorem resolve_cluster_naive (env : Env D) (st : Lib D) (file s : Nat) (nxt : Nat → Nat)
    (V : D → Prop) (hbits : 32 ≤ env.ULONG_BITS) (hs : s < 4294967296)
    (hV : V st._fs.vol)
    (hfind : ∀ v c, V v → V (env.find_next_cluster v c).1 ∧ (env.find_next_cluster v c).2 = nxt c)
    (hset : ∀ v i, V v → V (env.cache_set_next_cluster v file i
      (naive_walk nxt (to_uint32 (st._files file).startcluster) (i + 1))))
    (hget : ∀ v i n, V v → env.cache_get_next_cluster v file i = some n →
      n = naive_walk nxt (to_uint32 (st._files file).startcluster) (i + 1))
    (hn32 : ∀ c, nxt c < 4294967296)
    (hlook : ((st._files file).last_fat_lookup.ClusterIdx = 0xFFFFFFFF ∧
        (st._files file).last_fat_lookup.CurrentCluster = 0xFFFFFFFF ∧
        s / st._fs.sectors_per_cluster ≠ 0xFFFFFFFF) ∨
      ((st._files file).last_fat_lookup.ClusterIdx < 4294967296 ∧
        (st._files file).last_fat_lookup.CurrentCluster =
          naive_walk nxt (to_uint32 (st._files file).startcluster)
            (st._files file).last_fat_lookup.ClusterIdx)) :
    (resolve_cluster env st file s).2 =
      naive_walk nxt (to_uint32 (st._files file).startcluster) (s / st._fs.sectors_per_cluster) ∧
    ((resolve_cluster env st file s).1._files file).last_fat_lookup =
      (if naive_walk nxt (to_uint32 (st._files file).startcluster)
          (s / st._fs.sectors_per_cluster) ≠ env.FAT32_LAST_CLUSTER then
        { ClusterIdx := s / st._fs.sectors_per_cluster,
          CurrentCluster := naive_walk nxt (to_uint32 (st._files file).startcluster)
            (s / st._fs.sectors_per_cluster) }
      else (st._files file).last_fat_lookup) ∧
    (∀ g, g ≠ file → (resolve_cluster env st file s).1._files g = st._files g) ∧
    V (resolve_cluster env st file s).1._fs.vol := by
  have h32 : to_uint32 s = s := Nat.mod_eq_of_lt hs
  have hstart : to_uint32 (st._files file).startcluster < 4294967296 :=
    Nat.mod_lt _ (by norm_num)
  have hlt := naive_walk_lt nxt _ hstart hn32
  have hk : s / st._fs.sectors_per_cluster < 4294967296 :=
    lt_of_le_of_lt (Nat.div_le_self _ _) hs
  have hpow : 4294967296 ≤ 2 ^ env.ULONG_BITS := by
    calc 4294967296 = 2 ^ 32 := by norm_num
      _ ≤ 2 ^ env.ULONG_BITS := Nat.pow_le_pow_right (by norm_num) hbits
  have hwalk := read_walk_naive env file (s / st._fs.sectors_per_cluster) nxt
    (to_uint32 (st._files file).startcluster) V hfind hset hget
  unfold resolve_cluster
  simp only [h32]
  by_cases h1 : s / st._fs.sectors_per_cluster = (st._files file).last_fat_lookup.ClusterIdx
  · rw [if_pos h1]
    rcases hlook with ⟨a1, -, a3⟩ | ⟨b1, b2⟩
    · exact absurd (h1.trans a1) a3
    · have hc : to_uint32 (st._files file).last_fat_lookup.CurrentCluster =
          naive_walk nxt (to_uint32 (st._files file).startcluster)
            (s / st._fs.sectors_per_cluster) := by
        rw [b2, h1]
        exact Nat.mod_eq_of_lt (hlt _)
      refine ⟨hc, ?_, fun _ _ => rfl, hV⟩
      simp only []
      split_ifs
      · rw [h1, ← b2]
      · rfl
  · rw [if_neg h1]
    by_cases h2 : s / st._fs.sectors_per_cluster ≠ 0 ∧ s / st._fs.sectors_per_cluster =
        ((st._files file).last_fat_lookup.ClusterIdx + 1) % 2 ^ env.ULONG_BITS
    · rw [if_pos h2]
      simp only []
      rcases hlook with ⟨a1, -, -⟩ | ⟨b1, b2⟩
      · exfalso
        rw [a1] at h2
        obtain ⟨h20, h21⟩ := h2
        by_cases hw : 4294967296 < 2 ^ env.ULONG_BITS
        · rw [Nat.mod_eq_of_lt (by omega)] at h21
          omega
        · have : 2 ^ env.ULONG_BITS = 4294967296 := by omega
          rw [this] at h21
          omega
      · obtain ⟨h20, h21⟩ := h2
        have hidx : s / st._fs.sectors_per_cluster =
            (st._files file).last_fat_lookup.ClusterIdx + 1 := by
          by_cases hw : (st._files file).last_fat_lookup.ClusterIdx + 1 < 2 ^ env.ULONG_BITS
          · rw [Nat.mod_eq_of_lt hw] at h21; exact h21
          · have : (st._files file).last_fat_lookup.ClusterIdx + 1 = 2 ^ env.ULONG_BITS :=
              Nat.le_antisymm ((Nat.succ_le_of_lt b1).trans hpow) (Nat.le_of_not_lt hw)
            rw [this, Nat.mod_self] at h21
            exact absurd h21 h20
        have hi32 : to_uint32 (st._files file).last_fat_lookup.ClusterIdx =
            (st._files file).last_fat_lookup.ClusterIdx := Nat.mod_eq_of_lt b1
        have hc32 : to_uint32 (st._files file).last_fat_lookup.CurrentCluster =
            naive_walk nxt (to_uint32 (st._files file).startcluster)
              (st._files file).last_fat_lookup.ClusterIdx := by
          rw [b2]; exact Nat.mod_eq_of_lt (hlt _)
        rw [hi32, hc32]
        obtain ⟨w1, w2, -⟩ := hwalk (s / st._fs.sectors_per_cluster -
          (st._files file).last_fat_lookup.ClusterIdx) st
          (st._files file).last_fat_lookup.ClusterIdx (by omega) hV
        have wf := read_walk_files env file (s / st._fs.sectors_per_cluster)
          (s / st._fs.sectors_per_cluster - (st._files file).last_fat_lookup.ClusterIdx) st
          (st._files file).last_fat_lookup.ClusterIdx
          (naive_walk nxt (to_uint32 (st._files file).startcluster)
            (st._files file).last_fat_lookup.ClusterIdx)
        rw [w1]
        split_ifs with hL
        · refine ⟨rfl, ?_, ?_, w2⟩
          · simp
          · intro g hg
            simp only [setFile_files, if_neg hg, wf]
        · refine ⟨w1, ?_, ?_, w2⟩
          · rw [wf]
          · intro g _
            rw [wf]
    · rw [if_neg h2]
      simp only []
      obtain ⟨w1, w2, -⟩ := hwalk (s / st._fs.sectors_per_cluster - 0) st 0
        (by rw [Nat.sub_zero, Nat.zero_add]) hV
      have wf := read_walk_files env file (s / st._fs.sectors_per_cluster)
        (s / st._fs.sectors_per_cluster - 0) st 0
        (naive_walk nxt (to_uint32 (st._files file).startcluster) 0)
      have hz : naive_walk nxt (to_uint32 (st._files file).startcluster) 0 =
          to_uint32 (st._files file).startcluster := rfl
      rw [hz] at w1 w2 wf
      rw [w1]
      split_ifs with hL
      · refine ⟨rfl, ?_, ?_, w2⟩
        · simp
        · intro g hg
          simp only [setFile_files, if_neg hg, wf]
      · refine ⟨w1, ?_, ?_, w2⟩
        · rw [wf]
        · intro g _
          rw [wf]

/-- The last-lookup shortcut under a cluster cache that holds entries of the
chain only: `_read_sector` resolves the cluster the naive walk reaches.  The
volume keeps answering `fatfs_find_next_cluster` with the chain `nxt`
(clusters are 32-bit values); every entry the cluster cache returns for the
file is a cluster of that chain at its index, and stays so when the walk
stores such an entry; the sector offset `s`
is a `UINT32`; the pair `last_fat_lookup` of the handle is the sentinel
(0xFFFFFFFF, 0xFFFFFFFF), with `s / sectors_per_cluster` other than
0xFFFFFFFF, or a pair (index, cluster `index` hops from the start cluster).
Then the cluster `_read_sector` resolves is the one `k = s /
sectors_per_cluster` hops of `nxt` from the start cluster, the sector in the
cluster is `s % sectors_per_cluster`, the pair is (k, that cluster) when the
cluster is not `FAT32_LAST_CLUSTER` and as before otherwise, and
`_read_sector` fails at `FAT32_LAST_CLUSTER` and reads that sector of that
cluster otherwise. -/
theorem last_lookup_refines_walk (env : Env D) (st : Lib D) (file s : Nat) (nxt : Nat → Nat)
    (V : D → Prop) (buffer : Bytes) (hbits : 32 ≤ env.ULONG_BITS)
    (_hspc : 0 < st._fs.sectors_per_cluster) (hs : s < 4294967296)
    (hV : V st._fs.vol)
    (hfind : ∀ v c, V v → V (env.find_next_cluster v c).1 ∧ (env.find_next_cluster v c).2 = nxt c)
    (hset : ∀ v i, V v → V (env.cache_set_next_cluster v file i
      (naive_walk nxt (to_uint32 (st._files file).startcluster) (i + 1))))
    (hget : ∀ v i n, V v → env.cache_get_next_cluster v file i = some n →
      n = naive_walk nxt (to_uint32 (st._files file).startcluster) (i + 1))
    (hn32 : ∀ c, nxt c < 4294967296)
    (hlook : ((st._files file).last_fat_lookup.ClusterIdx = 0xFFFFFFFF ∧
        (st._files file).last_fat_lookup.CurrentCluster = 0xFFFFFFFF ∧
        s / st._fs.sectors_per_cluster ≠ 0xFFFFFFFF) ∨
      ((st._files file).last_fat_lookup.ClusterIdx < 4294967296 ∧
        (st._files file).last_fat_lookup.CurrentCluster =
          naive_walk nxt (to_uint32 (st._files file).startcluster)
            (st._files file).last_fat_lookup.ClusterIdx)) :
    (resolve_cluster env st file s).2 =
      naive_walk nxt (to_uint32 (st._files file).startcluster) (s / st._fs.sectors_per_cluster) ∧
    to_uint32 s - to_uint32 s / st._fs.sectors_per_cluster * st._fs.sectors_per_cluster =
      s % st._fs.sectors_per_cluster ∧
    ((_read_sector env st file s buffer).1._files file).last_fat_lookup =
      (if naive_walk nxt (to_uint32 (st._files file).startcluster)
          (s / st._fs.sectors_per_cluster) ≠ env.FAT32_LAST_CLUSTER then
        { ClusterIdx := s / st._fs.sectors_per_cluster,
          CurrentCluster := naive_walk nxt (to_uint32 (st._files file).startcluster)
            (s / st._fs.sectors_per_cluster) }
      else (st._files file).last_fat_lookup) ∧
    _read_sector env st file s buffer =
      (if naive_walk nxt (to_uint32 (st._files file).startcluster)
          (s / st._fs.sectors_per_cluster) = env.FAT32_LAST_CLUSTER then
        ((resolve_cluster env st file s).1, false, buffer)
      else
        fatfs_sector_read env (resolve_cluster env st file s).1
          (to_uint32 (env.lba_of_cluster (resolve_cluster env st file s).1._fs.vol
            (naive_walk nxt (to_uint32 (st._files file).startcluster)
              (s / st._fs.sectors_per_cluster)) + s % st._fs.sectors_per_cluster))
          buffer) := by
  obtain ⟨r1, r2, -, -⟩ := resolve_cluster_naive env st file s nxt V hbits hs hV hfind hset
    hget hn32 hlook
  have h32 : to_uint32 s = s := Nat.mod_eq_of_lt hs
  have hsec : to_uint32 s - to_uint32 s / st._fs.sectors_per_cluster *
      st._fs.sectors_per_cluster = s % st._fs.sectors_per_cluster := by
    rw [h32]
    have := Nat.div_add_mod s st._fs.sectors_per_cluster
    rw [Nat.mul_comm] at this
    omega
  have hrd : _read_sector env st file s buffer = _ :=
    _read_sector_resolve env st file s buffer
  rw [r1, hsec] at hrd
  refine ⟨r1, hsec, ?_, hrd⟩
  rw [hrd]
  split_ifs with hL
  · exact absurd hL (by assumption)
  · show ((resolve_cluster env st file s).1._files file).last_fat_lookup = _
    rw [r2, if_neg (not_not.mpr hL)]
  · show ((fatfs_sector_read env (resolve_cluster env st file s).1 _ buffer).1._files
      file).last_fat_lookup = _
    unfold fatfs_sector_read
    simp only [step_files]
    rw [r2, if_pos hL]

/-- A cluster cache kept as a faithful map whose entries for file 1 are
clusters of the chain 3, 4, 5 at their index returns such clusters only. -/
theorem CVol_chain_cache (v : CVol) (i n : Nat)
    (hv : v.vol.fat = (Vol.with_file 6 1500 3).fat ∧
      ∀ e, e ∈ v.cache → e.1 = 1 →
        e.2.2 = naive_walk (fun c => (Vol.env.find_next_cluster (Vol.with_file 6 1500 3) c).2)
          3 (e.2.1 + 1))
    (hn : CVol.env.cache_get_next_cluster v 1 i = some n) :
    n = naive_walk (fun c => (Vol.env.find_next_cluster (Vol.with_file 6 1500 3) c).2) 3
      (i + 1) := by
  have hn' : (v.cache.find? (fun e => decide (e.1 = 1 ∧ e.2.1 = i))).map (fun e => e.2.2) =
      some n := hn
  cases hf : v.cache.find? (fun e => decide (e.1 = 1 ∧ e.2.1 = i)) with
  | none => rw [hf] at hn'; cases hn'
  | some e =>
    rw [hf] at hn'
    have e1 : e.2.2 = n := Option.some.inj hn'
    have hp := List.find?_some hf
    have hm := List.mem_of_find?_eq_some hf
    simp only [decide_eq_true_eq] at hp
    rw [← e1, hv.2 e hm hp.1, hp.2]

/-- The shortcut at a concrete handle, with the cluster cache kept as a
faithful map: after `CVol.reread` the handle has the pair (0, 3) and the
cache holds the entry (index 0, cluster 4).  Sector 1 is resolved from the
pair with the next cluster taken from the cache, without a call of
`fatfs_find_next_cluster`: it is cluster 4, one hop from the start cluster 3,
and the pair becomes (1, 4). -/
theorem last_lookup_refines_walk_witness :
    (CVol.reread._files 1).last_fat_lookup.ClusterIdx = 0 ∧
    (CVol.reread._files 1).last_fat_lookup.CurrentCluster = 3 ∧
    CVol.reread._fs.vol.cache = [(1, 0, 4)] ∧
    (resolve_cluster CVol.env CVol.reread 1 1).2 = 4 ∧
    (resolve_cluster CVol.env CVol.reread 1 1).1.trace.map Event.tag =
      CVol.reread.trace.map Event.tag ∧
    ((_read_sector CVol.env CVol.reread 1 1 (fun _ => 0)).1._files 1).last_fat_lookup.ClusterIdx
      = 1 ∧
    ((_read_sector CVol.env CVol.reread 1 1
      (fun _ => 0)).1._files 1).last_fat_lookup.CurrentCluster = 4 := by
  have h := last_lookup_refines_walk CVol.env CVol.reread 1 1
    (fun c => (Vol.env.find_next_cluster (Vol.with_file 6 1500 3) c).2)
    (fun v => v.vol.fat = (Vol.with_file 6 1500 3).fat ∧
      ∀ e, e ∈ v.cache → e.1 = 1 →
        e.2.2 = naive_walk (fun c => (Vol.env.find_next_cluster (Vol.with_file 6 1500 3) c).2)
          3 (e.2.1 + 1))
    (fun _ => 0)
    (by decide) (by decide) (by decide) ⟨rfl, by decide⟩
    (fun v c hv => ⟨hv, by
      show (if v.vol.fat c ≥ 0x0FFFFFF8 ∨ v.vol.fat c < 2 then Vol.EOC else v.vol.fat c) = _
      rw [hv.1]
      rfl⟩)
    (fun v i hv => ⟨hv.1, by
      intro e he h1
      rcases List.mem_cons.mp he with h | h
      · rw [h]; rfl
      · exact hv.2 e h h1⟩)
    (fun v i n hv hn => CVol_chain_cache v i n hv hn)
    (fun c => by
      show (if (Vol.with_file 6 1500 3).fat c ≥ 0x0FFFFFF8 ∨ (Vol.with_file 6 1500 3).fat c < 2
        then Vol.EOC else (Vol.with_file 6 1500 3).fat c) < 4294967296
      split_ifs with hc
      · decide
      · omega)
    (Or.inr ⟨by decide, by decide⟩)
  obtain ⟨h1, -, h3, -⟩ := h
  refine ⟨by decide, by decide, by decide, h1.trans (by decide), by decide, ?_, ?_⟩
  · rw [h3]; decide
  · rw [h3]; decide

/-! ## `fl_fflush` -/

/-- C32: `fl_fflush` returns 0 for every handle, NULL or not.  When the
buffered sector is not dirty the call adds only the lock and unlock
callbacks to the trace, so no sector write, and leaves the volume and the
buffer as they were.  When it is dirty the call makes the one call
`_write_sector (file, address, sector)`; after it the dirty flag is 0 exactly
when that call succeeded; when it failed the dirty flag is as before; and in
both cases the bytes and the address of the buffered sector are as before. -/
theorem fl_fflush_write_back (env : Env D) (st : Lib D) (file : Nat) :
    (∀ f, (fl_fflush env st f).2 = 0) ∧
    ((st._files file).file_data.dirty = 0 →
      (fl_fflush env st (some file)).1.trace = st.trace ++ lock_events st ++ unlock_events st ∧
      (fl_fflush env st (some file)).1._fs = st._fs ∧
      ((fl_fflush env st (some file)).1._files file).file_data = (st._files file).file_data) ∧
    ((st._files file).file_data.dirty ≠ 0 →
      (fl_fflush env st (some file)).1.trace =
        (_write_sector env (FL_LOCK (CHECK_FL_INIT env st)) file
          (st._files file).file_data.address (st._files file).file_data.sector).1.trace ++
          unlock_events st ∧
      (((fl_fflush env st (some file)).1._files file).file_data.dirty = 0 ↔
        (_write_sector env (FL_LOCK (CHECK_FL_INIT env st)) file
          (st._files file).file_data.address (st._files file).file_data.sector).2 = true) ∧
      ((_write_sector env (FL_LOCK (CHECK_FL_INIT env st)) file
          (st._files file).file_data.address (st._files file).file_data.sector).2 = false →
        ((fl_fflush env st (some file)).1._files file).file_data.dirty =
          (st._files file).file_data.dirty) ∧
      ((fl_fflush env st (some file)).1._files file).file_data.sector =
        (st._files file).file_data.sector ∧
      ((fl_fflush env st (some file)).1._files file).file_data.address =
        (st._files file).file_data.address) := by
  have hfd : ((CHECK_FL_INIT env st)._files file).file_data = (st._files file).file_data :=
    CHECK_FL_INIT_proj (fun r => r.file_data) (fun _ _ => rfl) env st file
  have hfs := CHECK_FL_INIT_fs env st
  have htr := CHECK_FL_INIT_trace env st
  have hu : ∀ s : Lib D, s._fs.fl_unlock = st._fs.fl_unlock →
      unlock_events s = unlock_events st := by
    intro s hs; unfold unlock_events; rw [hs]
  have hl : lock_events (CHECK_FL_INIT env st) = lock_events st := by
    unfold lock_events; rw [hfs]
  revert hfd hfs htr hl
  generalize hs0 : CHECK_FL_INIT env st = s0
  intro hfd hfs htr hl
  have hw := _write_sector_Nest [12, 13, 14, 15, 16] 0 (fun _ h => h) env (FL_LOCK s0) file
    (st._files file).file_data.address (st._files file).file_data.sector
  have hwd := _write_sector_proj (fun r => r.file_data) (fun _ _ => rfl) env (FL_LOCK s0) file
    (st._files file).file_data.address (st._files file).file_data.sector file
  simp only [FL_LOCK_files] at hwd
  rw [hfd] at hwd
  refine ⟨?_, ?_, ?_⟩
  · intro f
    unfold fl_fflush
    cases f <;> rfl
  · intro hd
    unfold fl_fflush
    rw [hs0]
    simp only [FL_LOCK_files]
    have hd' : ¬ (s0._files file).file_data.dirty ≠ 0 := by rw [hfd]; exact fun h => h hd
    rw [if_neg hd']
    refine ⟨?_, ?_, ?_⟩
    · rw [FL_UNLOCK_trace, FL_LOCK_trace, hu _ (by rw [FL_LOCK_fs, hfs]), hl, htr]
    · rw [FL_UNLOCK_fs, FL_LOCK_fs, hfs]
    · rw [FL_UNLOCK_files, FL_LOCK_files, hfd]
  · intro hd
    unfold fl_fflush
    rw [hs0]
    simp only [FL_LOCK_files]
    have hd' : (s0._files file).file_data.dirty ≠ 0 := by rw [hfd]; exact hd
    rw [if_pos hd', hfd]
    have hfu : (_write_sector env (FL_LOCK s0) file (st._files file).file_data.address
        (st._files file).file_data.sector).1._fs.fl_unlock = st._fs.fl_unlock := by
      rw [hw.2.1, FL_LOCK_fs, hfs]
    by_cases hr : (_write_sector env (FL_LOCK s0) file (st._files file).file_data.address
        (st._files file).file_data.sector).2 = true
    · rw [if_pos hr]
      refine ⟨?_, ?_, ?_, ?_, ?_⟩
      · rw [FL_UNLOCK_trace, hu _ (by rw [setFile_fs]; exact hfu)]
        rfl
      · simp [hr]
      · intro hf; rw [hr] at hf; cases hf
      · simp only [FL_UNLOCK_files, setFile_files, if_true]
        exact congrArg sector_buffer.sector hwd
      · simp only [FL_UNLOCK_files, setFile_files, if_true]
        exact congrArg sector_buffer.address hwd
    · rw [if_neg hr]
      refine ⟨?_, ?_, ?_, ?_, ?_⟩
      · rw [FL_UNLOCK_trace, hu _ hfu]
      · rw [FL_UNLOCK_files]
        constructor
        · intro h0
          exact absurd ((congrArg sector_buffer.dirty hwd).symm.trans h0) hd
        · intro h; exact absurd h hr
      · intro _
        rw [FL_UNLOCK_files]
        exact congrArg sector_buffer.dirty hwd
      · rw [FL_UNLOCK_files]
        exact congrArg sector_buffer.sector hwd
      · rw [FL_UNLOCK_files]
        exact congrArg sector_buffer.address hwd

/-- C32 at a concrete volume whose sector writes fail: a file is created and
10 bytes are written into its buffer, which is then dirty; `fl_fflush`
returns 0 although the write-back fails, and the buffer is still dirty at
its address 0. -/
theorem fl_fflush_write_back_witness :
    (fl_fflush Vol.bad_write_env
      (fl_fwrite Vol.bad_write_env
        (fl_fopen Vol.bad_write_env (Vol.mounted (Vol.empty 6 7)) (some "/a") (some "w+")).1
        (fun _ => 65) 1 10 (some 1)).1 (some 1)).2 = 0 ∧
    ((fl_fflush Vol.bad_write_env
      (fl_fwrite Vol.bad_write_env
        (fl_fopen Vol.bad_write_env (Vol.mounted (Vol.empty 6 7)) (some "/a") (some "w+")).1
        (fun _ => 65) 1 10 (some 1)).1 (some 1)).1._files 1).file_data.dirty = 1 ∧
    ((fl_fflush Vol.bad_write_env
      (fl_fwrite Vol.bad_write_env
        (fl_fopen Vol.bad_write_env (Vol.mounted (Vol.empty 6 7)) (some "/a") (some "w+")).1
        (fun _ => 65) 1 10 (some 1)).1 (some 1)).1._files 1).file_data.address = 0 :=
  ⟨(fl_fflush_write_back Vol.bad_write_env
      (fl_fwrite Vol.bad_write_env
        (fl_fopen Vol.bad_write_env (Vol.mounted (Vol.empty 6 7)) (some "/a") (some "w+")).1
        (fun _ => 65) 1 10 (some 1)).1 1).1 (some 1),
    ((fl_fflush_write_back Vol.bad_write_env
      (fl_fwrite Vol.bad_write_env
        (fl_fopen Vol.bad_write_env (Vol.mounted (Vol.empty 6 7)) (some "/a") (some "w+")).1
        (fun _ => 65) 1 10 (some 1)).1 1).2.2 (by decide)).2.2.1 (by decide) |>.trans
      (by decide),
    ((fl_fflush_write_back Vol.bad_write_env
      (fl_fwrite Vol.bad_write_env
        (fl_fopen Vol.bad_write_env (Vol.mounted (Vol.empty 6 7)) (some "/a") (some "w+")).1
        (fun _ => 65) 1 10 (some 1)).1 1).2.2 (by decide)).2.2.2.2 |>.trans (by decide)⟩

/-! ## The cluster allocated by a creation that fails -/

theorem allocated_tag (e : Event) (c : Nat) (h : e.allocated = some c) :
    e = Event.allocate_free_space true c := by
  cases e <;> simp [Event.allocated] at h
  rename_i ok start
  cases ok <;> simp [Event.allocated] at h
  rw [h]

theorem tag_quiet (e : Event) :
    (e.tag ≠ 5 → e.allocated = none) ∧ (e.tag ≠ 7 → e.freed = none) ∧
    (e.tag ≠ 15 → e.failed_write = false) ∧ (e.tag ≠ 6 → e.is_add_file_entry = false) := by
  cases e <;> simp [Event.tag, Event.allocated, Event.freed, Event.failed_write,
    Event.is_add_file_entry]

theorem Adds_same (Q : Event → Prop) (st : Lib D) : Adds Q st st :=
  ⟨[], by simp, fun _ h => absurd h (List.not_mem_nil _)⟩

theorem Adds_then {Q : Event → Prop} {a b c : Lib D} (h1 : Adds Q a b) (h2 : Adds Q b c) :
    Adds Q a c := by
  obtain ⟨e1, a1, a2⟩ := h1
  obtain ⟨e2, b1, b2⟩ := h2
  refine ⟨e1 ++ e2, by rw [b1, a1, List.append_assoc], ?_⟩
  intro e he
  rcases List.mem_append.mp he with h | h
  · exact a2 e h
  · exact b2 e h

theorem Adds_of_eq (Q : Event → Prop) {a b : Lib D} (h : b.trace = a.trace) : Adds Q a b :=
  ⟨[], by simp [h], fun _ h => absurd h (List.not_mem_nil _)⟩

theorem Adds_one (Q : Event → Prop) {a b : Lib D} (e : Event) (h : b.trace = a.trace ++ [e])
    (hq : Q e) : Adds Q a b :=
  ⟨[e], h, fun x hx => by rw [List.mem_singleton.mp hx]; exact hq⟩

theorem Adds_of_Nest {Q : Event → Prop} {S : List Nat} {k : Nat} {a b : Lib D}
    (hQ : ∀ e : Event, e.tag ∈ S → Q e) (h : Nest S k a b) : Adds Q a b := by
  obtain ⟨-, -, evs, a3, -, a5⟩ := h
  exact ⟨evs, a3, fun e he => hQ e (a5 e he)⟩

/-- The trace around a call of `fatfs_allocate_free_space`. -/
theorem alloc_split (Q : Event → Prop) (env : Env D) (st B X : Lib D) (n s z : Nat)
    (h0 : Adds Q st B) (h1 : Adds Q (fatfs_allocate_free_space env B n s z).1 X) :
    ∃ evs0 evs1, X.trace = st.trace ++ (evs0 ++
        Event.allocate_free_space (fatfs_allocate_free_space env B n s z).2.1
          (fatfs_allocate_free_space env B n s z).2.2 :: evs1) ∧
      (∀ e, e ∈ evs0 → Q e) ∧ (∀ e, e ∈ evs1 → Q e) := by
  obtain ⟨e0, a1, a2⟩ := h0
  obtain ⟨e1, b1, b2⟩ := h1
  refine ⟨e0, e1, ?_, a2, b2⟩
  have ht : (fatfs_allocate_free_space env B n s z).1.trace = B.trace ++
      [Event.allocate_free_space (fatfs_allocate_free_space env B n s z).2.1
        (fatfs_allocate_free_space env B n s z).2.2] := rfl
  rw [b1, ht, a1]
  simp

/-- Events that are no successful allocation hold no allocated cluster. -/
theorem allocated_nil (evs : List Event) (h : ∀ e, e ∈ evs → e.allocated = none) :
    evs.filterMap Event.allocated = [] := by
  apply List.eq_nil_iff_forall_not_mem.mpr
  intro c hc
  obtain ⟨e, he, ha⟩ := List.mem_filterMap.mp hc
  rw [h e he] at ha
  cases ha

/-- The one start cluster allocated among the events around an allocation. -/
theorem allocated_of_split (evs0 evs1 : List Event) (ok : Bool) (c0 c : Nat)
    (h0 : ∀ e, e ∈ evs0 → e.allocated = none) (h1 : ∀ e, e ∈ evs1 → e.allocated = none)
    (hc : c ∈ (evs0 ++ Event.allocate_free_space ok c0 :: evs1).filterMap Event.allocated) :
    c = c0 := by
  obtain ⟨e, he, ha⟩ := List.mem_filterMap.mp hc
  rcases List.mem_append.mp he with h | h
  · rw [h0 e h] at ha; cases ha
  · rcases List.mem_cons.mp h with h | h
    · have hx := allocated_tag e c ha
      rw [hx] at h
      exact (Event.allocate_free_space.inj h).2
    · rw [h1 e h] at ha; cases ha

/-- After an allocation, a run that ends with `fatfs_free_cluster_chain` on
the start cluster allocated frees what was allocated. -/
theorem FreedLast_of_split (evs0 evs1 : List Event) (ok ok' : Bool) (c0 : Nat)
    (h0 : ∀ e, e ∈ evs0 → e.allocated = none) (h1 : ∀ e, e ∈ evs1 → e.allocated = none) :
    FreedLast ((evs0 ++ Event.allocate_free_space ok c0 :: evs1) ++
      [Event.free_cluster_chain c0 ok']) := by
  intro c hc
  rw [List.filterMap_append] at hc
  have hc' : c ∈ (evs0 ++ Event.allocate_free_space ok c0 :: evs1).filterMap
      Event.allocated := by
    simpa [Event.allocated] using hc
  have := allocated_of_split evs0 evs1 ok c0 c h0 h1 hc'
  subst this
  exact ⟨_, Event.free_cluster_chain c ok', rfl, rfl⟩

theorem sfn_tail_loop_startcluster (env : Env D) (file : Nat) :
    ∀ (fuel : Nat) (st : Lib D) (tailNum : Int) (g : Nat),
      ((sfn_tail_loop env file fuel st tailNum).1._files g).startcluster =
        (st._files g).startcluster := by
  intro fuel
  induction fuel with
  | zero => intro st _ _; rfl
  | succ n ih =>
    intro st tailNum g
    unfold sfn_tail_loop
    simp only [fatfs_sfn_exists]
    split_ifs <;> first
      | exact setFile_proj (fun r => r.startcluster) _ _ _ g rfl
      | exact (ih _ _ g).trans (setFile_proj (fun r => r.startcluster) _ _ _ g rfl)

theorem create_sfn_startcluster (env : Env D) (st : Lib D) (file g : Nat) :
    ((create_sfn env st file).1._files g).startcluster = (st._files g).startcluster := by
  unfold create_sfn
  simp only [fatfs_sfn_exists]
  split_ifs
  · exact sfn_tail_loop_startcluster env file _ st 0 g
  · rfl
  · exact setFile_proj (fun r => r.startcluster) _ _ _ g rfl

/-- The leaves of `_create_file` and `_create_directory` before the
allocation, where no allocation was made. -/
theorem cleanup_leaf_quiet (R : List Event → Nat → Prop) (S : List Nat) (h5 : 5 ∉ S)
    (st F : Lib D) (P : Prop) (h : Nest S 0 st F) :
    ∃ evs, F.trace = st.trace ++ evs ∧
      (P → ∀ c, c ∈ evs.filterMap Event.allocated → R evs c) := by
  obtain ⟨evs, e1, e2⟩ :=
    Adds_of_Nest (fun e he => (tag_quiet e).1 (fun h' => h5 (h' ▸ he))) h
  exact ⟨evs, e1, fun _ c hc => absurd hc (by rw [allocated_nil evs e2]; simp)⟩

/-- The leaf where the call succeeded. -/
theorem cleanup_leaf_done (R : List Event → Nat → Prop) (S : List Nat) (st F : Lib D)
    (P : Prop) (hP : ¬ P) (h : Nest S 0 st F) :
    ∃ evs, F.trace = st.trace ++ evs ∧
      (P → ∀ c, c ∈ evs.filterMap Event.allocated → R evs c) := by
  obtain ⟨evs, e1, -⟩ := h.events
  exact ⟨evs, e1, fun p => absurd p hP⟩

/-- The leaf where the allocation failed. -/
theorem cleanup_leaf_failed (R : List Event → Nat → Prop) (S : List Nat) (h5 : 5 ∉ S)
    (env : Env D) (st B Y : Lib D)
    (file n s z : Nat) (P : Prop) (h0 : Nest S 0 st B)
    (ha : (fatfs_allocate_free_space env B n s z).2.1 = false)
    (hY : Y.trace = (fatfs_allocate_free_space env B n s z).1.trace) :
    ∃ evs, (_free_file env Y file).trace = st.trace ++ evs ∧
      (P → ∀ c, c ∈ evs.filterMap Event.allocated → R evs c) := by
  obtain ⟨e0, e1, h1, h2, h3⟩ := alloc_split (fun e => e.allocated = none) env st B
    (fatfs_allocate_free_space env B n s z).1 n s z
    (Adds_of_Nest (fun e he => (tag_quiet e).1 (fun h' => h5 (h' ▸ he))) h0) (Adds_same _ _)
  rw [ha] at h1
  refine ⟨_, ((_free_file_frame env Y file).2.1.trans hY).trans h1, fun _ c hc => ?_⟩
  have hq : ∀ e, e ∈ e0 ++ Event.allocate_free_space false
      (fatfs_allocate_free_space env B n s z).2.2 :: e1 → e.allocated = none := by
    intro e he
    rcases List.mem_append.mp he with h | h
    · exact h2 e h
    · rcases List.mem_cons.mp h with h | h
      · subst h; rfl
      · exact h3 e h
  exact absurd hc (by rw [allocated_nil _ hq]; simp)

/-- The leaves that end with `fatfs_free_cluster_chain` on the start cluster
allocated. -/
theorem cleanup_leaf_freed (S : List Nat) (h5 : 5 ∉ S) (env : Env D) (st B X : Lib D)
    (file c n s z : Nat) (P : Prop) (h0 : Nest S 0 st B)
    (h1 : Nest S 0 (fatfs_allocate_free_space env B n s z).1 X)
    (hc : c = (fatfs_allocate_free_space env B n s z).2.2) :
    ∃ evs, (_free_file env (fatfs_free_cluster_chain env X c).1 file).trace = st.trace ++ evs ∧
      (P → FreedLast evs) := by
  obtain ⟨e0, e1, g1, g2, g3⟩ := alloc_split (fun e => e.allocated = none) env st B X n s z
    (Adds_of_Nest (fun e he => (tag_quiet e).1 (fun h' => h5 (h' ▸ he))) h0)
    (Adds_of_Nest (fun e he => (tag_quiet e).1 (fun h' => h5 (h' ▸ he))) h1)
  subst hc
  refine ⟨_, ?_, fun _ => FreedLast_of_split e0 e1 (fatfs_allocate_free_space env B n s z).2.1
    (fatfs_free_cluster_chain env X (fatfs_allocate_free_space env B n s z).2.2).2
    (fatfs_allocate_free_space env B n s z).2.2 g2 g3⟩
  have ht : (fatfs_free_cluster_chain env X (fatfs_allocate_free_space env B n s z).2.2).1.trace =
      X.trace ++ [Event.free_cluster_chain (fatfs_allocate_free_space env B n s z).2.2
        (fatfs_free_cluster_chain env X (fatfs_allocate_free_space env B n s z).2.2).2] := rfl
  rw [(_free_file_frame env _ file).2.1, ht, g1, List.append_assoc]

/-- The trace of `_create_file`: when it returns NULL after a successful
allocation, the last call was `fatfs_free_cluster_chain` on the start cluster
allocated. -/
theorem _create_file_cleanup (env : Env D) (st : Lib D) (path : String) :
    ∃ evs, (_create_file env st path).1.trace = st.trace ++ evs ∧
      ((_create_file env st path).2 = none → FreedLast evs) := by
  have h5 : 5 ∉ [3, 4, 6, 10, 11] := by decide
  have ha := _allocate_file_Nest [3, 4, 6, 10, 11] 0 st
  unfold _create_file
  split_ifs
  · exact cleanup_leaf_quiet EndsFreeing _ h5 st st _ (Nest.same _ _ _)
  · cases hA : _allocate_file st with
    | mk A o =>
      rw [hA] at ha
      cases o with
      | none => exact cleanup_leaf_quiet EndsFreeing _ h5 st A _ ha
      | some file =>
        simp only []
        have hp := open_prologue_Nest [3, 4, 6, 10, 11] 0 (by decide) env A file path
        cases hP : open_prologue env A file path with
        | mk s b =>
          rw [hP] at hp
          cases b with
          | false => exact cleanup_leaf_quiet EndsFreeing _ h5 st s _ (ha.andThen hp)
          | true =>
            simp only []
            have h0 := (fatfs_get_file_entry_Nest [3, 4, 6, 10, 11] 0 (by decide) env s
              (s._files file).parentcluster (s._files file).filename).after (ha.andThen hp)
            have hB := (Nest_setFile [3, 4, 6, 10, 11] 0
              (fatfs_get_file_entry env s (s._files file).parentcluster
                (s._files file).filename).1 file
              { (fatfs_get_file_entry env s (s._files file).parentcluster
                  (s._files file).filename).1._files file with startcluster := 0 }).after h0
            split_ifs with c1 c2
            · exact cleanup_leaf_quiet EndsFreeing _ h5 st _ _ ((_free_file_Nest _ 0 env _ file).after h0)
            · exact cleanup_leaf_failed EndsFreeing _ h5 env st _ _ file _ _ _ _ hB c2 rfl
            · split
              · rename_i s2 heq
                have e := congrArg Prod.fst heq
                simp only at e
                subst e
                refine cleanup_leaf_freed _ h5 env st _ _ file _ _ _ _ _ hB
                  ((create_sfn_Nest _ 0 (by decide) env _ file).after
                    (Nest_setFile _ 0 _ _ _)) ?_
                rw [create_sfn_startcluster]
                simp only [setFile_files, if_true]
              · rename_i s2 heq
                have e := congrArg Prod.fst heq
                simp only at e
                subst e
                split_ifs
                · refine cleanup_leaf_freed _ h5 env st _ _ file _ _ _ _ _ hB
                    ((fatfs_add_file_entry_Nest _ 0 (by decide) env _ _ _ _ _ _ _).after
                      ((create_sfn_Nest _ 0 (by decide) env _ file).after
                        (Nest_setFile _ 0 _ _ _))) ?_
                  show ((create_sfn env _ file).1._files file).startcluster = _
                  rw [create_sfn_startcluster]
                  simp only [setFile_files, if_true]
                · exact cleanup_leaf_done EndsFreeing [3, 4, 5, 6, 10, 11] st _ _ (fun h => by simp at h)
                    ((fatfs_fat_purge_Nest _ 0 (by decide) env _).after
                      ((fatfs_cache_init_Nest _ 0 (by decide) env _ _).after
                        ((Nest_setFile _ 0 _ _ _).after
                          ((fatfs_add_file_entry_Nest _ 0 (by decide) env _ _ _ _ _ _
                            _).after
                            ((create_sfn_Nest _ 0 (by decide) env _ file).after
                              ((Nest_setFile _ 0 _ _ _).after
                                ((fatfs_allocate_free_space_Nest _ 0 (by decide) env _ _ _
                                  _).after (hB.weaken (by decide) (Nat.le_refl _)))))))))

theorem erase_loop_files (env : Env D) (file : Nat) :
    ∀ (fuel : Nat) (st : Lib D) (i : Nat),
      (erase_loop env file fuel st i).1._files = st._files ∧
      (erase_loop env file fuel st i).1.heads = st.heads := by
  intro fuel
  induction fuel with
  | zero => intro st i; exact ⟨rfl, rfl⟩
  | succ n ih =>
    intro st i
    unfold erase_loop
    simp only [fatfs_write_sector]
    split_ifs
    · exact ⟨rfl, rfl⟩
    · exact ⟨(ih _ _).1.trans rfl, (ih _ _).2.trans rfl⟩
    · exact ⟨rfl, rfl⟩

/-- The loop that zeroes the new cluster of a directory, when every write
succeeds: it adds successful sector writes only. -/
theorem erase_loop_ok (Q : Event → Prop) (hQ : ∀ c i buf, Q (Event.write_sector c i buf true))
    (env : Env D) (file : Nat) :
    ∀ (fuel : Nat) (st : Lib D) (i : Nat), (erase_loop env file fuel st i).2 = true →
      Adds Q st (erase_loop env file fuel st i).1 := by
  intro fuel
  induction fuel with
  | zero => intro st i _; exact Adds_same Q st
  | succ n ih =>
    intro st i
    unfold erase_loop
    simp only [fatfs_write_sector]
    split_ifs with h1 h2
    · intro h; cases h
    · intro h
      have hw : (env.write_sector st._fs.vol (st._files file).startcluster i
          (st._files file).file_data.sector).2 = true := by
        cases hx : (env.write_sector st._fs.vol (st._files file).startcluster i
          (st._files file).file_data.sector).2
        · exact absurd hx h2
        · rfl
      refine Adds_then (Adds_one Q _ rfl ?_) (ih _ _ h)
      rw [hw]
      exact hQ _ _ _
    · intro _; exact Adds_same Q st

/-- The loop that zeroes the new cluster of a directory, when a write fails:
the failed write is the last event, on the start cluster of the record with
its sector buffer, after successful writes. -/
theorem erase_loop_fail (Q : Event → Prop) (hQ : ∀ c i buf, Q (Event.write_sector c i buf true))
    (env : Env D) (file : Nat) :
    ∀ (fuel : Nat) (st : Lib D) (i : Nat), (erase_loop env file fuel st i).2 = false →
      ∃ pre j, (erase_loop env file fuel st i).1.trace =
          st.trace ++ (pre ++ [Event.write_sector (st._files file).startcluster j
            (st._files file).file_data.sector false]) ∧
        ∀ e, e ∈ pre → Q e := by
  intro fuel
  induction fuel with
  | zero => intro st i h; cases h
  | succ n ih =>
    intro st i
    unfold erase_loop
    simp only [fatfs_write_sector]
    split_ifs with h1 h2
    · intro _
      refine ⟨[], i, ?_, fun _ h => absurd h (List.not_mem_nil _)⟩
      show st.trace ++ [_] = _
      rw [h2]
      rfl
    · intro h
      have hw : (env.write_sector st._fs.vol (st._files file).startcluster i
          (st._files file).file_data.sector).2 = true := by
        cases hx : (env.write_sector st._fs.vol (st._files file).startcluster i
          (st._files file).file_data.sector).2
        · exact absurd hx h2
        · rfl
      obtain ⟨pre, j, a1, a2⟩ := ih _ _ h
      refine ⟨Event.write_sector (st._files file).startcluster i
        (st._files file).file_data.sector true :: pre, j, ?_, ?_⟩
      · rw [a1]
        show (st.trace ++ [_]) ++ _ = _
        rw [hw]
        simp
      · intro e he
        rcases List.mem_cons.mp he with h | h
        · rw [h]; exact hQ _ _ _
        · exact a2 e h
    · intro h; cases h

/-- The leaves of `_create_directory` that end with
`fatfs_free_cluster_chain` on the start cluster allocated: no sector write
failed before. -/
theorem dir_leaf_freed (R : List Event → Nat → Prop) (env : Env D) (st B X : Lib D)
    (file c n s z : Nat) (P : Prop)
    (h0 : Adds (fun e => e.allocated = none ∧ e.failed_write = false) st B)
    (h1 : Adds (fun e => e.allocated = none ∧ e.failed_write = false)
      (fatfs_allocate_free_space env B n s z).1 X)
    (hc : c = (fatfs_allocate_free_space env B n s z).2.2) :
    ∃ evs, (_free_file env (fatfs_free_cluster_chain env X c).1 file).trace = st.trace ++ evs ∧
      (P → ∀ c', c' ∈ evs.filterMap Event.allocated →
        ((∀ e, e ∈ evs → e.failed_write = false) ∧ EndsFreeing evs c') ∨ R evs c') := by
  obtain ⟨e0, e1, g1, g2, g3⟩ := alloc_split _ env st B X n s z h0 h1
  subst hc
  have ht : (fatfs_free_cluster_chain env X (fatfs_allocate_free_space env B n s z).2.2).1.trace =
      X.trace ++ [Event.free_cluster_chain (fatfs_allocate_free_space env B n s z).2.2
        (fatfs_free_cluster_chain env X (fatfs_allocate_free_space env B n s z).2.2).2] := rfl
  refine ⟨(e0 ++ Event.allocate_free_space (fatfs_allocate_free_space env B n s z).2.1
      (fatfs_allocate_free_space env B n s z).2.2 :: e1) ++
    [Event.free_cluster_chain (fatfs_allocate_free_space env B n s z).2.2
      (fatfs_free_cluster_chain env X (fatfs_allocate_free_space env B n s z).2.2).2], ?_,
    fun _ c' hc' => Or.inl ⟨?_, ?_⟩⟩
  · rw [(_free_file_frame env _ file).2.1, ht, g1, List.append_assoc]
  · intro e he
    rcases List.mem_append.mp he with h | h
    · rcases List.mem_append.mp h with h | h
      · exact (g2 e h).2
      · rcases List.mem_cons.mp h with h | h
        · rw [h]; rfl
        · exact (g3 e h).2
    · rw [List.mem_singleton.mp h]; rfl
  · exact FreedLast_of_split e0 e1 _ _ _ (fun e h => (g2 e h).1) (fun e h => (g3 e h).1) c' hc'

/-- The leaf of `_create_directory` where a write of the zeroed sector
failed. -/
theorem dir_leaf_erase (R : List Event → Nat → Prop) (Rel : Prop) (env : Env D)
    (st B Y : Lib D) (file fuel n s z : Nat) (P : Prop)
    (h0 : Adds (fun e => e.allocated = none ∧ e.failed_write = false ∧ e.freed = none ∧
      e.is_add_file_entry = false) st B)
    (hY : Y.trace = (fatfs_allocate_free_space env B n s z).1.trace)
    (hc : (Y._files file).startcluster = (fatfs_allocate_free_space env B n s z).2.2)
    (hz : ∀ j, j < FAT_SECTOR_SIZE → (Y._files file).file_data.sector j = 0)
    (hf : (erase_loop env file fuel Y 0).2 = false) (hrel : Rel) :
    ∃ evs, (_free_file env (erase_loop env file fuel Y 0).1 file).trace = st.trace ++ evs ∧
      (P → ∀ c', c' ∈ evs.filterMap Event.allocated →
        R evs c' ∨ (EraseFailed evs c' ∧ Rel)) := by
  obtain ⟨pre, j, a1, a2⟩ := erase_loop_fail
    (fun e => e.allocated = none ∧ e.failed_write = false ∧ e.freed = none ∧
      e.is_add_file_entry = false) (fun _ _ _ => ⟨rfl, rfl, rfl, rfl⟩) env file fuel Y 0 hf
  obtain ⟨e0, b1, b2⟩ := h0
  have ht : (fatfs_allocate_free_space env B n s z).1.trace = B.trace ++
      [Event.allocate_free_space (fatfs_allocate_free_space env B n s z).2.1
        (fatfs_allocate_free_space env B n s z).2.2] := rfl
  have hq : ∀ e, e ∈ e0 ++ Event.allocate_free_space
      (fatfs_allocate_free_space env B n s z).2.1
      (fatfs_allocate_free_space env B n s z).2.2 :: pre →
      e.failed_write = false ∧ e.freed = none ∧ e.is_add_file_entry = false := by
    intro e he
    rcases List.mem_append.mp he with h | h
    · exact (b2 e h).2
    · rcases List.mem_cons.mp h with h | h
      · rw [h]; exact ⟨rfl, rfl, rfl⟩
      · exact (a2 e h).2
  refine ⟨(e0 ++ Event.allocate_free_space (fatfs_allocate_free_space env B n s z).2.1
      (fatfs_allocate_free_space env B n s z).2.2 :: pre) ++
      [Event.write_sector (fatfs_allocate_free_space env B n s z).2.2 j
        (Y._files file).file_data.sector false], ?_, fun _ c' hc' => Or.inr ⟨⟨?_, ?_⟩, hrel⟩⟩
  · rw [(_free_file_frame env _ file).2.1, a1, hY, ht, b1, hc]
    simp
  · have hcc : c' = (fatfs_allocate_free_space env B n s z).2.2 := by
      rw [List.filterMap_append] at hc'
      have hc2 : c' ∈ (e0 ++ Event.allocate_free_space
          (fatfs_allocate_free_space env B n s z).2.1
          (fatfs_allocate_free_space env B n s z).2.2 :: pre).filterMap Event.allocated := by
        simpa [Event.allocated] using hc'
      exact allocated_of_split e0 pre _ _ c' (fun e h => (b2 e h).1) (fun e h => (a2 e h).1) hc2
    subst hcc
    exact ⟨_, j, _, rfl, hz, fun e he => (hq e he).1⟩
  · intro e he
    rcases List.mem_append.mp he with h | h
    · exact (hq e h).2
    · rw [List.mem_singleton.mp h]; exact ⟨rfl, rfl⟩

theorem _allocate_file_head (st A : Lib D) (file : Nat) (h : _allocate_file st = (A, some file)) :
    st._free_file_list = some file ∧ (_allocate_file st).1 = A := by
  refine ⟨?_, by rw [h]⟩
  revert h
  unfold _allocate_file
  split
  · intro h; simp at h
  · rename_i f hf
    intro h
    simp only [Prod.mk.injEq, Option.some.injEq] at h
    rw [hf, h.2]

theorem erase_loop_Nest (S : List Nat) (k : Nat) (h : 15 ∈ S) (env : Env D) (file : Nat) :
    ∀ (fuel : Nat) (st : Lib D) (i : Nat), Nest S k st (erase_loop env file fuel st i).1 := by
  intro fuel
  induction fuel with
  | zero => intro st i; exact Nest.same S k st
  | succ n ih =>
    intro st i
    unfold erase_loop
    simp only [fatfs_write_sector]
    split_ifs
    · exact Nest_step S k _ _ _ 15 (by rfl) h (by decide)
    · exact (Nest_step S k _ _ _ 15 (by rfl) h (by decide)).andThen (ih _ _)
    · exact Nest.same S k st

/-- The trace of `_create_directory`: when it returns 0 after a successful
allocation, either no sector write failed and the last call was
`fatfs_free_cluster_chain` on the start cluster allocated, or the last call
was a write of the zeroed sector to that cluster that failed, neither
`fatfs_free_cluster_chain` nor `fatfs_add_file_entry` was called, and the
record allocated was handed to `_free_file`. -/
theorem _create_directory_cleanup (env : Env D) (st : Lib D) (path : String) :
    ∃ evs, (_create_directory env st path).1.trace = st.trace ++ evs ∧
      ((_create_directory env st path).2 = 0 → ∀ c, c ∈ evs.filterMap Event.allocated →
        ((∀ e, e ∈ evs → e.failed_write = false) ∧ EndsFreeing evs c) ∨
        (EraseFailed evs c ∧
          ∃ X f, st._free_file_list = some f ∧
            SamePool X (open_named env (_allocate_file st).1 f path) ∧
            (_create_directory env st path).1 = _free_file env X f)) := by
  have h5 : 5 ∉ [3, 10, 11] := by decide
  have hq2 : ∀ e : Event, e.tag ∈ [3, 10, 11] →
      e.allocated = none ∧ e.failed_write = false := by
    intro e he
    exact ⟨(tag_quiet e).1 (fun h => absurd (h ▸ he) (by decide)),
      (tag_quiet e).2.2.1 (fun h => absurd (h ▸ he) (by decide))⟩
  have hq4 : ∀ e : Event, e.tag ∈ [3, 10, 11] →
      e.allocated = none ∧ e.failed_write = false ∧ e.freed = none ∧
        e.is_add_file_entry = false := by
    intro e he
    exact ⟨(tag_quiet e).1 (fun h => absurd (h ▸ he) (by decide)),
      (tag_quiet e).2.2.1 (fun h => absurd (h ▸ he) (by decide)),
      (tag_quiet e).2.1 (fun h => absurd (h ▸ he) (by decide)),
      (tag_quiet e).2.2.2 (fun h => absurd (h ▸ he) (by decide))⟩
  have hs4 : ∀ e : Event, e.tag ∈ [4, 6] → e.allocated = none ∧ e.failed_write = false := by
    intro e he
    exact ⟨(tag_quiet e).1 (fun h => absurd (h ▸ he) (by decide)),
      (tag_quiet e).2.2.1 (fun h => absurd (h ▸ he) (by decide))⟩
  have ha := _allocate_file_Nest [3, 10, 11] 0 st
  unfold _create_directory
  cases hA : _allocate_file st with
  | mk A o =>
    rw [hA] at ha
    cases o with
    | none => exact cleanup_leaf_quiet _ _ h5 st A _ ha
    | some file =>
      obtain ⟨hfree, hAe⟩ := _allocate_file_head st A file hA
      simp only []
      have hp := open_prologue_Nest [3, 10, 11] 0 (fun _ h => h) env A file path
      have hpc := open_prologue_cases env A file path
      cases hP : open_prologue env A file path with
      | mk s b =>
        rw [hP] at hp hpc
        cases b with
        | false => exact cleanup_leaf_quiet _ _ h5 st s _ (ha.andThen hp)
        | true =>
          have hsp : SamePool s (open_named env A file path) := by
            rcases hpc with ⟨-, h, -⟩ | ⟨h, -⟩
            · exact h
            · cases h
          simp only []
          have h0 := (fatfs_get_file_entry_Nest [3, 10, 11] 0 (by decide) env s
            (s._files file).parentcluster (s._files file).filename).after (ha.andThen hp)
          have hB := (Nest_setFile [3, 10, 11] 0
            (fatfs_get_file_entry env s (s._files file).parentcluster
              (s._files file).filename).1 file
            { (fatfs_get_file_entry env s (s._files file).parentcluster
                (s._files file).filename).1._files file with startcluster := 0 }).after h0
          split_ifs with c1 c2
          · exact cleanup_leaf_quiet _ _ h5 st _ _ ((_free_file_Nest _ 0 env _ file).after h0)
          · exact cleanup_leaf_failed _ _ h5 env st _ _ file _ _ _ _ hB c2 rfl
          · split
            · rename_i s2 heq
              have e := congrArg Prod.fst heq
              have e2 := congrArg Prod.snd heq
              simp only at e e2
              subst e
              refine dir_leaf_erase _ _ env st _ _ file _ _ _ _ _ (Adds_of_Nest hq4 hB) rfl
                (by simp only [setFile_files, if_true]) ?_ e2 ?_
              · intro j hj
                simp only [setFile_files, if_true, memset, if_pos hj]
              · refine ⟨_, file, hfree, ?_, rfl⟩
                show SamePool _ (open_named env A file path)
                refine SamePool.trans ⟨(erase_loop_files env file _ _ 0).2, fun g => by
                  rw [(erase_loop_files env file _ _ 0).1]⟩ ?_
                refine (SamePool_setFile _ _ _ (by rfl)).trans ?_
                refine (SamePool_setFile _ _ _ (by rfl)).trans ?_
                refine (SamePool_step _ _ _).trans ?_
                refine (SamePool_setFile _ _ _ (by rfl)).trans ?_
                exact (SamePool_step _ _ _).trans hsp
            · rename_i s2 heq
              have e := congrArg Prod.fst heq
              have e2 := congrArg Prod.snd heq
              simp only at e e2
              subst e
              have hE := erase_loop_ok (fun e => e.allocated = none ∧ e.failed_write = false)
                (fun _ _ _ => ⟨rfl, rfl⟩) env file _ _ 0 e2
              have hY : Adds (fun e => e.allocated = none ∧ e.failed_write = false)
                  (fatfs_allocate_free_space env _ 1 _ 1).1 _ :=
                Adds_then (Adds_then (Adds_of_eq _ (setFile_trace _ _ _))
                  (Adds_of_eq _ (setFile_trace _ _ _))) hE
              split
              · rename_i s3 heq3
                have e3 := congrArg Prod.fst heq3
                simp only at e3
                subst e3
                refine dir_leaf_freed _ env st _ _ file _ _ _ _ _ (Adds_of_Nest hq2 hB)
                  (Adds_then hY (Adds_of_Nest hs4
                    (create_sfn_Nest [4, 6] 0 (by decide) env _ file))) ?_
                rw [create_sfn_startcluster, (erase_loop_files env file _ _ 0).1]
                simp only [setFile_files, if_true]
              · rename_i s3 heq3
                have e3 := congrArg Prod.fst heq3
                simp only at e3
                subst e3
                split_ifs
                · refine dir_leaf_freed _ env st _ _ file _ _ _ _ _ (Adds_of_Nest hq2 hB)
                    (Adds_then hY (Adds_of_Nest hs4
                      ((fatfs_add_file_entry_Nest [4, 6] 0 (by decide) env _ _ _ _ _ _ _).after
                        (create_sfn_Nest [4, 6] 0 (by decide) env _ file)))) ?_
                  show ((create_sfn env _ file).1._files file).startcluster = _
                  rw [create_sfn_startcluster, (erase_loop_files env file _ _ 0).1]
                  simp only [setFile_files, if_true]
                · exact cleanup_leaf_done _ [3, 4, 5, 6, 10, 11, 15] st _ _
                    (fun h => by simp at h)
                    ((_free_file_Nest _ 0 env _ file).after
                      ((fatfs_fat_purge_Nest _ 0 (by decide) env _).after
                        ((Nest_setFile _ 0 _ _ _).after
                          ((fatfs_add_file_entry_Nest _ 0 (by decide) env _ _ _ _ _ _ _).after
                            ((create_sfn_Nest _ 0 (by decide) env _ file).after
                              ((erase_loop_Nest _ 0 (by decide) env file _ _ 0).after
                                ((Nest_setFile _ 0 _ _ _).after
                                  ((Nest_setFile _ 0 _ _ _).after
                                    ((fatfs_allocate_free_space_Nest _ 0 (by decide) env _ _ _
                                      _).after (hB.weaken (by decide) (Nat.le_refl _)))))))))))

theorem Adds_after {Q : Event → Prop} {a b c : Lib D} (h2 : Adds Q b c) (h1 : Adds Q a b) :
    Adds Q a c := Adds_then h1 h2

/-- When `_create_directory` returns 1, no sector write failed. -/
theorem _create_directory_done (env : Env D) (st : Lib D) (path : String)
    (h : (_create_directory env st path).2 = 1) :
    Adds (fun e => e.failed_write = false) st (_create_directory env st path).1 := by
  have hq : ∀ (S : List Nat), 15 ∉ S → ∀ e : Event, e.tag ∈ S → e.failed_write = false :=
    fun S hS e he => (tag_quiet e).2.2.1 (fun h => hS (h ▸ he))
  have ha := _allocate_file_Nest [3, 10, 11] 0 st
  revert h
  unfold _create_directory
  cases hA : _allocate_file st with
  | mk A o =>
    rw [hA] at ha
    cases o with
    | none => intro h; simp at h
    | some file =>
      simp only []
      have hp := open_prologue_Nest [3, 10, 11] 0 (fun _ h => h) env A file path
      cases hP : open_prologue env A file path with
      | mk s b =>
        rw [hP] at hp
        cases b with
        | false => intro h; simp at h
        | true =>
          simp only []
          have h0 := (fatfs_get_file_entry_Nest [3, 10, 11] 0 (by decide) env s
            (s._files file).parentcluster (s._files file).filename).after (ha.andThen hp)
          split_ifs with c1 c2
          · intro h; simp at h
          · intro h; simp at h
          · split
            · intro h; simp at h
            · rename_i s2 heq
              have e := congrArg Prod.fst heq
              have e2 := congrArg Prod.snd heq
              simp only at e e2
              subst e
              split
              · intro h; simp at h
              · rename_i s3 heq3
                have e3 := congrArg Prod.fst heq3
                simp only at e3
                subst e3
                split_ifs
                · intro h; simp at h
                · intro _
                  simp only []
                  exact Adds_after (Adds_of_Nest (hq [4, 6, 10] (by decide))
                      ((_free_file_Nest [4, 6, 10] 0 env _ file).after
                        ((fatfs_fat_purge_Nest _ 0 (by decide) env _).after
                          ((Nest_setFile _ 0 _ _ _).after
                            ((fatfs_add_file_entry_Nest _ 0 (by decide) env _ _ _ _ _ _ _).after
                              (create_sfn_Nest _ 0 (by decide) env _ file))))))
                    (Adds_after (erase_loop_ok (fun e => e.failed_write = false) (fun _ _ _ => rfl) env
                        file _ _ 0 e2)
                      (Adds_of_Nest (hq [3, 5, 10, 11] (by decide))
                        ((Nest_setFile _ 0 _ _ _).after ((Nest_setFile _ 0 _ _ _).after
                          ((fatfs_allocate_free_space_Nest _ 0 (by decide) env _ _ _ _).after
                            ((Nest_setFile _ 0 _ _ _).after
                              (h0.weaken (by decide) (Nat.le_refl _))))))))

/-- C33: the calls `_create_file` and `_create_directory` add to the trace,
`evs`.  When `_create_file` returns NULL and `fatfs_allocate_free_space` was
called with success, returning the start cluster `c`, the last call is
`fatfs_free_cluster_chain` on `c`.  A sector write that fails makes
`_create_directory` return 0.  When `_create_directory` returns 0 after such
an allocation, either no sector write failed and the last call is
`fatfs_free_cluster_chain` on `c`; or the last call is a write of the zeroed
sector to cluster `c` that failed, `fatfs_free_cluster_chain` and
`fatfs_add_file_entry` were not called at all, and the record is back at the
head of the free list, both lists being as before the call. -/
theorem failed_create_frees_cluster (env : Env D) (st : Lib D) (path : String) :
    (∃ evs, (_create_file env st path).1.trace = st.trace ++ evs ∧
      ((_create_file env st path).2 = none →
        ∀ c, c ∈ evs.filterMap Event.allocated → EndsFreeing evs c)) ∧
    (∃ evs, (_create_directory env st path).1.trace = st.trace ++ evs ∧
      ((∃ e, e ∈ evs ∧ e.failed_write = true) → (_create_directory env st path).2 = 0) ∧
      ((_create_directory env st path).2 = 0 →
        ∀ c, c ∈ evs.filterMap Event.allocated →
          ((∀ e, e ∈ evs → e.failed_write = false) ∧ EndsFreeing evs c) ∨
          (EraseFailed evs c ∧
            (0 < env.FATFS_MAX_OPEN_FILES →
              (_create_directory env st path).1._open_file_list = st._open_file_list ∧
              (_create_directory env st path).1._free_file_list = st._free_file_list ∧
              ∀ g, ((_create_directory env st path).1._files g).next =
                (st._files g).next)))) := by
  refine ⟨_create_file_cleanup env st path, ?_⟩
  obtain ⟨evs, h1, h2⟩ := _create_directory_cleanup env st path
  refine ⟨evs, h1, ?_, ?_⟩
  · rintro ⟨e, he, hf⟩
    rcases _create_directory_result env st path with h | h
    · exact h
    · obtain ⟨evs', a1, a2⟩ := _create_directory_done env st path h
      have : evs' = evs := List.append_cancel_left (a1.symm.trans h1)
      subst this
      rw [a2 e he] at hf
      cases hf
  · intro h0 c hc
    rcases h2 h0 c hc with h | ⟨h, X, f, hfree, hx, he⟩
    · exact Or.inl h
    · refine Or.inr ⟨h, fun hN => ?_⟩
      obtain ⟨-, f2, f3, f4, -⟩ := _free_file_after_alloc env st X f path hfree hN hx
      rw [he]
      exact ⟨f2, f3, f4⟩

/-- C33 at concrete volumes.  On a directory that takes no further entry,
`_create_file` returns NULL after the calls `fatfs_get_file_entry`,
`fatfs_allocate_free_space`, `fatfs_sfn_exists`, `fatfs_add_file_entry` and
`fatfs_free_cluster_chain` (tags 3, 5, 4, 6, 7, after the 2 of the mount), and
cluster 3 is free again.  On a medium whose sector writes fail,
`_create_directory` returns 0 after `fatfs_get_file_entry`,
`fatfs_allocate_free_space` and one `fatfs_write_sector` (tags 3, 5, 15):
cluster 3 stays allocated, the directory has no entry, and both records are
in the free list. -/
theorem failed_create_frees_cluster_witness :
    ((∃ evs, (_create_directory Vol.bad_write_env (Vol.mounted (Vol.empty 6 7)) "/d").1.trace =
        (Vol.mounted (Vol.empty 6 7)).trace ++ evs ∧
      ((∃ e, e ∈ evs ∧ e.failed_write = true) →
        (_create_directory Vol.bad_write_env (Vol.mounted (Vol.empty 6 7)) "/d").2 = 0) ∧
      ((_create_directory Vol.bad_write_env (Vol.mounted (Vol.empty 6 7)) "/d").2 = 0 →
        ∀ c, c ∈ evs.filterMap Event.allocated →
          ((∀ e, e ∈ evs → e.failed_write = false) ∧ EndsFreeing evs c) ∨
          (EraseFailed evs c ∧
            (0 < Vol.bad_write_env.FATFS_MAX_OPEN_FILES →
              (_create_directory Vol.bad_write_env (Vol.mounted (Vol.empty 6 7))
                "/d").1._open_file_list = (Vol.mounted (Vol.empty 6 7))._open_file_list ∧
              (_create_directory Vol.bad_write_env (Vol.mounted (Vol.empty 6 7))
                "/d").1._free_file_list = (Vol.mounted (Vol.empty 6 7))._free_file_list ∧
              ∀ g, ((_create_directory Vol.bad_write_env (Vol.mounted (Vol.empty 6 7))
                "/d").1._files g).next = ((Vol.mounted (Vol.empty 6 7))._files g).next))))) ∧
    ((_create_file Vol.full_dir_env (Vol.mounted (Vol.empty 6 7)) "/a").2 = none ∧
      (_create_file Vol.full_dir_env (Vol.mounted (Vol.empty 6 7)) "/a").1.trace.map Event.tag =
        [2, 3, 5, 4, 6, 7] ∧
      (_create_file Vol.full_dir_env (Vol.mounted (Vol.empty 6 7)) "/a").1.trace.filterMap
        Event.allocated = [3] ∧
      (_create_file Vol.full_dir_env (Vol.mounted (Vol.empty 6 7)) "/a").1.trace.filterMap
        Event.freed = [3] ∧
      (_create_file Vol.full_dir_env (Vol.mounted (Vol.empty 6 7)) "/a").1._fs.vol.fat 3 = 0) ∧
    ((_create_directory Vol.bad_write_env (Vol.mounted (Vol.empty 6 7)) "/d").2 = 0 ∧
      (_create_directory Vol.bad_write_env (Vol.mounted (Vol.empty 6 7)) "/d").1.trace.map
        Event.tag = [2, 3, 5, 15] ∧
      (_create_directory Vol.bad_write_env (Vol.mounted (Vol.empty 6 7)) "/d").1.trace.filterMap
        Event.allocated = [3] ∧
      (_create_directory Vol.bad_write_env (Vol.mounted (Vol.empty 6 7)) "/d").1._fs.vol.fat 3 =
        Vol.EOC ∧
      (_create_directory Vol.bad_write_env (Vol.mounted (Vol.empty 6 7)) "/d").1._fs.vol.dir.length
        = 0 ∧
      PoolInv 2 (_create_directory Vol.bad_write_env (Vol.mounted (Vol.empty 6 7)) "/d").1
        [1, 0] []) ∧
    ((_create_directory Vol.full_dir_env (Vol.mounted (Vol.empty 6 7)) "/d").2 = 0 ∧
      (_create_directory Vol.full_dir_env (Vol.mounted (Vol.empty 6 7)) "/d").1.trace.map
        Event.tag = [2, 3, 5, 15, 4, 6, 7] ∧
      (_create_directory Vol.full_dir_env (Vol.mounted (Vol.empty 6 7)) "/d").1._fs.vol.fat 3 =
        0) :=
  ⟨(failed_create_frees_cluster Vol.bad_write_env (Vol.mounted (Vol.empty 6 7)) "/d").2,
    by decide, by decide, by decide⟩

/-! ## A record that `fl_remove` leaves open -/

/-- What one call of `_open_file` or `_create_file` does to the pool. -/
theorem OpenOutcome_kept (env : Env D) (st : Lib D) (path : String) (r : Lib D × Option Nat)
    (lf lo : List Nat) (hp : PoolInv env.FATFS_MAX_OPEN_FILES st lf lo)
    (ho : OpenOutcome env st path r) : OpenKept env st lf lo path r := by
  rcases ho with rfl | ⟨f, hfree, hcase⟩
  · exact ⟨rfl, fun _ _ => ⟨rfl, rfl⟩, Or.inl ⟨rfl, hp⟩⟩
  · obtain ⟨lf', rfl⟩ : ∃ lf', lf = f :: lf' := by
      have h1 := hp.1
      rw [hfree] at h1
      cases lf with
      | nil => exact absurd h1 (by simp [IsList])
      | cons a l =>
        obtain ⟨e, -⟩ := (IsList_cons _ _ _ _).mp h1
        cases e
        exact ⟨l, rfl⟩
    have hN := PoolInv_pos _ st _ lo f hp hfree
    have hnd : (f :: lf' ++ lo).Nodup := hp.2.2.nodup_iff.mpr (List.nodup_range _)
    have hflo : ∀ g, g ∈ lo → g ≠ f := by
      intro g hg e
      exact (List.nodup_cons.mp hnd).1 (List.mem_append_right _ (e ▸ hg))
    obtain ⟨p1, -, -, p4, p5, p6, p7⟩ := open_named_fields env (_allocate_file st).1 f path
    obtain ⟨a1, a2, a3, -, -, a6, a7⟩ := _allocate_file_fields st f hfree
    rcases hcase with ⟨h2, hs, -⟩ | ⟨h2, X, hx, he⟩
    · obtain ⟨x1, x2, x3⟩ := heads_fields _ _ (hs.1.trans p1)
      have hA := (_allocate_file_pool _ st f lf' lo hp).2
      have hnext : ∀ g, (r.1._files g).next = ((_allocate_file st).1._files g).next := by
        intro g
        rw [(link_fields _ _ (hs.2 g)).1, p4]
      have hnames : ∀ g, g ∈ lo → (r.1._files g).path = (st._files g).path ∧
          (r.1._files g).filename = (st._files g).filename := by
        intro g hg
        obtain ⟨-, l2, l3⟩ := link_fields _ _ (hs.2 g)
        rw [l2, l3, p5 g (hflo g hg), a7 g (hflo g hg)]
        exact ⟨rfl, rfl⟩
      have hR := PoolInv_congr _ _ r.1 lf' (f :: lo) x2 x3 hnext hA
      obtain ⟨-, m2, m3⟩ := link_fields _ _ (hs.2 f)
      exact ⟨x1.trans a1, hnames, Or.inr ⟨f, lf', h2, rfl, hR, m2.trans p6, m3.trans p7⟩⟩
    · obtain ⟨f1, f2, f3, f4, f5⟩ := _free_file_after_alloc env st X f path hfree hN hx
      have hnames : ∀ g, g ∈ lo → (r.1._files g).path = (st._files g).path ∧
          (r.1._files g).filename = (st._files g).filename := by
        intro g hg
        rw [he]
        exact f5 g (hflo g hg)
      unfold OpenKept
      rw [he] at hnames ⊢
      exact ⟨f1, hnames, Or.inl ⟨h2, PoolInv_congr _ st _ (f :: lf') lo f2 f3 f4 hp⟩⟩

theorem OpenKept_frame (env : Env D) (st s' : Lib D) (lf lo : List Nat) (path : String)
    (r : Lib D × Option Nat) (h : OpenKept env st lf lo path r) (hs : SamePool s' r.1) :
    OpenKept env st lf lo path (s', r.2) := by
  obtain ⟨h1, h2, h3⟩ := h
  obtain ⟨x1, x2, x3⟩ := heads_fields _ _ hs.1
  have hn : ∀ g, (s'._files g).next = (r.1._files g).next := fun g => (link_fields _ _ (hs.2 g)).1
  have hnam : ∀ g, (s'._files g).path = (r.1._files g).path ∧
      (s'._files g).filename = (r.1._files g).filename :=
    fun g => (link_fields _ _ (hs.2 g)).2
  refine ⟨x1.trans h1, fun g hg => ⟨(hnam g).1.trans (h2 g hg).1, (hnam g).2.trans (h2 g hg).2⟩, ?_⟩
  rcases h3 with ⟨a1, a5⟩ | ⟨f, lf', b1, b2, b3, b4, b5⟩
  · exact Or.inl ⟨a1, PoolInv_congr _ _ _ lf lo x2 x3 hn a5⟩
  · exact Or.inr ⟨f, lf', b1, b2, PoolInv_congr _ _ _ lf' (f :: lo) x2 x3 hn b3,
      (hnam f).1.trans b4, (hnam f).2.trans b5⟩

theorem OpenKept_step (env : Env D) (st s : Lib D) (lf lo : List Nat) (path : String)
    (r : Lib D × Option Nat) (h : OpenKept env st lf lo path (s, none))
    (ho : OpenOutcome env s path r) : OpenKept env st lf lo path r := by
  obtain ⟨h1, h2, h3⟩ := h
  rcases h3 with ⟨-, a5⟩ | ⟨f, lf', b1, -⟩
  · obtain ⟨c1, c2, c3⟩ := OpenOutcome_kept env s path r lf lo a5 ho
    exact ⟨c1.trans h1, fun g hg => ⟨(c2 g hg).1.trans (h2 g hg).1,
      (c2 g hg).2.trans (h2 g hg).2⟩, c3⟩
  · cases b1

/-- A property of the result of `fl_ifopen` in an initialised library: it
holds when it holds before the call with the result NULL, is kept by steps
that keep the pool, and is kept by `_open_file` and `_create_file` from a
state where nothing is opened yet. -/
theorem fl_ifopen_induct (I : Lib D × Option Nat → Prop) (env : Env D) (st : Lib D)
    (path : String) (mode : Option String) (checkfile : Int) (hi : st._filelib_init ≠ 0)
    (h0 : I (st, none))
    (hf : ∀ (r : Lib D × Option Nat) (s' : Lib D), I r → SamePool s' r.1 → I (s', r.2))
    (hs : ∀ (s : Lib D) (r : Lib D × Option Nat), I (s, none) → OpenOutcome env s path r → I r) :
    I (fl_ifopen env st (some path) mode checkfile) := by
  unfold fl_ifopen
  rw [CHECK_FL_INIT_of_init env st hi]
  by_cases hv : st._filelib_valid = 0
  · simp only [hv, if_true]
    exact h0
  · cases mode with
    | none => simp only [hv, if_false]; exact h0
    | some mode =>
      simp only [hv, if_false]
      generalize (if st._fs.disk_io_write_sector = false then
          parse_mode mode &&& (255 ^^^ (FILE_CREATE ||| FILE_WRITE ||| FILE_APPEND))
        else parse_mode mode) = flags
      have hL : I (FL_LOCK st, none) := hf _ _ h0 (SamePool_LOCK st)
      have h1 : I
          (if flags &&& FILE_READ ≠ 0 then _open_file env (FL_LOCK st) path checkfile
            else (FL_LOCK st, none)) := by
        split_ifs
        · exact hs _ _ hL (_open_file_outcome env _ path checkfile)
        · exact hL
      generalize (if flags &&& FILE_READ ≠ 0 then _open_file env (FL_LOCK st) path checkfile
            else (FL_LOCK st, none)) = r1 at h1 ⊢
      have h2 : I
          (if r1.2 = none ∧ flags &&& FILE_CREATE ≠ 0 then _create_file env r1.1 path
            else r1) := by
        split_ifs with hc
        · have : r1 = (r1.1, none) := Prod.ext rfl hc.1
          rw [this] at h1
          exact hs _ _ h1 (_create_file_outcome env _ path)
        · exact h1
      generalize (if r1.2 = none ∧ flags &&& FILE_CREATE ≠ 0 then _create_file env r1.1 path
            else r1) = r2 at h2 ⊢
      have h3 : I
          (if flags &&& FILE_READ = 0 ∧ (flags &&& FILE_CREATE ≠ 0 ∧ r2.2 = none) ∧
              flags &&& (FILE_WRITE ||| FILE_APPEND) ≠ 0 then
            _open_file env r2.1 path checkfile
          else r2) := by
        split_ifs with hc
        · have : r2 = (r2.1, none) := Prod.ext rfl hc.2.1.2
          rw [this] at h2
          exact hs _ _ h2 (_open_file_outcome env _ path checkfile)
        · exact h2
      generalize (if flags &&& FILE_READ = 0 ∧ (flags &&& FILE_CREATE ≠ 0 ∧ r2.2 = none) ∧
              flags &&& (FILE_WRITE ||| FILE_APPEND) ≠ 0 then
            _open_file env r2.1 path checkfile
          else r2) = r3 at h3 ⊢
      refine hf r3 _ h3 ((SamePool_UNLOCK _).trans ?_)
      cases r3.2 with
      | none => exact SamePool.refl _
      | some file => exact SamePool_setFile _ _ _ (by rfl)

/-- The pool after `fl_ifopen` on a path in an initialised library. -/
theorem fl_ifopen_kept (env : Env D) (st : Lib D) (path : String) (mode : Option String)
    (checkfile : Int) (lf lo : List Nat) (hi : st._filelib_init ≠ 0)
    (hp : PoolInv env.FATFS_MAX_OPEN_FILES st lf lo) :
    OpenKept env st lf lo path (fl_ifopen env st (some path) mode checkfile) :=
  fl_ifopen_induct (OpenKept env st lf lo path) env st path mode checkfile hi
    ⟨rfl, fun _ _ => ⟨rfl, rfl⟩, Or.inl ⟨rfl, hp⟩⟩
    (fun r s' h hs => OpenKept_frame env st s' lf lo path r h hs)
    (fun s r h ho => OpenKept_step env st s lf lo path r h ho)

/-- In an initialised library `fl_ifopen`, whatever the mode, returns NULL for
a path whose split compares equal to the names of a record of the open list,
and leaves the lists and the names of the open records as they were. -/
theorem fl_ifopen_busy (env : Env D) (st : Lib D) (path : String) (mode : Option String)
    (checkfile : Int) (lf lo : List Nat) (g : Nat) (hi : st._filelib_init ≠ 0)
    (hp : PoolInv env.FATFS_MAX_OPEN_FILES st lf lo) (hg : g ∈ lo)
    (h1 : env.compare_names (st._files g).path (env.split_path path).2.1 = true)
    (h2 : env.compare_names (st._files g).filename (env.split_path path).2.2 = true) :
    OpenKept env st lf lo path (fl_ifopen env st (some path) mode checkfile) ∧
    (fl_ifopen env st (some path) mode checkfile).2 = none := by
  refine fl_ifopen_induct (fun r => OpenKept env st lf lo path r ∧ r.2 = none) env st path mode
    checkfile hi ⟨⟨rfl, fun _ _ => ⟨rfl, rfl⟩, Or.inl ⟨rfl, hp⟩⟩, rfl⟩
    (fun r s' h hs => ⟨OpenKept_frame env st s' lf lo path r h.1 hs, h.2⟩) ?_
  intro s r h ho
  refine ⟨OpenKept_step env st s lf lo path r h.1 ho, ?_⟩
  obtain ⟨-, k2, k3⟩ := h.1
  rcases k3 with ⟨-, k5⟩ | ⟨f, lf', b1, -⟩
  · refine OpenOutcome_busy env s path r lf lo g k5 hg ?_ ?_ ho
    · rw [(k2 g hg).1]; exact h1
    · rw [(k2 g hg).2]; exact h2
  · cases b1

/-- The pool after `fl_fclose` on an open handle in an initialised library:
the record moves from the open list to the head of the free list, and the
names of every record are as before. -/
theorem fl_fclose_kept (env : Env D) (st : Lib D) (f : Nat) (lf lo : List Nat)
    (hi : st._filelib_init ≠ 0) (hp : PoolInv env.FATFS_MAX_OPEN_FILES st lf lo)
    (hm : f ∈ lo) :
    (fl_fclose env st (some f))._filelib_init = st._filelib_init ∧
    PoolInv env.FATFS_MAX_OPEN_FILES (fl_fclose env st (some f)) (f :: lf) (lo.erase f) ∧
    ∀ g, ((fl_fclose env st (some f))._files g).path = (st._files g).path ∧
      ((fl_fclose env st (some f))._files g).filename = (st._files g).filename := by
  obtain ⟨X, hx, he⟩ := fl_fclose_eq env st f hi
  have hs : SamePool (fl_fclose env st (some f)) (_free_file env X f) := by
    rw [he]
    exact (SamePool_UNLOCK _).trans (fatfs_fat_purge_SamePool _ _)
  obtain ⟨-, -, f3, -, f5⟩ := _free_file_frame env X f
  refine ⟨?_, ?_, ?_⟩
  · rw [(heads_fields _ _ hs.1).1, f3, (heads_fields _ _ hx.1).1]
  · exact PoolInv_of_SamePool _ _ _ _ _ hs
      (_free_file_pool env X f lf lo (PoolInv_of_SamePool _ _ _ _ _ hx hp) hm)
  · intro g
    obtain ⟨n, hn⟩ := f5 g
    obtain ⟨-, l2, l3⟩ := link_fields _ _ (hs.2 g)
    obtain ⟨-, m2, m3⟩ := link_fields _ _ (hx.2 g)
    rw [l2, l3, hn]
    exact ⟨m2, m3⟩

/-- The pool after `fl_remove` on a path, in an initialised library whose
pool is well formed. -/
theorem fl_remove_pool (env : Env D) (st : Lib D) (path : String) (lf lo : List Nat)
    (hi : st._filelib_init ≠ 0) (hp : PoolInv env.FATFS_MAX_OPEN_FILES st lf lo) :
    (fl_remove env st (some path)).1._filelib_init = st._filelib_init ∧
    (∀ g, g ∈ lo → ((fl_remove env st (some path)).1._files g).path = (st._files g).path ∧
      ((fl_remove env st (some path)).1._files g).filename = (st._files g).filename) ∧
    ((remove_open env st path).2 = none →
      (fl_remove env st (some path)).2 = -1 ∧
      PoolInv env.FATFS_MAX_OPEN_FILES (fl_remove env st (some path)).1 lf lo) ∧
    (∀ f, (remove_open env st path).2 = some f →
      ∃ lf', lf = f :: lf' ∧
        ((remove_freed env st path f = true ∧ remove_marked env st path f = true) →
          (fl_remove env st (some path)).2 = 0 ∧
          PoolInv env.FATFS_MAX_OPEN_FILES (fl_remove env st (some path)).1 lf lo) ∧
        (¬ (remove_freed env st path f = true ∧ remove_marked env st path f = true) →
          (fl_remove env st (some path)).2 = -1 ∧
          PoolInv env.FATFS_MAX_OPEN_FILES (fl_remove env st (some path)).1 lf' (f :: lo) ∧
          ((fl_remove env st (some path)).1._files f).path = (env.split_path path).2.1 ∧
          ((fl_remove env st (some path)).1._files f).filename =
            (env.split_path path).2.2)) := by
  have hiL : (FL_LOCK st)._filelib_init ≠ 0 := by rw [FL_LOCK_init]; exact hi
  have hpL := PoolInv_of_SamePool _ _ _ lf lo (SamePool_LOCK st) hp
  have hk := fl_ifopen_kept env (FL_LOCK st) path (some "r") 0 lf lo hiL hpL
  unfold remove_freed remove_marked remove_open fl_remove
  simp only []
  revert hk
  generalize fl_ifopen env (FL_LOCK st) (some path) (some "r") 0 = O
  intro hk
  obtain ⟨k1, k2, k3⟩ := hk
  rw [FL_LOCK_init] at k1
  simp only [FL_LOCK_files] at k2
  cases O with
  | mk s r =>
    cases r with
    | none =>
      simp only at k1 k2 k3 ⊢
      rcases k3 with ⟨-, k5⟩ | ⟨f, lf', b1, -⟩
      · refine ⟨by rw [FL_UNLOCK_init]; exact k1, fun g hg => by
          rw [FL_UNLOCK_files]; exact k2 g hg, fun _ => ⟨trivial,
          PoolInv_of_SamePool _ _ _ _ _ (SamePool_UNLOCK _) k5⟩, fun f h => by simp at h⟩
      · simp at b1
    | some f0 =>
      simp only at k1 k2 k3 ⊢
      rcases k3 with ⟨b0, -⟩ | ⟨f, lf', b1, b2, b3, b4, b5⟩
      · simp at b0
      · simp only [Option.some.injEq] at b1
        subst b1
        have hsame : ∀ (X : Lib D), SamePool X s →
            (FL_UNLOCK X)._filelib_init = st._filelib_init ∧
            (∀ g, g ∈ lo → ((FL_UNLOCK X)._files g).path = (st._files g).path ∧
              ((FL_UNLOCK X)._files g).filename = (st._files g).filename) ∧
            PoolInv env.FATFS_MAX_OPEN_FILES (FL_UNLOCK X) lf' (f0 :: lo) ∧
            ((FL_UNLOCK X)._files f0).path = (env.split_path path).2.1 ∧
            ((FL_UNLOCK X)._files f0).filename = (env.split_path path).2.2 := by
          intro X hX
          have hU := (SamePool_UNLOCK X).trans hX
          refine ⟨(heads_fields _ _ hU.1).1.trans k1, fun g hg => ?_,
            PoolInv_of_SamePool _ _ _ _ _ hU b3, ?_, ?_⟩
          · obtain ⟨-, l2, l3⟩ := link_fields _ _ (hU.2 g)
            rw [l2, l3]; exact k2 g hg
          · rw [(link_fields _ _ (hU.2 f0)).2.1]; exact b4
          · rw [(link_fields _ _ (hU.2 f0)).2.2]; exact b5
        have hc := fatfs_free_cluster_chain_SamePool env s (s._files f0).startcluster
        have hm := (fatfs_mark_file_deleted_SamePool env
          (fatfs_free_cluster_chain env s (s._files f0).startcluster).1
          ((fatfs_free_cluster_chain env s (s._files f0).startcluster).1._files f0).parentcluster
          ((fatfs_free_cluster_chain env s (s._files f0).startcluster).1._files
            f0).shortfilename).trans hc
        by_cases c1 : (fatfs_free_cluster_chain env s (s._files f0).startcluster).2 = true
        · rw [if_pos c1]
          by_cases c2 : (fatfs_mark_file_deleted env
              (fatfs_free_cluster_chain env s (s._files f0).startcluster).1
              ((fatfs_free_cluster_chain env s (s._files f0).startcluster).1._files
                f0).parentcluster
              ((fatfs_free_cluster_chain env s (s._files f0).startcluster).1._files
                f0).shortfilename).2 = true
          · rw [if_pos c2]
            simp only []
            have hmi : (fatfs_mark_file_deleted env
                (fatfs_free_cluster_chain env s (s._files f0).startcluster).1
                ((fatfs_free_cluster_chain env s (s._files f0).startcluster).1._files
                  f0).parentcluster
                ((fatfs_free_cluster_chain env s (s._files f0).startcluster).1._files
                  f0).shortfilename).1._filelib_init ≠ 0 := by
              rw [(heads_fields _ _ hm.1).1, k1]; exact hi
            obtain ⟨q1, q2, q3⟩ := fl_fclose_kept env _ f0 lf' (f0 :: lo) hmi
              (PoolInv_of_SamePool _ _ _ _ _ hm b3) (List.mem_cons_self _ _)
            rw [List.erase_cons_head] at q2
            refine ⟨?_, ?_, fun h => by simp at h, ?_⟩
            · rw [FL_UNLOCK_init, q1, (heads_fields _ _ hm.1).1, k1]
            · intro g hg
              rw [FL_UNLOCK_files, (q3 g).1, (q3 g).2]
              obtain ⟨-, l2, l3⟩ := link_fields _ _ (hm.2 g)
              rw [l2, l3]; exact k2 g hg
            · intro f hf
              simp only [Option.some.injEq] at hf
              subst hf
              refine ⟨lf', b2, fun _ => ⟨trivial, ?_⟩, fun hn => absurd ⟨c1, c2⟩ hn⟩
              rw [b2]
              exact PoolInv_of_SamePool _ _ _ _ _ (SamePool_UNLOCK _) q2
          · rw [if_neg c2]
            simp only []
            obtain ⟨r1, r2, r3, r4, r5⟩ := hsame _ hm
            refine ⟨r1, r2, fun h => by simp at h, ?_⟩
            intro f hf
            simp only [Option.some.injEq] at hf
            subst hf
            exact ⟨lf', b2, fun hb => absurd hb.2 c2, fun _ => ⟨trivial, r3, r4, r5⟩⟩
        · rw [if_neg c1]
          simp only []
          obtain ⟨r1, r2, r3, r4, r5⟩ := hsame _ hc
          refine ⟨r1, r2, fun h => by simp at h, ?_⟩
          intro f hf
          simp only [Option.some.injEq] at hf
          subst hf
          exact ⟨lf', b2, fun hb => absurd hb.1 c1, fun _ => ⟨trivial, r3, r4, r5⟩⟩

/-! ## The read, write and seek calls keep the pool -/

theorem read_walk_heads (env : Env D) (file ClusterIdx : Nat) :
    ∀ (fuel : Nat) (st : Lib D) (i c : Nat),
      (read_walk env file ClusterIdx fuel st i c).1.heads = st.heads := by
  intro fuel
  induction fuel with
  | zero => intro st i c; rfl
  | succ n ih =>
    intro st i c
    unfold read_walk
    split
    · split
      · exact ih _ _ _
      · rw [ih]; rfl
    · rfl

theorem _read_sector_SamePool (env : Env D) (st : Lib D) (file offset : Nat) (buffer : Bytes) :
    SamePool (_read_sector env st file offset buffer).1 st := by
  refine ⟨?_, fun g => _read_sector_proj FL_FILE.link (fun _ _ => rfl) env st file offset
    buffer g⟩
  unfold _read_sector
  simp only [fatfs_sector_read]
  split_ifs <;> simp only [step_heads, setFile_heads, read_walk_heads]

theorem _write_sector_SamePool (env : Env D) (st : Lib D) (file offset : Nat) (buf : Bytes) :
    SamePool (_write_sector env st file offset buf).1 st :=
  ⟨_write_sector_heads env st file offset buf,
    fun g => _write_sector_proj FL_FILE.link (fun _ _ => rfl) env st file offset buf g⟩

theorem flush_dirty_SamePool (env : Env D) (st : Lib D) (file : Nat)
    (hi : st._filelib_init ≠ 0) : SamePool (flush_dirty env st file) st := by
  unfold flush_dirty
  split
  · exact fl_fflush_SamePool env st _ hi
  · exact SamePool.refl st

theorem SamePool_init {a b : Lib D} (h : SamePool a b) (hi : b._filelib_init ≠ 0) :
    a._filelib_init ≠ 0 := by
  rw [(heads_fields _ _ h.1).1]; exact hi

theorem fread_fetch_SamePool (env : Env D) (st : Lib D) (file sector : Nat)
    (hi : st._filelib_init ≠ 0) : SamePool (fread_fetch env st file sector).1 st := by
  have hf := flush_dirty_SamePool env st file hi
  unfold fread_fetch
  simp only []
  split_ifs
  · exact (SamePool_setFile _ _ _ (by rfl)).trans ((_read_sector_SamePool env _ _ _ _).trans hf)
  · exact (SamePool_setFile _ _ _ (by rfl)).trans ((SamePool_setFile _ _ _ (by rfl)).trans
      ((_read_sector_SamePool env _ _ _ _).trans hf))
  · exact SamePool.refl st

theorem fl_fread_loop_SamePool (env : Env D) (file : Nat) (count : Int) :
    ∀ (fuel : Nat) (st : Lib D) (buf : Bytes) (sector offset : Nat) (b : Int),
      st._filelib_init ≠ 0 →
      SamePool (fl_fread_loop env file count fuel st buf sector offset b).1 st := by
  intro fuel
  induction fuel with
  | zero => intro st _ _ _ _ _; exact SamePool.refl st
  | succ n ih =>
    intro st buf sector offset b hi
    have hf := fread_fetch_SamePool env st file sector hi
    unfold fl_fread_loop
    split_ifs
    · split
      · rename_i s2 heq
        have e := congrArg Prod.fst heq
        simp only at e
        subst e
        exact hf
      · rename_i s2 heq
        have e := congrArg Prod.fst heq
        simp only at e
        subst e
        simp only []
        have hc : SamePool (fread_copy env (fread_fetch env st file sector).1 file buf offset b
            (fread_copyCount count b offset)).1 st :=
          (SamePool_setFile _ _ _ (by rfl)).trans hf
        exact (ih _ _ _ _ _ (SamePool_init hc hi)).trans hc
    · exact SamePool.refl st

theorem fl_fread_SamePool (env : Env D) (st : Lib D) (buffer : Option Bytes)
    (size length : Int) (f : Option Nat) (hi : st._filelib_init ≠ 0) :
    SamePool (fl_fread env st buffer size length f).1 st := by
  unfold fl_fread
  rw [CHECK_FL_INIT_of_init env st hi]
  cases buffer with
  | none => exact SamePool.refl st
  | some buf =>
    cases f with
    | none => exact SamePool.refl st
    | some file =>
      simp only []
      by_cases h1 : (st._files file).flags &&& FILE_READ = 0
      · rw [if_pos h1]; exact SamePool.refl st
      rw [if_neg h1]
      by_cases h2 : to_int (size * length) = 0
      · rw [if_pos h2]; exact SamePool.refl st
      rw [if_neg h2]
      by_cases h3 : (st._files file).bytenum ≥ (st._files file).filelength
      · rw [if_pos h3]; exact SamePool.refl st
      rw [if_neg h3]
      generalize (if to_ulong env.ULONG_BITS (((st._files file).bytenum : Int) +
          to_int (size * length)) > (st._files file).filelength then
          to_int (((st._files file).filelength - (st._files file).bytenum : Nat) : Int)
        else to_int (size * length)) = c
      exact fl_fread_loop_SamePool env file c _ st _ _ _ _ hi

theorem fl_fread_sector_SamePool (env : Env D) (st : Lib D) (buffer : Option Bytes)
    (size length : Int) (f : Option Nat) (hi : st._filelib_init ≠ 0) :
    SamePool (fl_fread_sector env st buffer size length f).1 st := by
  unfold fl_fread_sector
  rw [CHECK_FL_INIT_of_init env st hi]
  cases buffer with
  | none => exact SamePool.refl st
  | some buf =>
    cases f with
    | none => exact SamePool.refl st
    | some file =>
      simp only []
      have hr := _read_sector_SamePool env st file ((st._files file).bytenum / FAT_SECTOR_SIZE)
        buf
      by_cases h1 : to_int (size * length) ≠ (FAT_SECTOR_SIZE : Int)
      · rw [if_pos h1]; exact SamePool.refl st
      rw [if_neg h1]
      by_cases h2 : (st._files file).flags &&& FILE_READ = 0
      · rw [if_pos h2]; exact SamePool.refl st
      rw [if_neg h2]
      by_cases h3 : (st._files file).bytenum ≥ (st._files file).filelength
      · rw [if_pos h3]; exact SamePool.refl st
      rw [if_neg h3]
      by_cases h4 : (st._files file).bytenum % FAT_SECTOR_SIZE ≠ 0
      · rw [if_pos h4]; exact SamePool.refl st
      rw [if_neg h4]
      by_cases h5 : (_read_sector env st file ((st._files file).bytenum / FAT_SECTOR_SIZE)
          buf).2.1 = true
      · rw [if_pos h5]
        exact (SamePool_setFile _ _ _ (by rfl)).trans hr
      · rw [if_neg h5]
        exact hr

theorem fwrite_fetch_SamePool (env : Env D) (st : Lib D) (file sector cc : Nat)
    (hi : st._filelib_init ≠ 0) : SamePool (fwrite_fetch env st file sector cc) st := by
  have hf := flush_dirty_SamePool env st file hi
  unfold fwrite_fetch fwrite_read
  simp only []
  split_ifs <;> first
    | exact SamePool.refl st
    | exact (SamePool_setFile _ _ _ (by rfl)).trans hf
    | exact (SamePool_setFile _ _ _ (by rfl)).trans ((SamePool_setFile _ _ _ (by rfl)).trans
        ((_read_sector_SamePool env _ _ _ _).trans hf))

theorem fl_fwrite_loop_SamePool (env : Env D) (file : Nat) (data : Bytes) (length : Nat) :
    ∀ (fuel : Nat) (st : Lib D) (sector offset b : Nat), st._filelib_init ≠ 0 →
      SamePool (fl_fwrite_loop env file data length fuel st sector offset b) st := by
  intro fuel
  induction fuel with
  | zero => intro st _ _ _ _; exact SamePool.refl st
  | succ n ih =>
    intro st sector offset b hi
    unfold fl_fwrite_loop
    split_ifs
    · simp only []
      have hc : SamePool (fwrite_copy env (fwrite_fetch env st file sector
          (fwrite_copyCount length b offset)) file data offset b
          (fwrite_copyCount length b offset)) st :=
        (SamePool_setFile _ _ _ (by rfl)).trans (fwrite_fetch_SamePool env st file sector _ hi)
      exact (ih _ _ _ _ (SamePool_init hc hi)).trans hc
    · exact SamePool.refl st

theorem fl_fwrite_SamePool (env : Env D) (st : Lib D) (data : Bytes) (size count : Int)
    (f : Option Nat) (hi : st._filelib_init ≠ 0) :
    SamePool (fl_fwrite env st data size count f).1 st := by
  unfold fl_fwrite
  rw [CHECK_FL_INIT_of_init env st hi]
  cases f with
  | none => exact SamePool.refl st
  | some file =>
    simp only []
    have hL := SamePool_LOCK st
    split_ifs
    · exact (SamePool_UNLOCK _).trans hL
    all_goals
      refine (SamePool_UNLOCK _).trans ?_
      first
        | exact (SamePool_setFile _ _ _ (by rfl)).trans
            ((fl_fwrite_loop_SamePool env file data _ _ _ _ _ _
              (SamePool_init ((SamePool_setFile _ _ _ (by rfl)).trans hL) hi)).trans
              ((SamePool_setFile _ _ _ (by rfl)).trans hL))
        | exact (fl_fwrite_loop_SamePool env file data _ _ _ _ _ _
              (SamePool_init ((SamePool_setFile _ _ _ (by rfl)).trans hL) hi)).trans
              ((SamePool_setFile _ _ _ (by rfl)).trans hL)
        | exact (SamePool_setFile _ _ _ (by rfl)).trans
            ((fl_fwrite_loop_SamePool env file data _ _ _ _ _ _ (SamePool_init hL hi)).trans hL)
        | exact (fl_fwrite_loop_SamePool env file data _ _ _ _ _ _ (SamePool_init hL hi)).trans hL

theorem fl_fseek_SamePool (env : Env D) (st : Lib D) (f : Option Nat) (offset origin : Int)
    (hi : st._filelib_init ≠ 0) : SamePool (fl_fseek env st f offset origin).1 st := by
  unfold fl_fseek
  rw [CHECK_FL_INIT_of_init env st hi]
  cases f with
  | none => exact SamePool.refl st
  | some file =>
    simp only []
    have hL : SamePool ((FL_LOCK st).setFile file { (FL_LOCK st)._files file with
        file_data := { ((FL_LOCK st)._files file).file_data with
          address := 0xFFFFFFFF, dirty := 0 } }) st :=
      (SamePool_setFile _ _ _ (by rfl)).trans (SamePool_LOCK st)
    split_ifs <;> first
      | exact SamePool.refl st
      | exact (SamePool_UNLOCK _).trans hL
      | exact (SamePool_UNLOCK _).trans ((SamePool_setFile _ _ _ (by rfl)).trans hL)

theorem fl_feof_SamePool (st : Lib D) (f : Option Nat) : SamePool (fl_feof st f).1 st := by
  unfold fl_feof
  cases f with
  | none => exact SamePool.refl st
  | some file => exact (SamePool_UNLOCK _).trans (SamePool_LOCK st)

theorem fl_ifopen_no_path (env : Env D) (st : Lib D) (mode : Option String) (checkfile : Int)
    (hi : st._filelib_init ≠ 0) : fl_ifopen env st none mode checkfile = (st, none) := by
  unfold fl_ifopen
  rw [CHECK_FL_INIT_of_init env st hi]
  simp only []
  split_ifs <;> rfl

/-- A record held for `path` makes every `fl_fopen` and `fl_remove` of that
path fail, when the names the path splits into compare equal to themselves. -/
theorem Held_busy (env : Env D) (path : String) (f : Nat) (s : Lib D)
    (hH : Held env path f s)
    (h1 : env.compare_names (env.split_path path).2.1 (env.split_path path).2.1 = true)
    (h2 : env.compare_names (env.split_path path).2.2 (env.split_path path).2.2 = true) :
    (∀ mode, (fl_fopen env s (some path) mode).2 = none) ∧
    (fl_remove env s (some path)).2 = -1 := by
  obtain ⟨hi, ⟨lf, lo, hp, hf⟩, n1, n2⟩ := hH
  refine ⟨fun mode => ?_, ?_⟩
  · exact (fl_ifopen_busy env s path mode 1 lf lo f hi hp hf (by rw [n1]; exact h1)
      (by rw [n2]; exact h2)).2
  · have hiL : (FL_LOCK s)._filelib_init ≠ 0 := by rw [FL_LOCK_init]; exact hi
    have hpL := PoolInv_of_SamePool _ _ _ lf lo (SamePool_LOCK s) hp
    have hb := (fl_ifopen_busy env (FL_LOCK s) path (some "r") 0 lf lo f hiL hpL hf
      (by rw [FL_LOCK_files, n1]; exact h1) (by rw [FL_LOCK_files, n2]; exact h2)).2
    exact ((fl_remove_pool env s path lf lo hi hp).2.2.1 hb).1

/-- A record held for `path` takes one record from the pool. -/
theorem Held_slots (env : Env D) (path : String) (f : Nat) (s : Lib D)
    (hH : Held env path f s) (lf lo : List Nat)
    (hp : PoolInv env.FATFS_MAX_OPEN_FILES s lf lo) :
    f ∈ lo ∧ lf.length + (lo.erase f).length + 1 = env.FATFS_MAX_OPEN_FILES := by
  obtain ⟨-, ⟨lf', lo', hp', hf⟩, -, -⟩ := hH
  have e := IsList_unique s lo lo' _ hp.2.1 hp'.2.1
  subst e
  have hlen := (PoolInv_facts _ _ _ _ hp).2.2.2.2
  have hpos : 0 < lo.length := List.length_pos_of_mem hf
  refine ⟨hf, ?_⟩
  rw [List.length_erase_of_mem hf]
  omega

theorem Held_fopen (env : Env D) (path : String) (f : Nat) (s : Lib D)
    (hH : Held env path f s) (p mode : Option String) :
    Held env path f (fl_fopen env s p mode).1 := by
  obtain ⟨hi, ⟨lf, lo, hp, hf⟩, n1, n2⟩ := hH
  cases p with
  | none =>
    unfold fl_fopen
    rw [fl_ifopen_no_path env s mode 1 hi]
    exact ⟨hi, ⟨lf, lo, hp, hf⟩, n1, n2⟩
  | some p =>
    obtain ⟨k1, k2, k3⟩ := fl_ifopen_kept env s p mode 1 lf lo hi hp
    refine ⟨by unfold fl_fopen; rw [k1]; exact hi, ?_,
      by unfold fl_fopen; rw [(k2 f hf).1]; exact n1,
      by unfold fl_fopen; rw [(k2 f hf).2]; exact n2⟩
    rcases k3 with ⟨-, k5⟩ | ⟨f2, lf', -, -, b3, -⟩
    · exact ⟨lf, lo, k5, hf⟩
    · exact ⟨lf', f2 :: lo, b3, List.mem_cons_of_mem _ hf⟩

theorem Held_remove (env : Env D) (path : String) (f : Nat) (s : Lib D)
    (hH : Held env path f s) (name : Option String) :
    Held env path f (fl_remove env s name).1 := by
  obtain ⟨hi, ⟨lf, lo, hp, hf⟩, n1, n2⟩ := hH
  cases name with
  | none =>
    have hiL : (FL_LOCK s)._filelib_init ≠ 0 := by rw [FL_LOCK_init]; exact hi
    have hs : SamePool (fl_remove env s none).1 s := by
      unfold fl_remove
      simp only []
      rw [fl_ifopen_no_path env (FL_LOCK s) (some "r") 0 hiL]
      exact (SamePool_UNLOCK _).trans (SamePool_LOCK s)
    obtain ⟨-, l2, l3⟩ := link_fields _ _ (hs.2 f)
    exact ⟨by rw [(heads_fields _ _ hs.1).1]; exact hi,
      ⟨lf, lo, PoolInv_of_SamePool _ _ _ _ _ hs hp, hf⟩, l2.trans n1, l3.trans n2⟩
  | some p =>
    obtain ⟨r1, r2, r3, r4⟩ := fl_remove_pool env s p lf lo hi hp
    refine ⟨by rw [r1]; exact hi, ?_, (r2 f hf).1.trans n1, (r2 f hf).2.trans n2⟩
    cases ho : (remove_open env s p).2 with
    | none => exact ⟨lf, lo, (r3 ho).2, hf⟩
    | some f2 =>
      obtain ⟨lf', -, q1, q2⟩ := r4 f2 ho
      by_cases hb : remove_freed env s p f2 = true ∧ remove_marked env s p f2 = true
      · exact ⟨lf, lo, (q1 hb).2, hf⟩
      · exact ⟨lf', f2 :: lo, (q2 hb).2.1, List.mem_cons_of_mem _ hf⟩

theorem Held_fclose (env : Env D) (path : String) (f : Nat) (s : Lib D)
    (hH : Held env path f s) (g : Nat) (lo' : List Nat)
    (hl : IsList s s._open_file_list lo') (hg : g ∈ lo') (hgf : g ≠ f) :
    Held env path f (fl_fclose env s (some g)) := by
  obtain ⟨hi, ⟨lf, lo, hp, hf⟩, n1, n2⟩ := hH
  have e := IsList_unique s lo' lo _ hl hp.2.1
  subst e
  obtain ⟨q1, q2, q3⟩ := fl_fclose_kept env s g lf lo' hi hp hg
  exact ⟨by rw [q1]; exact hi,
    ⟨g :: lf, lo'.erase g, q2, (List.mem_erase_of_ne (Ne.symm hgf)).mpr hf⟩,
    (q3 f).1.trans n1, (q3 f).2.trans n2⟩

theorem Held_of_SamePool (env : Env D) (path : String) (f : Nat) (s s' : Lib D)
    (hH : Held env path f s) (hs : s._filelib_init ≠ 0 → SamePool s' s) :
    Held env path f s' := by
  obtain ⟨hi, ⟨lf, lo, hp, hf⟩, n1, n2⟩ := hH
  have h := hs hi
  obtain ⟨-, l2, l3⟩ := link_fields _ _ (h.2 f)
  exact ⟨SamePool_init h hi, ⟨lf, lo, PoolInv_of_SamePool _ _ _ _ _ h hp, hf⟩,
    l2.trans n1, l3.trans n2⟩

/-- A record held for `path` stays held through later calls of `fl_fopen`,
`fl_remove`, `fl_fclose` on other open handles, and the read, write, seek,
flush and end-of-file calls. -/
theorem Held_later (env : Env D) (path : String) (f : Nat) (s0 s : Lib D)
    (hH : Held env path f s0) (hr : LaterReach env f s0 s) : Held env path f s := by
  induction hr with
  | start => exact hH
  | fopen st p mode _ ih => exact Held_fopen env path f st ih p mode
  | remove st name _ ih => exact Held_remove env path f st ih name
  | fclose st g lo _ hl hg hgf ih => exact Held_fclose env path f st ih g lo hl hg hgf
  | fread st buffer size length h _ ih =>
    exact Held_of_SamePool env path f st _ ih (fl_fread_SamePool env st buffer size length h)
  | fread_sector st buffer size length h _ ih =>
    exact Held_of_SamePool env path f st _ ih
      (fl_fread_sector_SamePool env st buffer size length h)
  | fwrite st data size count h _ ih =>
    exact Held_of_SamePool env path f st _ ih (fl_fwrite_SamePool env st data size count h)
  | fseek st h offset origin _ ih =>
    exact Held_of_SamePool env path f st _ ih (fl_fseek_SamePool env st h offset origin)
  | fflush st h _ ih =>
    exact Held_of_SamePool env path f st _ ih (fl_fflush_SamePool env st h)
  | feof st h _ ih =>
    exact Held_of_SamePool env path f st _ ih (fun _ => fl_feof_SamePool st h)

/-- C31: in an initialised library whose pool is well formed, with free list
`lf` and open list `lo`, `fl_remove (path)` opens the file with
`fl_ifopen (path, "r", 0)`.  When that open returns NULL, `fl_remove` returns
-1 and the lists are as before.  When it returns the record `f`, the head of
the free list: if both `fatfs_free_cluster_chain` and
`fatfs_mark_file_deleted` succeed, `fl_remove` returns 0 and `f` is back at
the head of the free list, the lists being as before; if either fails,
`fl_remove` returns -1 and `f` is the head of the open list, with the names
`path` splits into, while the free list has lost it.  A record held in this
way (names compare equal to themselves) makes every `fl_fopen` and
`fl_remove` of `path` fail, takes one of the `N` records from the pool, and
stays held through every later call of `fl_fopen`, `fl_remove`, `fl_fclose`
on other open handles, `fl_fread`, `fl_fread_sector`, `fl_fwrite`,
`fl_fseek`, `fl_fflush` and `fl_feof`. -/
theorem fl_remove_keeps_record (env : Env D) (st : Lib D) (path : String) (lf lo : List Nat)
    (hi : st._filelib_init ≠ 0) (hp : PoolInv env.FATFS_MAX_OPEN_FILES st lf lo) :
    ((remove_open env st path).2 = none →
      (fl_remove env st (some path)).2 = -1 ∧
      PoolInv env.FATFS_MAX_OPEN_FILES (fl_remove env st (some path)).1 lf lo) ∧
    (∀ f, (remove_open env st path).2 = some f →
      ∃ lf', lf = f :: lf' ∧
        ((remove_freed env st path f = true ∧ remove_marked env st path f = true) →
          (fl_remove env st (some path)).2 = 0 ∧
          PoolInv env.FATFS_MAX_OPEN_FILES (fl_remove env st (some path)).1 (f :: lf') lo) ∧
        (¬ (remove_freed env st path f = true ∧ remove_marked env st path f = true) →
          (fl_remove env st (some path)).2 = -1 ∧
          PoolInv env.FATFS_MAX_OPEN_FILES (fl_remove env st (some path)).1 lf' (f :: lo) ∧
          Held env path f (fl_remove env st (some path)).1)) ∧
    (∀ (f : Nat) (s0 s : Lib D), Held env path f s0 → LaterReach env f s0 s →
      Held env path f s ∧
      (∀ lf2 lo2, PoolInv env.FATFS_MAX_OPEN_FILES s lf2 lo2 →
        f ∈ lo2 ∧ lf2.length + (lo2.erase f).length + 1 = env.FATFS_MAX_OPEN_FILES) ∧
      (env.compare_names (env.split_path path).2.1 (env.split_path path).2.1 = true →
        env.compare_names (env.split_path path).2.2 (env.split_path path).2.2 = true →
        (∀ mode, (fl_fopen env s (some path) mode).2 = none) ∧
        (fl_remove env s (some path)).2 = -1)) := by
  obtain ⟨r1, r2, r3, r4⟩ := fl_remove_pool env st path lf lo hi hp
  refine ⟨r3, ?_, ?_⟩
  · intro f hf
    obtain ⟨lf', e, q1, q2⟩ := r4 f hf
    subst e
    refine ⟨lf', rfl, q1, fun hb => ?_⟩
    obtain ⟨a1, a2, a3, a4⟩ := q2 hb
    exact ⟨a1, a2, by rw [r1]; exact hi, ⟨lf', f :: lo, a2, List.mem_cons_self _ _⟩, a3, a4⟩
  · intro f s0 s hH hr
    have hs := Held_later env path f s0 s hH hr
    exact ⟨hs, fun lf2 lo2 hp2 => Held_slots env path f s hs lf2 lo2 hp2,
      fun h1 h2 => Held_busy env path f s hs h1 h2⟩

/-- C31 at concrete volumes.  Where `fatfs_mark_file_deleted` fails,
`fl_remove ("/a")` on the closed file `a` returns -1 and leaves record 1 in
the open list, with record 0 alone in the free list; then `fl_fopen ("/a",
"r")` returns NULL and a second `fl_remove ("/a")` returns -1.  Where both
calls succeed, `fl_remove ("/a")` returns 0 and both records are in the free
list. -/
theorem fl_remove_keeps_record_witness :
    ((fl_remove Vol.bad_mark_env (Vol.mounted (Vol.with_file 4 10 1)) (some "/a")).2 = -1 ∧
      PoolInv 2 (fl_remove Vol.bad_mark_env (Vol.mounted (Vol.with_file 4 10 1))
        (some "/a")).1 [0] [1] ∧
      (fl_fopen Vol.bad_mark_env
        (fl_remove Vol.bad_mark_env (Vol.mounted (Vol.with_file 4 10 1)) (some "/a")).1
        (some "/a") (some "r")).2 = none ∧
      (fl_remove Vol.bad_mark_env
        (fl_remove Vol.bad_mark_env (Vol.mounted (Vol.with_file 4 10 1)) (some "/a")).1
        (some "/a")).2 = -1) ∧
    ((fl_remove Vol.env (Vol.mounted (Vol.with_file 4 10 1)) (some "/a")).2 = 0 ∧
      PoolInv 2 (fl_remove Vol.env (Vol.mounted (Vol.with_file 4 10 1)) (some "/a")).1
        [1, 0] []) := by
  have h := fl_remove_keeps_record Vol.bad_mark_env (Vol.mounted (Vol.with_file 4 10 1)) "/a"
    [1, 0] [] (by decide) (by decide)
  obtain ⟨lf', e, -, q2⟩ := h.2.1 1 (by decide)
  obtain ⟨a1, a2, a3⟩ := q2 (by decide)
  cases e
  have hb := (h.2.2 1 _ _ a3 LaterReach.start).2.2 (by decide) (by decide)
  have h' := fl_remove_keeps_record Vol.env (Vol.mounted (Vol.with_file 4 10 1)) "/a"
    [1, 0] [] (by decide) (by decide)
  obtain ⟨lf2, e2, q1, -⟩ := h'.2.1 1 (by decide)
  cases e2
  exact ⟨⟨a1, a2, hb.1 (some "r"), hb.2⟩, q1 (by decide)⟩

/-! ## Sums that pass the width of `unsigned long` -/

/-- C1 fails in `fl_fread` where `bytenum + count` passes the width of
`unsigned long` (32 bits here): the file `a` of 0xFFFFFF00 bytes is open for
reading with the cursor at 0xFFFFFE00, the start of its last sector, 256
bytes before its end.  A read of 511 bytes is limited to the 256 bytes left
and ends with the cursor at the length.  For a read of 512 bytes the sum
wraps to 0, which is not above the length, so the count is not limited: the
one sector load of the call succeeds, and the call returns 512 and leaves
the cursor at 0, where `min n (L - c)` is 256 and `c + 256` is the length. -/
theorem fl_fread_count_not_limited :
    ((Vol.at_last_sector 0xFFFFFF00 0xFFFFFE00 "r")._files 1).flags &&& FILE_READ ≠ 0 ∧
    ((Vol.at_last_sector 0xFFFFFF00 0xFFFFFE00 "r")._files 1).bytenum = 0xFFFFFE00 ∧
    ((Vol.at_last_sector 0xFFFFFF00 0xFFFFFE00 "r")._files 1).filelength = 0xFFFFFF00 ∧
    (fl_fread Vol.env (Vol.at_last_sector 0xFFFFFF00 0xFFFFFE00 "r") (some (fun _ => 0)) 1 511
      (some 1)).2.2 = 256 ∧
    ((fl_fread Vol.env (Vol.at_last_sector 0xFFFFFF00 0xFFFFFE00 "r") (some (fun _ => 0)) 1 511
      (some 1)).1._files 1).bytenum = 0xFFFFFF00 ∧
    (fread_fetch Vol.env (fl_fread_pass Vol.env (Vol.at_last_sector 0xFFFFFF00 0xFFFFFE00 "r")
      (fun _ => 0) 1 512 1 0).1 1 0x7FFFFF).2 = true ∧
    (fl_fread Vol.env (Vol.at_last_sector 0xFFFFFF00 0xFFFFFE00 "r") (some (fun _ => 0)) 1 512
      (some 1)).1.trace.map Event.tag =
      (Vol.at_last_sector 0xFFFFFF00 0xFFFFFE00 "r").trace.map Event.tag ++ [13, 12, 14] ∧
    (fl_fread Vol.env (Vol.at_last_sector 0xFFFFFF00 0xFFFFFE00 "r") (some (fun _ => 0)) 1 512
      (some 1)).2.2 = 512 ∧
    ((fl_fread Vol.env (Vol.at_last_sector 0xFFFFFF00 0xFFFFFE00 "r") (some (fun _ => 0)) 1 512
      (some 1)).1._files 1).bytenum = 0 ∧
    ((fl_fread Vol.env (Vol.at_last_sector 0xFFFFFF00 0xFFFFFE00 "r") (some (fun _ => 0)) 1 512
      (some 1)).1._files 1).filelength = 0xFFFFFF00 := by
  decide

/-- C2 fails in `fl_fwrite` where `bytenum + count` passes the width of
`unsigned long` (32 bits here): the file `a` of 0xFFFFFFF0 bytes is open with
`r+` (WRITE set, APPEND clear) and the cursor is at its end.  A write of 32
bytes returns 32; the first 16 bytes fill the last sector of the file and
are written to the disk (cluster 0x800002, offsets 0x1F0 to 0x1FF), the
other 16 are in the buffer of sector 0x800000; the cursor has wrapped to 16,
which is not above the length, so the length is still 0xFFFFFFF0 and
`filelength_changed` is still 0, where `c + n` is above the length. -/
theorem fl_fwrite_cursor_wraps :
    ((Vol.at_last_sector 0xFFFFFFF0 0xFFFFFFF0 "r+")._files 1).flags &&& FILE_WRITE ≠ 0 ∧
    ((Vol.at_last_sector 0xFFFFFFF0 0xFFFFFFF0 "r+")._files 1).flags &&& FILE_APPEND = 0 ∧
    ((Vol.at_last_sector 0xFFFFFFF0 0xFFFFFFF0 "r+")._files 1).bytenum = 0xFFFFFFF0 ∧
    ((Vol.at_last_sector 0xFFFFFFF0 0xFFFFFFF0 "r+")._files 1).filelength = 0xFFFFFFF0 ∧
    ((Vol.at_last_sector 0xFFFFFFF0 0xFFFFFFF0 "r+")._files 1).filelength_changed = 0 ∧
    (fl_fwrite Vol.env (Vol.at_last_sector 0xFFFFFFF0 0xFFFFFFF0 "r+") (fun _ => 65) 1 32
      (some 1)).2 = 32 ∧
    (fl_fwrite Vol.env (Vol.at_last_sector 0xFFFFFFF0 0xFFFFFFF0 "r+") (fun _ => 65) 1 32
      (some 1)).1._fs.vol.data 0x800002 0x1F0 = 65 ∧
    ((fl_fwrite Vol.env (Vol.at_last_sector 0xFFFFFFF0 0xFFFFFFF0 "r+") (fun _ => 65) 1 32
      (some 1)).1._files 1).file_data.address = 0x800000 ∧
    ((fl_fwrite Vol.env (Vol.at_last_sector 0xFFFFFFF0 0xFFFFFFF0 "r+") (fun _ => 65) 1 32
      (some 1)).1._files 1).bytenum = 16 ∧
    ((fl_fwrite Vol.env (Vol.at_last_sector 0xFFFFFFF0 0xFFFFFFF0 "r+") (fun _ => 65) 1 32
      (some 1)).1._files 1).filelength = 0xFFFFFFF0 ∧
    ((fl_fwrite Vol.env (Vol.at_last_sector 0xFFFFFFF0 0xFFFFFFF0 "r+") (fun _ => 65) 1 32
      (some 1)).1._files 1).filelength_changed = 0 := by
  decide

/-- C9 fails in `fl_fwrite` where `filelength + count` passes the width of
`unsigned long` (32 bits here): the file `a` of 0xFFFFFFF0 bytes is open with
`a` (WRITE and APPEND set) and the cursor is at 0.  A write of 32 bytes snaps
the cursor to the length and returns 32, and after it the cursor is 16 and
the length is still 0xFFFFFFF0: they are not equal, and neither is `L + n`. -/
theorem fl_fwrite_append_wraps :
    ((Vol.at_last_sector 0xFFFFFFF0 0 "a")._files 1).flags &&& FILE_WRITE ≠ 0 ∧
    ((Vol.at_last_sector 0xFFFFFFF0 0 "a")._files 1).flags &&& FILE_APPEND ≠ 0 ∧
    ((Vol.at_last_sector 0xFFFFFFF0 0 "a")._files 1).bytenum = 0 ∧
    ((Vol.at_last_sector 0xFFFFFFF0 0 "a")._files 1).filelength = 0xFFFFFFF0 ∧
    ((fl_fwrite_pass Vol.env (Vol.at_last_sector 0xFFFFFFF0 0 "a") (fun _ => 65) 1 32 1
      0)._files 1).bytenum = 0xFFFFFFF0 ∧
    (fl_fwrite Vol.env (Vol.at_last_sector 0xFFFFFFF0 0 "a") (fun _ => 65) 1 32
      (some 1)).2 = 32 ∧
    ((fl_fwrite Vol.env (Vol.at_last_sector 0xFFFFFFF0 0 "a") (fun _ => 65) 1 32
      (some 1)).1._files 1).bytenum = 16 ∧
    ((fl_fwrite Vol.env (Vol.at_last_sector 0xFFFFFFF0 0 "a") (fun _ => 65) 1 32
      (some 1)).1._files 1).filelength = 0xFFFFFFF0 := by
  decide

/-! ## The last-lookup shortcut and a stale cache entry -/

/-- C28 fails on the code where the cluster cache holds a stale entry: with
the cache kept as a faithful map, after the run `write_then_read` the handle
of the file `a` has the consistent pair (0, 3), cluster 3 being the start
cluster, and the chain goes on from cluster 3 to cluster 4; the cache still
holds the end-of-chain mark stored for cluster index 0 before the chain was
extended.  For sector 1 the shortcut starts from the pair and takes the next
cluster from the cache: `_read_sector` resolves `FAT32_LAST_CLUSTER` and
fails, where one hop from the start cluster reaches cluster 4. -/
theorem last_lookup_meets_stale_cache :
    ((write_then_read CVol.env
      (fl_attach_media CVol.env (CVol.boot (Vol.empty 6 7)) true).1).1._files 1).startcluster
      = 3 ∧
    ((write_then_read CVol.env (fl_attach_media CVol.env (CVol.boot (Vol.empty 6 7))
      true).1).1._files 1).last_fat_lookup.ClusterIdx = 0 ∧
    ((write_then_read CVol.env (fl_attach_media CVol.env (CVol.boot (Vol.empty 6 7))
      true).1).1._files 1).last_fat_lookup.CurrentCluster = 3 ∧
    (write_then_read CVol.env (fl_attach_media CVol.env (CVol.boot (Vol.empty 6 7))
      true).1).1._fs.sectors_per_cluster = 1 ∧
    (write_then_read CVol.env (fl_attach_media CVol.env (CVol.boot (Vol.empty 6 7))
      true).1).1._fs.vol.cache = [(1, 0, 0x0FFFFFFF)] ∧
    naive_walk
      (fun c => (CVol.env.find_next_cluster (write_then_read CVol.env
        (fl_attach_media CVol.env (CVol.boot (Vol.empty 6 7)) true).1).1._fs.vol c).2) 3 1 = 4 ∧
    (resolve_cluster CVol.env (write_then_read CVol.env
      (fl_attach_media CVol.env (CVol.boot (Vol.empty 6 7)) true).1).1 1 1).2 = 0x0FFFFFFF ∧
    (_read_sector CVol.env (write_then_read CVol.env
      (fl_attach_media CVol.env (CVol.boot (Vol.empty 6 7)) true).1).1 1 1
      (fun _ => 0)).2.1 = false := by
  decide

/-! ## The host lock in every public call -/

theorem lock_count_max : ∀ (evs : List Event) (c m : Nat),
    lock_count (c, m) evs = ((lock_count (c, 0) evs).1, max m (lock_count (c, 0) evs).2) := by
  intro evs
  induction evs with
  | nil => intro c m; simp [lock_count]
  | cons e l ih =>
    intro c m
    cases e
    case lock =>
      simp only [lock_count]
      rw [ih (c + 1) (max m (c + 1)), ih (c + 1) (max 0 (c + 1))]
      simp only [Nat.zero_max, max_assoc]
    case unlock =>
      simp only [lock_count]
      exact ih (c - 1) m
    all_goals
      simp only [lock_count]
      exact ih c m

/-- A stretch of events whose lock and unlock calls are matched can be
skipped when the nesting is checked. -/
theorem lock_nested_skip : ∀ (evs : List Event) (e k : Nat), e ≤ k →
    (∀ c m, c ≤ m → e ≤ c → (lock_count (c, m) evs).1 = c - e ∧
      (lock_count (c, m) evs).2 ≤ max m (c - e + k)) →
    ∀ (K : Nat) (cl : Bool) (d : Nat) (rest : List Event), e ≤ d → d - e + k ≤ K →
      lock_nested K cl d (evs ++ rest) = lock_nested K cl (d - e) rest := by
  intro evs
  induction evs with
  | nil =>
    intro e k _ G K cl d rest _ _
    have h := (G e e (Nat.le_refl _) (Nat.le_refl _)).1
    simp only [lock_count] at h
    have he : e = 0 := by omega
    subst he
    simp
  | cons ev l ih =>
    intro e k hek G K cl d rest hed hK
    cases ev
    case lock =>
      have h1 : e + 1 ≤ k := by
        have h := (G e e (Nat.le_refl _) (Nat.le_refl _)).2
        simp only [lock_count] at h
        rw [lock_count_max] at h
        simp only [max_le_iff, le_max_iff] at h
        omega
      have G' : ∀ c m, c ≤ m → e + 1 ≤ c → (lock_count (c, m) l).1 = c - (e + 1) ∧
          (lock_count (c, m) l).2 ≤ max m (c - (e + 1) + k) := by
        intro c m hcm hc
        have h := G (c - 1) m (by omega) (by omega)
        simp only [lock_count] at h
        have e1 : c - 1 + 1 = c := by omega
        have e2 : max m c = m := max_eq_left hcm
        rw [e1, e2] at h
        have e3 : c - 1 - e = c - (e + 1) := by omega
        rw [e3] at h
        exact h
      have := ih (e + 1) k h1 G' K cl (d + 1) rest (by omega) (by omega)
      show (decide (d + 1 ≤ K) && lock_nested K cl (d + 1) (l ++ rest)) = _
      rw [this]
      have hd : d + 1 ≤ K := by omega
      simp only [hd, decide_True, Bool.true_and]
      congr 1
      omega
    case unlock =>
      have h1 : 1 ≤ e := by
        by_contra hc
        have he : e = 0 := by omega
        subst he
        have a := (G 0 1 (by omega) (Nat.le_refl _)).1
        have b := (G 1 1 (Nat.le_refl _) (by omega)).1
        simp only [lock_count] at a b
        have e1 : (1 : Nat) - 1 = 0 := rfl
        rw [e1] at b
        rw [a] at b
        omega
      have G' : ∀ c m, c ≤ m → e - 1 ≤ c → (lock_count (c, m) l).1 = c - (e - 1) ∧
          (lock_count (c, m) l).2 ≤ max m (c - (e - 1) + k) := by
        intro c m hcm hc
        have h := G (c + 1) (max m (c + 1)) (Nat.le_max_right _ _) (by omega)
        simp only [lock_count, Nat.add_sub_cancel] at h
        rw [lock_count_max] at h
        rw [lock_count_max l c m]
        exact ⟨by omega, by omega⟩
      have := ih (e - 1) k (by omega) G' K cl (d - 1) rest (by omega) (by omega)
      show (decide (0 < d) && lock_nested K cl (d - 1) (l ++ rest)) = _
      rw [this]
      have hd : 0 < d := by omega
      simp only [hd, decide_True, Bool.true_and]
      congr 1
      omega
    all_goals
      show lock_nested K cl d (l ++ rest) = _
      exact ih e k hek (fun c m hcm hc => by
        have h := G c m hcm hc
        simp only [lock_count] at h
        exact h) K cl d rest hed hK

theorem LockNest.skip {k : Nat} {evs : List Event} (h : LockNest k evs) (K : Nat) (cl : Bool)
    (d : Nat) (rest : List Event) (hK : d + k ≤ K) :
    lock_nested K cl d (evs ++ rest) = lock_nested K cl d rest := by
  have := lock_nested_skip evs 0 k (Nat.zero_le _)
    (fun c m hcm _ => ⟨by simpa using (h c m hcm).1, by simpa using (h c m hcm).2.2⟩)
    K cl d rest (Nat.zero_le _) (by omega)
  simpa using this

/-- Matched and nested calls, as `LockNest` counts them, pass the check of
`lock_nested` from no lock held. -/
theorem LockNest.closed {k : Nat} {evs : List Event} (h : LockNest k evs) :
    lock_nested k true 0 evs = true := by
  have := h.skip k true 0 [] (by omega)
  simpa [lock_nested] using this

theorem Nest.matched {S : List Nat} {k : Nat} {a b : Lib D} (h : Nest S k a b)
    (hl : a._fs.fl_lock = true) (hu : a._fs.fl_unlock = true) : Matched k a b := by
  obtain ⟨-, -, evs, a3, a4, -⟩ := h
  exact ⟨evs, a3, (a4 hl hu).closed⟩

/-- Inside a section opened by `FL_LOCK` and not yet closed the calls are
nested one deeper than what the section has run. -/
theorem Nest.inside {S : List Nat} {k : Nat} {st s' : Lib D} (h : Nest S k (FL_LOCK st) s')
    (hl : st._fs.fl_lock = true) (hu : st._fs.fl_unlock = true) : Nested (k + 1) st s' := by
  obtain ⟨-, -, evs, a3, a4, -⟩ := h
  rw [FL_LOCK_fs] at a4
  refine ⟨[Event.lock] ++ evs, ?_, ?_⟩
  · rw [a3, FL_LOCK_trace]
    unfold lock_events
    rw [if_pos hl]
    simp
  · have := (a4 hl hu).skip (k + 1) false 1 [] (by omega)
    simp only [List.append_nil] at this
    show (decide (0 + 1 ≤ k + 1) && lock_nested (k + 1) false (0 + 1) evs) = true
    rw [this]
    simp [lock_nested]

theorem _create_directory_Nest (S : List Nat) (k : Nat)
    (hS : ∀ x, x ∈ [3, 4, 5, 6, 7, 10, 11, 15] → x ∈ S)
    (env : Env D) (st : Lib D) (path : String) :
    Nest S k st (_create_directory env st path).1 := by
  have hS3 : ∀ x, x ∈ [3, 10, 11] → x ∈ S := by
    intro x hx
    apply hS
    simp only [List.mem_cons, List.mem_singleton, List.not_mem_nil, or_false] at hx ⊢
    omega
  have hS4 : ∀ x, x ∈ [4] → x ∈ S := by
    intro x hx
    apply hS
    simp only [List.mem_cons, List.mem_singleton, List.not_mem_nil, or_false] at hx ⊢
    omega
  have ha := _allocate_file_Nest S k st
  unfold _create_directory
  cases hA : _allocate_file st with
  | mk A o =>
    rw [hA] at ha
    cases o with
    | none => exact ha
    | some file =>
      simp only []
      have hp := open_prologue_Nest S k hS3 env A file path
      cases hP : open_prologue env A file path with
      | mk s b =>
        rw [hP] at hp
        cases b with
        | false => exact ha.andThen hp
        | true =>
          simp only []
          have h0 := (fatfs_get_file_entry_Nest S k (hS 3 (by decide)) env s
            (s._files file).parentcluster (s._files file).filename).after (ha.andThen hp)
          split_ifs with c1 c2
          · exact (_free_file_Nest S k env _ file).after h0
          · exact (_free_file_Nest S k env _ file).after
              ((Nest_setFile S k _ _ _).after
                ((fatfs_allocate_free_space_Nest S k (hS 5 (by decide)) env _ _ _ _).after
                  ((Nest_setFile S k _ _ _).after h0)))
          · split
            · rename_i s2 heq
              have e := congrArg Prod.fst heq
              simp only at e
              subst e
              exact (_free_file_Nest S k env _ file).after
                ((erase_loop_Nest S k (hS 15 (by decide)) env file _ _ _).after
                  ((Nest_setFile S k _ _ _).after ((Nest_setFile S k _ _ _).after
                    ((fatfs_allocate_free_space_Nest S k (hS 5 (by decide)) env _ _ _ _).after
                      ((Nest_setFile S k _ _ _).after h0)))))
            · rename_i s2 heq
              have e := congrArg Prod.fst heq
              simp only at e
              subst e
              split
              · rename_i s3 heq3
                have e3 := congrArg Prod.fst heq3
                simp only at e3
                subst e3
                exact (_free_file_Nest S k env _ file).after
                  ((fatfs_free_cluster_chain_Nest S k (hS 7 (by decide)) env _ _).after
                    ((create_sfn_Nest S k hS4 env _ file).after
                      ((erase_loop_Nest S k (hS 15 (by decide)) env file _ _ _).after
                        ((Nest_setFile S k _ _ _).after ((Nest_setFile S k _ _ _).after
                          ((fatfs_allocate_free_space_Nest S k (hS 5 (by decide)) env _ _ _
                            _).after ((Nest_setFile S k _ _ _).after h0)))))))
              · rename_i s3 heq3
                have e3 := congrArg Prod.fst heq3
                simp only at e3
                subst e3
                split_ifs
                · exact (_free_file_Nest S k env _ file).after
                    ((fatfs_free_cluster_chain_Nest S k (hS 7 (by decide)) env _ _).after
                      ((fatfs_add_file_entry_Nest S k (hS 6 (by decide)) env _ _ _ _ _ _
                        _).after
                        ((create_sfn_Nest S k hS4 env _ file).after
                          ((erase_loop_Nest S k (hS 15 (by decide)) env file _ _ _).after
                            ((Nest_setFile S k _ _ _).after ((Nest_setFile S k _ _ _).after
                              ((fatfs_allocate_free_space_Nest S k (hS 5 (by decide)) env _ _ _
                                _).after ((Nest_setFile S k _ _ _).after h0))))))))
                · exact (_free_file_Nest S k env _ file).after
                    ((fatfs_fat_purge_Nest S k (hS 10 (by decide)) env _).after
                      ((Nest_setFile S k _ _ _).after
                        ((fatfs_add_file_entry_Nest S k (hS 6 (by decide)) env _ _ _ _ _ _
                          _).after
                          ((create_sfn_Nest S k hS4 env _ file).after
                            ((erase_loop_Nest S k (hS 15 (by decide)) env file _ _ _).after
                              ((Nest_setFile S k _ _ _).after ((Nest_setFile S k _ _ _).after
                                ((fatfs_allocate_free_space_Nest S k (hS 5 (by decide)) env _ _
                                  _ _).after ((Nest_setFile S k _ _ _).after h0)))))))))

theorem fl_createdirectory_Nest (S : List Nat) (k : Nat)
    (hS : ∀ x, x ∈ [0, 1, 3, 4, 5, 6, 7, 10, 11, 15] → x ∈ S)
    (env : Env D) (st : Lib D) (path : String) :
    Nest S (k + 1) st (fl_createdirectory env st path).1 := by
  have hS' : ∀ x, x ∈ [3, 4, 5, 6, 7, 10, 11, 15] → x ∈ S := by
    intro x hx
    apply hS
    simp only [List.mem_cons, List.mem_singleton, List.not_mem_nil, or_false] at hx ⊢
    omega
  unfold fl_createdirectory
  exact (Nest_CHECK S (k + 1) env st).andThen
    (Nest_wrap (hS 0 (by decide)) (hS 1 (by decide)) (_create_directory_Nest S k hS' env _ path))

theorem fl_shutdown_Nest (S : List Nat) (k : Nat) (hS : ∀ x, x ∈ [0, 1, 10] → x ∈ S)
    (env : Env D) (st : Lib D) : Nest S (k + 1) st (fl_shutdown env st) := by
  unfold fl_shutdown
  exact (Nest_CHECK S (k + 1) env st).andThen
    (Nest_wrap (hS 0 (by decide)) (hS 1 (by decide))
      (fatfs_fat_purge_Nest S k (hS 10 (by decide)) env _))

theorem fl_init_Nest (S : List Nat) (k : Nat) (env : Env D) (st : Lib D) :
    Nest S k st (fl_init env st) :=
  Nest_of_eq S k (fl_init_foldl_fs _ st).1 (fl_init_foldl_fs _ st).2.2.1

theorem fl_attach_media_Nest (S : List Nat) (k : Nat) (h : 2 ∈ S) (env : Env D) (st : Lib D)
    (wr : Bool) : Nest S k st (fl_attach_media env st wr).1 := by
  have hc := Nest_CHECK S k env st
  obtain ⟨c1, c2, evs, c3, c4, c5⟩ := hc
  unfold fl_attach_media
  simp only []
  split_ifs <;>
  · refine ⟨c1, c2, evs ++ [Event.init (env.init (CHECK_FL_INIT env st)._fs.vol).2.1],
      by simp only [c3, List.append_assoc], ?_, ?_⟩
    · intro hl hu
      exact (c4 hl hu).append
        (LockNest.single (Event.init (env.init (CHECK_FL_INIT env st)._fs.vol).2.1)
          (Nat.le_refl 2) k)
    · intro e he
      rcases List.mem_append.mp he with h1 | h1
      · exact c5 e h1
      · rw [List.mem_singleton.mp h1]; exact h

theorem fl_fgetc_Nest (S : List Nat) (k : Nat)
    (hS : ∀ x, x ∈ [0, 1, 12, 13, 14, 15, 16] → x ∈ S) (env : Env D) (st : Lib D)
    (f : Option Nat) : Nest S (k + 1) st (fl_fgetc env st f).1 := by
  have h := fl_fread_Nest S k hS env st (some (fun _ => 0)) 1 1 f
  unfold fl_fgetc
  simp only []
  split_ifs <;> exact h

theorem fl_fgetpos_Nest (S : List Nat) (k : Nat) (hS : ∀ x, x ∈ [0, 1] → x ∈ S)
    (st : Lib D) (f : Option Nat) (position : Nat) :
    Nest S (k + 1) st (fl_fgetpos st f position).1 := by
  unfold fl_fgetpos
  cases f with
  | none => exact Nest.same S _ st
  | some file =>
    exact Nest_wrap (hS 0 (by decide)) (hS 1 (by decide)) (Nest.same S k _)

theorem fl_ftell_Nest (S : List Nat) (k : Nat) (hS : ∀ x, x ∈ [0, 1] → x ∈ S)
    (env : Env D) (st : Lib D) (f : Option Nat) :
    Nest S (k + 1) st (fl_ftell env st f).1 :=
  fl_fgetpos_Nest S k hS st f 0

theorem fl_fputc_Nest (S : List Nat) (k : Nat)
    (hS : ∀ x, x ∈ [0, 1, 12, 13, 14, 15, 16] → x ∈ S) (env : Env D) (st : Lib D)
    (c : Int) (f : Option Nat) : Nest S (k + 2) st (fl_fputc env st c f).1 := by
  have h := fl_fwrite_Nest S k hS env st (fun _ => (c % 256).toNat) 1 1 f
  unfold fl_fputc
  simp only []
  split_ifs <;> exact h

theorem fl_fputs_Nest (S : List Nat) (k : Nat)
    (hS : ∀ x, x ∈ [0, 1, 12, 13, 14, 15, 16] → x ∈ S) (env : Env D) (st : Lib D)
    (str : List Nat) (f : Option Nat) : Nest S (k + 2) st (fl_fputs env st str f).1 := by
  have h := fl_fwrite_Nest S k hS env st (fun i => str.getD i 0) 1 (to_int (strlen str)) f
  unfold fl_fputs
  simp only []
  split_ifs <;> exact h

theorem fl_fprintf_Nest (S : List Nat) (k : Nat)
    (hS : ∀ x, x ∈ [0, 1, 12, 13, 14, 15, 16] → x ∈ S) (env : Env D) (st : Lib D)
    (f : Option Nat) (text : List Nat) : Nest S (k + 2) st (fl_fprintf env st f text).1 := by
  have h := fl_fwrite_Nest S k hS env st (fun i => (text.take 16383).getD i 0) 1
    (to_int (strlen (text.take 16383))) f
  unfold fl_fprintf
  simp only []
  split_ifs <;> exact h

theorem _open_directory_Nest (S : List Nat) (k : Nat) (hS : ∀ x, x ∈ [3, 10, 11] → x ∈ S)
    (env : Env D) (st : Lib D) (path : String) :
    Nest S k st (_open_directory env st path).1 :=
  open_directory_loop_Nest S k hS env path _ st 0 _

/-- The call `fl_opendir` takes the lock once. -/
theorem fl_opendir_Nest (S : List Nat) (k : Nat) (hS : ∀ x, x ∈ [0, 1, 3, 10, 11, 17] → x ∈ S)
    (env : Env D) (st : Lib D) (path : String) (dir : FL_DIR) :
    Nest S (k + 1) st (fl_opendir env st path dir).1 := by
  have hS3 : ∀ x, x ∈ [3, 10, 11] → x ∈ S := by
    intro x hx
    apply hS
    simp only [List.mem_cons, List.mem_singleton, List.not_mem_nil, or_false] at hx ⊢
    omega
  have hstart := fun (X : Lib D) (c : Nat) =>
    Nest_step S k X (env.list_directory_start X._fs.vol dir c).1
      (Event.list_directory_start c) 17 (by rfl) (hS 17 (by decide)) (by decide)
  unfold fl_opendir
  refine (Nest_CHECK S (k + 1) env st).andThen
    (Nest_wrap (hS 0 (by decide)) (hS 1 (by decide)) ?_)
  by_cases h0 : to_int (env.total_path_levels path + 1) = 0
  · rw [if_pos h0]
    simp only [ne_eq, one_ne_zero, not_false_eq_true, if_true]
    exact hstart _ _
  · rw [if_neg h0]
    have ho := _open_directory_Nest S k hS3 env (FL_LOCK (CHECK_FL_INIT env st)) path
    cases hO : _open_directory env (FL_LOCK (CHECK_FL_INIT env st)) path with
    | mk s o =>
      rw [hO] at ho
      cases o with
      | none =>
        simp only [ne_eq, not_true_eq_false, if_false]
        exact ho
      | some c =>
        simp only [ne_eq, one_ne_zero, not_false_eq_true, if_true]
        exact ho.andThen (hstart _ _)

/-- The call `fl_readdir` takes the lock once. -/
theorem fl_readdir_Nest (S : List Nat) (k : Nat) (hS : ∀ x, x ∈ [0, 1, 18] → x ∈ S)
    (env : Env D) (st : Lib D) (dirls : FL_DIR) (entry : fs_dir_ent) :
    Nest S (k + 1) st (fl_readdir env st dirls entry).1 := by
  unfold fl_readdir
  exact (Nest_CHECK S (k + 1) env st).andThen
    (Nest_wrap (hS 0 (by decide)) (hS 1 (by decide))
      (Nest_step S k _ _ _ 18 (by rfl) (hS 18 (by decide)) (by decide)))

theorem fl_is_dir_Nest (S : List Nat) (k : Nat) (hS : ∀ x, x ∈ [0, 1, 3, 10, 11, 17] → x ∈ S)
    (env : Env D) (st : Lib D) (path : String) (dir : FL_DIR) :
    Nest S (k + 1) st (fl_is_dir env st path dir).1 := by
  have h := fl_opendir_Nest S k hS env st path dir
  unfold fl_is_dir
  simp only []
  split_ifs <;> exact h

theorem listdirectory_loop_Nest (S : List Nat) (k : Nat) (hS : ∀ x, x ∈ [0, 1, 18] → x ∈ S)
    (env : Env D) :
    ∀ (fuel : Nat) (st : Lib D) (dirstat : FL_DIR) (dirent : fs_dir_ent),
      Nest S (k + 1) st (listdirectory_loop env fuel st dirstat dirent).1 := by
  intro fuel
  induction fuel with
  | zero => intro st _ _; exact Nest.same S _ st
  | succ n ih =>
    intro st dirstat dirent
    unfold listdirectory_loop
    simp only []
    split_ifs
    · exact (fl_readdir_Nest S k hS env st dirstat dirent).andThen (ih _ _ _)
    · exact fl_readdir_Nest S k hS env st dirstat dirent

/-- Once the loop of `fl_listdirectory` has ended within `fuel` calls, more
fuel changes nothing. -/
theorem listdirectory_loop_fuel (env : Env D) (m : Nat) :
    ∀ (fuel : Nat) (st : Lib D) (dirstat : FL_DIR) (dirent : fs_dir_ent),
      (listdirectory_loop env fuel st dirstat dirent).2 = true →
      listdirectory_loop env (fuel + m) st dirstat dirent =
        listdirectory_loop env fuel st dirstat dirent := by
  intro fuel
  induction fuel with
  | zero =>
    intro st dirstat dirent h
    simp [listdirectory_loop] at h
  | succ n ih =>
    intro st dirstat dirent h
    have e : n + 1 + m = (n + m) + 1 := by omega
    rw [e]
    unfold listdirectory_loop at h ⊢
    simp only [] at h ⊢
    split_ifs at h ⊢ with c
    · exact ih _ _ _ h
    · rfl

/-- The call `fl_listdirectory` holds the lock while `fl_opendir` and
`fl_readdir` take it again; inside the loop the calls made from the locked
state are matched one deep. -/
theorem fl_listdirectory_Nest (S : List Nat) (k : Nat)
    (hS : ∀ x, x ∈ [0, 1, 3, 10, 11, 17, 18] → x ∈ S)
    (env : Env D) (st : Lib D) (path : String) (dirstat : FL_DIR) (dirent : fs_dir_ent)
    (fuel : Nat) :
    ((fl_listdirectory env st path dirstat dirent fuel).2 = true →
      Nest S (k + 2) st (fl_listdirectory env st path dirstat dirent fuel).1) ∧
    ((fl_listdirectory env st path dirstat dirent fuel).2 = false →
      Nest S (k + 1) (FL_LOCK (CHECK_FL_INIT env st))
        (fl_listdirectory env st path dirstat dirent fuel).1) := by
  have hS1 : ∀ x, x ∈ [0, 1, 3, 10, 11, 17] → x ∈ S := by
    intro x hx
    apply hS
    simp only [List.mem_cons, List.mem_singleton, List.not_mem_nil, or_false] at hx ⊢
    omega
  have hS2 : ∀ x, x ∈ [0, 1, 18] → x ∈ S := by
    intro x hx
    apply hS
    simp only [List.mem_cons, List.mem_singleton, List.not_mem_nil, or_false] at hx ⊢
    omega
  have ho := fl_opendir_Nest S k hS1 env (FL_LOCK (CHECK_FL_INIT env st)) path dirstat
  have hloop := listdirectory_loop_Nest S k hS2 env fuel
    (fl_opendir env (FL_LOCK (CHECK_FL_INIT env st)) path dirstat).1
    (fl_opendir env (FL_LOCK (CHECK_FL_INIT env st)) path dirstat).2.1 dirent
  unfold fl_listdirectory
  simp only []
  split_ifs with c1 c2
  · refine ⟨fun _ => ?_, fun h => by simp at h⟩
    exact (Nest_CHECK S (k + 2) env st).andThen
      (Nest_wrap (hS 0 (by decide)) (hS 1 (by decide)) (ho.andThen hloop))
  · refine ⟨fun h => by simp at h, fun _ => ho.andThen hloop⟩
  · refine ⟨fun _ => ?_, fun h => by simp at h⟩
    exact (Nest_CHECK S (k + 2) env st).andThen
      (Nest_wrap (hS 0 (by decide)) (hS 1 (by decide)) ho)

/-- C22, as the code has it: with both lock callbacks attached, the `lock()`
and `unlock()` calls that a public call adds to the trace are matched and
nested: every `unlock()` releases a lock taken in the call, none is held when
the call returns, and the number of locks held at a time is at most 0 in
`fl_init`, `fl_attach_locks`, `fl_attach_media` and `fl_fread_sector`, which
take no lock; at most 1 in `fl_shutdown`, `fl_ifopen`, `fl_fopen`,
`fl_fflush`, `fl_fgetc`, `fl_fread`, `fl_fseek`, `fl_fgetpos`, `fl_ftell`,
`fl_feof`, `fl_createdirectory`, `fl_opendir`, `fl_readdir` and `fl_is_dir`;
at most 2 in `fl_fclose`, `fl_fwrite`, `fl_fputc`, `fl_fputs` and
`fl_fprintf`, which call `fl_fflush` while they hold the lock, and in
`fl_listdirectory`, which holds it across `fl_opendir` and `fl_readdir`; and
at most 3 in `fl_remove`, which holds it across `fl_fopen` and `fl_fclose`.
While `fl_listdirectory` is still in its loop, at most 2 locks are held and
every `unlock()` so far released a lock taken in the call. -/
theorem lock_depth (env : Env D) (st : Lib D) (hl : st._fs.fl_lock = true)
    (hu : st._fs.fl_unlock = true) :
    Matched 0 st (fl_init env st) ∧
    (∀ lock unlock, Matched 0 st (fl_attach_locks st lock unlock)) ∧
    (∀ wr, Matched 0 st (fl_attach_media env st wr).1) ∧
    Matched 1 st (fl_shutdown env st) ∧
    (∀ path mode checkfile, Matched 1 st (fl_ifopen env st path mode checkfile).1) ∧
    (∀ path mode, Matched 1 st (fl_fopen env st path mode).1) ∧
    (∀ f, Matched 1 st (fl_fflush env st f).1) ∧
    (∀ f, Matched 2 st (fl_fclose env st f)) ∧
    (∀ f, Matched 1 st (fl_fgetc env st f).1) ∧
    (∀ buffer size count f, Matched 1 st (fl_fread env st buffer size count f).1) ∧
    (∀ buffer size count f, Matched 0 st (fl_fread_sector env st buffer size count f).1) ∧
    (∀ f offset origin, Matched 1 st (fl_fseek env st f offset origin).1) ∧
    (∀ f position, Matched 1 st (fl_fgetpos st f position).1) ∧
    (∀ f, Matched 1 st (fl_ftell env st f).1) ∧
    (∀ f, Matched 1 st (fl_feof st f).1) ∧
    (∀ c f, Matched 2 st (fl_fputc env st c f).1) ∧
    (∀ data size count f, Matched 2 st (fl_fwrite env st data size count f).1) ∧
    (∀ str f, Matched 2 st (fl_fputs env st str f).1) ∧
    (∀ path, Matched 3 st (fl_remove env st path).1) ∧
    (∀ f text, Matched 2 st (fl_fprintf env st f text).1) ∧
    (∀ path, Matched 1 st (fl_createdirectory env st path).1) ∧
    (∀ path dirstat dirent fuel,
      ((fl_listdirectory env st path dirstat dirent fuel).2 = true →
        Matched 2 st (fl_listdirectory env st path dirstat dirent fuel).1) ∧
      ((fl_listdirectory env st path dirstat dirent fuel).2 = false →
        Nested 2 st (fl_listdirectory env st path dirstat dirent fuel).1)) ∧
    (∀ path dir, Matched 1 st (fl_opendir env st path dir).1) ∧
    (∀ dirls entry, Matched 1 st (fl_readdir env st dirls entry).1) ∧
    (∀ path dir, Matched 1 st (fl_is_dir env st path dir).1) := by
  refine ⟨?_, ?_, ?_, ?_, ?_, ?_, ?_, ?_, ?_, ?_, ?_, ?_, ?_, ?_, ?_, ?_, ?_, ?_, ?_, ?_, ?_,
    ?_, ?_, ?_, ?_⟩
  · exact (fl_init_Nest [0, 1] 0 env st).matched hl hu
  · intro lock unlock
    exact ⟨[], by simp [fl_attach_locks], rfl⟩
  · intro wr
    exact (fl_attach_media_Nest [2] 0 (by decide) env st wr).matched hl hu
  · exact (fl_shutdown_Nest [0, 1, 10] 0 (fun _ h => h) env st).matched hl hu
  · intro path mode checkfile
    exact (fl_ifopen_Nest [0, 1, 3, 4, 5, 6, 7, 10, 11] 0 (fun _ h => h) env st path mode
      checkfile).matched hl hu
  · intro path mode
    exact (fl_ifopen_Nest [0, 1, 3, 4, 5, 6, 7, 10, 11] 0 (fun _ h => h) env st path mode
      1).matched hl hu
  · intro f
    exact (fl_fflush_Nest [0, 1, 12, 13, 14, 15, 16] 0 (fun _ h => h) env st f).matched hl hu
  · intro f
    exact (fl_fclose_Nest [0, 1, 8, 10, 12, 13, 14, 15, 16] 0 (fun _ h => h) env st f).matched
      hl hu
  · intro f
    exact (fl_fgetc_Nest [0, 1, 12, 13, 14, 15, 16] 0 (fun _ h => h) env st f).matched hl hu
  · intro buffer size count f
    exact (fl_fread_Nest [0, 1, 12, 13, 14, 15, 16] 0 (fun _ h => h) env st buffer size count
      f).matched hl hu
  · intro buffer size count f
    exact (fl_fread_sector_Nest [0, 1, 12, 13, 14, 15, 16] 0 (fun _ h => h) env st buffer size
      count f).matched hl hu
  · intro f offset origin
    exact (fl_fseek_Nest [0, 1] 0 (fun _ h => h) env st f offset origin).matched hl hu
  · intro f position
    exact (fl_fgetpos_Nest [0, 1] 0 (fun _ h => h) st f position).matched hl hu
  · intro f
    exact (fl_ftell_Nest [0, 1] 0 (fun _ h => h) env st f).matched hl hu
  · intro f
    exact (fl_feof_Nest [0, 1] 0 (fun _ h => h) st f).matched hl hu
  · intro c f
    exact (fl_fputc_Nest [0, 1, 12, 13, 14, 15, 16] 0 (fun _ h => h) env st c f).matched hl hu
  · intro data size count f
    exact (fl_fwrite_Nest [0, 1, 12, 13, 14, 15, 16] 0 (fun _ h => h) env st data size count
      f).matched hl hu
  · intro str f
    exact (fl_fputs_Nest [0, 1, 12, 13, 14, 15, 16] 0 (fun _ h => h) env st str f).matched hl hu
  · intro path
    exact (fl_remove_Nest [0, 1, 3, 7, 8, 9, 10, 11, 12, 13, 14, 15, 16] 0 (fun _ h => h) env
      st path).matched hl hu
  · intro f text
    exact (fl_fprintf_Nest [0, 1, 12, 13, 14, 15, 16] 0 (fun _ h => h) env st f text).matched
      hl hu
  · intro path
    exact (fl_createdirectory_Nest [0, 1, 3, 4, 5, 6, 7, 10, 11, 15] 0 (fun _ h => h) env st
      path).matched hl hu
  · intro path dirstat dirent fuel
    have h := fl_listdirectory_Nest [0, 1, 3, 10, 11, 17, 18] 0 (fun _ h => h) env st path
      dirstat dirent fuel
    refine ⟨fun he => (h.1 he).matched hl hu, fun he => ?_⟩
    have h2 := h.2 he
    have hl' : (CHECK_FL_INIT env st)._fs.fl_lock = true := by rw [CHECK_FL_INIT_fs]; exact hl
    have hu' : (CHECK_FL_INIT env st)._fs.fl_unlock = true := by rw [CHECK_FL_INIT_fs]; exact hu
    obtain ⟨evs, e1, e2⟩ := h2.inside hl' hu'
    exact ⟨evs, by rw [e1, CHECK_FL_INIT_trace], e2⟩
  · intro path dir
    exact (fl_opendir_Nest [0, 1, 3, 10, 11, 17] 0 (fun _ h => h) env st path dir).matched hl hu
  · intro dirls entry
    exact (fl_readdir_Nest [0, 1, 18] 0 (fun _ h => h) env st dirls entry).matched hl hu
  · intro path dir
    exact (fl_is_dir_Nest [0, 1, 3, 10, 11, 17] 0 (fun _ h => h) env st path dir).matched hl hu

/-- C22 at concrete states with both callbacks attached.  Closing the open
file `a` (handle 1) adds matched calls, two deep.  Listing the root directory,
which holds the one file `a`, returns after two calls of `fl_readdir`; the
calls it adds are lock, the lock, `fatfs_list_directory_start` and unlock of
`fl_opendir`, twice the lock, `fatfs_list_directory_next` and unlock of
`fl_readdir`, and unlock (tags 0, 0, 17, 1, 0, 18, 1, 0, 18, 1, 1): matched,
two deep. -/
theorem lock_depth_witness :
    Matched 2 (fl_attach_locks (Vol.opened (Vol.with_file 4 10 1) "r").1 true true)
      (fl_fclose Vol.env
        (fl_attach_locks (Vol.opened (Vol.with_file 4 10 1) "r").1 true true) (some 1)) ∧
    (fl_listdirectory Vol.list_env (fl_attach_locks (Vol.mounted (Vol.with_file 4 10 1)) true
      true) "/" (Vol.dir_start 0) { filename := "", is_dir := 0, cluster := 0, size := 0 }
      5).2 = true ∧
    Matched 2 (fl_attach_locks (Vol.mounted (Vol.with_file 4 10 1)) true true)
      (fl_listdirectory Vol.list_env (fl_attach_locks (Vol.mounted (Vol.with_file 4 10 1)) true
        true) "/" (Vol.dir_start 0) { filename := "", is_dir := 0, cluster := 0, size := 0 }
        5).1 ∧
    ((fl_listdirectory Vol.list_env (fl_attach_locks (Vol.mounted (Vol.with_file 4 10 1)) true
      true) "/" (Vol.dir_start 0) { filename := "", is_dir := 0, cluster := 0, size := 0 }
      5).1.trace.drop
        (fl_attach_locks (Vol.mounted (Vol.with_file 4 10 1)) true true).trace.length).map
      Event.tag = [0, 0, 17, 1, 0, 18, 1, 0, 18, 1, 1] :=
  ⟨(lock_depth Vol.env (fl_attach_locks (Vol.opened (Vol.with_file 4 10 1) "r").1 true true)
      (by decide) (by decide)).2.2.2.2.2.2.2.1 (some 1),
    by decide,
    ((lock_depth Vol.list_env (fl_attach_locks (Vol.mounted (Vol.with_file 4 10 1)) true true)
      (by decide) (by decide)).2.2.2.2.2.2.2.2.2.2.2.2.2.2.2.2.2.2.2.2.2.1 "/" (Vol.dir_start 0)
      { filename := "", is_dir := 0, cluster := 0, size := 0 } 5).1 (by decide),
    by decide⟩

end FatIO
